import Mathlib

/-!
Quota-aware preemption victim selection (koordinator, elasticquota plugin)

A shallow embedding of `pkg/scheduler/plugins/elasticquota/preempt.go`.

* Pods, pod infos, disruption budgets and resource lists are plain records.
* `NodeInfo.Pods` is a Go slice: its live elements together with the rest of
  its backing array, because `SelectVictimsOnNode` ranges over the slice
  while `RemovePod` rewrites the same backing array.
* The scheduler framework handle (filter run, pre-filter add/remove hooks),
  the cycle state, `sort.Slice` and the plugin helpers living in other
  packages are parameters of the embedding, collected in `Plugin`.
* The simulation state `Sim` threads the cycle state and the node through
  the algorithm; its `trace` field is a ghost log of the bookkeeping calls.

The gang cache of the coscheduling plugin follows in the namespace
`Coscheduling`; the definitions of both parts come first, their theorems after.
-/

namespace ElasticQuota

/-! ## Framework status -/

/-- Status codes of the scheduler framework (`framework.Code`). -/
inductive Code where
  | Success
  | Error
  | Unschedulable
  | UnschedulableAndUnresolvable
  | Wait
  | Skip
deriving DecidableEq, Repr

/-- The framework status: a code, the reasons, and the wrapped error if any. -/
structure Status where
  code : Code
  reasons : List String
  err : Option String
deriving DecidableEq, Repr

/-- `framework.NewStatus(code, reasons...)`. -/
def NewStatus (code : Code) (reasons : List String) : Status :=
  ⟨code, reasons, none⟩

/-- `framework.AsStatus(err)`: an `Error` status wrapping `err`. -/
def AsStatus (err : String) : Status :=
  ⟨Code.Error, [err], some err⟩

/-- `Status.IsSuccess`. -/
def Status.IsSuccess (s : Status) : Bool :=
  s.code == Code.Success

/-- `Status.Message`: the reasons joined by a comma. -/
def Status.Message (s : Status) : String :=
  ", ".intercalate s.reasons

/-- `Status.IsWait`. -/
def Status.IsWait (s : Status) : Bool :=
  s.code == Code.Wait

/-- `Status.IsSkip`. -/
def Status.IsSkip (s : Status) : Bool :=
  s.code == Code.Skip

/-- `Status.AsError`: nil for the codes `Success`, `Wait` and `Skip`, else the
wrapped error, else the message. -/
def Status.AsError (s : Status) : Option String :=
  if s.IsSuccess || s.IsWait || s.IsSkip then none
  else match s.err with
    | some e => some e
    | none => some s.Message

/-! ## Pods -/

/-- The fields of `corev1.Pod` read by the preemption code. -/
structure Pod where
  UID : String
  Name : String
  Namespace : String
  Labels : List (String × String)
  Priority : Option Int
  PreemptionPolicy : Option String
  NominatedNodeName : String
  DeletionTimestamp : Option Nat
  StartTime : Option Nat
deriving DecidableEq, Repr

/-- The framework wrapper `framework.PodInfo` around a pod. -/
structure PodInfo where
  Pod : Pod
deriving DecidableEq, Repr

/-- `corev1helpers.PodPriority`: the pod priority, 0 when unset. -/
def PodPriority (pod : Pod) : Int :=
  match pod.Priority with
  | some p => p
  | none => 0

/-- `util.GetPodStartTime`: the start time of the pod, or, when the pod has not
started yet, the reading `now` of `time.Now()` that this call makes. -/
def GetPodStartTime (now : Nat) (pod : Pod) : Nat :=
  match pod.StartTime with
  | some t => t
  | none => now

/-- `util.MoreImportantPod`: higher priority first, then earlier start time. Each
of the two calls of `GetPodStartTime` reads the clock for itself: `now1` is
the reading of the call for `pod1`, `now2` the reading of the call for `pod2`,
which comes after it. -/
def MoreImportantPod (now1 now2 : Nat) (pod1 pod2 : Pod) : Bool :=
  let p1 := PodPriority pod1
  let p2 := PodPriority pod2
  if p1 != p2 then decide (p1 > p2)
  else decide (GetPodStartTime now1 pod1 < GetPodStartTime now2 pod2)

/-- `framework.GetPodKey`: the UID of the pod, an error when it is empty. -/
def GetPodKey (pod : Pod) : Except String String :=
  if pod.UID.length == 0 then
    Except.error "cannot get cache key for pod with empty UID"
  else Except.ok pod.UID

/-! ## The node snapshot -/

/-- The node snapshot `framework.NodeInfo`. `Pods` holds the live elements of
the Go slice and `stale` the slots of its backing array past its length. -/
structure NodeInfo where
  Name : String
  Pods : List PodInfo
  stale : List PodInfo
deriving DecidableEq, Repr

/-- The backing array of the slice `NodeInfo.Pods`. -/
def NodeInfo.backing (n : NodeInfo) : List PodInfo :=
  n.Pods ++ n.stale

/-- Index of the first live pod whose key is `k`; pods whose key cannot be
computed are passed over (the `continue` of the search loop). -/
def findPodIdx (k : String) : List PodInfo → Option Nat
  | [] => none
  | p :: ps =>
    match GetPodKey p.Pod with
    | Except.error _ => (findPodIdx k ps).map Nat.succ
    | Except.ok k2 => if k = k2 then some 0 else (findPodIdx k ps).map Nat.succ

/-- `NodeInfo.RemovePod`: the first pod with the same key is overwritten by the
last live pod and the slice is shortened by one; the slot that falls off the
slice keeps its content. An error when no live pod has that key. -/
def NodeInfo.RemovePod (n : NodeInfo) (pod : Pod) : Except String NodeInfo :=
  match GetPodKey pod with
  | Except.error e => Except.error e
  | Except.ok k =>
    match findPodIdx k n.Pods with
    | none =>
      Except.error ("no corresponding pod " ++ pod.Name ++ " in pods of node " ++ n.Name)
    | some i =>
      match n.Pods.getLast? with
      | none =>
        Except.error ("no corresponding pod " ++ pod.Name ++ " in pods of node " ++ n.Name)
      | some last => Except.ok ⟨n.Name, (n.Pods.set i last).dropLast, last :: n.stale⟩

/-- `NodeInfo.AddPodInfo`: append to the slice (the next slot of the backing
array, when there is one, is overwritten). -/
def NodeInfo.AddPodInfo (n : NodeInfo) (pi : PodInfo) : NodeInfo :=
  ⟨n.Name, n.Pods ++ [pi], n.stale.tail⟩

/-! ## Resource lists (`k8s.io/apiserver/pkg/quota/v1`) -/

/-- A `corev1.ResourceList`: resource name to quantity. -/
abbrev ResourceList := List (String × Int)

/-- `quotav1.Add`. -/
def quotaAdd (a b : ResourceList) : ResourceList :=
  a.map (fun kv => (kv.1, kv.2 + ((b.lookup kv.1).getD 0)))
    ++ b.filter (fun kv => (a.lookup kv.1).isNone)

/-- `quotav1.ResourceNames`. -/
def quotaResourceNames (a : ResourceList) : List String :=
  a.map Prod.fst

/-- `quotav1.Mask`. -/
def quotaMask (r : ResourceList) (names : List String) : ResourceList :=
  r.filter (fun kv => names.contains kv.1)

/-- `quotav1.LessThanOrEqual`: for every key of `b` present in `a`, the value in
`a` does not exceed the one in `b`. -/
def quotaLessThanOrEqual (a b : ResourceList) : Bool :=
  b.all (fun kv =>
    match a.lookup kv.1 with
    | some other => decide (other ≤ kv.2)
    | none => true)

/-- The quota figures kept in the cycle state by the plugin. -/
structure PostFilterState where
  used : ResourceList
  usedLimit : ResourceList
deriving DecidableEq, Repr

/-! ## Disruption budgets -/

/-- A `labels.Selector` as far as it is observed: whether it is empty and which
label sets it matches. -/
structure Selector where
  Empty : Bool
  Matches : List (String × String) → Bool

/-- The fields of `policy.PodDisruptionBudget` read by the preemption code.
`Selector` is the outcome of `metav1.LabelSelectorAsSelector(pdb.Spec.Selector)`. -/
structure PodDisruptionBudget where
  Namespace : String
  Selector : Except String Selector
  DisruptionsAllowed : Int
  DisruptedPods : List String

/-- Two's complement wrap-around of a 32-bit signed integer. -/
def wrapInt32 (x : Int) : Int :=
  (x + 2147483648) % 4294967296 - 2147483648

/-! ## The plugin and its collaborators -/

/-- The part of `framework.Handle` used by the selector, over a cycle state of
type `σ`. The hooks may rewrite the cycle state; the filter run only reads it.
`NodeInfosGet` is `SnapshotSharedLister().NodeInfos().Get`: the node of that
name in the snapshot, nil when there is none. -/
structure Handle (σ : Type) where
  RunPreFilterExtensionRemovePod : σ → Pod → PodInfo → NodeInfo → σ × Status
  RunPreFilterExtensionAddPod : σ → Pod → PodInfo → NodeInfo → σ × Status
  RunFilterPluginsWithNominatedPods : σ → Pod → NodeInfo → Status
  NodeInfosGet : String → Option NodeInfo

/-- The plugin arguments read by the preemption code. -/
structure PluginArgs where
  DisableDefaultQuotaPreemption : Bool

/-- The plugin `g` with the helpers of other packages it calls:
`getPodAssociateQuotaName`, `extension.IsPodNonPreemptible`,
`extension.DefaultQuotaName`, `core.PodRequests`, `getPostFilterState`,
`sort.Slice` and the clock read by `util.GetPodStartTime`. `sort.Slice` is
given the comparison as a function of the number of the call it makes, since
a call reads the clock; `timeNow k` are the two readings of `time.Now()` open
to the call number `k`, the first for its first pod and the second for its
second pod (a reading is made only for a pod without start time). -/
structure Plugin (σ : Type) where
  handle : Handle σ
  pluginArgs : PluginArgs
  getPodAssociateQuotaName : Pod → String
  IsPodNonPreemptible : Pod → Bool
  DefaultQuotaName : String
  PodRequests : Pod → ResourceList
  getPostFilterState : σ → PostFilterState
  sortSlice : (Nat → PodInfo → PodInfo → Bool) → List PodInfo → List PodInfo
  timeNow : Nat → Nat × Nat

/-- The comparison that `SelectVictimsOnNode` hands to `sort.Slice`,
`util.MoreImportantPod` on the pods of the two entries: the outcome of the call
number `k`, which reads the clock by itself. -/
def Plugin.less {σ : Type} (g : Plugin σ) (k : Nat) (a b : PodInfo) : Bool :=
  MoreImportantPod (g.timeNow k).1 (g.timeNow k).2 a.Pod b.Pod

/-- `Plugin.canPreempt`. -/
def Plugin.canPreempt {σ : Type} (g : Plugin σ) (pod victim : Pod) : Bool :=
  if g.IsPodNonPreemptible victim then false
  else
    let podPri := PodPriority pod
    let vicPri := PodPriority victim
    let podQuotaName := g.getPodAssociateQuotaName pod
    let vicQuotaName := g.getPodAssociateQuotaName victim
    if g.pluginArgs.DisableDefaultQuotaPreemption && g.DefaultQuotaName == vicQuotaName then
      false
    else decide (podPri > vicPri) && podQuotaName == vicQuotaName

/-! ## `PodEligibleToPreemptOthers` -/

/-- `Status.Code` on a status pointer: a nil status has code `Success`. -/
def statusCode (s : Option Status) : Code :=
  match s with
  | none => Code.Success
  | some st => st.code

/-- `Plugin.PodEligibleToPreemptOthers`. -/
def Plugin.PodEligibleToPreemptOthers {σ : Type} (g : Plugin σ) (pod : Pod)
    (nominatedNodeStatus : Option Status) : Bool × String :=
  if pod.PreemptionPolicy == some "Never" then
    (false, "not eligible due to preemptionPolicy=Never.")
  else
    let nomNodeName := pod.NominatedNodeName
    if nomNodeName.length > 0 then
      if statusCode nominatedNodeStatus == Code.UnschedulableAndUnresolvable then (true, "")
      else
        match g.handle.NodeInfosGet nomNodeName with
        | none => (true, "")
        | some nodeInfo =>
          let podPriority := PodPriority pod
          let quotaName := g.getPodAssociateQuotaName pod
          if nodeInfo.Pods.any (fun p =>
              p.Pod.DeletionTimestamp.isSome &&
                (quotaName == g.getPodAssociateQuotaName p.Pod &&
                  decide (PodPriority p.Pod < podPriority))) then
            (false, "not eligible due to a terminating pod on the nominated node.")
          else (true, "")
    else (true, "")

/-! ## The simulation state -/

/-- One bookkeeping call on the simulated node: `isAdd` tells `addPod` from
`removePod`, `err` is the error it returned. -/
structure Call where
  isAdd : Bool
  pi : PodInfo
  err : Option String
deriving DecidableEq, Repr

/-- The mutable state of one call: cycle state, node snapshot, and the ghost
log of bookkeeping calls. -/
structure Sim (σ : Type) where
  state : σ
  nodeInfo : NodeInfo
  trace : List Call
deriving DecidableEq

/-- The closure `removePod` of `SelectVictimsOnNode`. -/
def removePod {σ : Type} (g : Plugin σ) (pod : Pod) (rpi : PodInfo) (s : Sim σ) :
    Option String × Sim σ :=
  match s.nodeInfo.RemovePod rpi.Pod with
  | Except.error e => (some e, ⟨s.state, s.nodeInfo, s.trace ++ [⟨false, rpi, some e⟩]⟩)
  | Except.ok n =>
    let r := g.handle.RunPreFilterExtensionRemovePod s.state pod rpi n
    if r.2.IsSuccess then (none, ⟨r.1, n, s.trace ++ [⟨false, rpi, none⟩]⟩)
    else (r.2.AsError, ⟨r.1, n, s.trace ++ [⟨false, rpi, r.2.AsError⟩]⟩)

/-- The closure `addPod` of `SelectVictimsOnNode`. -/
def addPod {σ : Type} (g : Plugin σ) (pod : Pod) (api : PodInfo) (s : Sim σ) :
    Option String × Sim σ :=
  let n := s.nodeInfo.AddPodInfo api
  let r := g.handle.RunPreFilterExtensionAddPod s.state pod api n
  if r.2.IsSuccess then (none, ⟨r.1, n, s.trace ++ [⟨true, api, none⟩]⟩)
  else (r.2.AsError, ⟨r.1, n, s.trace ++ [⟨true, api, r.2.AsError⟩]⟩)

/-! ## `filterPodsWithPDBViolation` -/

/-- The body of the loop over the budgets for one pod: `allowed` is the slice
`pdbsAllowed` (one counter per budget), the result is the updated counters and
whether some matching budget went below zero. -/
def checkPDBs (pod : Pod) :
    List PodDisruptionBudget → List Int → Bool → List Int × Bool
  | pdb :: pdbs, a :: allowed, violated =>
    if pdb.Namespace != pod.Namespace then
      let r := checkPDBs pod pdbs allowed violated
      (a :: r.1, r.2)
    else
      match pdb.Selector with
      | Except.error _ =>
        let r := checkPDBs pod pdbs allowed violated
        (a :: r.1, r.2)
      | Except.ok selector =>
        if selector.Empty || !selector.Matches pod.Labels then
          let r := checkPDBs pod pdbs allowed violated
          (a :: r.1, r.2)
        else if pdb.DisruptedPods.contains pod.Name then
          let r := checkPDBs pod pdbs allowed violated
          (a :: r.1, r.2)
        else
          let a1 := wrapInt32 (a - 1)
          let r := checkPDBs pod pdbs allowed (if a1 < 0 then true else violated)
          (a1 :: r.1, r.2)
  | _, allowed, violated => (allowed, violated)

/-- The loop over the pods of `filterPodsWithPDBViolation`, with the counters
`pdbsAllowed` threaded through. -/
def filterPodsLoop (pdbs : List PodDisruptionBudget) :
    List PodInfo → List Int → List PodInfo × List PodInfo
  | [], _ => ([], [])
  | podInfo :: rest, allowed =>
    let pod := podInfo.Pod
    let r :=
      if pod.Labels.length != 0 then checkPDBs pod pdbs allowed false
      else (allowed, false)
    let out := filterPodsLoop pdbs rest r.1
    if r.2 then (podInfo :: out.1, out.2) else (out.1, podInfo :: out.2)

/-- `filterPodsWithPDBViolation`: the violating and the non-violating pods. -/
def filterPodsWithPDBViolation (podInfos : List PodInfo) (pdbs : List PodDisruptionBudget) :
    List PodInfo × List PodInfo :=
  filterPodsLoop pdbs podInfos (pdbs.map (fun pdb => pdb.DisruptionsAllowed))

/-! ## `SelectVictimsOnNode` -/

/-- The result triple of `SelectVictimsOnNode`. -/
structure Result where
  victims : List Pod
  numViolatingVictim : Nat
  status : Status
deriving DecidableEq, Repr

/-- The first loop of `SelectVictimsOnNode`: the range statement fixes the
length `k + i` of the slice at entry and reads slot `i` of the backing array
at each round, while `removePod` rewrites that array. `RemovePod` never
shortens the backing array, so the slot read always exists. -/
def removeLoop {σ : Type} (g : Plugin σ) (pod : Pod) :
    Nat → Nat → List PodInfo → Sim σ → Option String × List PodInfo × Sim σ
  | 0, _, potentialVictims, s => (none, potentialVictims, s)
  | k + 1, i, potentialVictims, s =>
    match s.nodeInfo.backing[i]? with
    | none => (none, potentialVictims, s)
    | some pi =>
      if g.canPreempt pod pi.Pod then
        match removePod g pod pi s with
        | (some e, s1) => (some e, potentialVictims ++ [pi], s1)
        | (none, s1) => removeLoop g pod k (i + 1) (potentialVictims ++ [pi]) s1
      else removeLoop g pod k (i + 1) potentialVictims s

/-- The quota test of `reprievePod`: used plus the request of the pending pod,
restricted to the resource names of the request, against the usage limit.
`postFilterState` is a pointer into the cycle state, so the test reads the
figures as the hooks left them. -/
def quotaFits {σ : Type} (g : Plugin σ) (pod : Pod) (st : σ) : Bool :=
  let postFilterState := g.getPostFilterState st
  let podReq := g.PodRequests pod
  let newUsed := quotaMask (quotaAdd postFilterState.used podReq) (quotaResourceNames podReq)
  quotaLessThanOrEqual newUsed postFilterState.usedLimit

/-- The closure `reprievePod`: the error if any, `fits`, the victims so far and
the simulation state. -/
def reprievePod {σ : Type} (g : Plugin σ) (pod : Pod) (pi : PodInfo)
    (victims : List Pod) (s : Sim σ) : Option String × Bool × List Pod × Sim σ :=
  match addPod g pod pi s with
  | (some e, s1) => (some e, false, victims, s1)
  | (none, s1) =>
    let status := g.handle.RunFilterPluginsWithNominatedPods s1.state pod s1.nodeInfo
    let fits := status.IsSuccess
    let afterFilter : Option String × List Pod × Sim σ :=
      if !fits then
        match removePod g pod pi s1 with
        | (some e, s2) => (some e, victims, s2)
        | (none, s2) => (none, victims ++ [pi.Pod], s2)
      else (none, victims, s1)
    match afterFilter with
    | (some e, victims1, s2) => (some e, false, victims1, s2)
    | (none, victims1, s2) =>
      if !quotaFits g pod s2.state then
        match removePod g pod pi s2 with
        | (some e, s3) => (some e, false, victims1, s3)
        | (none, s3) => (none, fits, victims1 ++ [pi.Pod], s3)
      else (none, fits, victims1, s2)

/-- The loop over the violating candidates: a candidate that does not fit is
counted. -/
def reprieveViolating {σ : Type} (g : Plugin σ) (pod : Pod) :
    List PodInfo → List Pod → Nat → Sim σ → Option String × List Pod × Nat × Sim σ
  | [], victims, num, s => (none, victims, num, s)
  | p :: ps, victims, num, s =>
    match reprievePod g pod p victims s with
    | (some e, _, victims1, s1) => (some e, victims1, num, s1)
    | (none, fits, victims1, s1) =>
      reprieveViolating g pod ps victims1 (if !fits then num + 1 else num) s1

/-- The loop over the non-violating candidates. -/
def reprieveNonViolating {σ : Type} (g : Plugin σ) (pod : Pod) :
    List PodInfo → List Pod → Sim σ → Option String × List Pod × Sim σ
  | [], victims, s => (none, victims, s)
  | p :: ps, victims, s =>
    match reprievePod g pod p victims s with
    | (some e, _, victims1, s1) => (some e, victims1, s1)
    | (none, _, victims1, s1) => reprieveNonViolating g pod ps victims1 s1

/-- The potential victims in the order in which the reprieve pass takes them:
sorted by importance and split by `filterPodsWithPDBViolation`. -/
def partitionVictims {σ : Type} (g : Plugin σ) (potentialVictims : List PodInfo)
    (pdbs : List PodDisruptionBudget) : List PodInfo × List PodInfo :=
  filterPodsWithPDBViolation
    (g.sortSlice g.less potentialVictims) pdbs

/-- `Plugin.SelectVictimsOnNode`: the returned triple and the simulation state
left behind. -/
def SelectVictimsOnNode {σ : Type} (g : Plugin σ) (pod : Pod) (s : Sim σ)
    (pdbs : List PodDisruptionBudget) : Result × Sim σ :=
  match removeLoop g pod s.nodeInfo.Pods.length 0 [] s with
  | (some e, _, s1) => (⟨[], 0, AsStatus e⟩, s1)
  | (none, potentialVictims, s1) =>
    if potentialVictims.length == 0 then
      (⟨[], 0, NewStatus Code.UnschedulableAndUnresolvable
        ["No victims found on node " ++ s1.nodeInfo.Name ++ " for preemptor pod " ++ pod.Name]⟩,
        s1)
    else
      let status := g.handle.RunFilterPluginsWithNominatedPods s1.state pod s1.nodeInfo
      if !status.IsSuccess then (⟨[], 0, status⟩, s1)
      else
        let parts := partitionVictims g potentialVictims pdbs
        match reprieveViolating g pod parts.1 [] 0 s1 with
        | (some e, _, _, s2) => (⟨[], 0, AsStatus e⟩, s2)
        | (none, victims, numViolatingVictim, s2) =>
          match reprieveNonViolating g pod parts.2 victims s2 with
          | (some e, _, s3) => (⟨[], 0, AsStatus e⟩, s3)
          | (none, victims1, s3) =>
            (⟨victims1, numViolatingVictim, NewStatus Code.Success []⟩, s3)

/-! ## Vocabulary of the proofs -/

/-- The potential victims recorded by the first loop of `SelectVictimsOnNode`. -/
def potentialVictimsOf {σ : Type} (g : Plugin σ) (pod : Pod) (s : Sim σ) : List PodInfo :=
  (removeLoop g pod s.nodeInfo.Pods.length 0 [] s).2.1

/-- The filter verdict for the pending pod on a simulation state. -/
def filterOK {σ : Type} (g : Plugin σ) (pod : Pod) (s : Sim σ) : Bool :=
  (g.handle.RunFilterPluginsWithNominatedPods s.state pod s.nodeInfo).IsSuccess

/-- The log `t1` extends `t` by successful bookkeeping calls only. -/
def CleanExt (t t1 : List Call) : Prop :=
  ∃ ext, t1 = t ++ ext ∧ ∀ x ∈ ext, x.err = none

/-- The log `t1` extends `t` by successful bookkeeping calls followed by one
failed call, which is its last entry. -/
def FailExt (t t1 : List Call) : Prop :=
  ∃ ext c, t1 = t ++ ext ++ [c] ∧ (∀ x ∈ ext, x.err = none) ∧ c.err ≠ none

/-- The shape of the log after a step that returned the error `eo`. -/
def TraceExt (eo : Option String) (t t1 : List Call) : Prop :=
  match eo with
  | none => CleanExt t t1
  | some _ => FailExt t t1

/-- The possible courses of one call of `reprievePod`, by the outcome of the
calls it makes. -/
inductive ReprieveStep {σ : Type} (g : Plugin σ) (pod : Pod) (pi : PodInfo)
    (victims : List Pod) (s : Sim σ) : Option String × Bool × List Pod × Sim σ → Prop where
  | addFailed (e : String) (s1 : Sim σ) (hadd : addPod g pod pi s = (some e, s1)) :
      ReprieveStep g pod pi victims s (some e, false, victims, s1)
  | kept (s1 : Sim σ) (hadd : addPod g pod pi s = (none, s1))
      (hfit : filterOK g pod s1 = true) (hquota : quotaFits g pod s1.state = true) :
      ReprieveStep g pod pi victims s (none, true, victims, s1)
  | quotaRemoveFailed (s1 : Sim σ) (e : String) (s3 : Sim σ)
      (hadd : addPod g pod pi s = (none, s1))
      (hfit : filterOK g pod s1 = true) (hquota : quotaFits g pod s1.state = false)
      (hrem : removePod g pod pi s1 = (some e, s3)) :
      ReprieveStep g pod pi victims s (some e, false, victims, s3)
  | quotaEvicted (s1 s3 : Sim σ) (hadd : addPod g pod pi s = (none, s1))
      (hfit : filterOK g pod s1 = true) (hquota : quotaFits g pod s1.state = false)
      (hrem : removePod g pod pi s1 = (none, s3)) :
      ReprieveStep g pod pi victims s (none, true, victims ++ [pi.Pod], s3)
  | filterRemoveFailed (s1 : Sim σ) (e : String) (s2 : Sim σ)
      (hadd : addPod g pod pi s = (none, s1))
      (hfit : filterOK g pod s1 = false)
      (hrem : removePod g pod pi s1 = (some e, s2)) :
      ReprieveStep g pod pi victims s (some e, false, victims, s2)
  | filterEvicted (s1 s2 : Sim σ) (hadd : addPod g pod pi s = (none, s1))
      (hfit : filterOK g pod s1 = false)
      (hrem : removePod g pod pi s1 = (none, s2)) (hquota : quotaFits g pod s2.state = true) :
      ReprieveStep g pod pi victims s (none, false, victims ++ [pi.Pod], s2)
  | bothRemoveFailed (s1 s2 : Sim σ) (e : String) (s3 : Sim σ)
      (hadd : addPod g pod pi s = (none, s1))
      (hfit : filterOK g pod s1 = false)
      (hrem : removePod g pod pi s1 = (none, s2)) (hquota : quotaFits g pod s2.state = false)
      (hrem2 : removePod g pod pi s2 = (some e, s3)) :
      ReprieveStep g pod pi victims s (some e, false, victims ++ [pi.Pod], s3)
  | bothEvicted (s1 s2 s3 : Sim σ) (hadd : addPod g pod pi s = (none, s1))
      (hfit : filterOK g pod s1 = false)
      (hrem : removePod g pod pi s1 = (none, s2)) (hquota : quotaFits g pod s2.state = false)
      (hrem2 : removePod g pod pi s2 = (none, s3)) :
      ReprieveStep g pod pi victims s (none, false, victims ++ [pi.Pod] ++ [pi.Pod], s3)

/-- A run of the reprieve pass over the candidates, from the victims and the
state before to the victims and the state after, in which every bookkeeping
call succeeded and every removal undid the insertion before it: a candidate is
either kept, passing the filter and the quota test with it on the node, or
evicted, failing one of them with it on the node. -/
inductive ReprieveRun {σ : Type} (g : Plugin σ) (pod : Pod) :
    List PodInfo → List Pod → Sim σ → List Pod → Sim σ → Prop where
  | done (victims : List Pod) (s : Sim σ) : ReprieveRun g pod [] victims s victims s
  | keep (p : PodInfo) (ps : List PodInfo) (victims victims1 : List Pod) (s s1 s9 : Sim σ)
      (hadd : addPod g pod p s = (none, s1))
      (hpods : s1.nodeInfo.Pods = s.nodeInfo.Pods ++ [p])
      (hfit : filterOK g pod s1 = true) (hquota : quotaFits g pod s1.state = true)
      (hrest : ReprieveRun g pod ps victims s1 victims1 s9) :
      ReprieveRun g pod (p :: ps) victims s victims1 s9
  | evict (p : PodInfo) (ps : List PodInfo) (victims victims1 : List Pod) (s s1 s2 s9 : Sim σ)
      (hadd : addPod g pod p s = (none, s1))
      (hpods : s1.nodeInfo.Pods = s.nodeInfo.Pods ++ [p])
      (hfail : filterOK g pod s1 = false ∨ quotaFits g pod s1.state = false)
      (hrem : removePod g pod p s1 = (none, s2))
      (hback : s2.nodeInfo.Pods = s.nodeInfo.Pods)
      (hrest : ReprieveRun g pod ps (victims ++ [p.Pod]) s2 victims1 s9) :
      ReprieveRun g pod (p :: ps) victims s victims1 s9

/-- The contract of `sort.Slice` for the comparison of `SelectVictimsOnNode`:
the result is a permutation of the input. -/
def SortPermutes {σ : Type} (g : Plugin σ) : Prop :=
  ∀ l, (g.sortSlice g.less l).Perm l

/-- The pod `pod1` is more important than `pod2` whatever the clock reads:
`util.MoreImportantPod` is true of them at all readings. -/
def SurelyMoreImportant (pod1 pod2 : Pod) : Prop :=
  ∀ now1 now2 : Nat, MoreImportantPod now1 now2 pod1 pod2 = true

/-- The contract of `sort.Slice` for that comparison: in the result no element
is more important, whatever the clock reads, than an element before it. -/
def SortOrders {σ : Type} (g : Plugin σ) : Prop :=
  ∀ l, (g.sortSlice g.less l).Pairwise (fun a b => ¬ SurelyMoreImportant b.Pod a.Pod)

/-- The verdict of the filter run and of the quota test is determined by the
pods on the node, and is monotone: `Inv` ties the cycle state to the pods on
the node and is kept by the bookkeeping calls, under `Inv` the pending pod
passes both tests exactly when `Fits` holds of the pods on the node, and
`Fits` remains true when pods are removed. -/
structure PodSetVerdict {σ : Type} (g : Plugin σ) (pod : Pod)
    (Inv : σ → List PodInfo → Prop) (Fits : List PodInfo → Prop) : Prop where
  add : ∀ (p : PodInfo) (s s1 : Sim σ), Inv s.state s.nodeInfo.Pods →
    addPod g pod p s = (none, s1) → Inv s1.state s1.nodeInfo.Pods
  remove : ∀ (p : PodInfo) (s s1 : Sim σ), Inv s.state s.nodeInfo.Pods →
    removePod g pod p s = (none, s1) → Inv s1.state s1.nodeInfo.Pods
  verdict : ∀ (s : Sim σ), Inv s.state s.nodeInfo.Pods →
    ((filterOK g pod s = true ∧ quotaFits g pod s.state = true) ↔ Fits s.nodeInfo.Pods)
  mono : ∀ (l l1 : List PodInfo), l.Subperm l1 → Fits l1 → Fits l

/-! ## A concrete plugin and concrete nodes, to evaluate the embedding -/

/-- A pod named and keyed `name`, in namespace `default`, started at time 0. -/
def examplePod (name : String) (priority : Int) (labels : List (String × String)) : Pod :=
  ⟨name, name, "default", labels, some priority, none, "", none, some 0⟩

/-- A pod named and keyed `name`, in namespace `default`, that is being deleted. -/
def terminatingPod (name : String) (priority : Int) : Pod :=
  ⟨name, name, "default", [], some priority, none, "", some 50, some 0⟩

/-- The node snapshot of the examples: one node `n1`, holding a terminating pod
of priority 1 and a running pod of priority 20. -/
def exampleSnapshot (name : String) : Option NodeInfo :=
  if name == "n1" then
    some ⟨"n1", [⟨terminatingPod "t" 1⟩, ⟨examplePod "b" 20 []⟩], []⟩
  else none

/-- A handle whose filter run fails exactly when all the pod names of one of
the `conflicts` are on the node, whose hooks keep the used CPU count of the
cycle state in step with the node, and whose remove hook fails for the pods
named in `stuck`. -/
def exampleHandle (conflicts : List (List String)) (stuck : List String) :
    Handle PostFilterState where
  RunPreFilterExtensionRemovePod := fun st _ rpi _ =>
    if stuck.contains rpi.Pod.Name then (st, ⟨Code.Error, ["remove hook failed"], none⟩)
    else (⟨quotaAdd st.used [("cpu", -1)], st.usedLimit⟩, NewStatus Code.Success [])
  RunPreFilterExtensionAddPod := fun st _ _ _ =>
    (⟨quotaAdd st.used [("cpu", 1)], st.usedLimit⟩, NewStatus Code.Success [])
  RunFilterPluginsWithNominatedPods := fun _ _ n =>
    if conflicts.all (fun c => !(c.all (fun nm => n.Pods.any (fun p => p.Pod.Name == nm)))) then
      NewStatus Code.Success []
    else NewStatus Code.Unschedulable ["node(s) had a conflict"]
  NodeInfosGet := exampleSnapshot

/-- The inner loop of insertion sort: `e` moves to the left as long as the
comparison puts it before the entry to its left. `sorted` is the sorted part,
last entry first, and `k` counts the calls of the comparison. -/
def exampleInsert (less : Nat → PodInfo → PodInfo → Bool) (e : PodInfo) :
    List PodInfo → Nat → List PodInfo × Nat
  | [], k => ([e], k)
  | x :: rest, k =>
    if less k e x then
      let r := exampleInsert less e rest (k + 1)
      (x :: r.1, r.2)
    else (e :: x :: rest, k + 1)

/-- The outer loop of insertion sort over the entries not yet inserted. -/
def exampleSortLoop (less : Nat → PodInfo → PodInfo → Bool) :
    List PodInfo → List PodInfo → Nat → List PodInfo
  | [], sorted, _ => sorted.reverse
  | e :: l, sorted, k =>
    let r := exampleInsert less e sorted k
    exampleSortLoop less l r.1 r.2

/-- Insertion sort, which `sort.Slice` runs on short slices, as the instance of
`sort.Slice`: the calls of the comparison are numbered in the order in which
they are made. -/
def exampleSort (less : Nat → PodInfo → PodInfo → Bool) (l : List PodInfo) : List PodInfo :=
  exampleSortLoop less l [] 0

/-- A plugin over `exampleHandle`: the quota name of a pod is its namespace,
every pod requests one CPU, a pod is non-preemptible when labelled so, and
the clock stands still at 100. -/
def examplePlugin (conflicts : List (List String)) (stuck : List String) : Plugin PostFilterState where
  handle := exampleHandle conflicts stuck
  pluginArgs := ⟨false⟩
  getPodAssociateQuotaName := fun p => p.Namespace
  IsPodNonPreemptible := fun p =>
    p.Labels.lookup "quota.scheduling.koordinator.sh/preemptible" == some "false"
  DefaultQuotaName := "koordinator-default-quota"
  PodRequests := fun _ => [("cpu", 1)]
  getPostFilterState := fun st => st
  sortSlice := exampleSort
  timeNow := fun _ => (100, 100)

/-- The pending pod of the examples. -/
def pendingPod : Pod := examplePod "pending" 10 []

/-- A budget of namespace `default` matching the pods labelled `app=web`. -/
def webBudget (allowed : Int) : PodDisruptionBudget :=
  ⟨"default", Except.ok ⟨false, fun ls => ls.lookup "app" == some "web"⟩, allowed, []⟩

/-- The initial simulation state: cycle state, node, empty log. -/
def Sim.init {σ : Type} (st : σ) (name : String) (pods : List PodInfo) : Sim σ :=
  ⟨st, ⟨name, pods, []⟩, []⟩

/-- A simulation state over the example cycle state: `used` CPUs counted so far,
the CPU limit `limit`, a node `n1` with the given pods, an empty log. -/
def exampleSim (used limit : Int) (pods : List PodInfo) : Sim PostFilterState :=
  Sim.init ⟨[("cpu", used)], [("cpu", limit)]⟩ "n1" pods

/-- Five pods, of which `a`, `c` and `d` have a lower priority than the pending pod. -/
def fivePods : List PodInfo :=
  [⟨examplePod "a" 1 []⟩, ⟨examplePod "b" 20 []⟩, ⟨examplePod "c" 2 []⟩,
    ⟨examplePod "d" 3 []⟩, ⟨examplePod "e" 30 []⟩]

/-- The five pods with `a` and `d` labelled `app=web`. -/
def webPods : List PodInfo :=
  [⟨examplePod "a" 1 [("app", "web")]⟩, ⟨examplePod "b" 20 []⟩, ⟨examplePod "c" 2 []⟩,
    ⟨examplePod "d" 3 [("app", "web")]⟩, ⟨examplePod "e" 30 []⟩]

/-- The tie between the example cycle state and the node: the used CPU count
is the number of pods on the node, the limit is `limit`. -/
def exampleInv (limit : Int) (st : PostFilterState) (l : List PodInfo) : Prop :=
  st.used = [("cpu", (l.length : Int))] ∧ st.usedLimit = [("cpu", limit)]

/-- The verdict of the example plugin as a property of the pods on the node:
no conflict is complete and one more CPU stays within the limit. -/
def exampleFits (conflicts : List (List String)) (limit : Int) (l : List PodInfo) : Prop :=
  conflicts.all (fun c => !(c.all (fun nm => l.any (fun p => p.Pod.Name == nm)))) = true ∧
    (l.length : Int) + 1 ≤ limit

/-- The plugin of the examples with pods `a` and `c` each blocking the filter. -/
def webPlugin : Plugin PostFilterState := examplePlugin [["a"], ["c"]] []

/-- The plugin of the examples with pod `d` blocking the filter. -/
def blockedPlugin : Plugin PostFilterState := examplePlugin [["d"]] []

/-- The node of the examples: the pods `webPods`, five CPUs used of ten. -/
def webSim : Sim PostFilterState := exampleSim 5 10 webPods

/-- A plugin whose filter fails when `u` and `v` are both on the node. -/
def pairPlugin : Plugin PostFilterState := examplePlugin [["u", "v"]] []

/-- The pod `v` of priority 5, under no budget. -/
def podV : PodInfo := ⟨examplePod "v" 5 []⟩

/-- The pod `u` of priority 3, labelled `app=web`. -/
def podU : PodInfo := ⟨examplePod "u" 3 [("app", "web")]⟩

/-- A node holding `v` and `u`, two CPUs used of ten. -/
def pairSim : Sim PostFilterState := exampleSim 2 10 [podV, podU]

/-! ## Vocabulary and examples of the claim on the order of the victims -/

/-- The candidates of `part` that are not on the node `final`, as pods, in the
order of `part`. -/
def evictedOf (part : List PodInfo) (final : NodeInfo) : List Pod :=
  (part.filter (fun p => decide (p ∉ final.Pods))).map (fun p => p.Pod)

/-- A pod named and keyed `name`, in namespace `default`, that has not started:
it has no start time. -/
def unstartedPod (name : String) (priority : Int) : Pod :=
  ⟨name, name, "default", [], some priority, none, "", none, none⟩

/-- The example plugin with each of `x` and `y` blocking the filter and with a
clock that advances from reading to reading. -/
def tickPlugin : Plugin PostFilterState :=
  { examplePlugin [["x"], ["y"]] [] with timeNow := fun k => (2 * k, 2 * k + 1) }

/-- A node holding the pods `x` and `y`, of the same priority and not started. -/
def tickSim : Sim PostFilterState :=
  exampleSim 2 10 [⟨unstartedPod "x" 1⟩, ⟨unstartedPod "y" 1⟩]

/-- The plugin of the examples with each of `a`, `c` and `d` blocking the filter. -/
def evictingPlugin : Plugin PostFilterState := examplePlugin [["a"], ["c"], ["d"]] []

/-! ## Vocabulary of the claims on disruption budgets -/

/-- The budget matches the pod: same namespace and a valid, non-empty selector
that matches the labels of the pod. -/
def pdbMatches (pdb : PodDisruptionBudget) (pod : Pod) : Bool :=
  pdb.Namespace == pod.Namespace &&
    match pdb.Selector with
    | Except.error _ => false
    | Except.ok selector => !selector.Empty && selector.Matches pod.Labels

/-- The budget is charged for the pod: it matches the pod and has not recorded
it among its disrupted pods. -/
def pdbCharged (pdb : PodDisruptionBudget) (pod : Pod) : Bool :=
  pdbMatches pdb pod && !pdb.DisruptedPods.contains pod.Name

/-- The number of pods of `l` that carry a label and for which the budget is
charged. -/
def chargedCount (pdb : PodDisruptionBudget) (l : List PodInfo) : Nat :=
  (l.filter (fun p => p.Pod.Labels.length != 0 && pdbCharged pdb p.Pod)).length

/-- The classification of the pod at position `j` in the words of the
specification: the pod carries a label and some budget that is charged for it
has fewer disruptions allowed than the pods charged to it up to position `j`. -/
def specViolating (pdbs : List PodDisruptionBudget) (l : List PodInfo) (j : Nat) : Bool :=
  match l[j]? with
  | none => false
  | some p =>
    p.Pod.Labels.length != 0 &&
      pdbs.any (fun pdb =>
        pdbCharged pdb p.Pod &&
          decide (pdb.DisruptionsAllowed - (chargedCount pdb (l.take (j + 1)) : Int) < 0))

/-! ## Concrete pods and plugins for the eligibility and `canPreempt` examples -/

/-- A pod of the default quota group of the example plugin, whose quota name is
its namespace. -/
def defaultQuotaPod (name : String) (priority : Int) (labels : List (String × String)) : Pod :=
  ⟨name, name, "koordinator-default-quota", labels, some priority, none, "", none, some 0⟩

/-- The example plugin with `DisableDefaultQuotaPreemption` set. -/
def strictPlugin : Plugin PostFilterState where
  handle := exampleHandle [] []
  pluginArgs := ⟨true⟩
  getPodAssociateQuotaName := fun p => p.Namespace
  IsPodNonPreemptible := fun p =>
    p.Labels.lookup "quota.scheduling.koordinator.sh/preemptible" == some "false"
  DefaultQuotaName := "koordinator-default-quota"
  PodRequests := fun _ => [("cpu", 1)]
  getPostFilterState := fun st => st
  sortSlice := exampleSort
  timeNow := fun _ => (100, 100)

/-- A pending pod of priority 10 with preemption policy `Never`, nominated to `n1`. -/
def neverPod : Pod :=
  ⟨"never", "never", "default", [], some 10, some "Never", "n1", none, some 0⟩

/-- A pending pod of priority 10 nominated to the node `n1`. -/
def nominatedPod : Pod :=
  ⟨"nominated", "nominated", "default", [], some 10, none, "n1", none, some 0⟩

/-! ## Concrete budgets for the examples -/

/-- A pod labelled `app=web` and `canary=yes`. -/
def canaryPod : PodInfo := ⟨examplePod "k" 1 [("app", "web"), ("canary", "yes")]⟩

/-- A pod labelled `app=web` only. -/
def stablePod : PodInfo := ⟨examplePod "s" 2 [("app", "web")]⟩

/-- A budget for the pods labelled `app=web`, without disruptions left, that has
recorded the pod `k` as disrupted. -/
def recordedBudget : PodDisruptionBudget :=
  ⟨"default", Except.ok ⟨false, fun ls => ls.lookup "app" == some "web"⟩, 0, ["k"]⟩

/-- The same budget without record, for the pods labelled `app=web` that are
not labelled `canary`. -/
def narrowedBudget : PodDisruptionBudget :=
  ⟨"default",
    Except.ok ⟨false, fun ls => ls.lookup "app" == some "web" && ls.lookup "canary" == none⟩,
    0, []⟩

/-- A budget whose selector matches no pod. -/
def idleBudget : PodDisruptionBudget :=
  ⟨"default", Except.ok ⟨false, fun _ => false⟩, 0, []⟩

/-! ## Vocabulary of the claim on the pods that may be removed -/

/-- The pod list `l` of the simulated node holds only pods of entry and still
holds every pod of entry that the pending pod cannot preempt. -/
def PodsKept {σ : Type} (g : Plugin σ) (pod : Pod) (P0 l : List PodInfo) : Prop :=
  (∀ x ∈ l, x ∈ P0) ∧ ∀ p ∈ P0, g.canPreempt pod p.Pod = false → p ∈ l

/-- The log `t1` extends `t` by bookkeeping calls on pods of entry that the
pending pod can preempt. -/
def CallsOnPreemptable {σ : Type} (g : Plugin σ) (pod : Pod) (P0 : List PodInfo)
    (t t1 : List Call) : Prop :=
  ∃ T, t1 = t ++ T ∧ ∀ c ∈ T, c.pi ∈ P0 ∧ g.canPreempt pod c.pi.Pod = true

/-- From the state `s` to the state `s1` only pods of entry that the pending pod
can preempt were touched. -/
def OnlyPreemptableTouched {σ : Type} (g : Plugin σ) (pod : Pod) (P0 : List PodInfo)
    (s s1 : Sim σ) : Prop :=
  PodsKept g pod P0 s1.nodeInfo.Pods ∧ CallsOnPreemptable g pod P0 s.trace s1.trace

/-! ## Vocabulary of the claims on the two outputs of the partition -/

/-- The list `l` is an interleaving of `a` and `b`: every element of `l` goes,
in order, either to `a` or to `b`. -/
inductive Interleaving {α : Type} : List α → List α → List α → Prop where
  | nil : Interleaving [] [] []
  | left (x : α) {a b l : List α} (h : Interleaving a b l) : Interleaving (x :: a) b (x :: l)
  | right (x : α) {a b l : List α} (h : Interleaving a b l) : Interleaving a (x :: b) (x :: l)

/-- A budget of namespace `default` whose selector `!canary` matches the pods
without the label `canary`; the selector is not empty. -/
def noCanaryBudget (allowed : Int) : PodDisruptionBudget :=
  ⟨"default", Except.ok ⟨false, fun ls => (ls.lookup "canary").isNone⟩, allowed, []⟩

/-- A pod without labels, in the namespace of the budgets of the examples. -/
def barePod : PodInfo := ⟨examplePod "bare" 1 []⟩

/-- The number of pods of `l` for which the budget is charged, a pod without
labels included. -/
def matchedCount (pdb : PodDisruptionBudget) (l : List PodInfo) : Nat :=
  (l.filter (fun p => pdbCharged pdb p.Pod)).length

/-- The classification of the pod at position `j` when every pod that meets the
matching conditions of a budget is counted against it, a pod without labels
included: the pod carries a label and some budget that is charged for it has
fewer disruptions allowed than the pods that meet its matching conditions up
to position `j`. -/
def violatingByMatchedCount (pdbs : List PodDisruptionBudget) (l : List PodInfo) (j : Nat) :
    Bool :=
  match l[j]? with
  | none => false
  | some p =>
    p.Pod.Labels.length != 0 &&
      pdbs.any (fun pdb =>
        pdbCharged pdb p.Pod &&
          decide (pdb.DisruptionsAllowed - (matchedCount pdb (l.take (j + 1)) : Int) < 0))

/-- The budget with its disruptions allowed replaced. -/
def PodDisruptionBudget.withAllowed (pdb : PodDisruptionBudget) (allowed : Int) :
    PodDisruptionBudget :=
  { pdb with DisruptionsAllowed := allowed }

/-- The hooks fail with an error: a status returned by `RunPreFilterExtensionRemovePod`
or `RunPreFilterExtensionAddPod` never has the code `Wait` or `Skip`. The
runners of the framework return nil or `AsStatus(err)`, whose code is `Error`. -/
def HooksFailWithError {σ : Type} (g : Plugin σ) : Prop :=
  (∀ (st : σ) (pod : Pod) (pi : PodInfo) (n : NodeInfo),
      (g.handle.RunPreFilterExtensionRemovePod st pod pi n).2.code ≠ Code.Wait ∧
        (g.handle.RunPreFilterExtensionRemovePod st pod pi n).2.code ≠ Code.Skip) ∧
    ∀ (st : σ) (pod : Pod) (pi : PodInfo) (n : NodeInfo),
      (g.handle.RunPreFilterExtensionAddPod st pod pi n).2.code ≠ Code.Wait ∧
        (g.handle.RunPreFilterExtensionAddPod st pod pi n).2.code ≠ Code.Skip

/-- A handle whose remove hook returns a status of code `Wait` for every pod. -/
def waitingHandle : Handle PostFilterState :=
  { exampleHandle [] [] with
    RunPreFilterExtensionRemovePod := fun st _ _ _ => (st, NewStatus Code.Wait ["wait"]) }

/-- The example plugin over `waitingHandle`. -/
def waitingPlugin : Plugin PostFilterState :=
  { examplePlugin [] [] with handle := waitingHandle }

end ElasticQuota

namespace Coscheduling

/-!
The gang cache of the coscheduling plugin (`pkg/scheduler/plugins/coscheduling/core`).

Only the tests of the cache (`gang_cache_test.go`) are part of the sources at
hand; the cache itself (`gang_cache.go`, `gang.go`) and the helpers of
`coscheduling/util` and `apis/extension` are not. The cache is therefore
modelled from the specification, and the model is held against the
expectations of the tests: Go maps are association lists with unique keys,
the pointer of a gang to its group state is a reference by group id into the
registry, and the parsers of the standard library are parameters.
-/

/-! ## Objects delivered by the events -/

/-- Modelled from the spec: the member object of an event, with the fields the
tests of the cache fill in (`corev1.Pod` is declared outside the sources at
hand): identity, labels, annotations and the node the member is placed on
(`Spec.NodeName`, empty when it is not placed). -/
structure Pod where
  Namespace : String
  Name : String
  Labels : List (String × String)
  Annotations : List (String × String)
  NodeName : String
deriving DecidableEq, Repr

/-- Modelled from the spec: the group resource of an event, with the fields the
tests fill in (`v1alpha1.PodGroup` is declared outside the sources at hand):
identity, annotations, `Spec.MinMember` and the optional
`Spec.ScheduleTimeoutSeconds`. -/
structure PodGroup where
  Namespace : String
  Name : String
  Annotations : List (String × String)
  MinMember : Int
  ScheduleTimeoutSeconds : Option Int
deriving DecidableEq, Repr

/-- Reading a Go `map[string]string`: the empty string when the key is absent. -/
def mapGet (m : List (String × String)) (k : String) : String :=
  (m.lookup k).getD ""

/-! ## Names of labels, annotations and modes

The constants are declared in `apis/extension` and in the PodGroup API, outside
the sources at hand; the tests refer to them by name. -/

/-- Modelled from the spec: `v1alpha1.PodGroupLabel`, the label by which a member
refers to a group resource. -/
def PodGroupLabel : String := "pod-group.scheduling.sigs.k8s.io"

/-- Modelled from the spec: `extension.LabelLightweightCoschedulingPodGroupName`. -/
def LabelLightweightCoschedulingPodGroupName : String :=
  "pod-group.scheduling.sigs.k8s.io/name"

/-- Modelled from the spec: `extension.LabelLightweightCoschedulingPodGroupMinAvailable`. -/
def LabelLightweightCoschedulingPodGroupMinAvailable : String :=
  "pod-group.scheduling.sigs.k8s.io/min-available"

/-- Modelled from the spec: `extension.AnnotationGangName`. -/
def AnnotationGangName : String := "gang.scheduling.koordinator.sh/name"

/-- Modelled from the spec: `extension.AnnotationGangMinNum`. -/
def AnnotationGangMinNum : String := "gang.scheduling.koordinator.sh/min-available"

/-- Modelled from the spec: `extension.AnnotationGangTotalNum`. -/
def AnnotationGangTotalNum : String := "gang.scheduling.koordinator.sh/total-number"

/-- Modelled from the spec: `extension.AnnotationGangWaitTime`. -/
def AnnotationGangWaitTime : String := "gang.scheduling.koordinator.sh/waiting-time"

/-- Modelled from the spec: `extension.AnnotationGangMode`. -/
def AnnotationGangMode : String := "gang.scheduling.koordinator.sh/mode"

/-- Modelled from the spec: `extension.AnnotationGangGroups`. -/
def AnnotationGangGroups : String := "gang.scheduling.koordinator.sh/groups"

/-- Modelled from the spec: `extension.GangModeStrict`. -/
def GangModeStrict : String := "StrictMode"

/-- Modelled from the spec: `extension.GangModeNonStrict`. -/
def GangModeNonStrict : String := "NonStrictMode"

/-- Modelled from the spec: `extension.GangMatchPolicyOnceSatisfied`, the single
supported match policy. -/
def GangMatchPolicyOnceSatisfied : String := "once-satisfied"

/-- Modelled from the spec: the provenance of a gang, `GangFromPodGroupCrd` or
`GangFromPodAnnotation`. -/
inductive GangFrom where
  | GangFromPodGroupCrd
  | GangFromPodAnnotation
deriving DecidableEq, Repr

/-- One second as a `time.Duration`, which counts nanoseconds. -/
def Second : Int := 1000000000

/-! ## Go maps -/

/-- A Go map with string keys: an association list that holds a key at most once. -/
abbrev GoMap (α : Type) := List (String × α)

/-- The assignment `m[k] = v`. -/
def GoMap.set {α : Type} (m : GoMap α) (k : String) (v : α) : GoMap α :=
  (k, v) :: m.filter (fun e => e.1 != k)

/-- The statement `delete(m, k)`. -/
def GoMap.del {α : Type} (m : GoMap α) (k : String) : GoMap α :=
  m.filter (fun e => e.1 != k)

/-- The keys of the map. -/
def GoMap.keys {α : Type} (m : GoMap α) : List String :=
  m.map Prod.fst

/-! ## Gangs and their group state -/

/-- Modelled from the spec: `GangGroupInfo`, the state shared by the gangs of one
gang group: its id, the gangs of the group and the two sticky flags. -/
structure GangGroupInfo where
  GangGroupId : String
  GangGroup : List String
  OnceResourceSatisfied : Bool
  Initialized : Bool
deriving DecidableEq, Repr

/-- Modelled from the spec: `NewGangGroupInfo`, a group state with both flags unset. -/
def NewGangGroupInfo (gangGroupId : String) (gangGroup : List String) : GangGroupInfo :=
  ⟨gangGroupId, gangGroup, false, false⟩

/-- The pointer of a gang to its group state: either an object of its own that
is not registered (the `NewGangGroupInfo("", nil)` of a fresh gang), or the
object registered under a group id in `gangGroupInfoMap`, shared with every
gang that points to the same id. -/
inductive GroupRef where
  | own (info : GangGroupInfo)
  | shared (gangGroupId : String)
deriving DecidableEq, Repr

/-- Modelled from the spec: `Gang`, with the fields the tests compare. The
children maps are keyed by `namespace/name` of the member. -/
structure Gang where
  Name : String
  WaitTime : Int
  CreateTime : Int
  Mode : String
  GangMatchPolicy : String
  MinRequiredNumber : Int
  TotalChildrenNum : Int
  GangGroupId : String
  GangGroup : List String
  GangGroupInfo : GroupRef
  Children : GoMap Pod
  PendingChildren : GoMap Pod
  WaitingForBindChildren : GoMap Pod
  BoundChildren : GoMap Pod
  HasGangInit : Bool
  GangFrom : GangFrom
deriving DecidableEq, Repr

/-- The collaborators of the cache that live outside the sources at hand: the
default timeout of the plugin arguments, the clock `timeNowFn`, the parsers of
the standard library (`strconv.ParseInt(s, 10, 32)`, `time.ParseDuration`), and
`util.StringToGangGroupSlice` and `util.GetGangGroupId`. A parser returns
`none` where the Go function returns an error. -/
structure Env where
  DefaultTimeout : Int
  timeNowFn : Int
  ParseInt : String → Option Int
  ParseDuration : String → Option Int
  StringToGangGroupSlice : String → Option (List String)
  GetGangGroupId : List String → String

/-- Modelled from the spec: `NewGang`, the placeholder created at the first event
that names an unseen gang, with the values the test of a member arriving
before its group resource expects: not initialised, provenance
`GangFromPodAnnotation`, the gang alone in its group, no wait time, strict mode,
a group state of its own and no children. -/
def NewGang (env : Env) (gangName : String) : Gang where
  Name := gangName
  WaitTime := 0
  CreateTime := env.timeNowFn
  Mode := GangModeStrict
  GangMatchPolicy := GangMatchPolicyOnceSatisfied
  MinRequiredNumber := 0
  TotalChildrenNum := 0
  GangGroupId := gangName
  GangGroup := [gangName]
  GangGroupInfo := GroupRef.own (NewGangGroupInfo "" [])
  Children := []
  PendingChildren := []
  WaitingForBindChildren := []
  BoundChildren := []
  HasGangInit := false
  GangFrom := GangFrom.GangFromPodAnnotation

/-- Modelled from the spec: `util.GetId`, the key `namespace/name` of the cache. -/
def GetId (ns name : String) : String :=
  ns ++ "/" ++ name

/-- Modelled from the spec: `util.GetGangNameByPod`, the gang a member names: by
the label of the group resource if present, else by the member-level
declaration (the lightweight label or the annotation); the empty string when
the member names no gang. -/
def GetGangNameByPod (pod : Pod) : String :=
  let byLabel := mapGet pod.Labels PodGroupLabel
  if byLabel != "" then byLabel
  else
    let byLightweight := mapGet pod.Labels LabelLightweightCoschedulingPodGroupName
    if byLightweight != "" then byLightweight
    else mapGet pod.Annotations AnnotationGangName

/-- Modelled from the spec: `util.GetGangMinNumFromPod`, the minimum number a
member declares: the lightweight label if present, else the annotation. -/
def GetGangMinNumFromPod (env : Env) (pod : Pod) : Option Int :=
  let byLightweight := mapGet pod.Labels LabelLightweightCoschedulingPodGroupMinAvailable
  if byLightweight != "" then env.ParseInt byLightweight
  else env.ParseInt (mapGet pod.Annotations AnnotationGangMinNum)

/-! ## The cache -/

/-- Modelled from the spec: `GangCache`, the registry of the gangs by gang id and
of the group states by group id. The third component is the state of the
collaborator the cache writes to: the group resources held by the API server
behind `pgClient`, by `namespace/name`. -/
structure GangCache where
  gangItems : GoMap Gang
  gangGroupInfoMap : GoMap GangGroupInfo
  podGroups : GoMap PodGroup
deriving DecidableEq, Repr

/-- Modelled from the spec: `NewGangCache`, the empty registry, here over an API
server that holds the given group resources. -/
def NewGangCache (podGroups : GoMap PodGroup) : GangCache :=
  ⟨[], [], podGroups⟩

/-- Modelled from the spec: `getGangFromCacheByGangId`, the lookup of a gang by its
id, creating the placeholder `NewGang` when asked to. -/
def GangCache.getGangFromCacheByGangId (env : Env) (c : GangCache) (gangId : String)
    (createIfNotExist : Bool) : Option Gang × GangCache :=
  match c.gangItems.lookup gangId with
  | some gang => (some gang, c)
  | none =>
    if createIfNotExist then
      (some (NewGang env gangId), { c with gangItems := c.gangItems.set gangId (NewGang env gangId) })
    else (none, c)

/-- Modelled from the spec: `getGangGroupInfo`, which returns the shared object
registered under the group id or, if asked to create it, constructs and
registers a new one with the given membership, and returns nothing and does
not register when the id is absent and it is not asked to create. -/
def GangCache.getGangGroupInfo (c : GangCache) (gangGroupId : String) (gangGroup : List String)
    (createIfNotExist : Bool) : Option GangGroupInfo × GangCache :=
  match c.gangGroupInfoMap.lookup gangGroupId with
  | some info => (some info, c)
  | none =>
    if createIfNotExist then
      let info := NewGangGroupInfo gangGroupId gangGroup
      (some info, { c with gangGroupInfoMap := c.gangGroupInfoMap.set gangGroupId info })
    else (none, c)

/-- Modelled from the spec: `deleteGangGroupInfo`, which removes the entry of the
group id from the registry. -/
def GangCache.deleteGangGroupInfo (c : GangCache) (gangGroupId : String) : GangCache :=
  { c with gangGroupInfoMap := c.gangGroupInfoMap.del gangGroupId }

/-- The group state a gang points to, if it is there. -/
def GangCache.groupInfoOf (c : GangCache) (gang : Gang) : Option GangGroupInfo :=
  match gang.GangGroupInfo with
  | GroupRef.own info => some info
  | GroupRef.shared gangGroupId => c.gangGroupInfoMap.lookup gangGroupId

/-- Modelled from the spec: releasing a reference to a group state, which deletes
the registered object when no gang of the registry points to it any more. -/
def GangCache.releaseGangGroupInfo (c : GangCache) (ref : GroupRef) : GangCache :=
  match ref with
  | GroupRef.own _ => c
  | GroupRef.shared gangGroupId =>
    if c.gangItems.any (fun e => e.2.GangGroupInfo == GroupRef.shared gangGroupId) then c
    else c.deleteGangGroupInfo gangGroupId

/-- Modelled from the spec: storing a gang whose configuration is established and
attaching it to the group state of its group id (create-or-get), detaching it
from the group state it pointed to before when that is another one. -/
def GangCache.attachGangGroupInfo (c : GangCache) (gangId : String) (gang : Gang) : GangCache :=
  let gang1 : Gang := { gang with GangGroupInfo := GroupRef.shared gang.GangGroupId }
  let c1 : GangCache := { c with gangItems := c.gangItems.set gangId gang1 }
  let c2 :=
    if gang.GangGroupInfo == GroupRef.shared gang.GangGroupId then c1
    else c1.releaseGangGroupInfo gang.GangGroupInfo
  (c2.getGangGroupInfo gang.GangGroupId gang.GangGroup true).2

/-- Modelled from the spec: the latch `OnceResourceSatisfied` of the group state of
a gang, set when a member arrives that is already placed. -/
def GangCache.setResourceSatisfied (c : GangCache) (gangId : String) : GangCache :=
  match c.gangItems.lookup gangId with
  | none => c
  | some gang =>
    match gang.GangGroupInfo with
    | GroupRef.own info =>
      let info1 : GangGroupInfo := { info with OnceResourceSatisfied := true }
      let gang1 : Gang := { gang with GangGroupInfo := GroupRef.own info1 }
      { c with gangItems := c.gangItems.set gangId gang1 }
    | GroupRef.shared gangGroupId =>
      match c.gangGroupInfoMap.lookup gangGroupId with
      | none => c
      | some info =>
        let info1 : GangGroupInfo := { info with OnceResourceSatisfied := true }
        { c with gangGroupInfoMap := c.gangGroupInfoMap.set gangGroupId info1 }

/-! ## Parsing the declarations -/

/-- Modelled from the spec: the mode of a declaration, `Strict` unless it is one of
the two known modes. -/
def parseMode (mode : String) : String :=
  if mode != GangModeStrict && mode != GangModeNonStrict then GangModeStrict else mode

/-- Modelled from the spec: the total number of a declaration, the minimum when it
does not parse or lies below the minimum. -/
def parseTotalNum (env : Env) (total : String) (minRequiredNumber : Int) : Int :=
  match env.ParseInt total with
  | none => minRequiredNumber
  | some t => if t < minRequiredNumber then minRequiredNumber else t

/-- Modelled from the spec: the wait time of a member-level declaration, the default
timeout when it does not parse or is not positive. -/
def parseWaitTime (env : Env) (waitTime : String) : Int :=
  match env.ParseDuration waitTime with
  | none => env.DefaultTimeout
  | some w => if w ≤ 0 then env.DefaultTimeout else w

/-- Modelled from the spec: the group list of a declaration, the gang alone when
the list is malformed or empty. -/
def parseGangGroup (env : Env) (groups : String) (gangName : String) : List String :=
  match env.StringToGangGroupSlice groups with
  | none => [gangName]
  | some l => if l.isEmpty then [gangName] else l

/-- Modelled from the spec: `tryInitByPodConfig`, the first-writer-wins
initialisation of a gang by the declaration of a member. Nothing happens when
the gang is initialised already. As the tests have it (a member with an
illegal minimum number leaves the gang to the next member), a declaration
whose minimum number does not parse initialises nothing; every other field
falls back to its default on its own. The result tells whether the gang was
initialised by this call. -/
def Gang.tryInitByPodConfig (env : Env) (gang : Gang) (pod : Pod) : Gang × Bool :=
  if gang.HasGangInit then (gang, false)
  else
    match GetGangMinNumFromPod env pod with
    | none => (gang, false)
    | some minRequiredNumber =>
      let gangGroup := parseGangGroup env (mapGet pod.Annotations AnnotationGangGroups) gang.Name
      ({ gang with
          MinRequiredNumber := minRequiredNumber
          TotalChildrenNum :=
            parseTotalNum env (mapGet pod.Annotations AnnotationGangTotalNum) minRequiredNumber
          Mode := parseMode (mapGet pod.Annotations AnnotationGangMode)
          WaitTime := parseWaitTime env (mapGet pod.Annotations AnnotationGangWaitTime)
          GangGroup := gangGroup
          GangGroupId := env.GetGangGroupId gangGroup
          HasGangInit := true }, true)

/-- Modelled from the spec: `tryInitByPodGroup`, the authoritative configuration of
a gang from its group resource: minimum members, wait timeout falling back to
the configured default, mode, group list falling back to the gang alone;
the gang is initialised and its provenance is the group resource. -/
def Gang.tryInitByPodGroup (env : Env) (gang : Gang) (pg : PodGroup) : Gang :=
  let gangGroup := parseGangGroup env (mapGet pg.Annotations AnnotationGangGroups) gang.Name
  { gang with
    MinRequiredNumber := pg.MinMember
    TotalChildrenNum := parseTotalNum env (mapGet pg.Annotations AnnotationGangTotalNum) pg.MinMember
    Mode := parseMode (mapGet pg.Annotations AnnotationGangMode)
    WaitTime :=
      match pg.ScheduleTimeoutSeconds with
      | some seconds => seconds * Second
      | none => env.DefaultTimeout
    GangGroup := gangGroup
    GangGroupId := env.GetGangGroupId gangGroup
    HasGangInit := true
    GangFrom := GangFrom.GangFromPodGroupCrd }

/-! ## Membership -/

/-- Modelled from the spec: adding a member to `Children` and to the partition its
state asks for, `BoundChildren` when it carries a node name and
`PendingChildren` otherwise; it is a move, the member leaves the other
partitions. -/
def Gang.setChild (gang : Gang) (pod : Pod) : Gang :=
  let podId := GetId pod.Namespace pod.Name
  if pod.NodeName != "" then
    { gang with
      Children := gang.Children.set podId pod
      BoundChildren := gang.BoundChildren.set podId pod
      PendingChildren := gang.PendingChildren.del podId
      WaitingForBindChildren := gang.WaitingForBindChildren.del podId }
  else
    { gang with
      Children := gang.Children.set podId pod
      PendingChildren := gang.PendingChildren.set podId pod
      BoundChildren := gang.BoundChildren.del podId
      WaitingForBindChildren := gang.WaitingForBindChildren.del podId }

/-- Modelled from the spec: removing a member from `Children` and from its
partition. -/
def Gang.deletePod (gang : Gang) (pod : Pod) : Gang :=
  let podId := GetId pod.Namespace pod.Name
  { gang with
    Children := gang.Children.del podId
    PendingChildren := gang.PendingChildren.del podId
    WaitingForBindChildren := gang.WaitingForBindChildren.del podId
    BoundChildren := gang.BoundChildren.del podId }

/-- Modelled from the spec: the group resource created as a side effect for a gang
that a member has initialised. The spec names the side effect only; the object
carries the identity of the gang, its minimum number and its wait time. -/
def podGroupOfGang (pod : Pod) (gangName : String) (gang : Gang) : PodGroup :=
  ⟨pod.Namespace, gangName, [], gang.MinRequiredNumber, some (gang.WaitTime / Second)⟩

/-! ## The event handlers -/

/-- Modelled from the spec: `onPodAdd`. The gang the member names is looked up or
created as a placeholder; a member-level declaration initialises a gang that
is not initialised yet; the member is added to `Children` and to its
partition; an initialised gang is attached to the group state of its group id,
while a placeholder keeps a group state of its own (after a member that
arrives before its group resource the tests find the registry of group states
empty); a member that is already placed sets the latch of the group state;
and the group resource is created for a gang this member has initialised. A
member that names no gang changes nothing. -/
def GangCache.onPodAdd (env : Env) (c : GangCache) (pod : Pod) : GangCache :=
  let gangName := GetGangNameByPod pod
  if gangName == "" then c
  else
    let gangId := GetId pod.Namespace gangName
    match c.getGangFromCacheByGangId env gangId true with
    | (none, _) => c
    | (some gang, c1) =>
      let init :=
        if mapGet pod.Labels PodGroupLabel == "" then gang.tryInitByPodConfig env pod
        else (gang, false)
      let gang1 := init.1.setChild pod
      let c2 : GangCache :=
        if gang1.HasGangInit then c1.attachGangGroupInfo gangId gang1
        else { c1 with gangItems := c1.gangItems.set gangId gang1 }
      let c3 := if pod.NodeName != "" then c2.setResourceSatisfied gangId else c2
      if init.2 && (c3.podGroups.lookup gangId).isNone then
        { c3 with podGroups := c3.podGroups.set gangId (podGroupOfGang pod gangName gang1) }
      else c3

/-- Modelled from the spec: `onPodUpdate`, which re-derives the partition of the
member from its new state and does nothing when the member is known and in
that partition already; otherwise it treats the new state as `onPodAdd` does. -/
def GangCache.onPodUpdate (env : Env) (c : GangCache) (_oldPod newPod : Pod) : GangCache :=
  let gangId := GetId newPod.Namespace (GetGangNameByPod newPod)
  let podId := GetId newPod.Namespace newPod.Name
  match c.gangItems.lookup gangId with
  | none => c.onPodAdd env newPod
  | some gang =>
    let target := if newPod.NodeName != "" then gang.BoundChildren else gang.PendingChildren
    if GetGangNameByPod newPod != "" && (gang.Children.lookup podId).isSome
        && (target.lookup podId).isSome then c
    else c.onPodAdd env newPod

/-- Modelled from the spec: `onPodDelete`, which removes the member from `Children`
and from its partition and, when no child is left and the provenance of the
gang is the member annotation, deletes the gang, releases its group state and
deletes the group resource of its name. -/
def GangCache.onPodDelete (c : GangCache) (pod : Pod) : GangCache :=
  let gangName := GetGangNameByPod pod
  if gangName == "" then c
  else
    let gangId := GetId pod.Namespace gangName
    match c.gangItems.lookup gangId with
    | none => c
    | some gang =>
      let gang1 := gang.deletePod pod
      if gang1.Children.isEmpty && gang1.GangFrom == GangFrom.GangFromPodAnnotation then
        let c1 : GangCache := { c with gangItems := c.gangItems.del gangId }
        let c2 := c1.releaseGangGroupInfo gang1.GangGroupInfo
        { c2 with podGroups := c2.podGroups.del gangId }
      else { c with gangItems := c.gangItems.set gangId gang1 }

/-- Modelled from the spec: `onPodGroupAdd`, which parses the authoritative
configuration into the gang, creating it if absent, and attaches it to the
group state of its group id. -/
def GangCache.onPodGroupAdd (env : Env) (c : GangCache) (pg : PodGroup) : GangCache :=
  let gangId := GetId pg.Namespace pg.Name
  match c.getGangFromCacheByGangId env gangId true with
  | (none, _) => c
  | (some gang, c1) => c1.attachGangGroupInfo gangId (gang.tryInitByPodGroup env pg)

/-- Modelled from the spec: `onPodGroupUpdate`, which mutates the fields of the live
gang from the new group resource and moves it to the group state of its new
group id when the group list changed. -/
def GangCache.onPodGroupUpdate (env : Env) (c : GangCache) (_oldPg newPg : PodGroup) :
    GangCache :=
  let gangId := GetId newPg.Namespace newPg.Name
  match c.gangItems.lookup gangId with
  | none => c
  | some gang => c.attachGangGroupInfo gangId (gang.tryInitByPodGroup env newPg)

/-- Modelled from the spec: `onPodGroupDelete`, which deletes the gang whose
provenance is the group resource and releases its group state. As the tests
have it (the placeholder made by `getGangFromCacheByGangId` is gone after the
event), a gang that is not initialised is deleted as well. -/
def GangCache.onPodGroupDelete (c : GangCache) (pg : PodGroup) : GangCache :=
  let gangId := GetId pg.Namespace pg.Name
  match c.gangItems.lookup gangId with
  | none => c
  | some gang =>
    if gang.GangFrom == GangFrom.GangFromPodGroupCrd || !gang.HasGangInit then
      let c1 : GangCache := { c with gangItems := c.gangItems.del gangId }
      c1.releaseGangGroupInfo gang.GangGroupInfo
    else c

/-- The events of the two streams the cache listens to. -/
inductive Event where
  | podAdd (pod : Pod)
  | podUpdate (oldPod newPod : Pod)
  | podDelete (pod : Pod)
  | podGroupAdd (pg : PodGroup)
  | podGroupUpdate (oldPg newPg : PodGroup)
  | podGroupDelete (pg : PodGroup)
deriving DecidableEq, Repr

/-- The handler of one event. -/
def GangCache.handle (env : Env) (c : GangCache) : Event → GangCache
  | Event.podAdd pod => c.onPodAdd env pod
  | Event.podUpdate oldPod newPod => c.onPodUpdate env oldPod newPod
  | Event.podDelete pod => c.onPodDelete pod
  | Event.podGroupAdd pg => c.onPodGroupAdd env pg
  | Event.podGroupUpdate oldPg newPg => c.onPodGroupUpdate env oldPg newPg
  | Event.podGroupDelete pg => c.onPodGroupDelete pg

/-- The cache after a sequence of events, delivered in order. -/
def GangCache.run (env : Env) (c : GangCache) (events : List Event) : GangCache :=
  events.foldl (fun c1 ev => c1.handle env ev) c

/-! ## A concrete environment, to evaluate the model on the inputs of the tests -/

/-- The value of a decimal digit. -/
def digitValue (c : Char) : Option Nat :=
  [('0', 0), ('1', 1), ('2', 2), ('3', 3), ('4', 4), ('5', 5), ('6', 6), ('7', 7), ('8', 8),
    ('9', 9)].lookup c

/-- The number written by a list of decimal digits, continuing from `acc`. -/
def digitsToNat : List Char → Nat → Option Nat
  | [], acc => some acc
  | c :: cs, acc =>
    match digitValue c with
    | none => none
    | some d => digitsToNat cs (acc * 10 + d)

/-- A non-empty list of decimal digits as a number. -/
def parseNat (cs : List Char) : Option Nat :=
  if cs.isEmpty then none else digitsToNat cs 0

/-- An instance of `strconv.ParseInt(s, 10, 32)`: an optional minus sign and
decimal digits, within 32 bits. -/
def exampleParseInt (s : String) : Option Int :=
  let r : Option Int :=
    match s.data with
    | '-' :: cs => (parseNat cs).map (fun n => -(n : Int))
    | cs => (parseNat cs).map (fun n => (n : Int))
  match r with
  | none => none
  | some n => if -2147483648 ≤ n ∧ n ≤ 2147483647 then some n else none

/-- The leading decimal digits of a list and the rest. -/
def spanDigits : List Char → List Char × List Char
  | [] => ([], [])
  | c :: cs =>
    if (digitValue c).isSome then ((c :: (spanDigits cs).1), (spanDigits cs).2)
    else ([], c :: cs)

/-- The units of the durations the instance reads. -/
def unitValue (u : List Char) : Option Int :=
  [(['s'], Second), (['m'], 60 * Second), (['h'], 3600 * Second), (['m', 's'], 1000000)].lookup u

/-- An unsigned duration: decimal digits and one unit. -/
def parseUnsignedDuration (cs : List Char) : Option Int :=
  match parseNat (spanDigits cs).1, unitValue (spanDigits cs).2 with
  | some n, some u => some ((n : Int) * u)
  | _, _ => none

/-- An instance of `time.ParseDuration` for durations of one whole number and one
unit, with an optional sign, and for the bare `0`. -/
def exampleParseDuration (s : String) : Option Int :=
  if s == "0" then some 0
  else
    match s.data with
    | '-' :: cs => (parseUnsignedDuration cs).map (fun d => -d)
    | '+' :: cs => parseUnsignedDuration cs
    | cs => parseUnsignedDuration cs

/-- The characters up to the next double quote and the characters after it. -/
def untilQuote : List Char → Option (List Char × List Char)
  | [] => none
  | c :: cs =>
    if c == '"' then some ([], cs)
    else (untilQuote cs).map (fun r => (c :: r.1, r.2))

/-- The quoted strings of a JSON array after its opening bracket, each followed
by a comma or by the closing bracket that ends the text. -/
def parseQuoted : Nat → List Char → Option (List String)
  | 0, _ => none
  | fuel + 1, cs =>
    match cs with
    | '"' :: rest =>
      match untilQuote rest with
      | none => none
      | some (item, after) =>
        match after with
        | [']'] => some [String.mk item]
        | ',' :: more => (parseQuoted fuel more).map (fun l => String.mk item :: l)
        | _ => none
    | _ => none

/-- An instance of `util.StringToGangGroupSlice`: a JSON array of strings without
blanks and escapes. -/
def exampleGangGroupSlice (s : String) : Option (List String) :=
  match s.data with
  | ['[', ']'] => some []
  | '[' :: rest => parseQuoted rest.length rest
  | _ => none

/-- The environment of the tests: a default timeout of ten minutes, the clock
at zero, the parsers above, and the group id as the gang ids joined by commas. -/
def exampleEnv : Env where
  DefaultTimeout := 600 * Second
  timeNowFn := 0
  ParseInt := exampleParseInt
  ParseDuration := exampleParseDuration
  StringToGangGroupSlice := exampleGangGroupSlice
  GetGangGroupId := fun l => ",".intercalate l

/-- The member of the tests that refers to the group resource `test` by label. -/
def crdPod : Pod := ⟨"default", "crdPod", [(PodGroupLabel, "test")], [], ""⟩

/-- The member `pod1` of the tests: it declares the gang `ganga` and is placed on
the node `nba`. -/
def pod1 : Pod :=
  ⟨"default", "pod1", [],
    [(AnnotationGangName, "ganga"), (AnnotationGangMinNum, "2"),
      (AnnotationGangWaitTime, "30s"), (AnnotationGangMode, GangModeNonStrict),
      (AnnotationGangGroups, "[\"default/ganga\",\"default/gangb\"]")], "nba"⟩

/-- The member `pod2` of the tests: it names `ganga` with another declaration. -/
def pod2 : Pod :=
  ⟨"default", "pod2", [],
    [(AnnotationGangName, "ganga"), (AnnotationGangMinNum, "7"),
      (AnnotationGangWaitTime, "3000s"),
      (AnnotationGangGroups, "[\"default/gangc\",\"default/gangd\"]")], ""⟩

/-- The member `pod3` of the tests: it names `gangb` with an illegal minimum. -/
def pod3 : Pod :=
  ⟨"default", "pod3", [], [(AnnotationGangName, "gangb"), (AnnotationGangMinNum, "xxx")], ""⟩

/-- The member `pod4` of the tests: it names `gangb` with a legal minimum and
illegal values for the other fields. -/
def pod4 : Pod :=
  ⟨"default", "pod4", [],
    [(AnnotationGangName, "gangb"), (AnnotationGangMinNum, "2"), (AnnotationGangTotalNum, "1"),
      (AnnotationGangMode, "WenShiqi222"), (AnnotationGangWaitTime, "WenShiqi222"),
      (AnnotationGangGroups, "ganga,gangx")], ""⟩

/-- The member `pod5` of the tests: a wait time of zero and a malformed group list. -/
def pod5 : Pod :=
  ⟨"default", "pod5", [],
    [(AnnotationGangName, "gangc"), (AnnotationGangMinNum, "0"), (AnnotationGangWaitTime, "0"),
      (AnnotationGangGroups, "[a,b]")], ""⟩

/-- The member `pod6` of the tests: a negative wait time. -/
def pod6 : Pod :=
  ⟨"default", "pod6", [],
    [(AnnotationGangName, "gangd"), (AnnotationGangMinNum, "0"),
      (AnnotationGangWaitTime, "-20s"), (AnnotationGangGroups, "[a,b]")], ""⟩

/-- A member that names the gang `gangA` and declares nothing else. -/
def namePod (name : String) : Pod :=
  ⟨"default", name, [], [(AnnotationGangName, "gangA")], ""⟩

/-- A member that refers to the group resource `gangB` by label. -/
def labelPod (name : String) : Pod :=
  ⟨"default", name, [(PodGroupLabel, "gangB")], [], ""⟩

/-- The group resource `gangB` of the tests: four members, ten seconds. -/
def podGroupB : PodGroup := ⟨"default", "gangB", [], 4, some 10⟩

/-- The group resource `gangA` of the tests with legal annotations. -/
def podGroupA : PodGroup :=
  ⟨"default", "gangA",
    [(AnnotationGangMode, GangModeNonStrict),
      (AnnotationGangGroups, "[\"default/gangA\",\"default/gangB\"]")], 2, some 300⟩

/-- The group resource `gangA` of the tests with illegal annotations. -/
def podGroupIllegal : PodGroup :=
  ⟨"default", "gangA",
    [(AnnotationGangMode, "WenShiqi222"), (AnnotationGangGroups, "a,b"),
      (AnnotationGangTotalNum, "2")], 4, some 300⟩

/-- A group resource `gangA` whose timeout is set to zero seconds. -/
def podGroupZeroTimeout : PodGroup := ⟨"default", "gangA", [], 4, some 0⟩

/-- The group resource `ganga` of the tests: two members, no timeout. -/
def podGroupGanga : PodGroup :=
  ⟨"default", "ganga", [(AnnotationGangMode, GangModeNonStrict)], 2, none⟩

/-- A member placed on `nba` that refers to the group resource `ganga` by label. -/
def gangaBoundPod : Pod := ⟨"default", "pod1", [(PodGroupLabel, "ganga")], [], "nba"⟩

/-- A member not yet placed that refers to the group resource `ganga` by label. -/
def gangaPendingPod : Pod := ⟨"default", "pod2", [(PodGroupLabel, "ganga")], [], ""⟩

/-! ## Vocabulary of the claims on the cache -/

/-- The gang with its pointer to the group state replaced. -/
def Gang.withGroupRef (gang : Gang) (ref : GroupRef) : Gang :=
  { gang with GangGroupInfo := ref }

/-- The gang a handler works on: the gang of the registry, or the placeholder
it creates when the gang is unseen. -/
def GangCache.gangOrNew (env : Env) (c : GangCache) (gangId : String) : Gang :=
  (c.gangItems.lookup gangId).getD (NewGang env gangId)

/-- The member carries a member-level declaration that parses: it does not refer
to a group resource by label and its minimum number parses. -/
def declares (env : Env) (pod : Pod) : Bool :=
  mapGet pod.Labels PodGroupLabel == "" && (GetGangMinNumFromPod env pod).isSome

/-- The key of a member in the children maps. -/
def podKey (pod : Pod) : String :=
  GetId pod.Namespace pod.Name

/-- The gang id a member names. -/
def gangIdOf (pod : Pod) : String :=
  GetId pod.Namespace (GetGangNameByPod pod)

/-- The children of a gang are partitioned: the keys of `Children` are the keys of
the three partitions together, and no key is in two partitions. -/
def Gang.Partitioned (gang : Gang) : Prop :=
  (∀ k, k ∈ gang.Children.keys ↔
      (k ∈ gang.PendingChildren.keys ∨ k ∈ gang.WaitingForBindChildren.keys ∨
        k ∈ gang.BoundChildren.keys)) ∧
    (∀ k, ¬ (k ∈ gang.PendingChildren.keys ∧ k ∈ gang.WaitingForBindChildren.keys)) ∧
    (∀ k, ¬ (k ∈ gang.PendingChildren.keys ∧ k ∈ gang.BoundChildren.keys)) ∧
    (∀ k, ¬ (k ∈ gang.WaitingForBindChildren.keys ∧ k ∈ gang.BoundChildren.keys))

/-- The configuration of a gang: wait time, mode, minimum number, total number
and gang group. -/
def Gang.config (gang : Gang) : Int × String × Int × Int × List String :=
  (gang.WaitTime, gang.Mode, gang.MinRequiredNumber, gang.TotalChildrenNum, gang.GangGroup)

/-- The gang that the declaration of a member makes of the placeholder of an
unseen gang. -/
def declaredGang (env : Env) (gangId : String) (pod : Pod) : Gang :=
  ((NewGang env gangId).tryInitByPodConfig env pod).1

/-- The fallbacks of the specification for the fields of a declaration that are
read from annotations, each on its own: the mode is the declared one when it
is one of the two known modes and `Strict` otherwise; the total number is the
declared one when it parses and is not below the minimum, and the minimum
otherwise; the gang group is the declared list when it parses and is not
empty, and the gang alone otherwise. -/
def FallsBackByField (env : Env) (annotations : List (String × String)) (gangName : String)
    (minRequiredNumber : Int) (g : Gang) : Prop :=
  ((mapGet annotations AnnotationGangMode = GangModeStrict ∨
        mapGet annotations AnnotationGangMode = GangModeNonStrict) →
      g.Mode = mapGet annotations AnnotationGangMode) ∧
    ((mapGet annotations AnnotationGangMode ≠ GangModeStrict ∧
        mapGet annotations AnnotationGangMode ≠ GangModeNonStrict) →
      g.Mode = GangModeStrict) ∧
    (∀ t, env.ParseInt (mapGet annotations AnnotationGangTotalNum) = some t →
      minRequiredNumber ≤ t → g.TotalChildrenNum = t) ∧
    ((env.ParseInt (mapGet annotations AnnotationGangTotalNum) = none ∨
        ∃ t, env.ParseInt (mapGet annotations AnnotationGangTotalNum) = some t ∧
          t < minRequiredNumber) →
      g.TotalChildrenNum = minRequiredNumber) ∧
    (∀ l, env.StringToGangGroupSlice (mapGet annotations AnnotationGangGroups) = some l →
      l ≠ [] → g.GangGroup = l) ∧
    ((env.StringToGangGroupSlice (mapGet annotations AnnotationGangGroups) = none ∨
        env.StringToGangGroupSlice (mapGet annotations AnnotationGangGroups) = some []) →
      g.GangGroup = [gangName])

/-- The fallback of the specification for the wait time of a member-level
declaration: the declared duration when it parses and is positive, the
default timeout otherwise. -/
def WaitTimeFallsBack (env : Env) (annotations : List (String × String)) (g : Gang) : Prop :=
  (∀ w, env.ParseDuration (mapGet annotations AnnotationGangWaitTime) = some w → 0 < w →
      g.WaitTime = w) ∧
    ((env.ParseDuration (mapGet annotations AnnotationGangWaitTime) = none ∨
        ∃ w, env.ParseDuration (mapGet annotations AnnotationGangWaitTime) = some w ∧ w ≤ 0) →
      g.WaitTime = env.DefaultTimeout)

/-- The registry of group states agrees with the gangs: both registries hold a
key once; an initialised gang points to the registered group state of the id
of its gang group, which is its group id; a gang that is not initialised has
a group state of its own; a group id is registered exactly when a gang of the
cache points to it; and a registered group state carries the id it is
registered under. -/
structure GroupsConsistent (env : Env) (c : GangCache) : Prop where
  gangKeys : c.gangItems.keys.Nodup
  groupKeys : c.gangGroupInfoMap.keys.Nodup
  initialised : ∀ gid g, List.lookup gid c.gangItems = some g → g.HasGangInit = true →
    g.GangGroupInfo = GroupRef.shared (env.GetGangGroupId g.GangGroup) ∧
      g.GangGroupId = env.GetGangGroupId g.GangGroup
  placeholder : ∀ gid g, List.lookup gid c.gangItems = some g → g.HasGangInit = false →
    ∃ info, g.GangGroupInfo = GroupRef.own info
  registered : ∀ id, (∃ info, List.lookup id c.gangGroupInfoMap = some info) ↔
    ∃ gid g, List.lookup gid c.gangItems = some g ∧ g.GangGroupInfo = GroupRef.shared id
  groupId : ∀ id info, List.lookup id c.gangGroupInfoMap = some info → info.GangGroupId = id

/-! ## Concrete caches for the examples -/

/-- The gang `ganga` with the member `pod2` waiting to be bound. -/
def waitingGang : Gang :=
  { NewGang exampleEnv "default/ganga" with
    Children := [("default/pod2", pod2)]
    WaitingForBindChildren := [("default/pod2", pod2)] }

/-- A cache that holds the gang `ganga` with a member waiting to be bound. -/
def waitingCache : GangCache :=
  ⟨[("default/ganga", waitingGang)], [], []⟩

/-- Events of both streams on the gang `ganga`. -/
def mixedEvents : List Event :=
  [Event.podAdd pod1, Event.podUpdate pod2 pod2, Event.podGroupAdd podGroupGanga,
    Event.podDelete pod1, Event.podGroupUpdate podGroupGanga podGroupGanga,
    Event.podAdd gangaPendingPod]

/-- The cache of the tests after the members `pod1` and `pod2` were added. -/
def gangaCache : GangCache :=
  (NewGangCache []).run exampleEnv [Event.podAdd pod1, Event.podAdd pod2]

/-- The gang `ganga` of that cache. -/
def gangaGang : Gang :=
  gangaCache.gangOrNew exampleEnv "default/ganga"

/-- The cache of the tests after the group resource `gangB` was created and
added and its two members arrived. -/
def gangBCache : GangCache :=
  (NewGangCache [("default/gangB", podGroupB)]).run exampleEnv
    [Event.podGroupAdd podGroupB, Event.podAdd (labelPod "pod5"), Event.podAdd (labelPod "pod6")]

/-- The gang `gangB` of that cache. -/
def gangBGang : Gang :=
  gangBCache.gangOrNew exampleEnv "default/gangB"

/-- The cache of the tests with the placeholder of the gang `ganga`, made by a
lookup that creates it. -/
def placeholderCache : GangCache :=
  ((NewGangCache []).getGangFromCacheByGangId exampleEnv "default/ganga" true).2

/-- The bare group resource `ganga` of the tests. -/
def podGroupBare : PodGroup := ⟨"default", "ganga", [], 0, none⟩

/-- A member that names `gangb` with an illegal minimum next to a legal mode and
a legal wait time. -/
def pod3Legal : Pod :=
  ⟨"default", "pod3", [],
    [(AnnotationGangName, "gangb"), (AnnotationGangMinNum, "xxx"),
      (AnnotationGangMode, GangModeNonStrict), (AnnotationGangWaitTime, "30s")], ""⟩

end Coscheduling

/-! # Theorems -/

namespace ElasticQuota


section Basic
variable {σ : Type}

/-! ## The log of bookkeeping calls -/

theorem cleanExt_refl (t : List Call) : CleanExt t t := ⟨[], by simp, by simp⟩

theorem cleanExt_trans {t t1 t2 : List Call} (h1 : CleanExt t t1) (h2 : CleanExt t1 t2) :
    CleanExt t t2 := by
  obtain ⟨e1, rfl, h1⟩ := h1
  obtain ⟨e2, rfl, h2⟩ := h2
  refine ⟨e1 ++ e2, by simp, ?_⟩
  intro x hx
  rcases List.mem_append.1 hx with hx | hx
  · exact h1 x hx
  · exact h2 x hx

theorem cleanExt_fail {t t1 t2 : List Call} (h1 : CleanExt t t1) (h2 : FailExt t1 t2) :
    FailExt t t2 := by
  obtain ⟨e1, rfl, h1⟩ := h1
  obtain ⟨e2, c, rfl, h2, hc⟩ := h2
  refine ⟨e1 ++ e2, c, by simp, ?_, hc⟩
  intro x hx
  rcases List.mem_append.1 hx with hx | hx
  · exact h1 x hx
  · exact h2 x hx

theorem traceExt_trans {eo : Option String} {t t1 t2 : List Call} (h1 : CleanExt t t1)
    (h2 : TraceExt eo t1 t2) : TraceExt eo t t2 := by
  cases eo with
  | none => exact cleanExt_trans h1 h2
  | some e => exact cleanExt_fail h1 h2

theorem traceExt_snoc (t : List Call) (c : Call) (eo : Option String) (h : c.err = eo) :
    TraceExt eo t (t ++ [c]) := by
  cases eo with
  | none => exact ⟨[c], rfl, by simpa using h⟩
  | some e => exact ⟨[], c, by simp, by simp, by simp [h]⟩

theorem removePod_trace (g : Plugin σ) (pod : Pod) (rpi : PodInfo) (s : Sim σ) :
    TraceExt (removePod g pod rpi s).1 s.trace (removePod g pod rpi s).2.trace := by
  unfold removePod
  split
  · exact traceExt_snoc _ _ _ rfl
  · dsimp only
    split
    · exact traceExt_snoc _ _ _ rfl
    · exact traceExt_snoc _ _ _ rfl

theorem addPod_trace (g : Plugin σ) (pod : Pod) (api : PodInfo) (s : Sim σ) :
    TraceExt (addPod g pod api s).1 s.trace (addPod g pod api s).2.trace := by
  unfold addPod
  dsimp only
  split
  · exact traceExt_snoc _ _ _ rfl
  · exact traceExt_snoc _ _ _ rfl

theorem removePod_trace_of_eq {g : Plugin σ} {pod : Pod} {rpi : PodInfo} {s s1 : Sim σ}
    {eo : Option String} (h : removePod g pod rpi s = (eo, s1)) : TraceExt eo s.trace s1.trace := by
  have := removePod_trace g pod rpi s
  rwa [h] at this

theorem addPod_trace_of_eq {g : Plugin σ} {pod : Pod} {api : PodInfo} {s s1 : Sim σ}
    {eo : Option String} (h : addPod g pod api s = (eo, s1)) : TraceExt eo s.trace s1.trace := by
  have := addPod_trace g pod api s
  rwa [h] at this

/-! ## One call of `reprievePod` -/

theorem reprievePod_step (g : Plugin σ) (pod : Pod) (pi : PodInfo) (victims : List Pod)
    (s : Sim σ) : ReprieveStep g pod pi victims s (reprievePod g pod pi victims s) := by
  unfold reprievePod
  rcases hA : addPod g pod pi s with ⟨eo, s1⟩
  cases eo with
  | some e => exact ReprieveStep.addFailed e s1 hA
  | none =>
    dsimp only
    cases hfit : (g.handle.RunFilterPluginsWithNominatedPods s1.state pod s1.nodeInfo).IsSuccess with
    | true =>
      simp only [Bool.not_true, Bool.false_eq_true, if_false]
      cases hq : quotaFits g pod s1.state with
      | true =>
        simp only [Bool.not_true, Bool.false_eq_true, if_false]
        exact ReprieveStep.kept s1 hA hfit hq
      | false =>
        simp only [Bool.not_false, if_true]
        rcases hR : removePod g pod pi s1 with ⟨eo2, s3⟩
        cases eo2 with
        | some e => exact ReprieveStep.quotaRemoveFailed s1 e s3 hA hfit hq hR
        | none => exact ReprieveStep.quotaEvicted s1 s3 hA hfit hq hR
    | false =>
      simp only [Bool.not_false, if_true]
      rcases hR : removePod g pod pi s1 with ⟨eo2, s2⟩
      cases eo2 with
      | some e => exact ReprieveStep.filterRemoveFailed s1 e s2 hA hfit hR
      | none =>
        dsimp only
        cases hq : quotaFits g pod s2.state with
        | true =>
          simp only [Bool.not_true, Bool.false_eq_true, if_false]
          exact ReprieveStep.filterEvicted s1 s2 hA hfit hR hq
        | false =>
          simp only [Bool.not_false, if_true]
          rcases hR2 : removePod g pod pi s2 with ⟨eo3, s3⟩
          cases eo3 with
          | some e => exact ReprieveStep.bothRemoveFailed s1 s2 e s3 hA hfit hR hq hR2
          | none => exact ReprieveStep.bothEvicted s1 s2 s3 hA hfit hR hq hR2

theorem reprieveStep_trace {g : Plugin σ} {pod : Pod} {pi : PodInfo} {victims : List Pod}
    {s : Sim σ} {r : Option String × Bool × List Pod × Sim σ}
    (h : ReprieveStep g pod pi victims s r) : TraceExt r.1 s.trace r.2.2.2.trace := by
  cases h with
  | addFailed e s1 hadd => exact addPod_trace_of_eq hadd
  | kept s1 hadd _ _ => exact addPod_trace_of_eq hadd
  | quotaRemoveFailed s1 e s3 hadd _ _ hrem =>
    exact traceExt_trans (addPod_trace_of_eq hadd) (removePod_trace_of_eq hrem)
  | quotaEvicted s1 s3 hadd _ _ hrem =>
    exact traceExt_trans (addPod_trace_of_eq hadd) (removePod_trace_of_eq hrem)
  | filterRemoveFailed s1 e s2 hadd _ hrem =>
    exact traceExt_trans (addPod_trace_of_eq hadd) (removePod_trace_of_eq hrem)
  | filterEvicted s1 s2 hadd _ hrem _ =>
    exact traceExt_trans (addPod_trace_of_eq hadd) (removePod_trace_of_eq hrem)
  | bothRemoveFailed s1 s2 e s3 hadd _ hrem _ hrem2 =>
    exact traceExt_trans (addPod_trace_of_eq hadd)
      (traceExt_trans (removePod_trace_of_eq hrem) (removePod_trace_of_eq hrem2))
  | bothEvicted s1 s2 s3 hadd _ hrem _ hrem2 =>
    exact traceExt_trans (addPod_trace_of_eq hadd)
      (traceExt_trans (removePod_trace_of_eq hrem) (removePod_trace_of_eq hrem2))

theorem reprievePod_trace (g : Plugin σ) (pod : Pod) (pi : PodInfo) (victims : List Pod)
    (s : Sim σ) :
    TraceExt (reprievePod g pod pi victims s).1 s.trace
      (reprievePod g pod pi victims s).2.2.2.trace :=
  reprieveStep_trace (reprievePod_step g pod pi victims s)

theorem reprieveViolating_trace (g : Plugin σ) (pod : Pod) (ps : List PodInfo) :
    ∀ (victims : List Pod) (num : Nat) (s : Sim σ),
      TraceExt (reprieveViolating g pod ps victims num s).1 s.trace
        (reprieveViolating g pod ps victims num s).2.2.2.trace := by
  induction ps with
  | nil => intro victims num s; exact cleanExt_refl _
  | cons p ps ih =>
    intro victims num s
    have hp := reprievePod_trace g pod p victims s
    unfold reprieveViolating
    rcases hR : reprievePod g pod p victims s with ⟨eo, fits, v1, s1⟩
    rw [hR] at hp
    cases eo with
    | some e => exact hp
    | none => exact traceExt_trans hp (ih _ _ _)

theorem reprieveNonViolating_trace (g : Plugin σ) (pod : Pod) (ps : List PodInfo) :
    ∀ (victims : List Pod) (s : Sim σ),
      TraceExt (reprieveNonViolating g pod ps victims s).1 s.trace
        (reprieveNonViolating g pod ps victims s).2.2.trace := by
  induction ps with
  | nil => intro victims s; exact cleanExt_refl _
  | cons p ps ih =>
    intro victims s
    have hp := reprievePod_trace g pod p victims s
    unfold reprieveNonViolating
    rcases hR : reprievePod g pod p victims s with ⟨eo, fits, v1, s1⟩
    rw [hR] at hp
    cases eo with
    | some e => exact hp
    | none => exact traceExt_trans hp (ih _ _)

theorem removeLoop_trace (g : Plugin σ) (pod : Pod) (k : Nat) :
    ∀ (i : Nat) (pv : List PodInfo) (s : Sim σ),
      TraceExt (removeLoop g pod k i pv s).1 s.trace (removeLoop g pod k i pv s).2.2.trace := by
  induction k with
  | zero => intro i pv s; exact cleanExt_refl _
  | succ k ih =>
    intro i pv s
    unfold removeLoop
    cases hb : s.nodeInfo.backing[i]? with
    | none => exact cleanExt_refl _
    | some pi =>
      dsimp only
      by_cases hc : g.canPreempt pod pi.Pod = true
      · simp only [hc, if_true]
        have hp := removePod_trace g pod pi s
        rcases hR : removePod g pod pi s with ⟨eo, s1⟩
        rw [hR] at hp
        cases eo with
        | some e => exact hp
        | none => exact traceExt_trans hp (ih _ _ _)
      · simp only [hc, if_false]
        exact ih _ _ _

end Basic

section Node
variable {σ : Type}

/-! ## The node snapshot: searching and removing -/

theorem getPodKey_ok {pod : Pod} {k : String} (h : GetPodKey pod = Except.ok k) :
    k = pod.UID := by
  unfold GetPodKey at h
  split at h
  · cases h
  · cases h; rfl

theorem findPodIdx_some {k : String} {l : List PodInfo} {j : Nat}
    (h : findPodIdx k l = some j) :
    ∃ x, l[j]? = some x ∧ GetPodKey x.Pod = Except.ok k := by
  induction l generalizing j with
  | nil => simp [findPodIdx] at h
  | cons p ps ih =>
    unfold findPodIdx at h
    split at h
    · simp only [Option.map_eq_some'] at h
      obtain ⟨j1, hj1, rfl⟩ := h
      simpa using ih hj1
    · rename_i k2 hk2
      split at h
      · rename_i hk
        cases h
        exact ⟨p, by simp, by rw [hk2, hk]⟩
      · simp only [Option.map_eq_some'] at h
        obtain ⟨j1, hj1, rfl⟩ := h
        simpa using ih hj1

theorem findPodIdx_none {k : String} {l : List PodInfo} (h : findPodIdx k l = none) :
    ∀ x ∈ l, GetPodKey x.Pod ≠ Except.ok k := by
  induction l with
  | nil => simp
  | cons p ps ih =>
    unfold findPodIdx at h
    split at h
    · rename_i e he
      simp only [Option.map_eq_none'] at h
      intro x hx
      rcases List.mem_cons.1 hx with rfl | hx
      · rw [he]; simp
      · exact ih h x hx
    · rename_i k2 hk2
      split at h
      · cases h
      · rename_i hk
        simp only [Option.map_eq_none'] at h
        intro x hx
        rcases List.mem_cons.1 hx with rfl | hx
        · rw [hk2]; intro hc; cases hc; exact hk rfl
        · exact ih h x hx

/-- The first match of a key that no pod of `l` carries, in `l ++ [p]`, is `p`. -/
theorem findPodIdx_append_fresh {k : String} {l : List PodInfo} {p : PodInfo}
    (hl : ∀ x ∈ l, GetPodKey x.Pod ≠ Except.ok k) (hp : GetPodKey p.Pod = Except.ok k) :
    findPodIdx k (l ++ [p]) = some l.length := by
  induction l with
  | nil => simp [findPodIdx, hp]
  | cons a l ih =>
    have ha := hl a (List.mem_cons_self _ _)
    have ih1 := ih (fun x hx => hl x (List.mem_cons_of_mem _ hx))
    simp only [List.cons_append, List.length_cons]
    unfold findPodIdx
    split
    · simp [ih1]
    · rename_i k2 hk2
      have : k ≠ k2 := by
        intro hk; apply ha; rw [hk2, hk]
      simp [this, ih1]

theorem removePod_node_ok {n n1 : NodeInfo} {pod : Pod} (h : n.RemovePod pod = Except.ok n1) :
    ∃ k j x last, GetPodKey pod = Except.ok k ∧ findPodIdx k n.Pods = some j ∧
      n.Pods[j]? = some x ∧ GetPodKey x.Pod = Except.ok k ∧ n.Pods.getLast? = some last ∧
      n1 = ⟨n.Name, (n.Pods.set j last).dropLast, last :: n.stale⟩ := by
  unfold NodeInfo.RemovePod at h
  split at h
  · cases h
  · rename_i k hk
    split at h
    · cases h
    · rename_i j hj
      split at h
      · cases h
      · rename_i last hlast
        obtain ⟨x, hx, hxk⟩ := findPodIdx_some hj
        cases h
        exact ⟨k, j, x, last, hk, hj, hx, hxk, hlast, rfl⟩

theorem removePod_node_error_of_absent {n : NodeInfo} {pod : Pod}
    (h : ∀ x ∈ n.Pods, GetPodKey x.Pod ≠ GetPodKey pod) :
    ∃ e, n.RemovePod pod = Except.error e := by
  unfold NodeInfo.RemovePod
  split
  · exact ⟨_, rfl⟩
  · rename_i k hk
    split
    · exact ⟨_, rfl⟩
    · rename_i j hj
      obtain ⟨x, hx, hxk⟩ := findPodIdx_some hj
      exact absurd (hxk.trans hk.symm) (h x (List.getElem?_mem hx))

/-! ### Lists: overwrite by the last element, then drop the last slot -/

theorem set_last_dropLast_append {α : Type} {l : List α} {j : Nat} {x last : α}
    (hj : l[j]? = some x) (hlast : l.getLast? = some last) :
    (l.set j last).dropLast ++ [last] = l.set j last := by
  have hjl : j < l.length := (List.getElem?_eq_some_iff.1 hj).1
  have hne : l.set j last ≠ [] := by
    intro h
    have := congrArg List.length h
    simp only [List.length_set, List.length_nil] at this
    omega
  have hg : (l.set j last).getLast hne = last := by
    rw [List.getLast_eq_getElem, List.getElem_set]
    split
    · rfl
    · rename_i hji
      have hl : l ≠ [] := by intro h; subst h; simp at hjl
      rw [List.getLast?_eq_getLast _ hl, List.getLast_eq_getElem] at hlast
      simp only [List.length_set] at hji ⊢
      exact Option.some.inj hlast
  calc (l.set j last).dropLast ++ [last]
      = (l.set j last).dropLast ++ [(l.set j last).getLast hne] := by rw [hg]
    _ = l.set j last := List.dropLast_append_getLast hne

theorem set_last_dropLast_perm {α : Type} {l : List α} {j : Nat} {x last : α}
    (hj : l[j]? = some x) (hlast : l.getLast? = some last) :
    ((l.set j last).dropLast).Perm (l.eraseIdx j) := by
  have h1 := set_last_dropLast_append hj hlast
  have h2 : (l.set j last).Perm (last :: l.eraseIdx j) := by
    rw [List.set_eq_take_append_cons_drop, List.eraseIdx_eq_take_drop_succ]
    have hjl : j < l.length := (List.getElem?_eq_some_iff.1 hj).1
    simp only [hjl, if_true]
    exact List.perm_middle
  have h3 : ((l.set j last).dropLast ++ [last]).Perm (last :: l.eraseIdx j) := by
    rw [h1]; exact h2
  exact (List.perm_append_singleton _ _).symm.trans h3 |>.cons_inv

theorem perm_cons_eraseIdx {α : Type} {l : List α} {j : Nat} {x : α} (hj : l[j]? = some x) :
    l.Perm (x :: l.eraseIdx j) := by
  obtain ⟨hjl, hx⟩ := List.getElem?_eq_some_iff.1 hj
  rw [List.eraseIdx_eq_take_drop_succ]
  have : l = l.take j ++ x :: l.drop (j + 1) := by
    rw [← hx, List.getElem_cons_drop l j hjl, List.take_append_drop]
  have hp : (l.take j ++ x :: l.drop (j + 1)).Perm (x :: (l.take j ++ l.drop (j + 1))) :=
    List.perm_middle
  rw [← this] at hp
  exact hp

end Node

section FirstLoop
variable {σ : Type}

/-! ## The first loop: removing the preemptable pods -/

theorem removePod_ok {g : Plugin σ} {pod : Pod} {rpi : PodInfo} {s s1 : Sim σ}
    (h : removePod g pod rpi s = (none, s1)) :
    s.nodeInfo.RemovePod rpi.Pod = Except.ok s1.nodeInfo ∧
      s1.trace = s.trace ++ [⟨false, rpi, none⟩] := by
  unfold removePod at h
  split at h
  · cases h
  · rename_i n hn
    dsimp only at h
    split at h
    · cases h
      exact ⟨hn, rfl⟩
    · rename_i hs
      simp only [Prod.mk.injEq] at h
      have hA := h.1
      cases h.2
      exact ⟨hn, by rw [hA]⟩

theorem addPod_ok {g : Plugin σ} {pod : Pod} {api : PodInfo} {s s1 : Sim σ}
    (h : addPod g pod api s = (none, s1)) :
    s1.nodeInfo = s.nodeInfo.AddPodInfo api ∧ s1.trace = s.trace ++ [⟨true, api, none⟩] := by
  unfold addPod at h
  dsimp only at h
  split at h
  · cases h
    exact ⟨rfl, rfl⟩
  · simp only [Prod.mk.injEq] at h
    have hA := h.1
    cases h.2
    exact ⟨rfl, by rw [hA]⟩

/-- What `RemovePod` does to the backing array and to the live pods when the
pod found under the key is `x` at slot `j`. -/
theorem removePod_node_effect {n n1 : NodeInfo} {pod : Pod}
    (h : n.RemovePod pod = Except.ok n1) :
    ∃ j x last, n.Pods[j]? = some x ∧ GetPodKey x.Pod = GetPodKey pod ∧
      n1.backing = n.backing.set j last ∧ n1.Pods.Perm (n.Pods.eraseIdx j) ∧
      n1.Pods.length + 1 = n.Pods.length := by
  obtain ⟨k, j, x, last, hk, _, hx, hxk, hlast, rfl⟩ := removePod_node_ok h
  have hjl : j < n.Pods.length := (List.getElem?_eq_some_iff.1 hx).1
  refine ⟨j, x, last, hx, hxk.trans hk.symm, ?_, set_last_dropLast_perm hx hlast, ?_⟩
  · unfold NodeInfo.backing
    dsimp only
    rw [List.set_append_left j last hjl, ← set_last_dropLast_append hx hlast]
    simp
  · dsimp only
    rw [List.length_dropLast, List.length_set]
    omega

theorem nodup_of_nodup_uid {l : List PodInfo} (h : (l.map (fun p => p.Pod.UID)).Nodup) :
    l.Nodup := List.Nodup.of_map _ h

theorem eq_of_getPodKey_eq {l : List PodInfo} (h : (l.map (fun p => p.Pod.UID)).Nodup)
    {x y : PodInfo} (hx : x ∈ l) (hy : y ∈ l) {k : String}
    (hxk : GetPodKey x.Pod = Except.ok k) (hyk : GetPodKey y.Pod = Except.ok k) : x = y :=
  List.inj_on_of_nodup_map h hx hy ((getPodKey_ok hxk).symm.trans (getPodKey_ok hyk))

/-- The invariant of the first loop. `P0` are the pods at entry; before round `i`
the slots `i..` of the backing array still hold the pods of entry, the live
pods are the unvisited pods and the visited ones that are not preemptable. -/
theorem removeLoop_spec (g : Plugin σ) (pod : Pod) (P0 : List PodInfo)
    (hnd : (P0.map (fun p => p.Pod.UID)).Nodup) (k : Nat) :
    ∀ (i : Nat) (pv : List PodInfo) (s : Sim σ), i + k = P0.length →
      (∀ j, i ≤ j → j < P0.length → s.nodeInfo.backing[j]? = P0[j]?) →
      s.nodeInfo.Pods.Perm
        ((P0.take i).filter (fun p => !g.canPreempt pod p.Pod) ++ P0.drop i) →
      ∀ (pv1 : List PodInfo) (s1 : Sim σ), removeLoop g pod k i pv s = (none, pv1, s1) →
        pv1 = pv ++ (P0.drop i).filter (fun p => g.canPreempt pod p.Pod) ∧
        s1.nodeInfo.Pods.Perm (P0.filter (fun p => !g.canPreempt pod p.Pod)) ∧
        s1.trace = s.trace ++
          ((P0.drop i).filter (fun p => g.canPreempt pod p.Pod)).map
            (fun p => (⟨false, p, none⟩ : Call)) := by
  induction k with
  | zero =>
    intro i pv s hik _ hperm pv1 s1 h
    have hi : i = P0.length := by omega
    subst hi
    unfold removeLoop at h
    cases h
    simp only [List.drop_length, List.filter_nil, List.append_nil, List.take_length,
      List.map_nil] at hperm ⊢
    exact ⟨trivial, hperm, trivial⟩
  | succ k ih =>
    intro i pv s hik hback hperm pv1 s1 h
    have hi : i < P0.length := by omega
    have hdrop : P0.drop i = P0[i] :: P0.drop (i + 1) := List.drop_eq_getElem_cons hi
    have htake : P0.take (i + 1) = P0.take i ++ [P0[i]] := by
      rw [List.take_succ, List.getElem?_eq_getElem hi]; rfl
    have hb : s.nodeInfo.backing[i]? = some P0[i] := by
      rw [hback i (le_refl i) hi, List.getElem?_eq_getElem hi]
    unfold removeLoop at h
    rw [hb] at h
    dsimp only at h
    by_cases hc : g.canPreempt pod (P0[i]).Pod = true
    · simp only [hc, if_true] at h
      rcases hR : removePod g pod P0[i] s with ⟨eo, s2⟩
      rw [hR] at h
      cases eo with
      | some e => cases h
      | none =>
        dsimp only at h
        obtain ⟨hnode, htr⟩ := removePod_ok hR
        obtain ⟨j, x, last, hx, hxk, hbk, hpm, _⟩ := removePod_node_effect hnode
        -- the pod found under the key is the pod visited
        have hsub : ((P0.take i).filter (fun p => !g.canPreempt pod p.Pod) ++ P0.drop i).Sublist
            P0 := by
          conv_rhs => rw [← List.take_append_drop i P0]
          exact List.Sublist.append (List.filter_sublist _) (List.Sublist.refl _)
        have hndl : (s.nodeInfo.Pods.map (fun p => p.Pod.UID)).Nodup :=
          ((hperm.map _).nodup_iff).2 ((hsub.map _).nodup hnd)
        have hmem : P0[i] ∈ s.nodeInfo.Pods :=
          hperm.mem_iff.2 (List.mem_append_right _ (by rw [hdrop]; exact List.mem_cons_self _ _))
        have hkey : ∃ k, GetPodKey (P0[i]).Pod = Except.ok k := by
          obtain ⟨k, _, _, _, hk, _⟩ := removePod_node_ok hnode
          exact ⟨k, hk⟩
        obtain ⟨key, hkey⟩ := hkey
        have hxe : x = P0[i] :=
          eq_of_getPodKey_eq hndl (List.getElem?_mem hx) hmem (hxk.trans hkey) hkey
        subst hxe
        have hjl : j < s.nodeInfo.Pods.length := (List.getElem?_eq_some_iff.1 hx).1
        -- the slots after `i` are untouched
        have hback2 : ∀ m, i + 1 ≤ m → m < P0.length → s2.nodeInfo.backing[m]? = P0[m]? := by
          intro m him hm
          rw [hbk]
          have hjm : j ≠ m := by
            intro hjm
            subst hjm
            have h1 : s.nodeInfo.backing[j]? = some P0[i] := by
              unfold NodeInfo.backing
              rw [List.getElem?_append_left hjl]; exact hx
            rw [hback j (by omega) hm, List.getElem?_eq_getElem hm] at h1
            have h2 : P0[j] = P0[i] := Option.some.inj h1
            have := (List.Nodup.getElem_inj_iff (nodup_of_nodup_uid hnd)).1 h2
            omega
          rw [List.getElem?_set_ne hjm]
          exact hback m (by omega) hm
        have hperm2 : s2.nodeInfo.Pods.Perm
            ((P0.take (i + 1)).filter (fun p => !g.canPreempt pod p.Pod) ++ P0.drop (i + 1)) := by
          have h1 : (P0[i] :: s.nodeInfo.Pods.eraseIdx j).Perm
              (P0[i] :: ((P0.take i).filter (fun p => !g.canPreempt pod p.Pod)
                ++ P0.drop (i + 1))) := by
            refine (perm_cons_eraseIdx hx).symm.trans (hperm.trans ?_)
            rw [hdrop]
            exact List.perm_middle
          have h2 := hpm.trans h1.cons_inv
          rw [htake, List.filter_append]
          simpa [hc] using h2
        obtain ⟨r1, r2, r3⟩ := ih (i + 1) (pv ++ [P0[i]]) s2 (by omega) hback2 hperm2 pv1 s1 h
        have hfd : (P0.drop i).filter (fun p => g.canPreempt pod p.Pod)
            = P0[i] :: (P0.drop (i + 1)).filter (fun p => g.canPreempt pod p.Pod) := by
          rw [hdrop]; exact List.filter_cons_of_pos hc
        refine ⟨?_, r2, ?_⟩
        · rw [r1, hfd, List.append_assoc]; rfl
        · rw [r3, htr, hfd, List.append_assoc]; rfl
    · have hc1 : g.canPreempt pod (P0[i]).Pod = false := by simpa using hc
      simp only [hc1, Bool.false_eq_true, if_false] at h
      have hperm2 : s.nodeInfo.Pods.Perm
          ((P0.take (i + 1)).filter (fun p => !g.canPreempt pod p.Pod) ++ P0.drop (i + 1)) := by
        rw [htake, List.filter_append]
        rw [hdrop] at hperm
        simpa [hc] using hperm
      obtain ⟨r1, r2, r3⟩ := ih (i + 1) pv s (by omega)
        (fun m him hm => hback m (by omega) hm) hperm2 pv1 s1 h
      have hfd : (P0.drop i).filter (fun p => g.canPreempt pod p.Pod)
          = (P0.drop (i + 1)).filter (fun p => g.canPreempt pod p.Pod) := by
        rw [hdrop]; exact List.filter_cons_of_neg hc
      refine ⟨?_, r2, ?_⟩
      · rw [r1, hfd]
      · rw [r3, hfd]

end FirstLoop

section ClaimsFirstSteps
variable {σ : Type}

/-! ## Outcomes decided before the reprieve pass -/

theorem removeLoop_nothing_preemptable (g : Plugin σ) (pod : Pod) (s : Sim σ)
    (h : ∀ p ∈ s.nodeInfo.Pods, g.canPreempt pod p.Pod = false) (k : Nat) :
    ∀ (i : Nat) (pv : List PodInfo), i + k ≤ s.nodeInfo.Pods.length →
      removeLoop g pod k i pv s = (none, pv, s) := by
  induction k with
  | zero => intro i pv _; rfl
  | succ k ih =>
    intro i pv hik
    have hi : i < s.nodeInfo.Pods.length := by omega
    have hb : s.nodeInfo.backing[i]? = some (s.nodeInfo.Pods[i]) := by
      unfold NodeInfo.backing
      rw [List.getElem?_append_left hi, List.getElem?_eq_getElem hi]
    have hc : g.canPreempt pod (s.nodeInfo.Pods[i]).Pod = false :=
      h _ (List.getElem_mem hi)
    unfold removeLoop
    rw [hb]
    simp only [hc, Bool.false_eq_true, if_false]
    exact ih (i + 1) pv (by omega)

/-- The outcome of `SelectVictimsOnNode` read off the log: either the log was
extended by successful calls only, or it ends in the one failed call and the
result is the error triple. -/
theorem selectVictims_trace (g : Plugin σ) (pod : Pod) (s : Sim σ)
    (pdbs : List PodDisruptionBudget) :
    CleanExt s.trace (SelectVictimsOnNode g pod s pdbs).2.trace ∨
      (FailExt s.trace (SelectVictimsOnNode g pod s pdbs).2.trace ∧
        ∃ e, (SelectVictimsOnNode g pod s pdbs).1 = ⟨[], 0, AsStatus e⟩) := by
  have h1 := removeLoop_trace g pod s.nodeInfo.Pods.length 0 [] s
  unfold SelectVictimsOnNode
  rcases hL : removeLoop g pod s.nodeInfo.Pods.length 0 [] s with ⟨eo, pv, s1⟩
  rw [hL] at h1
  cases eo with
  | some e => exact Or.inr ⟨h1, e, rfl⟩
  | none =>
    have h1 : CleanExt s.trace s1.trace := h1
    dsimp only
    split
    · exact Or.inl h1
    · split
      · exact Or.inl h1
      · have h2 := reprieveViolating_trace g pod (partitionVictims g pv pdbs).1 [] 0 s1
        rcases hV : reprieveViolating g pod (partitionVictims g pv pdbs).1 [] 0 s1 with
          ⟨eo2, v, n, s2⟩
        rw [hV] at h2
        cases eo2 with
        | some e => exact Or.inr ⟨traceExt_trans h1 h2, e, rfl⟩
        | none =>
          dsimp only
          have h2 : CleanExt s.trace s2.trace := cleanExt_trans h1 h2
          have h3 := reprieveNonViolating_trace g pod (partitionVictims g pv pdbs).2 v s2
          rcases hN : reprieveNonViolating g pod (partitionVictims g pv pdbs).2 v s2 with
            ⟨eo3, v1, s3⟩
          rw [hN] at h3
          cases eo3 with
          | some e => exact Or.inr ⟨traceExt_trans h2 h3, e, rfl⟩
          | none => exact Or.inl (cleanExt_trans h2 h3)

/-- C3: when `canPreempt` is false for every pod on the node, `SelectVictimsOnNode`
returns no victims, a violating count of 0 and a status of code
`UnschedulableAndUnresolvable`, and leaves the simulation state, hence the pod
list of the node, as it was. -/
theorem C3_no_preemptable_pod (g : Plugin σ) (pod : Pod) (s : Sim σ)
    (pdbs : List PodDisruptionBudget)
    (h : ∀ p ∈ s.nodeInfo.Pods, g.canPreempt pod p.Pod = false) :
    (SelectVictimsOnNode g pod s pdbs).1.victims = [] ∧
      (SelectVictimsOnNode g pod s pdbs).1.numViolatingVictim = 0 ∧
      (SelectVictimsOnNode g pod s pdbs).1.status.code = Code.UnschedulableAndUnresolvable ∧
      (SelectVictimsOnNode g pod s pdbs).2 = s := by
  have hL := removeLoop_nothing_preemptable g pod s h s.nodeInfo.Pods.length 0 [] (by omega)
  unfold SelectVictimsOnNode
  rw [hL]
  simp [NewStatus]

/-- C3 at a node holding one pod of higher priority than the pending pod. -/
theorem C3_no_preemptable_pod_witness :
    (∀ p ∈ (exampleSim 1 10 [⟨examplePod "b" 20 []⟩]).nodeInfo.Pods,
        (examplePlugin [] []).canPreempt pendingPod p.Pod = false) ∧
      (SelectVictimsOnNode (examplePlugin [] []) pendingPod
        (exampleSim 1 10 [⟨examplePod "b" 20 []⟩]) []).1.victims = [] ∧
      (SelectVictimsOnNode (examplePlugin [] []) pendingPod
        (exampleSim 1 10 [⟨examplePod "b" 20 []⟩]) []).1.numViolatingVictim = 0 ∧
      (SelectVictimsOnNode (examplePlugin [] []) pendingPod
        (exampleSim 1 10 [⟨examplePod "b" 20 []⟩]) []).1.status.code
          = Code.UnschedulableAndUnresolvable ∧
      (SelectVictimsOnNode (examplePlugin [] []) pendingPod
        (exampleSim 1 10 [⟨examplePod "b" 20 []⟩]) []).2
          = exampleSim 1 10 [⟨examplePod "b" 20 []⟩] :=
  ⟨by decide, C3_no_preemptable_pod (examplePlugin [] []) pendingPod
    (exampleSim 1 10 [⟨examplePod "b" 20 []⟩]) [] (by decide)⟩

/-- C4: when the first loop removed at least one potential victim and the filter
run on the node left by it returns a non-success status, `SelectVictimsOnNode`
returns no victims, a violating count of 0 and exactly that status, and the
simulation state is the one left by the first loop: no reprieve step ran. -/
theorem C4_filter_failure_is_propagated (g : Plugin σ) (pod : Pod) (s s1 : Sim σ)
    (pdbs : List PodDisruptionBudget) (potentialVictims : List PodInfo)
    (hloop : removeLoop g pod s.nodeInfo.Pods.length 0 [] s = (none, potentialVictims, s1))
    (hsome : potentialVictims ≠ [])
    (hfilter :
      (g.handle.RunFilterPluginsWithNominatedPods s1.state pod s1.nodeInfo).IsSuccess = false) :
    SelectVictimsOnNode g pod s pdbs =
      (⟨[], 0, g.handle.RunFilterPluginsWithNominatedPods s1.state pod s1.nodeInfo⟩, s1) := by
  unfold SelectVictimsOnNode
  rw [hloop]
  have hlen : (potentialVictims.length == 0) = false := by
    cases potentialVictims with
    | nil => exact absurd rfl hsome
    | cons a l => rfl
  simp [hlen, hfilter]

/-- C4 on the five pods, with a filter that fails as long as `b` is on the node:
`a`, `c` and `d` are removed, `b` stays, and the filter status is returned. -/
theorem C4_filter_failure_is_propagated_witness :
    SelectVictimsOnNode (examplePlugin [["b"]] []) pendingPod (exampleSim 5 10 fivePods) [] =
      (⟨[], 0, NewStatus Code.Unschedulable ["node(s) had a conflict"]⟩,
        (removeLoop (examplePlugin [["b"]] []) pendingPod 5 0 []
          (exampleSim 5 10 fivePods)).2.2) :=
  C4_filter_failure_is_propagated (examplePlugin [["b"]] []) pendingPod
    (exampleSim 5 10 fivePods)
    (removeLoop (examplePlugin [["b"]] []) pendingPod 5 0 [] (exampleSim 5 10 fivePods)).2.2
    [] [⟨examplePod "a" 1 []⟩, ⟨examplePod "c" 2 []⟩, ⟨examplePod "d" 3 []⟩]
    (by decide) (by decide) (by decide)

/-- The first loop started on the pods of entry: the invariant at round 0. -/
theorem removeLoop_entry (g : Plugin σ) (pod : Pod) (s s1 : Sim σ) (pv : List PodInfo)
    (huid : (s.nodeInfo.Pods.map (fun p => p.Pod.UID)).Nodup)
    (hloop : removeLoop g pod s.nodeInfo.Pods.length 0 [] s = (none, pv, s1)) :
    pv = s.nodeInfo.Pods.filter (fun p => g.canPreempt pod p.Pod) ∧
      s1.nodeInfo.Pods.Perm (s.nodeInfo.Pods.filter (fun p => !g.canPreempt pod p.Pod)) ∧
      s1.trace = s.trace ++ pv.map (fun p => (⟨false, p, none⟩ : Call)) := by
  have h := removeLoop_spec g pod s.nodeInfo.Pods huid s.nodeInfo.Pods.length 0 [] s
    (by omega)
    (fun j _ hj => by
      unfold NodeInfo.backing
      rw [List.getElem?_append_left hj])
    (by simp) pv s1 hloop
  simp only [List.drop_zero, List.nil_append] at h
  obtain ⟨h1, h2, h3⟩ := h
  exact ⟨h1, h2, by rw [h3, h1]⟩

/-- C6: on a node whose pods carry pairwise distinct UIDs, when no removal fails,
the first loop records as potential victims exactly the pods of entry that
satisfy `canPreempt`, in their order and each once, the pods left on the node
are exactly the others, and the bookkeeping calls made are one successful
removal per potential victim, in that order. -/
theorem C6_first_loop_removes_exactly_the_preemptable (g : Plugin σ) (pod : Pod)
    (s s1 : Sim σ) (potentialVictims : List PodInfo)
    (huid : (s.nodeInfo.Pods.map (fun p => p.Pod.UID)).Nodup)
    (hloop : removeLoop g pod s.nodeInfo.Pods.length 0 [] s = (none, potentialVictims, s1)) :
    potentialVictims = s.nodeInfo.Pods.filter (fun p => g.canPreempt pod p.Pod) ∧
      potentialVictims.Nodup ∧
      s1.nodeInfo.Pods.Perm (s.nodeInfo.Pods.filter (fun p => !g.canPreempt pod p.Pod)) ∧
      s1.trace = s.trace ++ potentialVictims.map (fun p => (⟨false, p, none⟩ : Call)) := by
  obtain ⟨h1, h2, h3⟩ := removeLoop_entry g pod s s1 potentialVictims huid hloop
  refine ⟨h1, ?_, h2, h3⟩
  rw [h1]
  exact (nodup_of_nodup_uid huid).filter _

/-- C6 on the five pods: `a`, `c` and `d` are the potential victims. -/
theorem C6_first_loop_removes_exactly_the_preemptable_witness :
    (removeLoop (examplePlugin [] []) pendingPod 5 0 [] (exampleSim 5 10 fivePods)).2.1
        = (exampleSim 5 10 fivePods).nodeInfo.Pods.filter
            (fun p => (examplePlugin [] []).canPreempt pendingPod p.Pod) ∧
      (removeLoop (examplePlugin [] []) pendingPod 5 0 []
        (exampleSim 5 10 fivePods)).2.1.Nodup ∧
      (removeLoop (examplePlugin [] []) pendingPod 5 0 []
        (exampleSim 5 10 fivePods)).2.2.nodeInfo.Pods.Perm
          ((exampleSim 5 10 fivePods).nodeInfo.Pods.filter
            (fun p => !(examplePlugin [] []).canPreempt pendingPod p.Pod)) ∧
      (removeLoop (examplePlugin [] []) pendingPod 5 0 []
        (exampleSim 5 10 fivePods)).2.2.trace
          = (exampleSim 5 10 fivePods).trace ++
            (removeLoop (examplePlugin [] []) pendingPod 5 0 []
              (exampleSim 5 10 fivePods)).2.1.map (fun p => (⟨false, p, none⟩ : Call)) :=
  C6_first_loop_removes_exactly_the_preemptable (examplePlugin [] []) pendingPod
    (exampleSim 5 10 fivePods)
    (removeLoop (examplePlugin [] []) pendingPod 5 0 [] (exampleSim 5 10 fivePods)).2.2
    (removeLoop (examplePlugin [] []) pendingPod 5 0 [] (exampleSim 5 10 fivePods)).2.1
    (by decide) (by decide)

end ClaimsFirstSteps

section ReprieveSlips

/-! ## The two removals of `reprievePod` -/

/-- C1: evaluation of `SelectVictimsOnNode` on a candidate that fails both tests.
The quota group uses 3 CPUs against a limit of 2 and the filter fails while the
candidate `a` is on the node. Every hook succeeds, yet the call does not finish
with `Success` and `a` as victim: after the removal made for the filter
failure, the removal made for the quota overrun does not find `a` on the node,
and the call returns the error status of `RemovePod`. -/
theorem C1_both_tests_failing_returns_error :
    (SelectVictimsOnNode (examplePlugin [["a"]] []) pendingPod
        (exampleSim 3 2 [⟨examplePod "a" 1 []⟩]) []).1
        = ⟨[], 0, AsStatus "no corresponding pod a in pods of node n1"⟩ ∧
      (SelectVictimsOnNode (examplePlugin [["a"]] []) pendingPod
        (exampleSim 3 2 [⟨examplePod "a" 1 []⟩]) []).2.trace
        = [⟨false, ⟨examplePod "a" 1 []⟩, none⟩, ⟨true, ⟨examplePod "a" 1 []⟩, none⟩,
            ⟨false, ⟨examplePod "a" 1 []⟩, none⟩,
            ⟨false, ⟨examplePod "a" 1 []⟩, some "no corresponding pod a in pods of node n1"⟩] := by
  decide

/-- C2: evaluation of `SelectVictimsOnNode` on a candidate of the violating
partition that passes the filter and overruns the quota: it is returned as a
victim, and the violating count stays 0. -/
theorem C2_quota_victim_is_not_counted :
    (filterPodsWithPDBViolation [⟨examplePod "a" 1 [("app", "web")]⟩] [webBudget 0]).1
        = [⟨examplePod "a" 1 [("app", "web")]⟩] ∧
      (SelectVictimsOnNode (examplePlugin [] []) pendingPod
        (exampleSim 2 2 [⟨examplePod "a" 1 [("app", "web")]⟩]) [webBudget 0]).1
        = ⟨[examplePod "a" 1 [("app", "web")]], 0, NewStatus Code.Success []⟩ := by
  decide

end ReprieveSlips

section Reprieve
variable {σ : Type}

/-! ## The reprieve pass on candidates with fresh keys -/

theorem addPodInfo_pods (n : NodeInfo) (p : PodInfo) :
    (n.AddPodInfo p).Pods = n.Pods ++ [p] := rfl

/-- Removing a pod right after adding it restores the pod list, when no other
pod of the node carries its UID. -/
theorem removePod_after_add {n n1 : NodeInfo} {p : PodInfo}
    (hfresh : ∀ x ∈ n.Pods, x.Pod.UID ≠ p.Pod.UID)
    (h : (n.AddPodInfo p).RemovePod p.Pod = Except.ok n1) : n1.Pods = n.Pods := by
  obtain ⟨k, j, x, last, hk, hj, _, _, hlast, rfl⟩ := removePod_node_ok h
  rw [addPodInfo_pods] at hj hlast ⊢
  have hfr : ∀ x ∈ n.Pods, GetPodKey x.Pod ≠ Except.ok k := by
    intro x hx hxk
    exact hfresh x hx ((getPodKey_ok hxk).symm.trans (getPodKey_ok hk))
  rw [findPodIdx_append_fresh hfr hk] at hj
  cases hj
  have hl : last = p := by simpa using hlast.symm
  subst hl
  simp

theorem removePod_absent_fails {g : Plugin σ} {pod : Pod} {p : PodInfo} {s s1 : Sim σ}
    (hfresh : ∀ x ∈ s.nodeInfo.Pods, x.Pod.UID ≠ p.Pod.UID)
    (h : removePod g pod p s = (none, s1)) : False := by
  obtain ⟨hn, _⟩ := removePod_ok h
  obtain ⟨k, j, x, last, hk, _, hx, hxk, _, _⟩ := removePod_node_ok hn
  exact hfresh x (List.getElem?_mem hx) ((getPodKey_ok hxk).symm.trans (getPodKey_ok hk))

/-- One successful call of `reprievePod` on a candidate with a fresh key is one
step of a run. -/
theorem reprieveStep_run {g : Plugin σ} {pod : Pod} {p : PodInfo} {ps : List PodInfo}
    {victims victims1 victims9 : List Pod} {s s1 s9 : Sim σ} {fits : Bool}
    (hfresh : ∀ x ∈ s.nodeInfo.Pods, x.Pod.UID ≠ p.Pod.UID)
    (hstep : ReprieveStep g pod p victims s (none, fits, victims1, s1))
    (hrest : ReprieveRun g pod ps victims1 s1 victims9 s9) :
    ReprieveRun g pod (p :: ps) victims s victims9 s9 := by
  cases hstep with
  | kept _ hadd hfit hquota =>
    have hp : s1.nodeInfo.Pods = s.nodeInfo.Pods ++ [p] := by
      rw [(addPod_ok hadd).1]; rfl
    exact ReprieveRun.keep p ps victims victims9 s s1 s9 hadd hp hfit hquota hrest
  | quotaEvicted sa _ hadd hfit hquota hrem =>
    have hp : sa.nodeInfo.Pods = s.nodeInfo.Pods ++ [p] := by
      rw [(addPod_ok hadd).1]; rfl
    have hb : s1.nodeInfo.Pods = s.nodeInfo.Pods := by
      have h1 := (removePod_ok hrem).1
      rw [(addPod_ok hadd).1] at h1
      exact removePod_after_add hfresh h1
    exact ReprieveRun.evict p ps victims victims9 s sa s1 s9 hadd hp (Or.inr hquota) hrem hb hrest
  | filterEvicted sa _ hadd hfit hrem hquota =>
    have hp : sa.nodeInfo.Pods = s.nodeInfo.Pods ++ [p] := by
      rw [(addPod_ok hadd).1]; rfl
    have hb : s1.nodeInfo.Pods = s.nodeInfo.Pods := by
      have h1 := (removePod_ok hrem).1
      rw [(addPod_ok hadd).1] at h1
      exact removePod_after_add hfresh h1
    exact ReprieveRun.evict p ps victims victims9 s sa s1 s9 hadd hp (Or.inl hfit) hrem hb hrest
  | bothEvicted sa sb _ hadd hfit hrem hquota hrem2 =>
    exfalso
    have hb : sb.nodeInfo.Pods = s.nodeInfo.Pods := by
      have h1 := (removePod_ok hrem).1
      rw [(addPod_ok hadd).1] at h1
      exact removePod_after_add hfresh h1
    exact removePod_absent_fails (by rw [hb]; exact hfresh) hrem2

theorem reprieveRun_pods {g : Plugin σ} {pod : Pod} {cs : List PodInfo}
    {victims victims9 : List Pod} {s s9 : Sim σ}
    (h : ReprieveRun g pod cs victims s victims9 s9) :
    ∃ K, K.Sublist cs ∧ s9.nodeInfo.Pods = s.nodeInfo.Pods ++ K := by
  induction h with
  | done victims s => exact ⟨[], List.Sublist.refl _, by simp⟩
  | keep p ps victims victims1 s s1 s9 hadd hpods hfit hquota hrest ih =>
    obtain ⟨K, hK, hK2⟩ := ih
    exact ⟨p :: K, hK.cons₂ p, by rw [hK2, hpods]; simp⟩
  | evict p ps victims victims1 s s1 s2 s9 hadd hpods hfail hrem hback hrest ih =>
    obtain ⟨K, hK, hK2⟩ := ih
    exact ⟨K, hK.cons p, by rw [hK2, hback]⟩

theorem reprieveRun_append {g : Plugin σ} {pod : Pod} {cs ds : List PodInfo}
    {victims victims1 victims9 : List Pod} {s s1 s9 : Sim σ}
    (h1 : ReprieveRun g pod cs victims s victims1 s1)
    (h2 : ReprieveRun g pod ds victims1 s1 victims9 s9) :
    ReprieveRun g pod (cs ++ ds) victims s victims9 s9 := by
  induction h1 with
  | done victims s => exact h2
  | keep p ps victims victims1 s s1 s9 hadd hpods hfit hquota hrest ih =>
    exact ReprieveRun.keep p _ _ _ _ _ _ hadd hpods hfit hquota (ih h2)
  | evict p ps victims victims1 s s1 s2 s9 hadd hpods hfail hrem hback hrest ih =>
    exact ReprieveRun.evict p _ _ _ _ _ _ _ hadd hpods hfail hrem hback (ih h2)

theorem fresh_of_nodup {A : List PodInfo} {p : PodInfo} {ps : List PodInfo}
    (h : ((A ++ p :: ps).map (fun q => q.Pod.UID)).Nodup) :
    (∀ x ∈ A, x.Pod.UID ≠ p.Pod.UID) ∧ (((A ++ [p]) ++ ps).map (fun q => q.Pod.UID)).Nodup ∧
      ((A ++ ps).map (fun q => q.Pod.UID)).Nodup := by
  refine ⟨?_, by simpa using h, ?_⟩
  · intro x hx hxe
    rw [List.map_append, List.map_cons] at h
    have := (List.nodup_append.1 h).2.2
    exact this (List.mem_map_of_mem _ hx) (by rw [hxe]; exact List.mem_cons_self _ _)
  · have hs : (A ++ ps).Sublist (A ++ p :: ps) :=
      List.Sublist.append (List.Sublist.refl _) (List.sublist_cons_self _ _)
    exact (hs.map _).nodup h

theorem reprieveNonViolating_run (g : Plugin σ) (pod : Pod) (ps : List PodInfo) :
    ∀ (victims victims9 : List Pod) (s s9 : Sim σ),
      ((s.nodeInfo.Pods ++ ps).map (fun q => q.Pod.UID)).Nodup →
      reprieveNonViolating g pod ps victims s = (none, victims9, s9) →
      ReprieveRun g pod ps victims s victims9 s9 := by
  induction ps with
  | nil =>
    intro victims victims9 s s9 _ h
    unfold reprieveNonViolating at h
    cases h
    exact ReprieveRun.done _ _
  | cons p ps ih =>
    intro victims victims9 s s9 hnd h
    obtain ⟨hfresh, hnd1, hnd2⟩ := fresh_of_nodup hnd
    have hstep := reprievePod_step g pod p victims s
    unfold reprieveNonViolating at h
    rcases hR : reprievePod g pod p victims s with ⟨eo, fits, v1, s1⟩
    rw [hR] at h hstep
    cases eo with
    | some e => cases h
    | none =>
      dsimp only at h
      have hnd3 : ((s1.nodeInfo.Pods ++ ps).map (fun q => q.Pod.UID)).Nodup := by
        cases hstep with
        | kept _ hadd _ _ =>
          rw [(addPod_ok hadd).1, addPodInfo_pods]; exact hnd1
        | quotaEvicted sa _ hadd _ _ hrem =>
          have h1 := (removePod_ok hrem).1
          rw [(addPod_ok hadd).1] at h1
          rw [removePod_after_add hfresh h1]; exact hnd2
        | filterEvicted sa _ hadd _ hrem _ =>
          have h1 := (removePod_ok hrem).1
          rw [(addPod_ok hadd).1] at h1
          rw [removePod_after_add hfresh h1]; exact hnd2
        | bothEvicted sa sb _ hadd _ hrem _ hrem2 =>
          exfalso
          have h1 := (removePod_ok hrem).1
          rw [(addPod_ok hadd).1] at h1
          have hb := removePod_after_add hfresh h1
          exact removePod_absent_fails (by rw [hb]; exact hfresh) hrem2
      exact reprieveStep_run hfresh hstep (ih v1 victims9 s1 s9 hnd3 h)

/-- The loop over the violating candidates makes the same calls as the loop
over the non-violating ones; it only counts in addition. -/
theorem reprieveViolating_eq (g : Plugin σ) (pod : Pod) (ps : List PodInfo) :
    ∀ (victims : List Pod) (num : Nat) (s : Sim σ),
      ((reprieveViolating g pod ps victims num s).1,
        (reprieveViolating g pod ps victims num s).2.1,
        (reprieveViolating g pod ps victims num s).2.2.2)
        = reprieveNonViolating g pod ps victims s := by
  induction ps with
  | nil => intro victims num s; rfl
  | cons p ps ih =>
    intro victims num s
    unfold reprieveViolating reprieveNonViolating
    rcases hR : reprievePod g pod p victims s with ⟨eo, fits, v1, s1⟩
    cases eo with
    | some e => rfl
    | none => exact ih _ _ _

theorem reprieveViolating_run (g : Plugin σ) (pod : Pod) (ps : List PodInfo)
    (victims victims9 : List Pod) (num num9 : Nat) (s s9 : Sim σ)
    (hnd : ((s.nodeInfo.Pods ++ ps).map (fun q => q.Pod.UID)).Nodup)
    (h : reprieveViolating g pod ps victims num s = (none, victims9, num9, s9)) :
    ReprieveRun g pod ps victims s victims9 s9 := by
  have he := reprieveViolating_eq g pod ps victims num s
  rw [h] at he
  exact reprieveNonViolating_run g pod ps victims victims9 s s9 hnd he.symm

end Reprieve

section Partition
variable {σ : Type}

/-! ## The partition by disruption budgets, as far as the selector needs it -/

theorem filterPodsLoop_cons (pdbs : List PodDisruptionBudget) (p : PodInfo)
    (ps : List PodInfo) (allowed : List Int) :
    ∃ r : List Int × Bool, filterPodsLoop pdbs (p :: ps) allowed =
      if r.2 then (p :: (filterPodsLoop pdbs ps r.1).1, (filterPodsLoop pdbs ps r.1).2)
      else ((filterPodsLoop pdbs ps r.1).1, p :: (filterPodsLoop pdbs ps r.1).2) :=
  ⟨_, rfl⟩

theorem filterPodsLoop_sublist (pdbs : List PodDisruptionBudget) (l : List PodInfo) :
    ∀ allowed : List Int, (filterPodsLoop pdbs l allowed).1.Sublist l ∧
      (filterPodsLoop pdbs l allowed).2.Sublist l := by
  induction l with
  | nil => intro allowed; exact ⟨List.Sublist.refl _, List.Sublist.refl _⟩
  | cons p ps ih =>
    intro allowed
    obtain ⟨r, hr⟩ := filterPodsLoop_cons pdbs p ps allowed
    rw [hr]
    cases hr2 : r.2 with
    | true =>
      simp only [if_true]
      exact ⟨(ih _).1.cons₂ p, (ih _).2.cons p⟩
    | false =>
      simp only [Bool.false_eq_true, if_false]
      exact ⟨(ih _).1.cons p, (ih _).2.cons₂ p⟩

theorem filterPodsLoop_perm (pdbs : List PodDisruptionBudget) (l : List PodInfo) :
    ∀ allowed : List Int,
      ((filterPodsLoop pdbs l allowed).1 ++ (filterPodsLoop pdbs l allowed).2).Perm l := by
  induction l with
  | nil => intro allowed; exact List.Perm.refl _
  | cons p ps ih =>
    intro allowed
    obtain ⟨r, hr⟩ := filterPodsLoop_cons pdbs p ps allowed
    rw [hr]
    cases hr2 : r.2 with
    | true =>
      simp only [if_true]
      exact (ih _).cons p
    | false =>
      simp only [Bool.false_eq_true, if_false]
      exact List.perm_middle.trans ((ih _).cons p)

theorem partitionVictims_perm (g : Plugin σ) (hsort : SortPermutes g) (pv : List PodInfo)
    (pdbs : List PodDisruptionBudget) :
    ((partitionVictims g pv pdbs).1 ++ (partitionVictims g pv pdbs).2).Perm pv :=
  (filterPodsLoop_perm pdbs _ _).trans (hsort pv)

theorem partitionVictims_pairwise (g : Plugin σ) (hsort : SortOrders g) (pv : List PodInfo)
    (pdbs : List PodDisruptionBudget) :
    (partitionVictims g pv pdbs).1.Pairwise
        (fun a b => ¬ SurelyMoreImportant b.Pod a.Pod) ∧
      (partitionVictims g pv pdbs).2.Pairwise
        (fun a b => ¬ SurelyMoreImportant b.Pod a.Pod) :=
  ⟨(hsort pv).sublist (filterPodsLoop_sublist pdbs _ _).1,
    (hsort pv).sublist (filterPodsLoop_sublist pdbs _ _).2⟩

/-! ## The successful outcome -/

/-- A success status is only returned at the end of the reprieve pass. -/
theorem selectVictims_success (g : Plugin σ) (pod : Pod) (s : Sim σ)
    (pdbs : List PodDisruptionBudget)
    (hok : (SelectVictimsOnNode g pod s pdbs).1.status.IsSuccess = true) :
    ∃ pv s1 victims num s2 victims1 s3,
      removeLoop g pod s.nodeInfo.Pods.length 0 [] s = (none, pv, s1) ∧
      pv ≠ [] ∧ filterOK g pod s1 = true ∧
      reprieveViolating g pod (partitionVictims g pv pdbs).1 [] 0 s1
        = (none, victims, num, s2) ∧
      reprieveNonViolating g pod (partitionVictims g pv pdbs).2 victims s2
        = (none, victims1, s3) ∧
      SelectVictimsOnNode g pod s pdbs = (⟨victims1, num, NewStatus Code.Success []⟩, s3) := by
  unfold SelectVictimsOnNode at hok ⊢
  rcases hL : removeLoop g pod s.nodeInfo.Pods.length 0 [] s with ⟨eo, pv, s1⟩
  rw [hL] at hok
  cases eo with
  | some e => simp [AsStatus, Status.IsSuccess] at hok
  | none =>
    dsimp only at hok ⊢
    by_cases hlen : (pv.length == 0) = true
    · simp [hlen, NewStatus, Status.IsSuccess] at hok
    · simp only [hlen, Bool.false_eq_true, if_false] at hok ⊢
      have hpv : pv ≠ [] := by
        intro h; subst h; simp at hlen
      cases hf : (g.handle.RunFilterPluginsWithNominatedPods s1.state pod s1.nodeInfo).IsSuccess with
      | false => simp [hf] at hok
      | true =>
        simp only [hf, Bool.not_true, Bool.false_eq_true, if_false] at hok ⊢
        rcases hV : reprieveViolating g pod (partitionVictims g pv pdbs).1 [] 0 s1 with
          ⟨eo2, v, n, s2⟩
        rw [hV] at hok
        cases eo2 with
        | some e => simp [AsStatus, Status.IsSuccess] at hok
        | none =>
          dsimp only at hok ⊢
          rcases hN : reprieveNonViolating g pod (partitionVictims g pv pdbs).2 v s2 with
            ⟨eo3, v1, s3⟩
          rw [hN] at hok
          cases eo3 with
          | some e => simp [AsStatus, Status.IsSuccess] at hok
          | none => exact ⟨pv, s1, v, n, s2, v1, s3, rfl, hpv, hf, hV, hN, rfl⟩

/-- On a node whose pods carry distinct UIDs, a successful call is a first loop
that removes the preemptable pods followed by one run of the reprieve pass
over the violating and then the non-violating candidates. -/
theorem selectVictims_run (g : Plugin σ) (pod : Pod) (s : Sim σ)
    (pdbs : List PodDisruptionBudget)
    (huid : (s.nodeInfo.Pods.map (fun p => p.Pod.UID)).Nodup) (hsort : SortPermutes g)
    (hok : (SelectVictimsOnNode g pod s pdbs).1.status.IsSuccess = true) :
    ∃ pv s1,
      removeLoop g pod s.nodeInfo.Pods.length 0 [] s = (none, pv, s1) ∧
      filterOK g pod s1 = true ∧
      ((s1.nodeInfo.Pods ++
        ((partitionVictims g pv pdbs).1 ++ (partitionVictims g pv pdbs).2)).map
          (fun q => q.Pod.UID)).Nodup ∧
      ReprieveRun g pod ((partitionVictims g pv pdbs).1 ++ (partitionVictims g pv pdbs).2) []
        s1 (SelectVictimsOnNode g pod s pdbs).1.victims (SelectVictimsOnNode g pod s pdbs).2 := by
  obtain ⟨pv, s1, v, n, s2, v1, s3, hL, _, hf, hV, hN, hres⟩ :=
    selectVictims_success g pod s pdbs hok
  obtain ⟨hpv, hperm, _⟩ := removeLoop_entry g pod s s1 pv huid hL
  have hall : (s1.nodeInfo.Pods ++
      ((partitionVictims g pv pdbs).1 ++ (partitionVictims g pv pdbs).2)).Perm
        s.nodeInfo.Pods := by
    refine (List.Perm.append hperm (partitionVictims_perm g hsort pv pdbs)).trans ?_
    rw [hpv]
    refine (List.perm_append_comm).trans ?_
    exact List.filter_append_perm _ _
  have hnd : ((s1.nodeInfo.Pods ++
      ((partitionVictims g pv pdbs).1 ++ (partitionVictims g pv pdbs).2)).map
        (fun q => q.Pod.UID)).Nodup := ((hall.map _).nodup_iff).2 huid
  have hnd1 : ((s1.nodeInfo.Pods ++ (partitionVictims g pv pdbs).1).map
      (fun q => q.Pod.UID)).Nodup := by
    rw [← List.append_assoc] at hnd
    exact ((List.sublist_append_left _ _).map _).nodup hnd
  have hr1 := reprieveViolating_run g pod _ _ _ _ _ _ _ hnd1 hV
  obtain ⟨K, hK, hK2⟩ := reprieveRun_pods hr1
  have hnd2 : ((s2.nodeInfo.Pods ++ (partitionVictims g pv pdbs).2).map
      (fun q => q.Pod.UID)).Nodup := by
    rw [hK2]
    have hs : ((s1.nodeInfo.Pods ++ K) ++ (partitionVictims g pv pdbs).2).Sublist
        (s1.nodeInfo.Pods ++
          ((partitionVictims g pv pdbs).1 ++ (partitionVictims g pv pdbs).2)) := by
      rw [List.append_assoc]
      exact List.Sublist.append (List.Sublist.refl _)
        (List.Sublist.append hK (List.Sublist.refl _))
    exact (hs.map _).nodup hnd
  have hr2 := reprieveNonViolating_run g pod _ _ _ _ _ hnd2 hN
  refine ⟨pv, s1, hL, hf, hnd, ?_⟩
  rw [hres]
  exact reprieveRun_append hr1 hr2

end Partition

section RunFacts
variable {σ : Type}

/-! ## What a run of the reprieve pass leaves behind -/

/-- The candidates of a run split into the kept ones, which extend the pod list
of the node, and the evicted ones, which extend the victims. -/
theorem reprieveRun_split {g : Plugin σ} {pod : Pod} {cs : List PodInfo}
    {victims victims9 : List Pod} {s s9 : Sim σ}
    (h : ReprieveRun g pod cs victims s victims9 s9) :
    ∃ K E, K.Sublist cs ∧ E.Sublist cs ∧ (K ++ E).Perm cs ∧
      s9.nodeInfo.Pods = s.nodeInfo.Pods ++ K ∧
      victims9 = victims ++ E.map (fun p => p.Pod) := by
  induction h with
  | done victims s => exact ⟨[], [], List.Sublist.refl _, List.Sublist.refl _, by simp, by simp, by simp⟩
  | keep p ps victims victims1 s s1 s9 hadd hpods hfit hquota hrest ih =>
    obtain ⟨K, E, hK, hE, hP, hN, hV⟩ := ih
    exact ⟨p :: K, E, hK.cons₂ p, hE.cons p, hP.cons p, by rw [hN, hpods]; simp, hV⟩
  | evict p ps victims victims1 s s1 s2 s9 hadd hpods hfail hrem hback hrest ih =>
    obtain ⟨K, E, hK, hE, hP, hN, hV⟩ := ih
    exact ⟨K, p :: E, hK.cons p, hE.cons₂ p, List.perm_middle.trans (hP.cons p),
      by rw [hN, hback], by rw [hV]; simp⟩

theorem reprieveRun_filterOK {g : Plugin σ} {pod : Pod} {cs : List PodInfo}
    {victims victims9 : List Pod} {s s9 : Sim σ}
    (hfilter : ∀ (st st1 : σ) (n n1 : NodeInfo), n.Pods = n1.Pods →
      (g.handle.RunFilterPluginsWithNominatedPods st pod n).IsSuccess
        = (g.handle.RunFilterPluginsWithNominatedPods st1 pod n1).IsSuccess)
    (h : ReprieveRun g pod cs victims s victims9 s9) (hs : filterOK g pod s = true) :
    filterOK g pod s9 = true := by
  induction h with
  | done victims s => exact hs
  | keep p ps victims victims1 s s1 s9 hadd hpods hfit hquota hrest ih => exact ih hfit
  | evict p ps victims victims1 s s1 s2 s9 hadd hpods hfail hrem hback hrest ih =>
    apply ih
    unfold filterOK at hs ⊢
    rw [hfilter s2.state s.state s2.nodeInfo s.nodeInfo hback]
    exact hs

theorem removeLoop_inv {g : Plugin σ} {pod : Pod} {Inv : σ → List PodInfo → Prop}
    {Fits : List PodInfo → Prop} (hv : PodSetVerdict g pod Inv Fits) (k : Nat) :
    ∀ (i : Nat) (pv pv1 : List PodInfo) (s s1 : Sim σ), Inv s.state s.nodeInfo.Pods →
      removeLoop g pod k i pv s = (none, pv1, s1) → Inv s1.state s1.nodeInfo.Pods := by
  induction k with
  | zero =>
    intro i pv pv1 s s1 hinv h
    unfold removeLoop at h
    cases h
    exact hinv
  | succ k ih =>
    intro i pv pv1 s s1 hinv h
    unfold removeLoop at h
    cases hb : s.nodeInfo.backing[i]? with
    | none =>
      rw [hb] at h
      cases h
      exact hinv
    | some pi =>
      rw [hb] at h
      dsimp only at h
      by_cases hc : g.canPreempt pod pi.Pod = true
      · simp only [hc, if_true] at h
        rcases hR : removePod g pod pi s with ⟨eo, s2⟩
        rw [hR] at h
        cases eo with
        | some e => cases h
        | none => exact ih _ _ _ _ _ (hv.remove pi s s2 hinv hR) h
      · have hc1 : g.canPreempt pod pi.Pod = false := by simpa using hc
        simp only [hc1, Bool.false_eq_true, if_false] at h
        exact ih _ _ _ _ _ hinv h

theorem reprieveRun_inv {g : Plugin σ} {pod : Pod} {Inv : σ → List PodInfo → Prop}
    {Fits : List PodInfo → Prop} (hv : PodSetVerdict g pod Inv Fits) {cs : List PodInfo}
    {victims victims9 : List Pod} {s s9 : Sim σ}
    (h : ReprieveRun g pod cs victims s victims9 s9) (hinv : Inv s.state s.nodeInfo.Pods) :
    Inv s9.state s9.nodeInfo.Pods := by
  induction h with
  | done victims s => exact hinv
  | keep p ps victims victims1 s s1 s9 hadd hpods hfit hquota hrest ih =>
    exact ih (hv.add p s s1 hinv hadd)
  | evict p ps victims victims1 s s1 s2 s9 hadd hpods hfail hrem hback hrest ih =>
    exact ih (hv.remove p s1 s2 (hv.add p s s1 hinv hadd) hrem)

/-- The fate of a victim: it was evicted at some point of the run, where the
pending pod did not fit with it on the node, and since then pods were only
added to the node. -/
theorem reprieveRun_victim_fate {g : Plugin σ} {pod : Pod} {Inv : σ → List PodInfo → Prop}
    {Fits : List PodInfo → Prop} (hv : PodSetVerdict g pod Inv Fits) {cs : List PodInfo}
    {victims victims9 : List Pod} {s s9 : Sim σ}
    (h : ReprieveRun g pod cs victims s victims9 s9) (hinv : Inv s.state s.nodeInfo.Pods) :
    ∀ q ∈ victims9, q ∈ victims ∨
      ∃ A pi B KA KB, cs = A ++ pi :: B ∧ pi.Pod = q ∧ KA.Sublist A ∧ KB.Sublist B ∧
        s9.nodeInfo.Pods = s.nodeInfo.Pods ++ KA ++ KB ∧
        ¬ Fits (s.nodeInfo.Pods ++ KA ++ [pi]) := by
  induction h with
  | done victims s => intro q hq; exact Or.inl hq
  | keep p ps victims victims1 s s1 s9 hadd hpods hfit hquota hrest ih =>
    intro q hq
    rcases ih (hv.add p s s1 hinv hadd) q hq with hq1 | ⟨A, pi, B, KA, KB, hcs, hpi, hKA, hKB, hN, hF⟩
    · exact Or.inl hq1
    · refine Or.inr ⟨p :: A, pi, B, p :: KA, KB, by rw [hcs]; rfl, hpi, hKA.cons₂ p, hKB, ?_, ?_⟩
      · rw [hN, hpods]; simp
      · rw [hpods] at hF
        simpa using hF
  | evict p ps victims victims1 s s1 s2 s9 hadd hpods hfail hrem hback hrest ih =>
    intro q hq
    have hinv1 := hv.add p s s1 hinv hadd
    have hinv2 := hv.remove p s1 s2 hinv1 hrem
    rcases ih hinv2 q hq with hq1 | ⟨A, pi, B, KA, KB, hcs, hpi, hKA, hKB, hN, hF⟩
    · rcases List.mem_append.1 hq1 with hq2 | hq2
      · exact Or.inl hq2
      · have hqp : q = p.Pod := by simpa using hq2
        obtain ⟨K, _, hK, _, _, hN, _⟩ := reprieveRun_split hrest
        refine Or.inr ⟨[], p, ps, [], K, rfl, hqp.symm, List.Sublist.refl _, hK, ?_, ?_⟩
        · rw [hN, hback]; simp
        · intro hfits
          have hver := (hv.verdict s1 hinv1).2 (by rw [hpods]; simpa using hfits)
          rcases hfail with hf | hf
          · rw [hver.1] at hf; cases hf
          · rw [hver.2] at hf; cases hf
    · refine Or.inr ⟨p :: A, pi, B, KA, KB, by rw [hcs]; rfl, hpi, hKA.cons p, hKB, ?_, ?_⟩
      · rw [hN, hback]
      · rw [hback] at hF; exact hF

end RunFacts

section ClaimsReprieve
variable {σ : Type}

/-! ## Order of the victims -/

/-- When a pod is more important than another whatever the clock reads: it has
the higher priority, or the same priority and, both having started, the
earlier start time. -/
theorem surelyMoreImportant_iff (a b : Pod) :
    SurelyMoreImportant a b ↔
      (PodPriority b < PodPriority a ∨
        (PodPriority a = PodPriority b ∧
          ∃ ta tb, a.StartTime = some ta ∧ b.StartTime = some tb ∧ ta < tb)) := by
  unfold SurelyMoreImportant MoreImportantPod GetPodStartTime
  dsimp only
  by_cases h : PodPriority a = PodPriority b
  · have h1 : (PodPriority a != PodPriority b) = false := by simpa using h
    have h2 : ¬ PodPriority b < PodPriority a := by omega
    simp only [h1, Bool.false_eq_true, if_false, decide_eq_true_eq]
    constructor
    · intro hall
      right
      refine ⟨h, ?_⟩
      cases ha : a.StartTime with
      | none =>
        have := hall 0 0
        rw [ha] at this
        cases hb : b.StartTime with
        | none => rw [hb] at this; exact absurd this (lt_irrefl _)
        | some tb =>
          have h3 := hall tb 0
          rw [ha, hb] at h3
          exact absurd h3 (lt_irrefl _)
      | some ta =>
        cases hb : b.StartTime with
        | none =>
          have h3 := hall 0 0
          rw [ha, hb] at h3
          exact absurd h3 (Nat.not_lt_zero _)
        | some tb =>
          have h3 := hall 0 0
          rw [ha, hb] at h3
          exact ⟨ta, tb, rfl, rfl, h3⟩
    · rintro (hlt | ⟨_, ta, tb, hta, htb, hlt⟩)
      · exact absurd hlt h2
      · intro _ _
        rw [hta, htb]
        exact hlt
  · have h1 : (PodPriority a != PodPriority b) = true := by simpa using h
    simp only [h1, if_true, decide_eq_true_eq]
    constructor
    · intro hall; exact Or.inl (hall 0 0)
    · rintro (hlt | ⟨heq, _⟩)
      · intro _ _; exact hlt
      · exact absurd heq h

/-- An order in which no pod is more important, whatever the clock reads, than a
pod before it is an order by descending priority and, among started pods of
the same priority, by ascending start time. -/
theorem not_surelyMoreImportant_iff (a b : Pod) :
    ¬ SurelyMoreImportant b a ↔
      (PodPriority b ≤ PodPriority a ∧
        (PodPriority a = PodPriority b →
          ∀ ta tb, a.StartTime = some ta → b.StartTime = some tb → ta ≤ tb)) := by
  rw [surelyMoreImportant_iff]
  constructor
  · intro h
    refine ⟨by omega, fun heq ta tb hta htb => ?_⟩
    by_contra hlt
    exact h (Or.inr ⟨heq.symm, tb, ta, htb, hta, by omega⟩)
  · rintro ⟨h1, h2⟩ (h | ⟨heq, tb, ta, htb, hta, hlt⟩)
    · omega
    · have := h2 heq.symm ta tb hta htb
      omega

theorem reprieveStep_victims {g : Plugin σ} {pod : Pod} {p : PodInfo} {victims : List Pod}
    {s : Sim σ} {r : Option String × Bool × List Pod × Sim σ}
    (h : ReprieveStep g pod p victims s r) :
    ∃ k, r.2.2.1 = victims ++ List.replicate k p.Pod := by
  cases h with
  | addFailed e s1 _ => exact ⟨0, by simp⟩
  | kept s1 _ _ _ => exact ⟨0, by simp⟩
  | quotaRemoveFailed s1 e s3 _ _ _ _ => exact ⟨0, by simp⟩
  | quotaEvicted s1 s3 _ _ _ _ => exact ⟨1, by simp⟩
  | filterRemoveFailed s1 e s2 _ _ _ => exact ⟨0, by simp⟩
  | filterEvicted s1 s2 _ _ _ _ => exact ⟨1, by simp⟩
  | bothRemoveFailed s1 s2 e s3 _ _ _ _ _ => exact ⟨1, by simp⟩
  | bothEvicted s1 s2 s3 _ _ _ _ _ => exact ⟨2, by simp [List.replicate]⟩

/-- The victims appended by a reprieve loop come from its candidates and keep
their order. -/
theorem reprieveNonViolating_victims (g : Plugin σ) (pod : Pod) (R : Pod → Pod → Prop)
    (hrefl : ∀ a, R a a) (ps : List PodInfo) :
    ∀ (victims : List Pod) (s : Sim σ), (ps.map (fun p => p.Pod)).Pairwise R →
      ∃ E, (reprieveNonViolating g pod ps victims s).2.1 = victims ++ E ∧
        (∀ q ∈ E, q ∈ ps.map (fun p => p.Pod)) ∧ E.Pairwise R := by
  induction ps with
  | nil => intro victims s _; exact ⟨[], by simp [reprieveNonViolating], by simp, List.Pairwise.nil⟩
  | cons p ps ih =>
    intro victims s hpw
    rw [List.map_cons, List.pairwise_cons] at hpw
    obtain ⟨k, hk⟩ := reprieveStep_victims (reprievePod_step g pod p victims s)
    unfold reprieveNonViolating
    rcases hR : reprievePod g pod p victims s with ⟨eo, fits, v1, s1⟩
    rw [hR] at hk
    dsimp only at hk
    have hrep : (List.replicate k p.Pod).Pairwise R := by
      rw [List.pairwise_replicate]
      exact Or.inr (hrefl _)
    cases eo with
    | some e =>
      refine ⟨List.replicate k p.Pod, hk, ?_, hrep⟩
      intro q hq
      rw [List.eq_of_mem_replicate hq]
      exact List.mem_cons_self _ _
    | none =>
      dsimp only
      obtain ⟨E, hE, hmem, hpE⟩ := ih v1 s1 hpw.2
      refine ⟨List.replicate k p.Pod ++ E, by rw [hE, hk, List.append_assoc], ?_, ?_⟩
      · intro q hq
        rcases List.mem_append.1 hq with hq1 | hq1
        · rw [List.eq_of_mem_replicate hq1]
          exact List.mem_cons_self _ _
        · exact List.mem_cons_of_mem _ (hmem q hq1)
      · rw [List.pairwise_append]
        refine ⟨hrep, hpE, ?_⟩
        intro a ha b hb
        rw [List.eq_of_mem_replicate ha]
        exact hpw.1 b (hmem b hb)

/-- The victims of a run of the reprieve pass are the candidates that are not on
the node at its end, in the order of the candidates. -/
theorem reprieveRun_victims_gone {g : Plugin σ} {pod : Pod} {cs : List PodInfo}
    {victims victims9 : List Pod} {s s9 : Sim σ}
    (h : ReprieveRun g pod cs victims s victims9 s9) (hnd : (s.nodeInfo.Pods ++ cs).Nodup) :
    victims9 = victims ++ evictedOf cs s9.nodeInfo := by
  unfold evictedOf
  induction h with
  | done victims s => simp
  | keep p ps victims victims1 s s1 s9 hadd hpods hfit hquota hrest ih =>
    have hnd1 : (s1.nodeInfo.Pods ++ ps).Nodup := by
      rw [hpods, List.append_assoc]; exact hnd
    obtain ⟨K, _, _, _, _, hN, _⟩ := reprieveRun_split hrest
    have hp : p ∈ s9.nodeInfo.Pods := by
      rw [hN, hpods]; simp
    rw [ih hnd1, List.filter_cons_of_neg (by simpa using hp)]
  | evict p ps victims victims1 s s1 s2 s9 hadd hpods hfail hrem hback hrest ih =>
    have hnd2 : (s2.nodeInfo.Pods ++ ps).Nodup := by
      rw [hback]
      exact hnd.sublist (List.Sublist.append (List.Sublist.refl _) (List.sublist_cons_self _ _))
    obtain ⟨K, _, hK, _, _, hN, _⟩ := reprieveRun_split hrest
    obtain ⟨_, hcs, hdisj⟩ := List.nodup_append.1 hnd
    have hp : p ∉ s9.nodeInfo.Pods := by
      rw [hN, hback]
      intro hmem
      rcases List.mem_append.1 hmem with h1 | h1
      · exact hdisj h1 (List.mem_cons_self _ _)
      · exact (List.nodup_cons.1 hcs).1 (hK.subset h1)
    rw [ih hnd2, List.filter_cons_of_pos (by simpa using hp)]
    simp

/-- C7 (amended): when `SelectVictimsOnNode` returns `Success`, on a node whose pods
carry distinct UIDs and with `sort.Slice` sorting the potential victims where
the comparison does not depend on the clock, the returned victims are the
candidates of the violating partition that are not on the node at the end,
in the order of the partition, followed by those of the non-violating
partition; and in each of the two parts no victim is more important,
whatever the clock reads, than a victim before it: it has no higher priority
and, at the same priority and with both start times set, no earlier start
time. -/
theorem C7_victims_by_partition_and_importance (g : Plugin σ) (pod : Pod) (s : Sim σ)
    (pdbs : List PodDisruptionBudget)
    (huid : (s.nodeInfo.Pods.map (fun p => p.Pod.UID)).Nodup)
    (hperm : SortPermutes g) (hord : SortOrders g)
    (hok : (SelectVictimsOnNode g pod s pdbs).1.status.IsSuccess = true) :
    (SelectVictimsOnNode g pod s pdbs).1.victims =
        evictedOf (partitionVictims g (potentialVictimsOf g pod s) pdbs).1
            (SelectVictimsOnNode g pod s pdbs).2.nodeInfo ++
          evictedOf (partitionVictims g (potentialVictimsOf g pod s) pdbs).2
            (SelectVictimsOnNode g pod s pdbs).2.nodeInfo ∧
      (evictedOf (partitionVictims g (potentialVictimsOf g pod s) pdbs).1
          (SelectVictimsOnNode g pod s pdbs).2.nodeInfo).Pairwise
        (fun a b => ¬ SurelyMoreImportant b a ∧ PodPriority b ≤ PodPriority a ∧
          (PodPriority a = PodPriority b →
            ∀ ta tb, a.StartTime = some ta → b.StartTime = some tb → ta ≤ tb)) ∧
      (evictedOf (partitionVictims g (potentialVictimsOf g pod s) pdbs).2
          (SelectVictimsOnNode g pod s pdbs).2.nodeInfo).Pairwise
        (fun a b => ¬ SurelyMoreImportant b a ∧ PodPriority b ≤ PodPriority a ∧
          (PodPriority a = PodPriority b →
            ∀ ta tb, a.StartTime = some ta → b.StartTime = some tb → ta ≤ tb)) := by
  obtain ⟨pv, s1, hL, _, hnd, hrun⟩ := selectVictims_run g pod s pdbs huid hperm hok
  have hpv : potentialVictimsOf g pod s = pv := by
    unfold potentialVictimsOf; rw [hL]
  rw [hpv]
  obtain ⟨hp1, hp2⟩ := partitionVictims_pairwise g hord pv pdbs
  have hgone := reprieveRun_victims_gone hrun (nodup_of_nodup_uid hnd)
  have hpw : ∀ part : List PodInfo,
      part.Pairwise (fun a b => ¬ SurelyMoreImportant b.Pod a.Pod) →
      (evictedOf part (SelectVictimsOnNode g pod s pdbs).2.nodeInfo).Pairwise
        (fun a b => ¬ SurelyMoreImportant b a ∧ PodPriority b ≤ PodPriority a ∧
          (PodPriority a = PodPriority b →
            ∀ ta tb, a.StartTime = some ta → b.StartTime = some tb → ta ≤ tb)) := by
    intro part hpart
    unfold evictedOf
    rw [List.pairwise_map]
    refine (hpart.sublist (List.filter_sublist _)).imp ?_
    intro a b hab
    exact ⟨hab, (not_surelyMoreImportant_iff a.Pod b.Pod).1 hab⟩
  refine ⟨?_, hpw _ hp1, hpw _ hp2⟩
  rw [hgone]
  unfold evictedOf
  rw [List.nil_append, List.filter_append, List.map_append]

/-! ## The final node -/

/-- C10: when `SelectVictimsOnNode` returns `Success`, on a node whose pods carry
distinct UIDs and with a filter verdict that depends on the pods on the node
only, the filter run succeeds on the simulation state left behind, whose pods
are the pods of entry without the returned victims. -/
theorem C10_pending_pod_fits_on_final_node (g : Plugin σ) (pod : Pod) (s : Sim σ)
    (pdbs : List PodDisruptionBudget)
    (huid : (s.nodeInfo.Pods.map (fun p => p.Pod.UID)).Nodup) (hsort : SortPermutes g)
    (hfilter : ∀ (st st1 : σ) (n n1 : NodeInfo), n.Pods = n1.Pods →
      (g.handle.RunFilterPluginsWithNominatedPods st pod n).IsSuccess
        = (g.handle.RunFilterPluginsWithNominatedPods st1 pod n1).IsSuccess)
    (hok : (SelectVictimsOnNode g pod s pdbs).1.status.IsSuccess = true) :
    (g.handle.RunFilterPluginsWithNominatedPods (SelectVictimsOnNode g pod s pdbs).2.state pod
        (SelectVictimsOnNode g pod s pdbs).2.nodeInfo).IsSuccess = true ∧
      ∃ E : List PodInfo, (SelectVictimsOnNode g pod s pdbs).1.victims = E.map (fun p => p.Pod) ∧
        ((SelectVictimsOnNode g pod s pdbs).2.nodeInfo.Pods ++ E).Perm s.nodeInfo.Pods := by
  obtain ⟨pv, s1, hL, hf, _, hrun⟩ := selectVictims_run g pod s pdbs huid hsort hok
  refine ⟨reprieveRun_filterOK hfilter hrun hf, ?_⟩
  obtain ⟨K, E, _, _, hP, hN, hV⟩ := reprieveRun_split hrun
  obtain ⟨hpv, hperm, _⟩ := removeLoop_entry g pod s s1 pv huid hL
  refine ⟨E, by simpa using hV, ?_⟩
  rw [hN, List.append_assoc]
  refine (List.Perm.append hperm (hP.trans (partitionVictims_perm g hsort pv pdbs))).trans ?_
  rw [hpv]
  exact (List.perm_append_comm).trans (List.filter_append_perm _ _)

/-- C9: when `SelectVictimsOnNode` returns `Success`, on a node whose pods carry
distinct UIDs and with verdicts of the filter and of the quota test that are
determined by the pods on the node and remain true when pods are removed, no
returned victim can be put back on the final node with the pending pod still
passing both the filter and the quota test. -/
theorem C9_no_victim_can_be_put_back (g : Plugin σ) (pod : Pod) (s : Sim σ)
    (pdbs : List PodDisruptionBudget) (Inv : σ → List PodInfo → Prop)
    (Fits : List PodInfo → Prop)
    (huid : (s.nodeInfo.Pods.map (fun p => p.Pod.UID)).Nodup) (hsort : SortPermutes g)
    (hv : PodSetVerdict g pod Inv Fits) (hinv : Inv s.state s.nodeInfo.Pods)
    (hok : (SelectVictimsOnNode g pod s pdbs).1.status.IsSuccess = true) :
    ∀ q ∈ (SelectVictimsOnNode g pod s pdbs).1.victims, ∀ sb : Sim σ,
      addPod g pod ⟨q⟩ (SelectVictimsOnNode g pod s pdbs).2 = (none, sb) →
      ¬ (filterOK g pod sb = true ∧ quotaFits g pod sb.state = true) := by
  obtain ⟨pv, s1, hL, _, _, hrun⟩ := selectVictims_run g pod s pdbs huid hsort hok
  have hinv1 := removeLoop_inv hv _ _ _ _ _ _ hinv hL
  have hinv9 := reprieveRun_inv hv hrun hinv1
  intro q hq sb hadd hfits
  rcases reprieveRun_victim_fate hv hrun hinv1 q hq with hq0 | ⟨A, pi, B, KA, KB, _, hpi, _, _, hN, hF⟩
  · cases hq0
  · have hpi1 : pi = ⟨q⟩ := by cases pi; cases hpi; rfl
    subst hpi1
    have hinvb := hv.add _ _ sb hinv9 hadd
    have hfb := (hv.verdict sb hinvb).1 hfits
    rw [(addPod_ok hadd).1, addPodInfo_pods, hN] at hfb
    apply hF
    refine hv.mono _ _ (List.Sublist.subperm ?_) hfb
    exact List.Sublist.append
      (List.Sublist.append (List.Sublist.refl _) (List.Sublist.refl _) |>.trans
        (List.sublist_append_left _ KB)) (List.Sublist.refl _)

end ClaimsReprieve

section ExamplePlugin

/-! ## The example plugin meets the assumptions -/

theorem moreImportantPod_eq_false_iff (now1 now2 : Nat) (a b : Pod) :
    MoreImportantPod now1 now2 a b = false ↔
      (PodPriority a < PodPriority b ∨
        (PodPriority a = PodPriority b ∧
          GetPodStartTime now2 b ≤ GetPodStartTime now1 a)) := by
  unfold MoreImportantPod
  dsimp only
  by_cases h : PodPriority a = PodPriority b
  · simp [h]
  · have h1 : (PodPriority a != PodPriority b) = true := by simpa using h
    simp only [h1, if_true, decide_eq_false_iff_not]
    constructor
    · intro h2; left; omega
    · intro h2; rcases h2 with h2 | h2
      · omega
      · exact absurd h2.1 h

theorem exampleInsert_perm (less : Nat → PodInfo → PodInfo → Bool) (e : PodInfo)
    (sorted : List PodInfo) :
    ∀ k, (exampleInsert less e sorted k).1.Perm (e :: sorted) := by
  induction sorted with
  | nil => intro k; exact List.Perm.refl _
  | cons x rest ih =>
    intro k
    unfold exampleInsert
    split
    · exact ((ih (k + 1)).cons x).trans (List.Perm.swap e x rest)
    · exact List.Perm.refl _

theorem exampleSortLoop_perm (less : Nat → PodInfo → PodInfo → Bool) (l : List PodInfo) :
    ∀ (sorted : List PodInfo) (k : Nat), (exampleSortLoop less l sorted k).Perm (sorted ++ l) := by
  induction l with
  | nil =>
    intro sorted k
    unfold exampleSortLoop
    rw [List.append_nil]
    exact List.reverse_perm _
  | cons e l ih =>
    intro sorted k
    unfold exampleSortLoop
    refine (ih _ _).trans ?_
    refine (List.Perm.append_right l (exampleInsert_perm less e sorted k)).trans ?_
    exact (List.perm_middle).symm

/-- Insertion sort with a comparison that does not change from call to call and
is the strict part of a total preorder: the sorted part stays sorted. -/
theorem exampleInsert_sorted (less : Nat → PodInfo → PodInfo → Bool)
    (lt : PodInfo → PodInfo → Bool) (hless : ∀ k a b, less k a b = lt a b)
    (htotal : ∀ a b, lt b a = false ∨ lt a b = false)
    (htrans : ∀ a b c, lt b a = false → lt c b = false → lt c a = false)
    (e : PodInfo) (sorted : List PodInfo) :
    ∀ k, sorted.Pairwise (fun x y => lt x y = false) →
      (exampleInsert less e sorted k).1.Pairwise (fun x y => lt x y = false) := by
  induction sorted with
  | nil => intro k _; exact List.pairwise_singleton _ _
  | cons x rest ih =>
    intro k hpw
    rw [List.pairwise_cons] at hpw
    unfold exampleInsert
    rw [hless]
    cases hlt : lt e x with
    | true =>
      simp only [if_true]
      rw [List.pairwise_cons]
      refine ⟨?_, ih (k + 1) hpw.2⟩
      intro z hz
      rcases List.mem_cons.1 ((exampleInsert_perm less e rest (k + 1)).mem_iff.1 hz) with h | h
      · subst h
        rcases htotal x z with h1 | h1
        · rw [hlt] at h1; cases h1
        · exact h1
      · exact hpw.1 z h
    | false =>
      simp only [Bool.false_eq_true, if_false]
      rw [List.pairwise_cons, List.pairwise_cons]
      refine ⟨?_, hpw⟩
      intro z hz
      rcases List.mem_cons.1 hz with h | h
      · subst h; exact hlt
      · exact htrans z x e (hpw.1 z h) hlt

theorem exampleSortLoop_sorted (less : Nat → PodInfo → PodInfo → Bool)
    (lt : PodInfo → PodInfo → Bool) (hless : ∀ k a b, less k a b = lt a b)
    (htotal : ∀ a b, lt b a = false ∨ lt a b = false)
    (htrans : ∀ a b c, lt b a = false → lt c b = false → lt c a = false)
    (l : List PodInfo) :
    ∀ (sorted : List PodInfo) (k : Nat), sorted.Pairwise (fun x y => lt x y = false) →
      (exampleSortLoop less l sorted k).Pairwise (fun a b => lt b a = false) := by
  induction l with
  | nil =>
    intro sorted k hpw
    unfold exampleSortLoop
    rw [List.pairwise_reverse]
    exact hpw
  | cons e l ih =>
    intro sorted k hpw
    unfold exampleSortLoop
    exact ih _ _ (exampleInsert_sorted less lt hless htotal htrans e sorted k hpw)

theorem exampleSort_permutes (conflicts : List (List String)) (stuck : List String) :
    SortPermutes (examplePlugin conflicts stuck) := by
  intro l
  exact exampleSortLoop_perm _ l [] 0

theorem exampleSort_orders (conflicts : List (List String)) (stuck : List String) :
    SortOrders (examplePlugin conflicts stuck) := by
  intro l
  have h := exampleSortLoop_sorted (examplePlugin conflicts stuck).less
    (fun a b => MoreImportantPod 100 100 a.Pod b.Pod) (fun _ _ _ => rfl)
    (by
      intro a b
      simp only [moreImportantPod_eq_false_iff]
      omega)
    (by
      intro a b c
      simp only [moreImportantPod_eq_false_iff]
      omega)
    l [] 0 List.Pairwise.nil
  refine h.imp ?_
  intro a b hab hsure
  have h1 := hsure 100 100
  dsimp only at hab
  rw [h1] at hab
  cases hab

theorem exampleFilter_pods (conflicts : List (List String)) (stuck : List String) (pod : Pod)
    (st st1 : PostFilterState) (n n1 : NodeInfo) (h : n.Pods = n1.Pods) :
    ((examplePlugin conflicts stuck).handle.RunFilterPluginsWithNominatedPods st pod n).IsSuccess
      = ((examplePlugin conflicts stuck).handle.RunFilterPluginsWithNominatedPods
          st1 pod n1).IsSuccess := by
  simp only [examplePlugin, exampleHandle, h]

end ExamplePlugin

section ExampleVerdict
variable {σ : Type}

/-- A status that is not a success and has neither the code `Wait` nor the code
`Skip` is an error for the bookkeeping closures. -/
theorem asError_ne_none (st : Status) (h : st.IsSuccess = false) (hw : st.code ≠ Code.Wait)
    (hs : st.code ≠ Code.Skip) : st.AsError ≠ none := by
  unfold Status.AsError Status.IsWait Status.IsSkip
  have h1 : (st.code == Code.Wait) = false := by simpa using hw
  have h2 : (st.code == Code.Skip) = false := by simpa using hs
  simp only [h, h1, h2, Bool.or_self, Bool.false_eq_true, if_false]
  cases st.err <;> simp

theorem asError_of_success (st : Status) (h : st.IsSuccess = true) : st.AsError = none := by
  unfold Status.AsError
  simp [h]

theorem removePod_ok_state {g : Plugin σ} {pod : Pod} {rpi : PodInfo} {s s1 : Sim σ}
    (h : removePod g pod rpi s = (none, s1)) :
    s1.state = (g.handle.RunPreFilterExtensionRemovePod s.state pod rpi s1.nodeInfo).1 ∧
      (g.handle.RunPreFilterExtensionRemovePod s.state pod rpi s1.nodeInfo).2.AsError
        = none := by
  unfold removePod at h
  split at h
  · cases h
  · rename_i n hn
    dsimp only at h
    split at h
    · rename_i hs
      cases h
      exact ⟨rfl, asError_of_success _ hs⟩
    · simp only [Prod.mk.injEq] at h
      obtain ⟨h1, h2⟩ := h
      subst h2
      exact ⟨rfl, h1⟩

theorem addPod_ok_state {g : Plugin σ} {pod : Pod} {api : PodInfo} {s s1 : Sim σ}
    (h : addPod g pod api s = (none, s1)) :
    s1.state = (g.handle.RunPreFilterExtensionAddPod s.state pod api s1.nodeInfo).1 ∧
      (g.handle.RunPreFilterExtensionAddPod s.state pod api s1.nodeInfo).2.AsError
        = none := by
  unfold addPod at h
  dsimp only at h
  split at h
  · rename_i hs
    cases h
    exact ⟨rfl, asError_of_success _ hs⟩
  · simp only [Prod.mk.injEq] at h
    obtain ⟨h1, h2⟩ := h
    subst h2
    exact ⟨rfl, h1⟩

theorem quotaAdd_cpu (n d : Int) : quotaAdd [("cpu", n)] [("cpu", d)] = [("cpu", n + d)] := by
  simp [quotaAdd, List.lookup]

theorem exampleQuotaFits (conflicts : List (List String)) (stuck : List String) (pod : Pod)
    (st : PostFilterState) (n limit : Int) (h1 : st.used = [("cpu", n)])
    (h2 : st.usedLimit = [("cpu", limit)]) :
    quotaFits (examplePlugin conflicts stuck) pod st = decide (n + 1 ≤ limit) := by
  simp [quotaFits, examplePlugin, quotaAdd_cpu, quotaMask, quotaResourceNames,
    quotaLessThanOrEqual, h1, h2, List.lookup]

theorem exampleConflicts_mono (conflicts : List (List String)) {l l1 : List PodInfo}
    (hsub : l ⊆ l1)
    (h : conflicts.all (fun c => !(c.all (fun nm => l1.any (fun p => p.Pod.Name == nm)))) = true) :
    conflicts.all (fun c => !(c.all (fun nm => l.any (fun p => p.Pod.Name == nm)))) = true := by
  rw [List.all_eq_true] at h ⊢
  intro c hc
  have h1 := h c hc
  simp only [Bool.not_eq_true', List.all_eq_false] at h1 ⊢
  obtain ⟨nm, hnm, hno⟩ := h1
  refine ⟨nm, hnm, ?_⟩
  intro hany
  apply hno
  rw [List.any_eq_true] at hany ⊢
  obtain ⟨p, hp, hpn⟩ := hany
  exact ⟨p, hsub hp, hpn⟩

theorem examplePlugin_verdict (conflicts : List (List String)) (stuck : List String)
    (pod : Pod) (limit : Int) :
    PodSetVerdict (examplePlugin conflicts stuck) pod (exampleInv limit)
      (exampleFits conflicts limit) where
  add := by
    intro p s s1 hinv h
    obtain ⟨hu, hl⟩ := hinv
    obtain ⟨hst, _⟩ := addPod_ok_state h
    have hn := (addPod_ok h).1
    rw [hst, hn]
    exact ⟨by simp [examplePlugin, exampleHandle, hu, quotaAdd_cpu, NodeInfo.AddPodInfo], hl⟩
  remove := by
    intro p s s1 hinv h
    obtain ⟨hu, hl⟩ := hinv
    obtain ⟨hn, _⟩ := removePod_ok h
    obtain ⟨_, _, _, _, _, _, _, hlen⟩ := removePod_node_effect hn
    obtain ⟨hst, hsucc⟩ := removePod_ok_state h
    rw [hst]
    simp only [examplePlugin, exampleHandle] at hsucc ⊢
    cases hs : stuck.contains p.Pod.Name with
    | true =>
      have hm : p.Pod.Name ∈ stuck := by simpa using hs
      simp [hm, Status.AsError, Status.IsSuccess, Status.IsWait, Status.IsSkip,
        Status.Message] at hsucc
    | false =>
      simp only [Bool.false_eq_true, if_false]
      refine ⟨?_, hl⟩
      simp only [hu, quotaAdd_cpu]
      have : (s.nodeInfo.Pods.length : Int) = (s1.nodeInfo.Pods.length : Int) + 1 := by
        rw [← hlen]; push_cast; rfl
      rw [this]
      simp
  verdict := by
    intro s hinv
    obtain ⟨hu, hl⟩ := hinv
    unfold exampleFits
    rw [exampleQuotaFits conflicts stuck pod s.state _ limit hu hl]
    simp only [filterOK, examplePlugin, exampleHandle, decide_eq_true_eq]
    constructor
    · intro h
      refine ⟨?_, h.2⟩
      by_contra hc
      simp [hc, NewStatus, Status.IsSuccess] at h
    · intro h
      simp [h.1, h.2, NewStatus, Status.IsSuccess]
  mono := by
    intro l l1 hsub hf
    obtain ⟨h1, h2⟩ := hf
    refine ⟨exampleConflicts_mono conflicts hsub.subset h1, ?_⟩
    have := hsub.length_le
    omega

end ExampleVerdict

section ClaimsPriority
variable {σ : Type}

/-! ## Priority among the victims -/

/-- Removing a pod that is on a node with distinct UIDs erases it from the pod
list, up to the order of the pods. -/
theorem removePod_node_erase {n n1 : NodeInfo} {u : PodInfo}
    (hnd : (n.Pods.map (fun p => p.Pod.UID)).Nodup) (hu : u ∈ n.Pods)
    (h : n.RemovePod u.Pod = Except.ok n1) : n1.Pods.Perm (n.Pods.erase u) := by
  obtain ⟨k, j, x, last, hk, _, hx, hxk, hlast, rfl⟩ := removePod_node_ok h
  have hxu : x = u := eq_of_getPodKey_eq hnd (List.getElem?_mem hx) hu hxk hk
  subst hxu
  obtain ⟨hjl, hxj⟩ := List.getElem?_eq_some_iff.1 hx
  have he : n.Pods.erase x = n.Pods.eraseIdx j := by
    rw [← hxj]
    exact (nodup_of_nodup_uid hnd).erase_getElem j hjl
  rw [he]
  exact set_last_dropLast_perm hx hlast

/-- C8 (amended): when `SelectVictimsOnNode` returns `Success`, on a node whose
pods carry distinct UIDs, with `sort.Slice` sorting the potential victims and
with verdicts of the filter and of the quota test that are determined by the
pods on the node and remain true when pods are removed: for a returned victim
`v` and a reprieved potential victim `u` of the same partition (both violating
or both non-violating) with a lower priority than `v`, the pending pod does
not pass both tests on the final node with `u` removed and `v` put back. -/
theorem C8_no_lower_priority_alternative_in_partition (g : Plugin σ) (pod : Pod) (s : Sim σ)
    (pdbs : List PodDisruptionBudget) (Inv : σ → List PodInfo → Prop)
    (Fits : List PodInfo → Prop)
    (huid : (s.nodeInfo.Pods.map (fun p => p.Pod.UID)).Nodup)
    (hperm : SortPermutes g) (hord : SortOrders g)
    (hv : PodSetVerdict g pod Inv Fits) (hinv : Inv s.state s.nodeInfo.Pods)
    (hok : (SelectVictimsOnNode g pod s pdbs).1.status.IsSuccess = true)
    (v u : PodInfo)
    (hpart :
      (v ∈ (partitionVictims g (potentialVictimsOf g pod s) pdbs).1 ∧
        u ∈ (partitionVictims g (potentialVictimsOf g pod s) pdbs).1) ∨
      (v ∈ (partitionVictims g (potentialVictimsOf g pod s) pdbs).2 ∧
        u ∈ (partitionVictims g (potentialVictimsOf g pod s) pdbs).2))
    (hvic : v.Pod ∈ (SelectVictimsOnNode g pod s pdbs).1.victims)
    (hrep : u ∈ (SelectVictimsOnNode g pod s pdbs).2.nodeInfo.Pods)
    (hprio : PodPriority u.Pod < PodPriority v.Pod) :
    ∀ sa sb : Sim σ, removePod g pod u (SelectVictimsOnNode g pod s pdbs).2 = (none, sa) →
      addPod g pod v sa = (none, sb) →
      ¬ (filterOK g pod sb = true ∧ quotaFits g pod sb.state = true) := by
  obtain ⟨pv, s1, hL, _, hnd, hrun⟩ := selectVictims_run g pod s pdbs huid hperm hok
  have hpv : potentialVictimsOf g pod s = pv := by
    unfold potentialVictimsOf; rw [hL]
  rw [hpv] at hpart
  have hinv1 := removeLoop_inv hv _ _ _ _ _ _ hinv hL
  have hinv9 := reprieveRun_inv hv hrun hinv1
  intro sa sb hrem hadd hfits
  rcases reprieveRun_victim_fate hv hrun hinv1 v.Pod hvic with
    hq0 | ⟨A, pi, B, KA, KB, hcs, hpi, hKA, hKB, hN, hF⟩
  · cases hq0
  have hpi1 : pi = v := by cases pi; cases v; cases hpi; rfl
  subst hpi1
  -- the candidates carry distinct keys, apart from those of the node
  have hndl : (s1.nodeInfo.Pods ++
      ((partitionVictims g pv pdbs).1 ++ (partitionVictims g pv pdbs).2)).Nodup :=
    nodup_of_nodup_uid hnd
  obtain ⟨_, hcsnd, hdisj⟩ := List.nodup_append.1 hndl
  obtain ⟨hvnd, hnnd, hvn⟩ := List.nodup_append.1 hcsnd
  -- within a partition the candidates are in order of importance
  obtain ⟨hp1, hp2⟩ := partitionVictims_pairwise g hord pv pdbs
  have hucs : u ∈ (partitionVictims g pv pdbs).1 ++ (partitionVictims g pv pdbs).2 := by
    rcases hpart with h | h
    · exact List.mem_append_left _ h.2
    · exact List.mem_append_right _ h.2
  have hpw : ((partitionVictims g pv pdbs).1 ++ (partitionVictims g pv pdbs).2).Pairwise
      (fun a b =>
        ((a ∈ (partitionVictims g pv pdbs).1 ∧ b ∈ (partitionVictims g pv pdbs).1) ∨
          (a ∈ (partitionVictims g pv pdbs).2 ∧ b ∈ (partitionVictims g pv pdbs).2)) →
        ¬ SurelyMoreImportant b.Pod a.Pod) := by
    rw [List.pairwise_append]
    refine ⟨hp1.imp (by intro a b h _; exact h), hp2.imp (by intro a b h _; exact h), ?_⟩
    intro a ha b hb hsame
    rcases hsame with h | h
    · exact absurd hb (fun hb2 => hvn h.2 hb2)
    · exact absurd ha (fun ha2 => hvn ha2 h.1)
  rw [hcs] at hpw hucs hcsnd hdisj
  have huB : u ∈ B := by
    rcases List.mem_append.1 hucs with huA | huvB
    · exfalso
      have h1 := (List.pairwise_append.1 hpw).2.2 u huA pi (List.mem_cons_self _ _)
      have h2 := h1 (by
        rcases hpart with h | h
        · exact Or.inl ⟨h.2, h.1⟩
        · exact Or.inr ⟨h.2, h.1⟩)
      rw [not_surelyMoreImportant_iff] at h2
      omega
    · rcases List.mem_cons.1 huvB with huv | huB
      · subst huv; omega
      · exact huB
  obtain ⟨hAnd, hvBnd, hAB⟩ := List.nodup_append.1 hcsnd
  have huKB : u ∈ KB := by
    rw [hN] at hrep
    rcases List.mem_append.1 hrep with h | h
    · exfalso
      rcases List.mem_append.1 h with h1 | h1
      · exact hdisj h1 (List.mem_append_right _ (List.mem_cons_of_mem _ huB))
      · exact hAB (hKA.subset h1) (List.mem_cons_of_mem _ huB)
    · exact h
  have hunot : u ∉ s1.nodeInfo.Pods ++ KA := by
    intro h
    rcases List.mem_append.1 h with h1 | h1
    · exact hdisj h1 (List.mem_append_right _ (List.mem_cons_of_mem _ huB))
    · exact hAB (hKA.subset h1) (List.mem_cons_of_mem _ huB)
  -- the final node with `u` removed and `v` put back
  have hfinal_sub : ((SelectVictimsOnNode g pod s pdbs).2.nodeInfo.Pods).Sublist
      (s1.nodeInfo.Pods ++ (A ++ pi :: B)) := by
    rw [hN, List.append_assoc]
    exact List.Sublist.append (List.Sublist.refl _)
      (List.Sublist.append hKA (hKB.cons pi))
  have hfinal_nd : ((SelectVictimsOnNode g pod s pdbs).2.nodeInfo.Pods.map
      (fun p => p.Pod.UID)).Nodup := by
    rw [hcs] at hnd
    exact (hfinal_sub.map _).nodup hnd
  have hsa := removePod_node_erase hfinal_nd hrep (removePod_ok hrem).1
  rw [hN, List.erase_append_right _ hunot] at hsa
  have hinvb := hv.add _ _ sb (hv.remove _ _ sa hinv9 hrem) hadd
  have hfb := (hv.verdict sb hinvb).1 hfits
  rw [(addPod_ok hadd).1, addPodInfo_pods] at hfb
  apply hF
  refine hv.mono _ _ ?_ hfb
  have hsl : (s1.nodeInfo.Pods ++ KA ++ [pi]).Sublist
      ((s1.nodeInfo.Pods ++ KA ++ KB.erase u) ++ [pi]) :=
    List.Sublist.append (List.sublist_append_left _ _) (List.Sublist.refl _)
  exact hsl.subperm.trans (List.Perm.subperm (List.Perm.append_right _ hsa.symm))

end ClaimsPriority

section Witnesses

/-! ## The claims of the reprieve pass on the example node -/

/-- C7 as stated fails for pods that have not started: `x` and `y` have the same
priority and no start time, so `util.MoreImportantPod` reads the clock for each
of them and, with a clock that advances from reading to reading, holds of
them both ways. Both are returned as victims, `y` first, and `x` is more
important than `y`, which precedes it. -/
theorem C7_counterexample :
    (SelectVictimsOnNode tickPlugin pendingPod tickSim []).1.status.IsSuccess = true ∧
      (SelectVictimsOnNode tickPlugin pendingPod tickSim []).1.victims
        = [unstartedPod "y" 1, unstartedPod "x" 1] ∧
      (partitionVictims tickPlugin (potentialVictimsOf tickPlugin pendingPod tickSim) []).2
        = [⟨unstartedPod "y" 1⟩, ⟨unstartedPod "x" 1⟩] ∧
      (∀ now1 now2 : Nat, now1 < now2 →
        MoreImportantPod now1 now2 (unstartedPod "x" 1) (unstartedPod "y" 1) = true) ∧
      ∀ now1 now2 : Nat, now1 < now2 →
        MoreImportantPod now1 now2 (unstartedPod "y" 1) (unstartedPod "x" 1) = true := by
  refine ⟨by decide, by decide, by decide, ?_, ?_⟩
  · intro now1 now2 h
    simp [MoreImportantPod, GetPodStartTime, unstartedPod, PodPriority, h]
  · intro now1 now2 h
    simp [MoreImportantPod, GetPodStartTime, unstartedPod, PodPriority, h]

/-- C7 (amended) on the example node with each of `a`, `c` and `d` blocking the
filter: `d` (priority 3) and `a` (priority 1) are the violating candidates, in
this order, and `c` the non-violating one; all three are evicted. -/
theorem C7_victims_by_partition_and_importance_witness :
    (SelectVictimsOnNode evictingPlugin pendingPod webSim [webBudget 0]).1.victims
        = [examplePod "d" 3 [("app", "web")], examplePod "a" 1 [("app", "web")],
            examplePod "c" 2 []] ∧
      evictedOf (partitionVictims evictingPlugin
          (potentialVictimsOf evictingPlugin pendingPod webSim) [webBudget 0]).1
          (SelectVictimsOnNode evictingPlugin pendingPod webSim [webBudget 0]).2.nodeInfo
        = [examplePod "d" 3 [("app", "web")], examplePod "a" 1 [("app", "web")]] ∧
      ((SelectVictimsOnNode evictingPlugin pendingPod webSim [webBudget 0]).1.victims =
          evictedOf (partitionVictims evictingPlugin
              (potentialVictimsOf evictingPlugin pendingPod webSim) [webBudget 0]).1
              (SelectVictimsOnNode evictingPlugin pendingPod webSim [webBudget 0]).2.nodeInfo ++
            evictedOf (partitionVictims evictingPlugin
              (potentialVictimsOf evictingPlugin pendingPod webSim) [webBudget 0]).2
              (SelectVictimsOnNode evictingPlugin pendingPod webSim [webBudget 0]).2.nodeInfo ∧
        (evictedOf (partitionVictims evictingPlugin
            (potentialVictimsOf evictingPlugin pendingPod webSim) [webBudget 0]).1
            (SelectVictimsOnNode evictingPlugin pendingPod webSim [webBudget 0]).2.nodeInfo).Pairwise
          (fun a b => ¬ SurelyMoreImportant b a ∧ PodPriority b ≤ PodPriority a ∧
            (PodPriority a = PodPriority b →
              ∀ ta tb, a.StartTime = some ta → b.StartTime = some tb → ta ≤ tb)) ∧
        (evictedOf (partitionVictims evictingPlugin
            (potentialVictimsOf evictingPlugin pendingPod webSim) [webBudget 0]).2
            (SelectVictimsOnNode evictingPlugin pendingPod webSim [webBudget 0]).2.nodeInfo).Pairwise
          (fun a b => ¬ SurelyMoreImportant b a ∧ PodPriority b ≤ PodPriority a ∧
            (PodPriority a = PodPriority b →
              ∀ ta tb, a.StartTime = some ta → b.StartTime = some tb → ta ≤ tb))) :=
  ⟨by decide, by decide,
    C7_victims_by_partition_and_importance evictingPlugin pendingPod webSim [webBudget 0]
      (by decide) (exampleSort_permutes _ _) (exampleSort_orders _ _) (by decide)⟩

/-- C9 on the example node: neither `a` nor `c` can be put back. -/
theorem C9_no_victim_can_be_put_back_witness :
    (SelectVictimsOnNode webPlugin pendingPod webSim [webBudget 0]).1.victims
        = [examplePod "a" 1 [("app", "web")], examplePod "c" 2 []] ∧
    ∀ q ∈ (SelectVictimsOnNode webPlugin pendingPod webSim [webBudget 0]).1.victims,
      ∀ sb : Sim PostFilterState,
      addPod webPlugin pendingPod ⟨q⟩
        (SelectVictimsOnNode webPlugin pendingPod webSim [webBudget 0]).2 = (none, sb) →
      ¬ (filterOK webPlugin pendingPod sb = true ∧
          quotaFits webPlugin pendingPod sb.state = true) :=
  ⟨by decide, C9_no_victim_can_be_put_back webPlugin pendingPod webSim [webBudget 0]
    (exampleInv 10) (exampleFits [["a"], ["c"]] 10) (by decide) (exampleSort_permutes _ _)
    (examplePlugin_verdict _ _ _ _) ⟨rfl, rfl⟩ (by decide)⟩

/-- C10 on the example node: the filter run succeeds on the node left behind. -/
theorem C10_pending_pod_fits_on_final_node_witness :
    (webPlugin.handle.RunFilterPluginsWithNominatedPods
        (SelectVictimsOnNode webPlugin pendingPod webSim [webBudget 0]).2.state pendingPod
        (SelectVictimsOnNode webPlugin pendingPod webSim [webBudget 0]).2.nodeInfo).IsSuccess
        = true ∧
      ∃ E : List PodInfo,
        (SelectVictimsOnNode webPlugin pendingPod webSim [webBudget 0]).1.victims
          = E.map (fun p => p.Pod) ∧
        ((SelectVictimsOnNode webPlugin pendingPod webSim [webBudget 0]).2.nodeInfo.Pods
          ++ E).Perm webSim.nodeInfo.Pods :=
  C10_pending_pod_fits_on_final_node webPlugin pendingPod webSim [webBudget 0] (by decide)
    (exampleSort_permutes _ _) (exampleFilter_pods _ _ _) (by decide)

/-- C8 as stated fails: `u` (priority 3) is under a budget without disruptions
left and `v` (priority 5) under none, and the filter admits one of them. The
violating candidate `u` is reprieved first, `v` is the victim, although the
pending pod passes the filter and the quota test on the final node with `u`
removed and `v` put back. -/
theorem C8_counterexample :
    (SelectVictimsOnNode pairPlugin pendingPod pairSim [webBudget 0]).1.status.IsSuccess = true ∧
      podV ∈ potentialVictimsOf pairPlugin pendingPod pairSim ∧
      podU ∈ potentialVictimsOf pairPlugin pendingPod pairSim ∧
      podV.Pod ∈ (SelectVictimsOnNode pairPlugin pendingPod pairSim [webBudget 0]).1.victims ∧
      podU.Pod ∉ (SelectVictimsOnNode pairPlugin pendingPod pairSim [webBudget 0]).1.victims ∧
      podU ∈ (SelectVictimsOnNode pairPlugin pendingPod pairSim [webBudget 0]).2.nodeInfo.Pods ∧
      PodPriority podU.Pod < PodPriority podV.Pod ∧
      (removePod pairPlugin pendingPod podU
        (SelectVictimsOnNode pairPlugin pendingPod pairSim [webBudget 0]).2).1 = none ∧
      (addPod pairPlugin pendingPod podV
        (removePod pairPlugin pendingPod podU
          (SelectVictimsOnNode pairPlugin pendingPod pairSim [webBudget 0]).2).2).1 = none ∧
      filterOK pairPlugin pendingPod
        (addPod pairPlugin pendingPod podV
          (removePod pairPlugin pendingPod podU
            (SelectVictimsOnNode pairPlugin pendingPod pairSim [webBudget 0]).2).2).2 = true ∧
      quotaFits pairPlugin pendingPod
        (addPod pairPlugin pendingPod podV
          (removePod pairPlugin pendingPod podU
            (SelectVictimsOnNode pairPlugin pendingPod pairSim [webBudget 0]).2).2).2.state
        = true := by
  decide

/-- C8 (amended) on the example node with `d` blocking the filter: `d` (priority
3) is a victim and `a` (priority 1) is reprieved, both of the violating
partition; with `a` removed and `d` put back the filter still fails. -/
theorem C8_no_lower_priority_alternative_in_partition_witness :
    (⟨examplePod "d" 3 [("app", "web")]⟩ : PodInfo).Pod
        ∈ (SelectVictimsOnNode blockedPlugin pendingPod webSim [webBudget 0]).1.victims ∧
    ∀ sa sb : Sim PostFilterState,
      removePod blockedPlugin pendingPod ⟨examplePod "a" 1 [("app", "web")]⟩
        (SelectVictimsOnNode blockedPlugin pendingPod webSim [webBudget 0]).2 = (none, sa) →
      addPod blockedPlugin pendingPod ⟨examplePod "d" 3 [("app", "web")]⟩ sa = (none, sb) →
      ¬ (filterOK blockedPlugin pendingPod sb = true ∧
          quotaFits blockedPlugin pendingPod sb.state = true) :=
  ⟨by decide, C8_no_lower_priority_alternative_in_partition blockedPlugin pendingPod webSim
    [webBudget 0] (exampleInv 10) (exampleFits [["d"]] 10) (by decide)
    (exampleSort_permutes _ _) (exampleSort_orders _ _) (examplePlugin_verdict _ _ _ _)
    ⟨rfl, rfl⟩ (by decide) ⟨examplePod "d" 3 [("app", "web")]⟩
    ⟨examplePod "a" 1 [("app", "web")]⟩ (by decide) (by decide) (by decide) (by decide)⟩

end Witnesses

section SlipsInGeneral
variable {σ : Type}

/-! ## The two slips of `reprievePod`, for every plugin -/

/-- A candidate that fails the filter and, once removed, still overruns the
quota makes `reprievePod` return an error although every hook succeeded: the
second removal does not find the candidate on the node. -/
theorem reprievePod_error_when_both_fail (g : Plugin σ) (pod : Pod) (p : PodInfo)
    (victims : List Pod) (s s1 s2 : Sim σ)
    (hfresh : ∀ x ∈ s.nodeInfo.Pods, x.Pod.UID ≠ p.Pod.UID)
    (hadd : addPod g pod p s = (none, s1)) (hfit : filterOK g pod s1 = false)
    (hrem : removePod g pod p s1 = (none, s2)) (hquota : quotaFits g pod s2.state = false) :
    ∃ e, (reprievePod g pod p victims s).1 = some e := by
  have hstep := reprievePod_step g pod p victims s
  have hb : s2.nodeInfo.Pods = s.nodeInfo.Pods := by
    have h1 := (removePod_ok hrem).1
    rw [(addPod_ok hadd).1] at h1
    exact removePod_after_add hfresh h1
  rcases hR : reprievePod g pod p victims s with ⟨eo, fits, v1, s9⟩
  rw [hR] at hstep
  cases eo with
  | some e => exact ⟨e, rfl⟩
  | none =>
    exfalso
    cases hstep with
    | kept _ hadd1 hfit1 _ =>
      rw [hadd] at hadd1; cases hadd1
      rw [hfit] at hfit1; cases hfit1
    | quotaEvicted sa _ hadd1 hfit1 _ _ =>
      rw [hadd] at hadd1; cases hadd1
      rw [hfit] at hfit1; cases hfit1
    | filterEvicted sa _ hadd1 _ hrem1 hquota1 =>
      rw [hadd] at hadd1; cases hadd1
      rw [hrem] at hrem1; cases hrem1
      rw [hquota] at hquota1; cases hquota1
    | bothEvicted sa sb _ hadd1 _ hrem1 _ hrem2 =>
      rw [hadd] at hadd1; cases hadd1
      rw [hrem] at hrem1; cases hrem1
      exact removePod_absent_fails (by rw [hb]; exact hfresh) hrem2

/-- A candidate that passes the filter and overruns the quota is evicted while
`reprievePod` returns `fits = true`, so the loop over the violating candidates
does not count it. -/
theorem reprievePod_fits_when_quota_evicts (g : Plugin σ) (pod : Pod) (p : PodInfo)
    (victims : List Pod) (s s1 s3 : Sim σ)
    (hadd : addPod g pod p s = (none, s1)) (hfit : filterOK g pod s1 = true)
    (hquota : quotaFits g pod s1.state = false)
    (hrem : removePod g pod p s1 = (none, s3)) :
    reprievePod g pod p victims s = (none, true, victims ++ [p.Pod], s3) := by
  have hstep := reprievePod_step g pod p victims s
  rcases hR : reprievePod g pod p victims s with ⟨eo, fits, v1, s9⟩
  rw [hR] at hstep
  cases hstep with
  | addFailed e _ hadd1 => rw [hadd] at hadd1; cases hadd1
  | kept _ hadd1 _ hquota1 =>
    rw [hadd] at hadd1; cases hadd1
    rw [hquota] at hquota1; cases hquota1
  | quotaRemoveFailed sa e _ hadd1 _ _ hrem1 =>
    rw [hadd] at hadd1; cases hadd1
    rw [hrem] at hrem1; cases hrem1
  | quotaEvicted sa _ hadd1 _ _ hrem1 =>
    rw [hadd] at hadd1; cases hadd1
    rw [hrem] at hrem1; cases hrem1
    rfl
  | filterRemoveFailed sa e _ hadd1 hfit1 _ =>
    rw [hadd] at hadd1; cases hadd1
    rw [hfit] at hfit1; cases hfit1
  | filterEvicted sa _ hadd1 hfit1 _ _ =>
    rw [hadd] at hadd1; cases hadd1
    rw [hfit] at hfit1; cases hfit1
  | bothRemoveFailed sa sb e _ hadd1 hfit1 _ _ _ =>
    rw [hadd] at hadd1; cases hadd1
    rw [hfit] at hfit1; cases hfit1
  | bothEvicted sa sb _ hadd1 hfit1 _ _ _ =>
    rw [hadd] at hadd1; cases hadd1
    rw [hfit] at hfit1; cases hfit1

end SlipsInGeneral

section ClaimsCanPreempt
variable {σ : Type}

/-! ## `canPreempt` -/

theorem canPreempt_eq_true_iff (g : Plugin σ) (pod victim : Pod) :
    g.canPreempt pod victim = true ↔
      g.IsPodNonPreemptible victim = false ∧
      ¬ (g.pluginArgs.DisableDefaultQuotaPreemption = true ∧
          g.DefaultQuotaName = g.getPodAssociateQuotaName victim) ∧
      PodPriority pod > PodPriority victim ∧
      g.getPodAssociateQuotaName pod = g.getPodAssociateQuotaName victim := by
  unfold Plugin.canPreempt
  cases hn : g.IsPodNonPreemptible victim with
  | true => simp
  | false =>
    simp only [Bool.false_eq_true, if_false, true_and]
    by_cases hd : (g.pluginArgs.DisableDefaultQuotaPreemption &&
        g.DefaultQuotaName == g.getPodAssociateQuotaName victim) = true
    · have hd1 : g.pluginArgs.DisableDefaultQuotaPreemption = true ∧
          g.DefaultQuotaName = g.getPodAssociateQuotaName victim := by simpa using hd
      simp [hd, hd1]
    · have hd1 : ¬ (g.pluginArgs.DisableDefaultQuotaPreemption = true ∧
          g.DefaultQuotaName = g.getPodAssociateQuotaName victim) := by simpa using hd
      have hd2 : (g.pluginArgs.DisableDefaultQuotaPreemption &&
          g.DefaultQuotaName == g.getPodAssociateQuotaName victim) = false := by simpa using hd
      simp only [hd2, Bool.false_eq_true, if_false, Bool.and_eq_true, decide_eq_true_eq,
        beq_iff_eq]
      exact ⟨fun h => ⟨hd1, h.1, h.2⟩, fun h => ⟨h.2.1, h.2.2⟩⟩

/-- C15: `canPreempt` returns true exactly when the victim is not marked
non-preemptible, it is not the case that `DisableDefaultQuotaPreemption` is set
and the quota name of the victim is the default one, the preemptor has a
strictly greater priority, and both have the same quota name. -/
theorem C15_canPreempt_characterised (g : Plugin σ) (pod victim : Pod) :
    g.canPreempt pod victim = true ↔
      g.IsPodNonPreemptible victim = false ∧
      ¬ (g.pluginArgs.DisableDefaultQuotaPreemption = true ∧
          g.DefaultQuotaName = g.getPodAssociateQuotaName victim) ∧
      PodPriority pod > PodPriority victim ∧
      g.getPodAssociateQuotaName pod = g.getPodAssociateQuotaName victim :=
  canPreempt_eq_true_iff g pod victim

/-- C16: when the priority of the preemptor does not exceed the priority of
the victim, `canPreempt` returns false, whatever the quota names and the
preemptibility marks. -/
theorem C16_no_preemption_without_higher_priority (g : Plugin σ) (pod victim : Pod)
    (h : PodPriority pod ≤ PodPriority victim) : g.canPreempt pod victim = false := by
  cases hc : g.canPreempt pod victim with
  | false => rfl
  | true =>
    have := ((canPreempt_eq_true_iff g pod victim).1 hc).2.2.1
    omega

/-- C16 for two pods of priority 10 in the same quota group. -/
theorem C16_no_preemption_without_higher_priority_witness :
    PodPriority pendingPod ≤ PodPriority (examplePod "x" 10 []) ∧
      (examplePlugin [] []).canPreempt pendingPod (examplePod "x" 10 []) = false :=
  ⟨by decide, C16_no_preemption_without_higher_priority (examplePlugin [] []) pendingPod
    (examplePod "x" 10 []) (by decide)⟩

end ClaimsCanPreempt

section ClaimsDefaultQuota
variable {σ : Type}

/-- C17 as stated fails in its second half: with the flag unset, a victim of the
default quota group that is marked non-preemptible is not preemptable by a
preemptor of the default quota group with a higher priority. -/
theorem C17_counterexample :
    (examplePlugin [] []).pluginArgs.DisableDefaultQuotaPreemption = false ∧
      (examplePlugin [] []).getPodAssociateQuotaName
          (defaultQuotaPod "x" 1 [("quota.scheduling.koordinator.sh/preemptible", "false")])
        = (examplePlugin [] []).DefaultQuotaName ∧
      (examplePlugin [] []).getPodAssociateQuotaName (defaultQuotaPod "p" 10 [])
        = (examplePlugin [] []).DefaultQuotaName ∧
      PodPriority (defaultQuotaPod "p" 10 []) >
        PodPriority
          (defaultQuotaPod "x" 1 [("quota.scheduling.koordinator.sh/preemptible", "false")]) ∧
      (examplePlugin [] []).canPreempt (defaultQuotaPod "p" 10 [])
        (defaultQuotaPod "x" 1 [("quota.scheduling.koordinator.sh/preemptible", "false")])
        = false := by
  decide

/-- C17 (amended): with `DisableDefaultQuotaPreemption` set, `canPreempt` returns
false for every victim of the default quota group, whatever the preemptor;
with the flag unset, such a victim is preemptable by a preemptor of the default
quota group with a strictly higher priority, provided the victim is not marked
non-preemptible. -/
theorem C17_default_quota_flag (g : Plugin σ) (pod victim : Pod)
    (hvictim : g.getPodAssociateQuotaName victim = g.DefaultQuotaName) :
    (g.pluginArgs.DisableDefaultQuotaPreemption = true → g.canPreempt pod victim = false) ∧
      (g.pluginArgs.DisableDefaultQuotaPreemption = false →
        g.getPodAssociateQuotaName pod = g.DefaultQuotaName →
        PodPriority pod > PodPriority victim →
        g.IsPodNonPreemptible victim = false → g.canPreempt pod victim = true) := by
  constructor
  · intro hflag
    cases hc : g.canPreempt pod victim with
    | false => rfl
    | true =>
      exact absurd ⟨hflag, hvictim.symm⟩ ((canPreempt_eq_true_iff g pod victim).1 hc).2.1
  · intro hflag hpod hprio hmark
    rw [canPreempt_eq_true_iff]
    refine ⟨hmark, ?_, hprio, hpod.trans hvictim.symm⟩
    intro h
    rw [hflag] at h
    cases h.1

/-- C17 (amended) on pods of the default quota group: the victim of priority 1
is protected under the plugin with the flag set and preemptable under the
plugin with the flag unset. -/
theorem C17_default_quota_flag_witness :
    strictPlugin.canPreempt (defaultQuotaPod "p" 10 []) (defaultQuotaPod "x" 1 []) = false ∧
      (examplePlugin [] []).canPreempt (defaultQuotaPod "p" 10 []) (defaultQuotaPod "x" 1 [])
        = true :=
  ⟨(C17_default_quota_flag strictPlugin (defaultQuotaPod "p" 10 []) (defaultQuotaPod "x" 1 [])
      (by decide)).1 (by decide),
    (C17_default_quota_flag (examplePlugin [] []) (defaultQuotaPod "p" 10 [])
      (defaultQuotaPod "x" 1 []) (by decide)).2 (by decide) (by decide) (by decide)
      (by decide)⟩

end ClaimsDefaultQuota

section ClaimsEligible
variable {σ : Type}

/-! ## `PodEligibleToPreemptOthers` -/

/-- C19: a pod whose preemption policy is `Never` is not eligible, with the
message of the policy, whatever the nominated node, its status and the node
snapshot are. -/
theorem C19_policy_never_is_not_eligible (g : Plugin σ) (pod : Pod)
    (nominatedNodeStatus : Option Status) (h : pod.PreemptionPolicy = some "Never") :
    g.PodEligibleToPreemptOthers pod nominatedNodeStatus
      = (false, "not eligible due to preemptionPolicy=Never.") := by
  unfold Plugin.PodEligibleToPreemptOthers
  simp [h]

/-- C19 on a pod with policy `Never` nominated to `n1`. -/
theorem C19_policy_never_is_not_eligible_witness :
    neverPod.PreemptionPolicy = some "Never" ∧
      (examplePlugin [] []).PodEligibleToPreemptOthers neverPod none
        = (false, "not eligible due to preemptionPolicy=Never.") :=
  ⟨by decide, C19_policy_never_is_not_eligible (examplePlugin [] []) neverPod none (by decide)⟩

theorem string_length_pos_of_ne_empty (s : String) (h : s ≠ "") : s.length > 0 := by
  cases s with
  | mk data =>
    cases data with
    | nil => exact absurd rfl h
    | cons c cs => simp [String.length]

/-- C20: a pod that does not opt out of preemption and is nominated to a node
whose status has code `UnschedulableAndUnresolvable` is eligible, whatever pods
the nominated node holds. -/
theorem C20_unresolvable_nominated_node_is_eligible (g : Plugin σ) (pod : Pod)
    (nominatedNodeStatus : Option Status) (hpolicy : pod.PreemptionPolicy ≠ some "Never")
    (hnom : pod.NominatedNodeName ≠ "")
    (hcode : statusCode nominatedNodeStatus = Code.UnschedulableAndUnresolvable) :
    g.PodEligibleToPreemptOthers pod nominatedNodeStatus = (true, "") := by
  unfold Plugin.PodEligibleToPreemptOthers
  have hlen := string_length_pos_of_ne_empty _ hnom
  simp [hpolicy, hlen, hcode]

/-- C20 on a pod nominated to `n1`, which holds a terminating pod of the same
quota group and of lower priority. -/
theorem C20_unresolvable_nominated_node_is_eligible_witness :
    (∃ n, (examplePlugin [] []).handle.NodeInfosGet nominatedPod.NominatedNodeName = some n ∧
        ∃ p ∈ n.Pods, p.Pod.DeletionTimestamp.isSome = true ∧
          (examplePlugin [] []).getPodAssociateQuotaName p.Pod
            = (examplePlugin [] []).getPodAssociateQuotaName nominatedPod ∧
          PodPriority p.Pod < PodPriority nominatedPod) ∧
      (examplePlugin [] []).PodEligibleToPreemptOthers nominatedPod
        (some (NewStatus Code.UnschedulableAndUnresolvable [])) = (true, "") :=
  ⟨⟨⟨"n1", [⟨terminatingPod "t" 1⟩, ⟨examplePod "b" 20 []⟩], []⟩, by decide,
      ⟨terminatingPod "t" 1⟩, by decide, by decide, by decide, by decide⟩,
    C20_unresolvable_nominated_node_is_eligible (examplePlugin [] []) nominatedPod
      (some (NewStatus Code.UnschedulableAndUnresolvable [])) (by decide) (by decide)
      (by decide)⟩

end ClaimsEligible

section Budgets

/-! ## The loop over the budgets -/

theorem checkPDBs_cons (pod : Pod) (pdb : PodDisruptionBudget)
    (pdbs : List PodDisruptionBudget) (a : Int) (allowed : List Int) (violated : Bool) :
    checkPDBs pod (pdb :: pdbs) (a :: allowed) violated =
      if pdbCharged pdb pod then
        (wrapInt32 (a - 1) ::
            (checkPDBs pod pdbs allowed (if wrapInt32 (a - 1) < 0 then true else violated)).1,
          (checkPDBs pod pdbs allowed (if wrapInt32 (a - 1) < 0 then true else violated)).2)
      else (a :: (checkPDBs pod pdbs allowed violated).1,
        (checkPDBs pod pdbs allowed violated).2) := by
  unfold pdbCharged pdbMatches
  rw [checkPDBs]
  by_cases hns : pdb.Namespace = pod.Namespace
  · simp only [hns, bne_self_eq_false, Bool.false_eq_true, if_false, beq_self_eq_true,
      Bool.true_and]
    cases hsel : pdb.Selector with
    | error e => simp
    | ok selector =>
      dsimp only
      cases hm : (selector.Empty || !selector.Matches pod.Labels) with
      | true =>
        have : (!selector.Empty && selector.Matches pod.Labels) = false := by
          cases h1 : selector.Empty <;> cases h2 : selector.Matches pod.Labels <;> simp_all
        simp [this]
      | false =>
        have : (!selector.Empty && selector.Matches pod.Labels) = true := by
          cases h1 : selector.Empty <;> cases h2 : selector.Matches pod.Labels <;> simp_all
        simp only [this, Bool.false_eq_true, if_false, Bool.true_and]
        cases hd : pdb.DisruptedPods.contains pod.Name with
        | true => simp
        | false => simp
  · have h1 : (pdb.Namespace != pod.Namespace) = true := by simpa using hns
    have h2 : (pdb.Namespace == pod.Namespace) = false := by simpa using hns
    simp [h1, h2]

theorem checkPDBs_nil_allowed (pod : Pod) (pdbs : List PodDisruptionBudget)
    (violated : Bool) : checkPDBs pod pdbs [] violated = ([], violated) := by
  cases pdbs <;> rfl

theorem checkPDBs_nil (pod : Pod) (allowed : List Int) (violated : Bool) :
    checkPDBs pod [] allowed violated = (allowed, violated) := by
  cases allowed <;> rfl

/-- The loop over the budgets depends on a budget only through whether it is
charged for the pod. -/
theorem checkPDBs_congr (pod : Pod) (pdbs : List PodDisruptionBudget) :
    ∀ (pdbs1 : List PodDisruptionBudget) (allowed : List Int) (violated : Bool),
      pdbs.map (fun pdb => pdbCharged pdb pod) = pdbs1.map (fun pdb => pdbCharged pdb pod) →
      checkPDBs pod pdbs allowed violated = checkPDBs pod pdbs1 allowed violated := by
  induction pdbs with
  | nil =>
    intro pdbs1 allowed violated h
    cases pdbs1 with
    | nil => rfl
    | cons b bs => simp at h
  | cons pdb pdbs ih =>
    intro pdbs1 allowed violated h
    cases pdbs1 with
    | nil => simp at h
    | cons b bs =>
      simp only [List.map_cons, List.cons.injEq] at h
      cases allowed with
      | nil => rw [checkPDBs_nil_allowed, checkPDBs_nil_allowed]
      | cons a allowed =>
        rw [checkPDBs_cons, checkPDBs_cons, h.1, ih bs _ _ h.2, ih bs _ _ h.2]

/-- The loop over the budgets on counters given per budget. -/
theorem checkPDBs_map (pod : Pod) (f : PodDisruptionBudget → Int)
    (pdbs : List PodDisruptionBudget) :
    ∀ violated : Bool, checkPDBs pod pdbs (pdbs.map f) violated =
      (pdbs.map (fun pdb => if pdbCharged pdb pod then wrapInt32 (f pdb - 1) else f pdb),
        violated || pdbs.any (fun pdb =>
          pdbCharged pdb pod && decide (wrapInt32 (f pdb - 1) < 0))) := by
  induction pdbs with
  | nil => intro violated; simp [checkPDBs_nil]
  | cons pdb pdbs ih =>
    intro violated
    rw [List.map_cons, checkPDBs_cons]
    cases hc : pdbCharged pdb pod with
    | true =>
      simp only [if_true, ih, List.map_cons, hc, List.any_cons, Bool.true_and]
      by_cases hneg : wrapInt32 (f pdb - 1) < 0
      · simp [hneg]
      · simp [hneg]
    | false =>
      simp only [Bool.false_eq_true, if_false, ih, List.map_cons, hc, List.any_cons,
        Bool.false_and, Bool.false_or]

/-! ## The loop over the pods -/

theorem filterPodsLoop_cons_eq (pdbs : List PodDisruptionBudget) (p : PodInfo)
    (ps : List PodInfo) (allowed : List Int) :
    filterPodsLoop pdbs (p :: ps) allowed =
      if (if p.Pod.Labels.length != 0 then checkPDBs p.Pod pdbs allowed false
          else (allowed, false)).2 then
        (p :: (filterPodsLoop pdbs ps
            (if p.Pod.Labels.length != 0 then checkPDBs p.Pod pdbs allowed false
              else (allowed, false)).1).1,
          (filterPodsLoop pdbs ps
            (if p.Pod.Labels.length != 0 then checkPDBs p.Pod pdbs allowed false
              else (allowed, false)).1).2)
      else
        ((filterPodsLoop pdbs ps
            (if p.Pod.Labels.length != 0 then checkPDBs p.Pod pdbs allowed false
              else (allowed, false)).1).1,
          p :: (filterPodsLoop pdbs ps
            (if p.Pod.Labels.length != 0 then checkPDBs p.Pod pdbs allowed false
              else (allowed, false)).1).2) := rfl

theorem filterPodsLoop_unlabelled (pdbs : List PodDisruptionBudget) (p : PodInfo)
    (ps : List PodInfo) (allowed : List Int) (h : p.Pod.Labels = []) :
    filterPodsLoop pdbs (p :: ps) allowed =
      ((filterPodsLoop pdbs ps allowed).1, p :: (filterPodsLoop pdbs ps allowed).2) := by
  rw [filterPodsLoop_cons_eq]
  simp [h]

theorem filterPodsLoop_congr (pdbs pdbs1 : List PodDisruptionBudget) (l : List PodInfo) :
    ∀ allowed : List Int,
      (∀ p ∈ l, pdbs.map (fun pdb => pdbCharged pdb p.Pod)
        = pdbs1.map (fun pdb => pdbCharged pdb p.Pod)) →
      filterPodsLoop pdbs l allowed = filterPodsLoop pdbs1 l allowed := by
  induction l with
  | nil => intro allowed _; rfl
  | cons p ps ih =>
    intro allowed h
    rw [filterPodsLoop_cons_eq, filterPodsLoop_cons_eq,
        checkPDBs_congr p.Pod pdbs pdbs1 allowed false (h p (List.mem_cons_self _ _))]
    have hrest := fun a => ih a (fun q hq => h q (List.mem_cons_of_mem _ hq))
    simp only [hrest]

end Budgets

section BudgetSpec

/-! ## The classification against the words of the specification -/

theorem wrapInt32_of_range (x : Int) (h1 : -2147483648 ≤ x) (h2 : x ≤ 2147483647) :
    wrapInt32 x = x := by
  unfold wrapInt32
  omega

theorem chargedCount_le (pdb : PodDisruptionBudget) (l : List PodInfo) :
    chargedCount pdb l ≤ l.length := List.length_filter_le _ _

theorem chargedCount_snoc (pdb : PodDisruptionBudget) (l : List PodInfo) (p : PodInfo) :
    chargedCount pdb (l ++ [p]) =
      chargedCount pdb l +
        (if (p.Pod.Labels.length != 0 && pdbCharged pdb p.Pod) = true then 1 else 0) := by
  unfold chargedCount
  rw [List.filter_append, List.length_append]
  by_cases h : (p.Pod.Labels.length != 0 && pdbCharged pdb p.Pod) = true
  · simp [h]
  · simp [h]

theorem specViolating_at (pdbs : List PodDisruptionBudget) (pre rest : List PodInfo)
    (p : PodInfo) :
    specViolating pdbs (pre ++ p :: rest) pre.length =
      (p.Pod.Labels.length != 0 &&
        pdbs.any (fun pdb =>
          pdbCharged pdb p.Pod &&
            decide (pdb.DisruptionsAllowed - (chargedCount pdb (pre ++ [p]) : Int) < 0))) := by
  unfold specViolating
  have h1 : (pre ++ p :: rest)[pre.length]? = some p := by
    rw [List.getElem?_append_right (le_refl _)]; simp
  have h2 : (pre ++ p :: rest).take (pre.length + 1) = pre ++ [p] := by
    rw [List.take_append_eq_append_take]
    simp
  rw [h1, h2]

theorem any_congr_mem {α : Type} (l : List α) (f g : α → Bool)
    (h : ∀ a ∈ l, f a = g a) : l.any f = l.any g := by
  induction l with
  | nil => rfl
  | cons a l ih =>
    rw [List.any_cons, List.any_cons, h a (List.mem_cons_self _ _),
      ih (fun b hb => h b (List.mem_cons_of_mem _ hb))]

/-- The loop over the pods, started after the prefix `pre` with counters that
have not wrapped around, classifies by `specViolating`. -/
theorem filterPodsLoop_spec (pdbs : List PodDisruptionBudget) (l : List PodInfo) :
    ∀ pre : List PodInfo,
      (∀ pdb ∈ pdbs, -2147483648 + ((pre ++ l).length : Int) ≤ pdb.DisruptionsAllowed ∧
        pdb.DisruptionsAllowed ≤ 2147483647) →
      filterPodsLoop pdbs l
          (pdbs.map (fun pdb => pdb.DisruptionsAllowed - (chargedCount pdb pre : Int))) =
        (((l.enumFrom pre.length).filter
            (fun jp => specViolating pdbs (pre ++ l) jp.1)).map Prod.snd,
          ((l.enumFrom pre.length).filter
            (fun jp => !specViolating pdbs (pre ++ l) jp.1)).map Prod.snd) := by
  induction l with
  | nil => intro pre _; rfl
  | cons p rest ih =>
    intro pre hrange
    have hlen : ((pre ++ p :: rest).length : Int) = (pre.length : Int) + 1 + rest.length := by
      simp only [List.length_append, List.length_cons]; push_cast; ring
    -- the counters after the step of `p`
    have hstep : ∀ pdb ∈ pdbs,
        (if pdbCharged pdb p.Pod then
            wrapInt32 (pdb.DisruptionsAllowed - (chargedCount pdb pre : Int) - 1)
          else pdb.DisruptionsAllowed - (chargedCount pdb pre : Int)) =
        pdb.DisruptionsAllowed -
          ((chargedCount pdb pre +
            (if pdbCharged pdb p.Pod = true then 1 else 0) : Nat) : Int) := by
      intro pdb hpdb
      have hr := hrange pdb hpdb
      have hc := chargedCount_le pdb pre
      by_cases hch : pdbCharged pdb p.Pod = true
      · simp only [hch, if_true]
        rw [wrapInt32_of_range _ (by omega) (by omega)]
        push_cast; ring
      · simp [hch]
    have hrange1 : ∀ pdb ∈ pdbs,
        -2147483648 + (((pre ++ [p]) ++ rest).length : Int) ≤ pdb.DisruptionsAllowed ∧
          pdb.DisruptionsAllowed ≤ 2147483647 := by
      intro pdb hpdb
      have := hrange pdb hpdb
      rw [List.append_assoc]
      exact this
    have hih := ih (pre ++ [p]) hrange1
    rw [List.append_assoc, List.singleton_append, List.length_append, List.length_singleton]
      at hih
    have hsv := specViolating_at pdbs pre rest p
    rw [filterPodsLoop_cons_eq, List.enumFrom_cons]
    by_cases hlab : (p.Pod.Labels.length != 0) = true
    · -- a labelled pod: the budgets are visited
      have hcount : ∀ pdb, chargedCount pdb (pre ++ [p]) =
          chargedCount pdb pre + (if pdbCharged pdb p.Pod = true then 1 else 0) := by
        intro pdb
        rw [chargedCount_snoc]
        simp [hlab]
      have hallowed : (pdbs.map (fun pdb => if pdbCharged pdb p.Pod then
            wrapInt32 (pdb.DisruptionsAllowed - (chargedCount pdb pre : Int) - 1)
          else pdb.DisruptionsAllowed - (chargedCount pdb pre : Int))) =
          pdbs.map (fun pdb =>
            pdb.DisruptionsAllowed - (chargedCount pdb (pre ++ [p]) : Int)) := by
        apply List.map_congr_left
        intro pdb hpdb
        rw [hstep pdb hpdb, hcount]
      have hflag : pdbs.any (fun pdb => pdbCharged pdb p.Pod &&
            decide (wrapInt32 (pdb.DisruptionsAllowed - (chargedCount pdb pre : Int) - 1) < 0))
          = pdbs.any (fun pdb => pdbCharged pdb p.Pod &&
            decide (pdb.DisruptionsAllowed - (chargedCount pdb (pre ++ [p]) : Int) < 0)) := by
        apply any_congr_mem
        intro pdb hpdb
        cases hch : pdbCharged pdb p.Pod with
        | false => rfl
        | true =>
          have h1 := hstep pdb hpdb
          simp only [hch, if_true] at h1
          rw [h1, hcount, hch]
          simp
      have hr1 : (if (p.Pod.Labels.length != 0) = true then
            checkPDBs p.Pod pdbs
              (pdbs.map (fun pdb => pdb.DisruptionsAllowed - (chargedCount pdb pre : Int))) false
          else (pdbs.map (fun pdb => pdb.DisruptionsAllowed - (chargedCount pdb pre : Int)),
            false)).1 =
          pdbs.map (fun pdb => pdb.DisruptionsAllowed - (chargedCount pdb (pre ++ [p]) : Int)) := by
        simp only [hlab, if_true, checkPDBs_map, hallowed]
      have hr2 : (if (p.Pod.Labels.length != 0) = true then
            checkPDBs p.Pod pdbs
              (pdbs.map (fun pdb => pdb.DisruptionsAllowed - (chargedCount pdb pre : Int))) false
          else (pdbs.map (fun pdb => pdb.DisruptionsAllowed - (chargedCount pdb pre : Int)),
            false)).2 = specViolating pdbs (pre ++ p :: rest) pre.length := by
        rw [hsv]
        simp only [hlab, if_true, checkPDBs_map, hflag, Bool.false_or, Bool.true_and]
      rw [hr1, hr2, hih]
      cases hv : specViolating pdbs (pre ++ p :: rest) pre.length with
      | true => simp [hv, List.filter_cons]
      | false => simp [hv, List.filter_cons]
    · -- an unlabelled pod: the counters stay
      have hlab1 : (p.Pod.Labels.length != 0) = false := by simpa using hlab
      have hcount : ∀ pdb, chargedCount pdb (pre ++ [p]) = chargedCount pdb pre := by
        intro pdb
        rw [chargedCount_snoc]
        simp [hlab1]
      have hv : specViolating pdbs (pre ++ p :: rest) pre.length = false := by
        rw [hsv, hlab1]; rfl
      simp only [hlab1, Bool.false_eq_true, if_false]
      simp only [hcount] at hih
      rw [hih]
      simp [hv, List.filter_cons]

end BudgetSpec

section ClaimsBudgets

/-! ## The claims on `filterPodsWithPDBViolation` -/

/-- C11: both outputs of `filterPodsWithPDBViolation` are subsequences of its
input: pods that land in the same output keep their relative order. -/
theorem C11_partition_is_stable (podInfos : List PodInfo) (pdbs : List PodDisruptionBudget) :
    (filterPodsWithPDBViolation podInfos pdbs).1.Sublist podInfos ∧
      (filterPodsWithPDBViolation podInfos pdbs).2.Sublist podInfos :=
  filterPodsLoop_sublist pdbs podInfos _

/-- C12 (amended): as long as no counter wraps around (the disruptions allowed are
32-bit values that stay above the least one when the pods are counted off,
as every non-negative value does), the violating output of
`filterPodsWithPDBViolation` holds exactly the pods at the positions where
`specViolating` holds, and the non-violating output the others: the pod at
position `j` is violating exactly when it carries a label and some budget
charged for it allows fewer disruptions than the number of pods at positions
up to `j` that carry a label and are charged to it. A pod without labels is
not counted, whatever the selectors match. -/
theorem C12_classification_by_budget_count (podInfos : List PodInfo)
    (pdbs : List PodDisruptionBudget)
    (hrange : ∀ pdb ∈ pdbs,
      -2147483648 + (podInfos.length : Int) ≤ pdb.DisruptionsAllowed ∧
        pdb.DisruptionsAllowed ≤ 2147483647) :
    (filterPodsWithPDBViolation podInfos pdbs).1 =
        (podInfos.enum.filter (fun jp => specViolating pdbs podInfos jp.1)).map Prod.snd ∧
      (filterPodsWithPDBViolation podInfos pdbs).2 =
        (podInfos.enum.filter (fun jp => !specViolating pdbs podInfos jp.1)).map Prod.snd := by
  have h := filterPodsLoop_spec pdbs podInfos [] (by simpa using hrange)
  have h0 : pdbs.map (fun pdb => pdb.DisruptionsAllowed - (chargedCount pdb [] : Int))
      = pdbs.map (fun pdb => pdb.DisruptionsAllowed) := by
    apply List.map_congr_left
    intro pdb _
    simp [chargedCount]
  rw [h0] at h
  unfold filterPodsWithPDBViolation
  rw [h]
  exact ⟨rfl, rfl⟩

/-- C12 as stated fails when a budget matches a pod without labels: the selector
`!canary` matches the pod `bare`, which has no label, and the pod `a`; with one
disruption allowed, counting the pods that meet the matching conditions makes
`a`, the second of them, violating, while the loop skips `bare` and finds `a`
non-violating. -/
theorem C12_counterexample :
    pdbCharged (noCanaryBudget 1) barePod.Pod = true ∧
      pdbCharged (noCanaryBudget 1) (examplePod "a" 1 [("app", "web")]) = true ∧
      violatingByMatchedCount [noCanaryBudget 1]
        [barePod, ⟨examplePod "a" 1 [("app", "web")]⟩] 1 = true ∧
      filterPodsWithPDBViolation [barePod, ⟨examplePod "a" 1 [("app", "web")]⟩]
          [noCanaryBudget 1]
        = ([], [barePod, ⟨examplePod "a" 1 [("app", "web")]⟩]) := by
  decide

/-- C12 (amended) on a pod without labels followed by two labelled pods, under a
budget that matches all three and allows one disruption: `bare` is not counted,
`a` is the first pod charged and stays, `d` is the second and violates. -/
theorem C12_classification_by_budget_count_witness :
    (filterPodsWithPDBViolation
        [barePod, ⟨examplePod "a" 1 [("app", "web")]⟩, ⟨examplePod "d" 3 [("app", "web")]⟩]
        [noCanaryBudget 1])
        = ([⟨examplePod "d" 3 [("app", "web")]⟩],
            [barePod, ⟨examplePod "a" 1 [("app", "web")]⟩]) ∧
      ((filterPodsWithPDBViolation
          [barePod, ⟨examplePod "a" 1 [("app", "web")]⟩, ⟨examplePod "d" 3 [("app", "web")]⟩]
          [noCanaryBudget 1]).1 =
        (([barePod, ⟨examplePod "a" 1 [("app", "web")]⟩,
            ⟨examplePod "d" 3 [("app", "web")]⟩] : List PodInfo).enum.filter
          (fun jp => specViolating [noCanaryBudget 1]
            [barePod, ⟨examplePod "a" 1 [("app", "web")]⟩,
              ⟨examplePod "d" 3 [("app", "web")]⟩] jp.1)).map Prod.snd ∧
      (filterPodsWithPDBViolation
          [barePod, ⟨examplePod "a" 1 [("app", "web")]⟩, ⟨examplePod "d" 3 [("app", "web")]⟩]
          [noCanaryBudget 1]).2 =
        (([barePod, ⟨examplePod "a" 1 [("app", "web")]⟩,
            ⟨examplePod "d" 3 [("app", "web")]⟩] : List PodInfo).enum.filter
          (fun jp => !specViolating [noCanaryBudget 1]
            [barePod, ⟨examplePod "a" 1 [("app", "web")]⟩,
              ⟨examplePod "d" 3 [("app", "web")]⟩] jp.1)).map Prod.snd) :=
  ⟨by decide,
    C12_classification_by_budget_count
      [barePod, ⟨examplePod "a" 1 [("app", "web")]⟩, ⟨examplePod "d" 3 [("app", "web")]⟩]
      [noCanaryBudget 1] (by decide)⟩

theorem filterPodsLoop_insert_unlabelled (pdbs : List PodDisruptionBudget) (p : PodInfo)
    (post : List PodInfo) (h : p.Pod.Labels = []) (pre : List PodInfo) :
    ∀ allowed : List Int,
      (filterPodsLoop pdbs (pre ++ p :: post) allowed).1
        = (filterPodsLoop pdbs (pre ++ post) allowed).1 ∧
      ∃ N1 N2, N1.Sublist pre ∧ N2.Sublist post ∧
        (filterPodsLoop pdbs (pre ++ post) allowed).2 = N1 ++ N2 ∧
        (filterPodsLoop pdbs (pre ++ p :: post) allowed).2 = N1 ++ p :: N2 := by
  induction pre with
  | nil =>
    intro allowed
    rw [List.nil_append, List.nil_append, filterPodsLoop_unlabelled pdbs p post allowed h]
    exact ⟨rfl, [], _, List.Sublist.refl _, (filterPodsLoop_sublist pdbs post allowed).2,
      rfl, rfl⟩
  | cons q pre ih =>
    intro allowed
    rw [List.cons_append, List.cons_append, filterPodsLoop_cons_eq, filterPodsLoop_cons_eq]
    obtain ⟨h1, N1, N2, hN1, hN2, e1, e2⟩ := ih
      (if q.Pod.Labels.length != 0 then checkPDBs q.Pod pdbs allowed false
        else (allowed, false)).1
    cases hr : (if q.Pod.Labels.length != 0 then checkPDBs q.Pod pdbs allowed false
        else (allowed, false)).2 with
    | true =>
      simp only [if_true]
      exact ⟨by rw [h1], N1, N2, hN1.cons q, hN2, e1, e2⟩
    | false =>
      simp only [Bool.false_eq_true, if_false]
      exact ⟨h1, q :: N1, N2, hN1.cons₂ q, hN2, by rw [e1]; rfl, by rw [e2]; rfl⟩

/-- C13: a pod without labels goes to the non-violating output and is charged
to no budget: with it inserted anywhere in the input, the violating output is
unchanged and the non-violating output is the same with the pod inserted
between the pods before it and the pods after it. -/
theorem C13_unlabelled_pod_is_neutral (pdbs : List PodDisruptionBudget)
    (pre post : List PodInfo) (p : PodInfo) (h : p.Pod.Labels = []) :
    (filterPodsWithPDBViolation (pre ++ p :: post) pdbs).1
        = (filterPodsWithPDBViolation (pre ++ post) pdbs).1 ∧
      ∃ N1 N2, N1.Sublist pre ∧ N2.Sublist post ∧
        (filterPodsWithPDBViolation (pre ++ post) pdbs).2 = N1 ++ N2 ∧
        (filterPodsWithPDBViolation (pre ++ p :: post) pdbs).2 = N1 ++ p :: N2 :=
  filterPodsLoop_insert_unlabelled pdbs p post h pre _

/-- C13 with the unlabelled pod `b` between two pods labelled `app=web`, under a
budget with one disruption allowed. -/
theorem C13_unlabelled_pod_is_neutral_witness :
    (filterPodsWithPDBViolation
        ([⟨examplePod "a" 1 [("app", "web")]⟩] ++ ⟨examplePod "b" 20 []⟩ ::
          [⟨examplePod "d" 3 [("app", "web")]⟩]) [webBudget 1]).1
        = (filterPodsWithPDBViolation
            ([⟨examplePod "a" 1 [("app", "web")]⟩] ++ [⟨examplePod "d" 3 [("app", "web")]⟩])
            [webBudget 1]).1 ∧
      ∃ N1 N2, N1.Sublist [⟨examplePod "a" 1 [("app", "web")]⟩] ∧
        N2.Sublist [⟨examplePod "d" 3 [("app", "web")]⟩] ∧
        (filterPodsWithPDBViolation
            ([⟨examplePod "a" 1 [("app", "web")]⟩] ++ [⟨examplePod "d" 3 [("app", "web")]⟩])
            [webBudget 1]).2 = N1 ++ N2 ∧
        (filterPodsWithPDBViolation
            ([⟨examplePod "a" 1 [("app", "web")]⟩] ++ ⟨examplePod "b" 20 []⟩ ::
              [⟨examplePod "d" 3 [("app", "web")]⟩]) [webBudget 1]).2
          = N1 ++ (⟨examplePod "b" 20 []⟩ : PodInfo) :: N2 :=
  C13_unlabelled_pod_is_neutral [webBudget 1] [⟨examplePod "a" 1 [("app", "web")]⟩]
    [⟨examplePod "d" 3 [("app", "web")]⟩] ⟨examplePod "b" 20 []⟩ (by decide)

/-- C14: a pod recorded in the disrupted pods of a budget is treated by that
budget as a pod it does not match. For the step of one recorded pod, the loop
over the budgets gives the same counters and the same verdict as with any
budget that does not match the pod in its place. For a whole input, the
outputs are those obtained with a budget that keeps no record and matches
exactly the pods that the budget matches and has not recorded. -/
theorem C14_recorded_pod_is_not_charged (A B : List PodDisruptionBudget)
    (pdb : PodDisruptionBudget) :
    (∀ (pod : Pod) (pdb0 : PodDisruptionBudget) (allowed : List Int) (violated : Bool),
      pdb.DisruptedPods.contains pod.Name = true → pdbMatches pdb0 pod = false →
      checkPDBs pod (A ++ pdb :: B) allowed violated
        = checkPDBs pod (A ++ pdb0 :: B) allowed violated) ∧
    (∀ (podInfos : List PodInfo) (pdb1 : PodDisruptionBudget),
      pdb1.DisruptionsAllowed = pdb.DisruptionsAllowed → pdb1.DisruptedPods = [] →
      (∀ p ∈ podInfos, pdbMatches pdb1 p.Pod
        = (pdbMatches pdb p.Pod && !pdb.DisruptedPods.contains p.Pod.Name)) →
      filterPodsWithPDBViolation podInfos (A ++ pdb :: B)
        = filterPodsWithPDBViolation podInfos (A ++ pdb1 :: B)) := by
  constructor
  · intro pod pdb0 allowed violated hrec hno
    apply checkPDBs_congr
    have h1 : pdbCharged pdb pod = false := by
      unfold pdbCharged; rw [hrec]; simp
    have h2 : pdbCharged pdb0 pod = false := by
      unfold pdbCharged; rw [hno]; simp
    simp [h1, h2]
  · intro podInfos pdb1 hDA hnone hmatch
    unfold filterPodsWithPDBViolation
    have hmap : (A ++ pdb :: B).map (fun pdb => pdb.DisruptionsAllowed)
        = (A ++ pdb1 :: B).map (fun pdb => pdb.DisruptionsAllowed) := by
      simp [hDA]
    rw [hmap]
    apply filterPodsLoop_congr
    intro p hp
    simp [pdbCharged, hmatch p hp, hnone]

/-- C14 on two pods labelled `app=web` under a budget without disruptions left
that has recorded the first one: only the second is violating, as under the
budget narrowed to the pods it has not recorded, and the step of the recorded
pod is the step under a budget that matches nothing. -/
theorem C14_recorded_pod_is_not_charged_witness :
    filterPodsWithPDBViolation [canaryPod, stablePod] [recordedBudget]
        = ([stablePod], [canaryPod]) ∧
      checkPDBs canaryPod.Pod ([] ++ recordedBudget :: []) [0] false
        = checkPDBs canaryPod.Pod ([] ++ idleBudget :: []) [0] false ∧
      filterPodsWithPDBViolation [canaryPod, stablePod] ([] ++ recordedBudget :: [])
        = filterPodsWithPDBViolation [canaryPod, stablePod] ([] ++ narrowedBudget :: []) :=
  ⟨by decide,
    (C14_recorded_pod_is_not_charged [] [] recordedBudget).1 canaryPod.Pod idleBudget [0] false
      (by decide) (by decide),
    (C14_recorded_pod_is_not_charged [] [] recordedBudget).2 [canaryPod, stablePod]
      narrowedBudget (by decide) (by decide) (by decide)⟩

end ClaimsBudgets

section Kept
variable {σ : Type}

/-! ## Only preemptable pods are touched -/

theorem callsOnPreemptable_refl (g : Plugin σ) (pod : Pod) (P0 : List PodInfo) (t : List Call) :
    CallsOnPreemptable g pod P0 t t := ⟨[], by simp, by simp⟩

theorem callsOnPreemptable_trans {g : Plugin σ} {pod : Pod} {P0 : List PodInfo}
    {t t1 t2 : List Call} (h1 : CallsOnPreemptable g pod P0 t t1)
    (h2 : CallsOnPreemptable g pod P0 t1 t2) : CallsOnPreemptable g pod P0 t t2 := by
  obtain ⟨T1, rfl, h1⟩ := h1
  obtain ⟨T2, rfl, h2⟩ := h2
  refine ⟨T1 ++ T2, by simp, ?_⟩
  intro c hc
  rcases List.mem_append.1 hc with h | h
  · exact h1 c h
  · exact h2 c h

theorem callsOnPreemptable_one {g : Plugin σ} {pod : Pod} {P0 : List PodInfo}
    (t : List Call) (isAdd : Bool) (c : PodInfo) (e : Option String)
    (hc : c ∈ P0) (hcp : g.canPreempt pod c.Pod = true) :
    CallsOnPreemptable g pod P0 t (t ++ [⟨isAdd, c, e⟩]) := by
  refine ⟨[⟨isAdd, c, e⟩], rfl, ?_⟩
  intro x hx
  rw [List.mem_singleton] at hx
  subst hx
  exact ⟨hc, hcp⟩

theorem onlyPreemptableTouched_trans {g : Plugin σ} {pod : Pod} {P0 : List PodInfo}
    {s s1 s2 : Sim σ} (h1 : OnlyPreemptableTouched g pod P0 s s1)
    (h2 : OnlyPreemptableTouched g pod P0 s1 s2) : OnlyPreemptableTouched g pod P0 s s2 :=
  ⟨h2.1, callsOnPreemptable_trans h1.2 h2.2⟩

/-- Removing a preemptable pod of entry from a node that holds only pods of
entry removes that very pod, whatever the outcome of the call. -/
theorem removePod_node_kept (g : Plugin σ) (pod : Pod) (P0 : List PodInfo)
    (huid : (P0.map (fun p => p.Pod.UID)).Nodup) (c : PodInfo) {n n1 : NodeInfo}
    (hk : PodsKept g pod P0 n.Pods) (hc : c ∈ P0) (hcp : g.canPreempt pod c.Pod = true)
    (hR : n.RemovePod c.Pod = Except.ok n1) : PodsKept g pod P0 n1.Pods := by
  obtain ⟨k, j, x, last, hck, _, hx, hxk, hlast, rfl⟩ := removePod_node_ok hR
  have hxm : x ∈ n.Pods := List.getElem?_mem hx
  have hxc : x = c := eq_of_getPodKey_eq huid (hk.1 x hxm) hc hxk hck
  constructor
  · intro y hy
    dsimp only at hy
    rcases List.mem_or_eq_of_mem_set (List.mem_of_mem_dropLast hy) with h | h
    · exact hk.1 y h
    · rw [h]; exact hk.1 last (List.mem_of_getLast?_eq_some hlast)
  · intro p hp hpc
    dsimp only
    have hpn : p ∈ n.Pods := hk.2 p hp hpc
    have hpx : p ≠ x := by
      intro h
      rw [h, hxc, hcp] at hpc
      cases hpc
    have h1 : p ∈ x :: n.Pods.eraseIdx j := (perm_cons_eraseIdx hx).mem_iff.1 hpn
    rcases List.mem_cons.1 h1 with h | h
    · exact absurd h hpx
    · exact (set_last_dropLast_perm hx hlast).mem_iff.2 h

/-- The backing array after `RemovePod`: one slot is overwritten by the last
live pod. -/
theorem removePod_node_backing {n n1 : NodeInfo} {pod : Pod}
    (h : n.RemovePod pod = Except.ok n1) :
    ∃ j last, last ∈ n.Pods ∧ n1.backing = n.backing.set j last := by
  obtain ⟨k, j, x, last, _, _, hx, _, hlast, rfl⟩ := removePod_node_ok h
  have hjl : j < n.Pods.length := (List.getElem?_eq_some_iff.1 hx).1
  refine ⟨j, last, List.mem_of_getLast?_eq_some hlast, ?_⟩
  unfold NodeInfo.backing
  dsimp only
  rw [List.set_append_left j last hjl, ← set_last_dropLast_append hx hlast]
  simp

theorem removePod_touched (g : Plugin σ) (pod : Pod) (P0 : List PodInfo)
    (huid : (P0.map (fun p => p.Pod.UID)).Nodup) (c : PodInfo) (s : Sim σ)
    (hk : PodsKept g pod P0 s.nodeInfo.Pods) (hc : c ∈ P0)
    (hcp : g.canPreempt pod c.Pod = true) :
    OnlyPreemptableTouched g pod P0 s (removePod g pod c s).2 := by
  unfold removePod
  cases hR : s.nodeInfo.RemovePod c.Pod with
  | error e => exact ⟨hk, callsOnPreemptable_one _ _ _ _ hc hcp⟩
  | ok n =>
    have hn := removePod_node_kept g pod P0 huid c hk hc hcp hR
    dsimp only
    split
    · exact ⟨hn, callsOnPreemptable_one _ _ _ _ hc hcp⟩
    · exact ⟨hn, callsOnPreemptable_one _ _ _ _ hc hcp⟩

theorem addPod_touched (g : Plugin σ) (pod : Pod) (P0 : List PodInfo)
    (c : PodInfo) (s : Sim σ)
    (hk : PodsKept g pod P0 s.nodeInfo.Pods) (hc : c ∈ P0)
    (hcp : g.canPreempt pod c.Pod = true) :
    OnlyPreemptableTouched g pod P0 s (addPod g pod c s).2 := by
  have hn : PodsKept g pod P0 (s.nodeInfo.AddPodInfo c).Pods := by
    unfold NodeInfo.AddPodInfo
    constructor
    · intro y hy
      rcases List.mem_append.1 hy with h | h
      · exact hk.1 y h
      · rw [List.mem_singleton] at h; rw [h]; exact hc
    · intro p hp hpc
      exact List.mem_append_left _ (hk.2 p hp hpc)
  unfold addPod
  dsimp only
  split
  · exact ⟨hn, callsOnPreemptable_one _ _ _ _ hc hcp⟩
  · exact ⟨hn, callsOnPreemptable_one _ _ _ _ hc hcp⟩

theorem reprieveStep_touched {g : Plugin σ} {pod : Pod} {P0 : List PodInfo}
    (huid : (P0.map (fun p => p.Pod.UID)).Nodup) {c : PodInfo} {victims : List Pod}
    {s : Sim σ} {r : Option String × Bool × List Pod × Sim σ}
    (h : ReprieveStep g pod c victims s r)
    (hk : PodsKept g pod P0 s.nodeInfo.Pods) (hc : c ∈ P0)
    (hcp : g.canPreempt pod c.Pod = true) :
    OnlyPreemptableTouched g pod P0 s r.2.2.2 := by
  have hA := addPod_touched g pod P0 c s hk hc hcp
  have hR : ∀ (s1 : Sim σ), PodsKept g pod P0 s1.nodeInfo.Pods →
      OnlyPreemptableTouched g pod P0 s1 (removePod g pod c s1).2 :=
    fun s1 h1 => removePod_touched g pod P0 huid c s1 h1 hc hcp
  cases h with
  | addFailed e s1 hadd => rw [hadd] at hA; exact hA
  | kept s1 hadd _ _ => rw [hadd] at hA; exact hA
  | quotaRemoveFailed s1 e s3 hadd _ _ hrem =>
    rw [hadd] at hA
    have h2 := hR s1 hA.1
    rw [hrem] at h2
    exact onlyPreemptableTouched_trans hA h2
  | quotaEvicted s1 s3 hadd _ _ hrem =>
    rw [hadd] at hA
    have h2 := hR s1 hA.1
    rw [hrem] at h2
    exact onlyPreemptableTouched_trans hA h2
  | filterRemoveFailed s1 e s2 hadd _ hrem =>
    rw [hadd] at hA
    have h2 := hR s1 hA.1
    rw [hrem] at h2
    exact onlyPreemptableTouched_trans hA h2
  | filterEvicted s1 s2 hadd _ hrem _ =>
    rw [hadd] at hA
    have h2 := hR s1 hA.1
    rw [hrem] at h2
    exact onlyPreemptableTouched_trans hA h2
  | bothRemoveFailed s1 s2 e s3 hadd _ hrem _ hrem2 =>
    rw [hadd] at hA
    have h2 := hR s1 hA.1
    rw [hrem] at h2
    have h3 := hR s2 h2.1
    rw [hrem2] at h3
    exact onlyPreemptableTouched_trans hA (onlyPreemptableTouched_trans h2 h3)
  | bothEvicted s1 s2 s3 hadd _ hrem _ hrem2 =>
    rw [hadd] at hA
    have h2 := hR s1 hA.1
    rw [hrem] at h2
    have h3 := hR s2 h2.1
    rw [hrem2] at h3
    exact onlyPreemptableTouched_trans hA (onlyPreemptableTouched_trans h2 h3)

theorem reprieveNonViolating_touched (g : Plugin σ) (pod : Pod) (P0 : List PodInfo)
    (huid : (P0.map (fun p => p.Pod.UID)).Nodup) (ps : List PodInfo) :
    ∀ (victims : List Pod) (s : Sim σ),
      (∀ c ∈ ps, c ∈ P0 ∧ g.canPreempt pod c.Pod = true) →
      PodsKept g pod P0 s.nodeInfo.Pods →
      OnlyPreemptableTouched g pod P0 s (reprieveNonViolating g pod ps victims s).2.2 := by
  induction ps with
  | nil => intro victims s _ hk; exact ⟨hk, callsOnPreemptable_refl _ _ _ _⟩
  | cons p ps ih =>
    intro victims s hps hk
    obtain ⟨hp0, hpc⟩ := hps p (List.mem_cons_self _ _)
    have hp := reprieveStep_touched huid (reprievePod_step g pod p victims s) hk hp0 hpc
    unfold reprieveNonViolating
    rcases hR : reprievePod g pod p victims s with ⟨eo, fits, v1, s1⟩
    rw [hR] at hp
    cases eo with
    | some e => exact hp
    | none =>
      exact onlyPreemptableTouched_trans hp
        (ih v1 s1 (fun c hc => hps c (List.mem_cons_of_mem _ hc)) hp.1)

theorem reprieveViolating_touched (g : Plugin σ) (pod : Pod) (P0 : List PodInfo)
    (huid : (P0.map (fun p => p.Pod.UID)).Nodup) (ps : List PodInfo)
    (victims : List Pod) (num : Nat) (s : Sim σ)
    (hps : ∀ c ∈ ps, c ∈ P0 ∧ g.canPreempt pod c.Pod = true)
    (hk : PodsKept g pod P0 s.nodeInfo.Pods) :
    OnlyPreemptableTouched g pod P0 s (reprieveViolating g pod ps victims num s).2.2.2 := by
  have h := reprieveNonViolating_touched g pod P0 huid ps victims s hps hk
  rw [← reprieveViolating_eq g pod ps victims num s] at h
  exact h

/-- The first loop on every path, with or without an error: the slots it reads
hold pods of entry, it removes only preemptable ones, and the potential
victims it collects are preemptable pods of entry. -/
theorem removeLoop_touched (g : Plugin σ) (pod : Pod) (P0 : List PodInfo)
    (huid : (P0.map (fun p => p.Pod.UID)).Nodup) (k : Nat) :
    ∀ (i : Nat) (pv : List PodInfo) (s : Sim σ), i + k ≤ P0.length →
      (∀ m x, m < P0.length → s.nodeInfo.backing[m]? = some x → x ∈ P0) →
      PodsKept g pod P0 s.nodeInfo.Pods →
      (∀ x ∈ pv, x ∈ P0 ∧ g.canPreempt pod x.Pod = true) →
      OnlyPreemptableTouched g pod P0 s (removeLoop g pod k i pv s).2.2 ∧
        ∀ x ∈ (removeLoop g pod k i pv s).2.1, x ∈ P0 ∧ g.canPreempt pod x.Pod = true := by
  induction k with
  | zero =>
    intro i pv s _ _ hk hpv
    exact ⟨⟨hk, callsOnPreemptable_refl _ _ _ _⟩, hpv⟩
  | succ k ih =>
    intro i pv s hik hJ hk hpv
    unfold removeLoop
    cases hb : s.nodeInfo.backing[i]? with
    | none => exact ⟨⟨hk, callsOnPreemptable_refl _ _ _ _⟩, hpv⟩
    | some pi =>
      dsimp only
      have hpi0 : pi ∈ P0 := hJ i pi (by omega) hb
      by_cases hc : g.canPreempt pod pi.Pod = true
      · simp only [hc, if_true]
        have hpv1 : ∀ x ∈ pv ++ [pi], x ∈ P0 ∧ g.canPreempt pod x.Pod = true := by
          intro x hx
          rcases List.mem_append.1 hx with h | h
          · exact hpv x h
          · rw [List.mem_singleton] at h; rw [h]; exact ⟨hpi0, hc⟩
        have hp := removePod_touched g pod P0 huid pi s hk hpi0 hc
        rcases hR : removePod g pod pi s with ⟨eo, s1⟩
        rw [hR] at hp
        cases eo with
        | some e => exact ⟨hp, hpv1⟩
        | none =>
          dsimp only
          obtain ⟨j, last, hlast, hbk⟩ := removePod_node_backing (removePod_ok hR).1
          have hJ1 : ∀ m y, m < P0.length → s1.nodeInfo.backing[m]? = some y → y ∈ P0 := by
            intro m y hm hy
            rw [hbk, List.getElem?_set] at hy
            by_cases hjm : j = m
            · rw [if_pos hjm] at hy
              split at hy
              · cases hy; exact hk.1 _ hlast
              · cases hy
            · rw [if_neg hjm] at hy
              exact hJ m y hm hy
          have h2 := ih (i + 1) (pv ++ [pi]) s1 (by omega) hJ1 hp.1 hpv1
          exact ⟨onlyPreemptableTouched_trans hp h2.1, h2.2⟩
      · simp only [hc, if_false]
        exact ih (i + 1) pv s (by omega) hJ hk hpv

end Kept
section KeptWhole
variable {σ : Type}

theorem partitionVictims_mem (g : Plugin σ) (hsort : SortPermutes g) (pv : List PodInfo)
    (pdbs : List PodDisruptionBudget) :
    (∀ c ∈ (partitionVictims g pv pdbs).1, c ∈ pv) ∧
      ∀ c ∈ (partitionVictims g pv pdbs).2, c ∈ pv := by
  have h := filterPodsLoop_sublist pdbs (g.sortSlice g.less pv)
    (pdbs.map (fun pdb => pdb.DisruptionsAllowed))
  constructor
  · intro c hc
    exact (hsort pv).mem_iff.1 (h.1.subset hc)
  · intro c hc
    exact (hsort pv).mem_iff.1 (h.2.subset hc)

theorem reprieveNonViolating_victims_mem (g : Plugin σ) (pod : Pod) (ps : List PodInfo)
    (victims : List Pod) (s : Sim σ) :
    ∀ v ∈ (reprieveNonViolating g pod ps victims s).2.1,
      v ∈ victims ∨ ∃ p ∈ ps, p.Pod = v := by
  obtain ⟨E, hE, hmem, _⟩ := reprieveNonViolating_victims g pod (fun _ _ => True)
    (fun _ => trivial) ps victims s (List.pairwise_of_forall (fun _ _ => trivial))
  intro v hv
  rw [hE] at hv
  rcases List.mem_append.1 hv with h | h
  · exact Or.inl h
  · obtain ⟨p, hp, hpv⟩ := List.mem_map.1 (hmem v h)
    exact Or.inr ⟨p, hp, hpv⟩

theorem reprieveViolating_victims_mem (g : Plugin σ) (pod : Pod) (ps : List PodInfo)
    (victims : List Pod) (num : Nat) (s : Sim σ) :
    ∀ v ∈ (reprieveViolating g pod ps victims num s).2.1,
      v ∈ victims ∨ ∃ p ∈ ps, p.Pod = v := by
  have h := reprieveNonViolating_victims_mem g pod ps victims s
  rw [← reprieveViolating_eq g pod ps victims num s] at h
  exact h

/-- On every path of `SelectVictimsOnNode` only preemptable pods of entry are
touched, and the victims returned are preemptable pods of entry. -/
theorem selectVictims_touched (g : Plugin σ) (pod : Pod) (s : Sim σ)
    (pdbs : List PodDisruptionBudget)
    (huid : (s.nodeInfo.Pods.map (fun p => p.Pod.UID)).Nodup) (hsort : SortPermutes g) :
    OnlyPreemptableTouched g pod s.nodeInfo.Pods s (SelectVictimsOnNode g pod s pdbs).2 ∧
      ∀ v ∈ (SelectVictimsOnNode g pod s pdbs).1.victims,
        ∃ p ∈ s.nodeInfo.Pods, p.Pod = v ∧ g.canPreempt pod p.Pod = true := by
  have hk0 : PodsKept g pod s.nodeInfo.Pods s.nodeInfo.Pods :=
    ⟨fun _ h => h, fun _ h _ => h⟩
  have hJ0 : ∀ m x, m < s.nodeInfo.Pods.length → s.nodeInfo.backing[m]? = some x →
      x ∈ s.nodeInfo.Pods := by
    intro m x hm hx
    unfold NodeInfo.backing at hx
    rw [List.getElem?_append_left hm] at hx
    exact List.getElem?_mem hx
  have h1 := removeLoop_touched g pod s.nodeInfo.Pods huid s.nodeInfo.Pods.length 0 [] s
    (by omega) hJ0 hk0 (by simp)
  unfold SelectVictimsOnNode
  rcases hL : removeLoop g pod s.nodeInfo.Pods.length 0 [] s with ⟨eo, pv, s1⟩
  rw [hL] at h1
  obtain ⟨h1, hpv⟩ := h1
  cases eo with
  | some e => exact ⟨h1, by simp⟩
  | none =>
    dsimp only
    split
    · exact ⟨h1, by simp⟩
    · split
      · exact ⟨h1, by simp⟩
      · have hparts := partitionVictims_mem g hsort pv pdbs
        have hc1 : ∀ c ∈ (partitionVictims g pv pdbs).1,
            c ∈ s.nodeInfo.Pods ∧ g.canPreempt pod c.Pod = true :=
          fun c hc => hpv c (hparts.1 c hc)
        have hc2 : ∀ c ∈ (partitionVictims g pv pdbs).2,
            c ∈ s.nodeInfo.Pods ∧ g.canPreempt pod c.Pod = true :=
          fun c hc => hpv c (hparts.2 c hc)
        have h2 := reprieveViolating_touched g pod s.nodeInfo.Pods huid
          (partitionVictims g pv pdbs).1 [] 0 s1 hc1 h1.1
        have hv2 := reprieveViolating_victims_mem g pod (partitionVictims g pv pdbs).1 [] 0 s1
        rcases hV : reprieveViolating g pod (partitionVictims g pv pdbs).1 [] 0 s1 with
          ⟨eo2, v, n, s2⟩
        rw [hV] at h2 hv2
        have h12 := onlyPreemptableTouched_trans h1 h2
        cases eo2 with
        | some e => exact ⟨h12, by simp⟩
        | none =>
          dsimp only
          have h3 := reprieveNonViolating_touched g pod s.nodeInfo.Pods huid
            (partitionVictims g pv pdbs).2 v s2 hc2 h2.1
          have hv3 := reprieveNonViolating_victims_mem g pod (partitionVictims g pv pdbs).2 v s2
          rcases hN : reprieveNonViolating g pod (partitionVictims g pv pdbs).2 v s2 with
            ⟨eo3, v1, s3⟩
          rw [hN] at h3 hv3
          have h13 := onlyPreemptableTouched_trans h12 h3
          cases eo3 with
          | some e => exact ⟨h13, by simp⟩
          | none =>
            refine ⟨h13, ?_⟩
            intro x hx
            have hmem : ∃ p, (p ∈ (partitionVictims g pv pdbs).1 ∨
                p ∈ (partitionVictims g pv pdbs).2) ∧ p.Pod = x := by
              rcases hv3 x hx with h | ⟨p, hp, hpx⟩
              · rcases hv2 x h with h0 | ⟨p, hp, hpx⟩
                · cases h0
                · exact ⟨p, Or.inl hp, hpx⟩
              · exact ⟨p, Or.inr hp, hpx⟩
            obtain ⟨p, hp, hpx⟩ := hmem
            rcases hp with hp | hp
            · exact ⟨p, (hc1 p hp).1, hpx, (hc1 p hp).2⟩
            · exact ⟨p, (hc2 p hp).1, hpx, (hc2 p hp).2⟩

end KeptWhole

section ClaimRemoved
variable {σ : Type}

/-- C18: on a node whose pods have distinct UIDs, with a sort that permutes its
input, every victim returned by `SelectVictimsOnNode` is a pod that was on the
node at entry and satisfies `canPreempt` with the pending pod: it is not marked
non-preemptible, its priority is strictly lower than that of the pending pod
and its quota name is that of the pending pod. A pod of the node for which
`canPreempt` is false is never removed: on every path, the error paths
included, it is still on the simulated node at the end, and every bookkeeping
call made, removal or insertion, is on a pod of the node for which
`canPreempt` is true. -/
theorem C18_only_preemptable_pods_are_removed (g : Plugin σ) (pod : Pod) (s : Sim σ)
    (pdbs : List PodDisruptionBudget)
    (huid : (s.nodeInfo.Pods.map (fun p => p.Pod.UID)).Nodup) (hsort : SortPermutes g) :
    (∀ v ∈ (SelectVictimsOnNode g pod s pdbs).1.victims,
        v ∈ s.nodeInfo.Pods.map (fun p => p.Pod) ∧ g.canPreempt pod v = true ∧
          g.IsPodNonPreemptible v = false ∧ PodPriority v < PodPriority pod ∧
          g.getPodAssociateQuotaName v = g.getPodAssociateQuotaName pod) ∧
      (∀ p ∈ s.nodeInfo.Pods, g.canPreempt pod p.Pod = false →
        p ∈ (SelectVictimsOnNode g pod s pdbs).2.nodeInfo.Pods) ∧
      ∃ calls, (SelectVictimsOnNode g pod s pdbs).2.trace = s.trace ++ calls ∧
        ∀ c ∈ calls, c.pi ∈ s.nodeInfo.Pods ∧ g.canPreempt pod c.pi.Pod = true := by
  obtain ⟨⟨hkept, hcalls⟩, hvict⟩ := selectVictims_touched g pod s pdbs huid hsort
  refine ⟨?_, hkept.2, hcalls⟩
  intro v hv
  obtain ⟨p, hp, hpv, hcp⟩ := hvict v hv
  rw [hpv] at hcp
  obtain ⟨hn, _, hpri, hq⟩ := (canPreempt_eq_true_iff g pod v).1 hcp
  exact ⟨List.mem_map.2 ⟨p, hp, hpv⟩, hcp, hn, hpri, hq.symm⟩

theorem C18_only_preemptable_pods_are_removed_witness :
    (webSim.nodeInfo.Pods.map (fun p => p.Pod.UID)).Nodup ∧ SortPermutes webPlugin ∧
      (SelectVictimsOnNode webPlugin pendingPod webSim [webBudget 0]).1.victims ≠ [] ∧
      ((∀ v ∈ (SelectVictimsOnNode webPlugin pendingPod webSim [webBudget 0]).1.victims,
          v ∈ webSim.nodeInfo.Pods.map (fun p => p.Pod) ∧
            webPlugin.canPreempt pendingPod v = true ∧
            webPlugin.IsPodNonPreemptible v = false ∧ PodPriority v < PodPriority pendingPod ∧
            webPlugin.getPodAssociateQuotaName v =
              webPlugin.getPodAssociateQuotaName pendingPod) ∧
        (∀ p ∈ webSim.nodeInfo.Pods, webPlugin.canPreempt pendingPod p.Pod = false →
          p ∈ (SelectVictimsOnNode webPlugin pendingPod webSim [webBudget 0]).2.nodeInfo.Pods) ∧
        ∃ calls, (SelectVictimsOnNode webPlugin pendingPod webSim [webBudget 0]).2.trace =
            webSim.trace ++ calls ∧
          ∀ c ∈ calls, c.pi ∈ webSim.nodeInfo.Pods ∧
            webPlugin.canPreempt pendingPod c.pi.Pod = true) :=
  ⟨by decide, exampleSort_permutes _ _, by decide,
    C18_only_preemptable_pods_are_removed webPlugin pendingPod webSim [webBudget 0]
      (by decide) (exampleSort_permutes _ _)⟩

end ClaimRemoved

section ClaimEligibleIff
variable {σ : Type}

theorem string_length_pos_iff (s : String) : s.length > 0 ↔ s ≠ "" := by
  constructor
  · intro h hs
    rw [hs] at h
    exact absurd h (by decide)
  · exact string_length_pos_of_ne_empty s

/-- C21: for a pod that does not opt out of preemption,
`PodEligibleToPreemptOthers` returns false exactly when the pod has a non-empty
nominated node name, the status of the nominated node does not have code
`UnschedulableAndUnresolvable`, the snapshot holds the nominated node, and a
pod on that node has a deletion timestamp, the quota name of the pending pod
and a strictly lower priority; it then returns the message of the terminating
pod, and in every other case it returns `(true, "")`. -/
theorem C21_eligibility_characterised (g : Plugin σ) (pod : Pod)
    (nominatedNodeStatus : Option Status) (hpolicy : pod.PreemptionPolicy ≠ some "Never") :
    ((g.PodEligibleToPreemptOthers pod nominatedNodeStatus).1 = false ↔
      pod.NominatedNodeName ≠ "" ∧
        statusCode nominatedNodeStatus ≠ Code.UnschedulableAndUnresolvable ∧
        ∃ nodeInfo, g.handle.NodeInfosGet pod.NominatedNodeName = some nodeInfo ∧
          ∃ p ∈ nodeInfo.Pods, p.Pod.DeletionTimestamp ≠ none ∧
            g.getPodAssociateQuotaName p.Pod = g.getPodAssociateQuotaName pod ∧
            PodPriority p.Pod < PodPriority pod) ∧
      ((g.PodEligibleToPreemptOthers pod nominatedNodeStatus).1 = false →
        g.PodEligibleToPreemptOthers pod nominatedNodeStatus
          = (false, "not eligible due to a terminating pod on the nominated node.")) ∧
      ((g.PodEligibleToPreemptOthers pod nominatedNodeStatus).1 = true →
        g.PodEligibleToPreemptOthers pod nominatedNodeStatus = (true, "")) := by
  unfold Plugin.PodEligibleToPreemptOthers
  have hp : (pod.PreemptionPolicy == some "Never") = false := by simpa using hpolicy
  simp only [hp, Bool.false_eq_true, if_false]
  by_cases hlen : pod.NominatedNodeName.length > 0
  · have hne := (string_length_pos_iff _).1 hlen
    simp only [hlen, if_true]
    by_cases hcode : statusCode nominatedNodeStatus = Code.UnschedulableAndUnresolvable
    · simp [hcode]
    · have hc : (statusCode nominatedNodeStatus == Code.UnschedulableAndUnresolvable) = false := by
        simpa using hcode
      simp only [hc, Bool.false_eq_true, if_false]
      cases hget : g.handle.NodeInfosGet pod.NominatedNodeName with
      | none => simp [hne, hcode]
      | some nodeInfo =>
        dsimp only
        by_cases hany : nodeInfo.Pods.any (fun p =>
              p.Pod.DeletionTimestamp.isSome &&
                (g.getPodAssociateQuotaName pod == g.getPodAssociateQuotaName p.Pod &&
                  decide (PodPriority p.Pod < PodPriority pod))) = true
        · rw [if_pos hany]
          refine ⟨⟨fun _ => ?_, fun _ => rfl⟩, fun _ => rfl, fun h => absurd h (by decide)⟩
          refine ⟨hne, hcode, nodeInfo, rfl, ?_⟩
          obtain ⟨p, hp, hq⟩ := List.any_eq_true.1 hany
          simp only [Bool.and_eq_true, beq_iff_eq, decide_eq_true_eq] at hq
          refine ⟨p, hp, ?_, hq.2.1.symm, hq.2.2⟩
          intro h
          rw [h] at hq
          exact absurd hq.1 (by decide)
        · rw [if_neg hany]
          refine ⟨⟨fun h => absurd h (by decide), fun hex => ?_⟩,
            fun h => absurd h (by decide), fun _ => rfl⟩
          exfalso
          obtain ⟨_, _, n, hn, p, hp, hdel, hq, hpri⟩ := hex
          cases hn
          apply hany
          apply List.any_eq_true.2
          refine ⟨p, hp, ?_⟩
          simp only [Bool.and_eq_true, beq_iff_eq, decide_eq_true_eq]
          refine ⟨?_, hq.symm, hpri⟩
          cases hd : p.Pod.DeletionTimestamp with
          | none => exact absurd hd hdel
          | some _ => rfl
  · have hempty : pod.NominatedNodeName = "" := by
      by_contra h
      exact hlen ((string_length_pos_iff _).2 h)
    simp [hlen, hempty]

/-- C21 on the pod nominated to `n1`, which holds the terminating pod `t` of
priority 1 in the same quota group: the pod is not eligible. -/
theorem C21_eligibility_characterised_witness :
    (examplePlugin [] []).PodEligibleToPreemptOthers nominatedPod none
        = (false, "not eligible due to a terminating pod on the nominated node.") ∧
      (examplePlugin [] []).PodEligibleToPreemptOthers pendingPod none = (true, "") ∧
      ((examplePlugin [] []).PodEligibleToPreemptOthers nominatedPod none).1 = false :=
  ⟨by decide, by decide,
    (C21_eligibility_characterised (examplePlugin [] []) nominatedPod none (by decide)).1.2
      ⟨by decide, by decide, ⟨"n1", [⟨terminatingPod "t" 1⟩, ⟨examplePod "b" 20 []⟩], []⟩,
        by decide, ⟨terminatingPod "t" 1⟩, by decide, by decide, by decide, by decide⟩⟩

end ClaimEligibleIff

section ClaimsBudgetOutputs

theorem filterPodsLoop_interleaving (pdbs : List PodDisruptionBudget) (l : List PodInfo) :
    ∀ allowed : List Int,
      Interleaving (filterPodsLoop pdbs l allowed).1 (filterPodsLoop pdbs l allowed).2 l := by
  induction l with
  | nil => intro allowed; exact Interleaving.nil
  | cons p ps ih =>
    intro allowed
    obtain ⟨r, hr⟩ := filterPodsLoop_cons pdbs p ps allowed
    rw [hr]
    cases hr2 : r.2 with
    | true =>
      simp only [if_true]
      exact Interleaving.left p (ih _)
    | false =>
      simp only [Bool.false_eq_true, if_false]
      exact Interleaving.right p (ih _)

theorem interleaving_length {α : Type} {a b l : List α} (h : Interleaving a b l) :
    a.length + b.length = l.length := by
  induction h with
  | nil => rfl
  | left x _ ih => simp only [List.length_cons]; omega
  | right x _ ih => simp only [List.length_cons]; omega

/-- C33: for every input and every list of budgets, the input of
`filterPodsWithPDBViolation` is an interleaving of its violating and its
non-violating output: each input pod, at its position, goes to exactly one of
the two. Hence the lengths of the outputs add up to the length of the input,
and the two outputs together are a permutation of the input: no pod is dropped
or duplicated. -/
theorem C33_each_pod_in_exactly_one_output (podInfos : List PodInfo)
    (pdbs : List PodDisruptionBudget) :
    Interleaving (filterPodsWithPDBViolation podInfos pdbs).1
        (filterPodsWithPDBViolation podInfos pdbs).2 podInfos ∧
      (filterPodsWithPDBViolation podInfos pdbs).1.length +
        (filterPodsWithPDBViolation podInfos pdbs).2.length = podInfos.length ∧
      ((filterPodsWithPDBViolation podInfos pdbs).1 ++
        (filterPodsWithPDBViolation podInfos pdbs).2).Perm podInfos :=
  ⟨filterPodsLoop_interleaving pdbs podInfos _,
    interleaving_length (filterPodsLoop_interleaving pdbs podInfos _),
    filterPodsLoop_perm pdbs podInfos _⟩

theorem filterPodsLoop_no_budget (l : List PodInfo) :
    ∀ allowed : List Int, filterPodsLoop [] l allowed = ([], l) := by
  induction l with
  | nil => intro allowed; rfl
  | cons p ps ih =>
    intro allowed
    rw [filterPodsLoop_cons_eq]
    simp only [checkPDBs_nil, ite_self, Bool.false_eq_true, if_false, ih]

/-- C35: with no budget, `filterPodsWithPDBViolation` returns no violating pod
and its input as the non-violating pods, for every input. -/
theorem C35_no_budget_no_violation (podInfos : List PodInfo) :
    filterPodsWithPDBViolation podInfos [] = ([], podInfos) :=
  filterPodsLoop_no_budget podInfos _

end ClaimsBudgetOutputs

section ClaimCanPreemptOrder
variable {σ : Type}

/-- C39: `canPreempt` is irreflexive and asymmetric, for every plugin: no pod can
preempt itself, and a pod that can preempt another cannot be preempted by it. -/
theorem C39_canPreempt_irreflexive_and_asymmetric (g : Plugin σ) (a b : Pod) :
    g.canPreempt a a = false ∧ (g.canPreempt a b = true → g.canPreempt b a = false) := by
  constructor
  · cases h : g.canPreempt a a with
    | false => rfl
    | true =>
      have := ((canPreempt_eq_true_iff g a a).1 h)
      omega
  · intro hab
    cases h : g.canPreempt b a with
    | false => rfl
    | true =>
      have h1 := ((canPreempt_eq_true_iff g a b).1 hab)
      have h2 := ((canPreempt_eq_true_iff g b a).1 h)
      omega

/-- C39 on the example plugin: the pending pod of priority 10 can preempt the pod
`a` of priority 1, and `a` cannot preempt the pending pod. -/
theorem C39_canPreempt_irreflexive_and_asymmetric_witness :
    (examplePlugin [] []).canPreempt pendingPod (examplePod "a" 1 []) = true ∧
      (examplePlugin [] []).canPreempt (examplePod "a" 1 []) pendingPod = false :=
  ⟨by decide,
    (C39_canPreempt_irreflexive_and_asymmetric (examplePlugin [] []) pendingPod
      (examplePod "a" 1 [])).2 (by decide)⟩

end ClaimCanPreemptOrder

section ClaimSingleBudget

/-- The loop over the pods under one budget that is charged for every pod, with a
counter that does not wrap around: the pods are non-violating as long as the
counter lasts. -/
theorem filterPodsLoop_single (pdb : PodDisruptionBudget) (l : List PodInfo) :
    ∀ a : Int, a ≤ 2147483647 → (l.length : Int) ≤ a + 2147483648 →
      (∀ p ∈ l, p.Pod.Labels.length ≠ 0 ∧ pdbCharged pdb p.Pod = true) →
      filterPodsLoop [pdb] l [a] = (l.drop a.toNat, l.take a.toNat) := by
  induction l with
  | nil => intro a _ _ _; simp [filterPodsLoop]
  | cons p ps ih =>
    intro a hup hlen hall
    obtain ⟨hlab, hch⟩ := hall p (List.mem_cons_self _ _)
    have hlab1 : (p.Pod.Labels.length != 0) = true := by simpa using hlab
    simp only [List.length_cons] at hlen
    push_cast at hlen
    have hw : wrapInt32 (a - 1) = a - 1 := wrapInt32_of_range _ (by omega) (by omega)
    have hrest := ih (a - 1) (by omega) (by omega)
      (fun q hq => hall q (List.mem_cons_of_mem _ hq))
    rw [filterPodsLoop_cons_eq]
    simp only [hlab1, if_true, checkPDBs_cons, hch, checkPDBs_nil, hw, hrest]
    by_cases hneg : a - 1 < 0
    · have h0 : a.toNat = 0 := by omega
      have h1 : (a - 1).toNat = 0 := by omega
      simp [hneg, h0, h1]
    · obtain ⟨m, hm⟩ : ∃ m : Nat, a.toNat = m + 1 := ⟨a.toNat - 1, by omega⟩
      have h1 : (a - 1).toNat = m := by omega
      simp [hneg, hm, h1]

/-- C34 as stated fails: a pod without labels is matched by the non-empty selector
`!canary` of a budget of its namespace that allows no disruption and has not
recorded it, and yet it is non-violating, because a pod without labels is not
held against any budget. -/
theorem C34_counterexample :
    pdbCharged (noCanaryBudget 0) barePod.Pod = true ∧
      (noCanaryBudget 0).DisruptionsAllowed = 0 ∧
      filterPodsWithPDBViolation [barePod] [noCanaryBudget 0] = ([], [barePod]) ∧
      filterPodsWithPDBViolation [barePod] [noCanaryBudget 0]
        ≠ ([barePod].drop 0, [barePod].take 0) := by
  decide

/-- C34 (amended): for a single budget with `DisruptionsAllowed = k ≥ 0` and an
input of pods that all carry at least one label and all match it (same
namespace, labels matched by a valid non-empty selector, name not recorded in
`DisruptedPods`), `filterPodsWithPDBViolation` returns the first `min k n`
input pods as non-violating and the remaining pods, in input order, as
violating. The counter is a 32-bit value: `k` is at most `2^31 - 1` and the
input has at most `k + 2^31` pods, so that it does not wrap around. -/
theorem C34_single_budget_admits_first_k (pdb : PodDisruptionBudget) (selector : Selector)
    (podInfos : List PodInfo) (k : Nat)
    (hk : pdb.DisruptionsAllowed = (k : Int)) (hk32 : k ≤ 2147483647)
    (hn : podInfos.length ≤ k + 2147483648)
    (hsel : pdb.Selector = Except.ok selector) (hne : selector.Empty = false)
    (hmatch : ∀ p ∈ podInfos, p.Pod.Labels ≠ [] ∧ pdb.Namespace = p.Pod.Namespace ∧
      selector.Matches p.Pod.Labels = true ∧ p.Pod.Name ∉ pdb.DisruptedPods) :
    filterPodsWithPDBViolation podInfos [pdb] =
        (podInfos.drop k, podInfos.take (min k podInfos.length)) := by
  have hall : ∀ p ∈ podInfos, p.Pod.Labels.length ≠ 0 ∧ pdbCharged pdb p.Pod = true := by
    intro p hp
    obtain ⟨h1, h2, h3, h4⟩ := hmatch p hp
    refine ⟨fun h => h1 (List.length_eq_zero.1 h), ?_⟩
    unfold pdbCharged pdbMatches
    rw [hsel]
    simp [h2, hne, h3, h4]
  have h := filterPodsLoop_single pdb podInfos (k : Int) (by omega) (by omega) hall
  unfold filterPodsWithPDBViolation
  rw [List.map_singleton, hk, h, Int.toNat_ofNat]
  congr 1
  rw [List.take_eq_take]
  omega

/-- C34 (amended) on three pods labelled `app=web` under a budget that allows two
disruptions: the first two are non-violating, the third is violating. -/
theorem C34_single_budget_admits_first_k_witness :
    filterPodsWithPDBViolation
        [⟨examplePod "a" 1 [("app", "web")]⟩, ⟨examplePod "d" 3 [("app", "web")]⟩,
          ⟨examplePod "f" 4 [("app", "web")]⟩] [webBudget 2] =
      ([⟨examplePod "f" 4 [("app", "web")]⟩],
        [⟨examplePod "a" 1 [("app", "web")]⟩, ⟨examplePod "d" 3 [("app", "web")]⟩]) :=
  C34_single_budget_admits_first_k (webBudget 2) ⟨false, fun ls => ls.lookup "app" == some "web"⟩
    [⟨examplePod "a" 1 [("app", "web")]⟩, ⟨examplePod "d" 3 [("app", "web")]⟩,
      ⟨examplePod "f" 4 [("app", "web")]⟩] 2 rfl (by decide) (by decide) rfl rfl (by decide)

end ClaimSingleBudget

section ClaimMonotone

/-- The loop over the budgets is monotone in the counters, as long as none of
them wraps around: larger counters stay larger, and a pod that violates under
the larger counters violates under the smaller ones. -/
theorem checkPDBs_mono (pod : Pod) (pdbs : List PodDisruptionBudget) (n : Int) :
    ∀ (al al1 : List Int) (v v1 : Bool),
      List.Forall₂ (fun a a1 => a ≤ a1) al al1 →
      (∀ a ∈ al, -2147483648 + (n + 1) ≤ a ∧ a ≤ 2147483647) →
      (∀ a ∈ al1, -2147483648 + (n + 1) ≤ a ∧ a ≤ 2147483647) →
      0 ≤ n → (v1 = true → v = true) →
      List.Forall₂ (fun a a1 => a ≤ a1) (checkPDBs pod pdbs al v).1
          (checkPDBs pod pdbs al1 v1).1 ∧
        (∀ a ∈ (checkPDBs pod pdbs al v).1, -2147483648 + n ≤ a ∧ a ≤ 2147483647) ∧
        (∀ a ∈ (checkPDBs pod pdbs al1 v1).1, -2147483648 + n ≤ a ∧ a ≤ 2147483647) ∧
        ((checkPDBs pod pdbs al1 v1).2 = true → (checkPDBs pod pdbs al v).2 = true) := by
  induction pdbs with
  | nil =>
    intro al al1 v v1 hle hr hr1 hn hv
    rw [checkPDBs_nil, checkPDBs_nil]
    exact ⟨hle, fun a ha => ⟨by have := (hr a ha).1; omega, (hr a ha).2⟩,
      fun a ha => ⟨by have := (hr1 a ha).1; omega, (hr1 a ha).2⟩, hv⟩
  | cons pdb pdbs ih =>
    intro al al1 v v1 hle hr hr1 hn hv
    cases hle with
    | nil =>
      rw [checkPDBs_nil_allowed, checkPDBs_nil_allowed]
      exact ⟨List.Forall₂.nil, fun a ha => absurd ha (List.not_mem_nil a),
        fun a ha => absurd ha (List.not_mem_nil a), hv⟩
    | @cons a a1 as as1 ha hrest =>
      have hra := hr a (List.mem_cons_self _ _)
      have hra1 := hr1 a1 (List.mem_cons_self _ _)
      have hrs : ∀ x ∈ as, -2147483648 + (n + 1) ≤ x ∧ x ≤ 2147483647 :=
        fun x hx => hr x (List.mem_cons_of_mem _ hx)
      have hrs1 : ∀ x ∈ as1, -2147483648 + (n + 1) ≤ x ∧ x ≤ 2147483647 :=
        fun x hx => hr1 x (List.mem_cons_of_mem _ hx)
      rw [checkPDBs_cons, checkPDBs_cons]
      cases hch : pdbCharged pdb pod with
      | false =>
        simp only [Bool.false_eq_true, if_false]
        obtain ⟨h1, h2, h3, h4⟩ := ih as as1 v v1 hrest hrs hrs1 hn hv
        refine ⟨List.Forall₂.cons ha h1, ?_, ?_, h4⟩
        · intro x hx
          rcases List.mem_cons.1 hx with hx | hx
          · subst hx; exact ⟨by omega, hra.2⟩
          · exact h2 x hx
        · intro x hx
          rcases List.mem_cons.1 hx with hx | hx
          · subst hx; exact ⟨by omega, hra1.2⟩
          · exact h3 x hx
      | true =>
        simp only [if_true]
        have hw : wrapInt32 (a - 1) = a - 1 := wrapInt32_of_range _ (by omega) (by omega)
        have hw1 : wrapInt32 (a1 - 1) = a1 - 1 := wrapInt32_of_range _ (by omega) (by omega)
        rw [hw, hw1]
        have hv2 : (if a1 - 1 < 0 then true else v1) = true →
            (if a - 1 < 0 then true else v) = true := by
          intro h
          by_cases h1 : a1 - 1 < 0
          · have h2 : a - 1 < 0 := by omega
            simp [h2]
          · simp only [h1, if_false] at h
            by_cases h2 : a - 1 < 0
            · simp [h2]
            · simp only [h2, if_false]; exact hv h
        obtain ⟨h1, h2, h3, h4⟩ := ih as as1 _ _ hrest hrs hrs1 hn hv2
        refine ⟨List.Forall₂.cons (by omega) h1, ?_, ?_, h4⟩
        · intro x hx
          rcases List.mem_cons.1 hx with hx | hx
          · subst hx; exact ⟨by omega, by omega⟩
          · exact h2 x hx
        · intro x hx
          rcases List.mem_cons.1 hx with hx | hx
          · subst hx; exact ⟨by omega, by omega⟩
          · exact h3 x hx

/-- The loop over the pods is monotone in the counters, as long as none of them
wraps around. -/
theorem filterPodsLoop_mono (pdbs : List PodDisruptionBudget) (l : List PodInfo) :
    ∀ al al1 : List Int, List.Forall₂ (fun a a1 => a ≤ a1) al al1 →
      (∀ a ∈ al, -2147483648 + (l.length : Int) ≤ a ∧ a ≤ 2147483647) →
      (∀ a ∈ al1, -2147483648 + (l.length : Int) ≤ a ∧ a ≤ 2147483647) →
      (filterPodsLoop pdbs l al1).1.Sublist (filterPodsLoop pdbs l al).1 ∧
        (filterPodsLoop pdbs l al).2.Sublist (filterPodsLoop pdbs l al1).2 := by
  induction l with
  | nil => intro al al1 _ _ _; exact ⟨List.Sublist.refl _, List.Sublist.refl _⟩
  | cons p ps ih =>
    intro al al1 hle hr hr1
    simp only [List.length_cons] at hr hr1
    push_cast at hr hr1
    have hstep : List.Forall₂ (fun a a1 => a ≤ a1)
          (if p.Pod.Labels.length != 0 then checkPDBs p.Pod pdbs al false else (al, false)).1
          (if p.Pod.Labels.length != 0 then checkPDBs p.Pod pdbs al1 false else (al1, false)).1 ∧
        (∀ a ∈ (if p.Pod.Labels.length != 0 then checkPDBs p.Pod pdbs al false
            else (al, false)).1, -2147483648 + (ps.length : Int) ≤ a ∧ a ≤ 2147483647) ∧
        (∀ a ∈ (if p.Pod.Labels.length != 0 then checkPDBs p.Pod pdbs al1 false
            else (al1, false)).1, -2147483648 + (ps.length : Int) ≤ a ∧ a ≤ 2147483647) ∧
        ((if p.Pod.Labels.length != 0 then checkPDBs p.Pod pdbs al1 false
            else (al1, false)).2 = true →
          (if p.Pod.Labels.length != 0 then checkPDBs p.Pod pdbs al false
            else (al, false)).2 = true) := by
      by_cases hlab : (p.Pod.Labels.length != 0) = true
      · simp only [hlab, if_true]
        exact checkPDBs_mono p.Pod pdbs ps.length al al1 false false hle hr hr1
          (Int.natCast_nonneg _) (fun h => h)
      · simp only [hlab, if_false]
        exact ⟨hle, fun a ha => ⟨by have := (hr a ha).1; omega, (hr a ha).2⟩,
          fun a ha => ⟨by have := (hr1 a ha).1; omega, (hr1 a ha).2⟩, fun h => h⟩
    obtain ⟨h1, h2, h3, h4⟩ := hstep
    obtain ⟨i1, i2⟩ := ih _ _ h1 h2 h3
    rw [filterPodsLoop_cons_eq, filterPodsLoop_cons_eq]
    cases hv1 : (if p.Pod.Labels.length != 0 then checkPDBs p.Pod pdbs al1 false
        else (al1, false)).2 with
    | true =>
      rw [h4 hv1]
      simp only [if_true]
      exact ⟨i1.cons₂ p, i2⟩
    | false =>
      cases hv : (if p.Pod.Labels.length != 0 then checkPDBs p.Pod pdbs al false
          else (al, false)).2 with
      | true =>
        simp only [if_true, Bool.false_eq_true, if_false]
        exact ⟨i1.cons p, i2.cons p⟩
      | false =>
        simp only [Bool.false_eq_true, if_false]
        exact ⟨i1, i2.cons₂ p⟩

theorem withAllowed_charged (pdb : PodDisruptionBudget) (k : Int) (pod : Pod) :
    pdbCharged (pdb.withAllowed k) pod = pdbCharged pdb pod := rfl

/-- The counters are 32-bit values: under a budget with `DisruptionsAllowed = -2^31`,
a value that the status of a budget never has, the counter wraps around to
`2^31 - 1` when the pod is counted off and the pod is non-violating, while under
`-1` the same pod is violating. Hence the range in the statements on budgets. -/
theorem decrement_wraps_at_least_value :
    (webBudget (-2147483648)).DisruptionsAllowed ≤ -1 ∧
      filterPodsWithPDBViolation [⟨examplePod "a" 1 [("app", "web")]⟩]
          [webBudget (-2147483648)]
        = ([], [⟨examplePod "a" 1 [("app", "web")]⟩]) ∧
      filterPodsWithPDBViolation [⟨examplePod "a" 1 [("app", "web")]⟩]
          [(webBudget (-2147483648)).withAllowed (-1)]
        = ([⟨examplePod "a" 1 [("app", "web")]⟩], []) := by
  decide

/-- C36: as long as no 32-bit counter wraps around (every `DisruptionsAllowed` is
at least `-2^31` plus the number of input pods and at most `2^31 - 1`, which
holds for every non-negative budget, as the status of a budget is, on at most
`2^31` pods), raising `DisruptionsAllowed` of one budget while the pods and the other
budgets stay fixed never moves a pod from the non-violating to the violating
output: the violating output under the larger budget is a subsequence of the
violating output under the smaller one, and the non-violating output under
the smaller budget is a subsequence of the non-violating output under the
larger one. -/
theorem C36_monotone_in_the_budgets (podInfos : List PodInfo)
    (A B : List PodDisruptionBudget) (pdb : PodDisruptionBudget) (k : Int)
    (hraise : pdb.DisruptionsAllowed ≤ k) (hk : k ≤ 2147483647)
    (hrange : ∀ q ∈ A ++ pdb :: B,
      -2147483648 + (podInfos.length : Int) ≤ q.DisruptionsAllowed ∧
        q.DisruptionsAllowed ≤ 2147483647) :
    (filterPodsWithPDBViolation podInfos (A ++ pdb.withAllowed k :: B)).1.Sublist
        (filterPodsWithPDBViolation podInfos (A ++ pdb :: B)).1 ∧
      (filterPodsWithPDBViolation podInfos (A ++ pdb :: B)).2.Sublist
        (filterPodsWithPDBViolation podInfos (A ++ pdb.withAllowed k :: B)).2 := by
  unfold filterPodsWithPDBViolation
  have hcongr : filterPodsLoop (A ++ pdb.withAllowed k :: B) podInfos
        ((A ++ pdb.withAllowed k :: B).map (fun q => q.DisruptionsAllowed)) =
      filterPodsLoop (A ++ pdb :: B) podInfos
        ((A ++ pdb.withAllowed k :: B).map (fun q => q.DisruptionsAllowed)) := by
    apply filterPodsLoop_congr
    intro p _
    simp only [List.map_append, List.map_cons, withAllowed_charged]
  rw [hcongr]
  have hpdb := hrange pdb (by simp)
  apply filterPodsLoop_mono
  · simp only [List.map_append, List.map_cons]
    refine List.rel_append (List.forall₂_same.2 (fun _ _ => le_refl _)) ?_
    exact List.Forall₂.cons hraise (List.forall₂_same.2 (fun _ _ => le_refl _))
  · intro a ha
    obtain ⟨q, hq, rfl⟩ := List.mem_map.1 ha
    exact hrange q hq
  · intro a ha
    obtain ⟨q, hq, rfl⟩ := List.mem_map.1 ha
    rcases List.mem_append.1 hq with hq | hq
    · exact hrange q (List.mem_append_left _ hq)
    · rcases List.mem_cons.1 hq with hq | hq
      · subst hq
        exact ⟨by change _ ≤ k; omega, hk⟩
      · exact hrange q (List.mem_append_right _ (List.mem_cons_of_mem _ hq))

/-- C36 on the example pods: with the budget for `app=web` raised from no
disruption allowed to one, the pod `a` leaves the violating output and no pod
enters it. -/
theorem C36_monotone_in_the_budgets_witness :
    (filterPodsWithPDBViolation webPods [webBudget 0]).1
        = [⟨examplePod "a" 1 [("app", "web")]⟩, ⟨examplePod "d" 3 [("app", "web")]⟩] ∧
      (filterPodsWithPDBViolation webPods [webBudget 1]).1
        = [⟨examplePod "d" 3 [("app", "web")]⟩] ∧
      ((filterPodsWithPDBViolation webPods [webBudget 1]).1.Sublist
          (filterPodsWithPDBViolation webPods [webBudget 0]).1 ∧
        (filterPodsWithPDBViolation webPods [webBudget 0]).2.Sublist
          (filterPodsWithPDBViolation webPods [webBudget 1]).2) :=
  ⟨by decide, by decide,
    C36_monotone_in_the_budgets webPods [] [] (webBudget 0) 1 (by decide) (by decide)
      (by decide)⟩

end ClaimMonotone

section ClaimsVictimList
variable {σ : Type}

/-- A successful call on a node whose pods carry distinct UIDs: the victims are
the pods of a subsequence `E` of the candidates in the order in which the
reprieve pass takes them, and the pods left on the node together with `E` are
the pods of entry. -/
theorem selectVictims_final (g : Plugin σ) (pod : Pod) (s : Sim σ)
    (pdbs : List PodDisruptionBudget)
    (huid : (s.nodeInfo.Pods.map (fun p => p.Pod.UID)).Nodup) (hsort : SortPermutes g)
    (hok : (SelectVictimsOnNode g pod s pdbs).1.status.IsSuccess = true) :
    ∃ E : List PodInfo,
      E.Sublist ((partitionVictims g (potentialVictimsOf g pod s) pdbs).1 ++
        (partitionVictims g (potentialVictimsOf g pod s) pdbs).2) ∧
      (SelectVictimsOnNode g pod s pdbs).1.victims = E.map (fun p => p.Pod) ∧
      ((SelectVictimsOnNode g pod s pdbs).2.nodeInfo.Pods ++ E).Perm s.nodeInfo.Pods ∧
      (E.map (fun p => p.Pod.UID)).Nodup ∧
      E.length ≤ (potentialVictimsOf g pod s).length := by
  obtain ⟨pv, s1, hL, _, hnd, hrun⟩ := selectVictims_run g pod s pdbs huid hsort hok
  have hpvs : potentialVictimsOf g pod s = pv := by
    unfold potentialVictimsOf; rw [hL]
  rw [hpvs]
  obtain ⟨K, E, _, hE, hP, hN, hV⟩ := reprieveRun_split hrun
  obtain ⟨hpv, hperm, _⟩ := removeLoop_entry g pod s s1 pv huid hL
  refine ⟨E, hE, by simpa using hV, ?_, ?_, ?_⟩
  · rw [hN, List.append_assoc]
    refine (List.Perm.append hperm (hP.trans (partitionVictims_perm g hsort pv pdbs))).trans ?_
    rw [hpv]
    exact (List.perm_append_comm).trans (List.filter_append_perm _ _)
  · have h1 : (E.map (fun p => p.Pod.UID)).Sublist
        ((s1.nodeInfo.Pods ++ ((partitionVictims g pv pdbs).1 ++
          (partitionVictims g pv pdbs).2)).map (fun q => q.Pod.UID)) :=
      (hE.trans (List.sublist_append_right _ _)).map _
    exact h1.nodup hnd
  · have h1 := hE.length_le
    have h2 := (partitionVictims_perm g hsort pv pdbs).length_eq
    omega

/-- C37: when `SelectVictimsOnNode` returns `Success`, on a node whose pods carry
distinct UIDs, the returned victims are the pods of a subsequence of the
candidates in the order in which the reprieve pass takes them, so that each
candidate is returned at most once: the list holds no pod twice and is no
longer than the list of potential victims. A candidate that fails both the
filter and the quota test makes the call return an error, not `Success`. -/
theorem C37_no_victim_twice (g : Plugin σ) (pod : Pod) (s : Sim σ)
    (pdbs : List PodDisruptionBudget)
    (huid : (s.nodeInfo.Pods.map (fun p => p.Pod.UID)).Nodup) (hsort : SortPermutes g)
    (hok : (SelectVictimsOnNode g pod s pdbs).1.status.IsSuccess = true) :
    (SelectVictimsOnNode g pod s pdbs).1.victims.Nodup ∧
      (SelectVictimsOnNode g pod s pdbs).1.victims.length
        ≤ (potentialVictimsOf g pod s).length ∧
      ∃ E : List PodInfo,
        E.Sublist ((partitionVictims g (potentialVictimsOf g pod s) pdbs).1 ++
          (partitionVictims g (potentialVictimsOf g pod s) pdbs).2) ∧
        (SelectVictimsOnNode g pod s pdbs).1.victims = E.map (fun p => p.Pod) := by
  obtain ⟨E, hE, hV, _, hnd, hlen⟩ := selectVictims_final g pod s pdbs huid hsort hok
  refine ⟨?_, ?_, E, hE, hV⟩
  · rw [hV]
    have h : ((E.map (fun p => p.Pod)).map (fun q => q.UID)).Nodup := by
      rw [List.map_map]; exact hnd
    exact List.Nodup.of_map _ h
  · rw [hV, List.length_map]; exact hlen

/-- C37 on the example node: of the three potential victims `a`, `c` and `d` the
pods `a` and `c` are returned, each once. -/
theorem C37_no_victim_twice_witness :
    (SelectVictimsOnNode webPlugin pendingPod webSim [webBudget 0]).1.victims
        = [examplePod "a" 1 [("app", "web")], examplePod "c" 2 []] ∧
      (potentialVictimsOf webPlugin pendingPod webSim).length = 3 ∧
      ((SelectVictimsOnNode webPlugin pendingPod webSim [webBudget 0]).1.victims.Nodup ∧
        (SelectVictimsOnNode webPlugin pendingPod webSim [webBudget 0]).1.victims.length
          ≤ (potentialVictimsOf webPlugin pendingPod webSim).length ∧
        ∃ E : List PodInfo,
          E.Sublist ((partitionVictims webPlugin
              (potentialVictimsOf webPlugin pendingPod webSim) [webBudget 0]).1 ++
            (partitionVictims webPlugin
              (potentialVictimsOf webPlugin pendingPod webSim) [webBudget 0]).2) ∧
          (SelectVictimsOnNode webPlugin pendingPod webSim [webBudget 0]).1.victims
            = E.map (fun p => p.Pod)) :=
  ⟨by decide, by decide,
    C37_no_victim_twice webPlugin pendingPod webSim [webBudget 0] (by decide)
      (exampleSort_permutes _ _) (by decide)⟩

/-- C38: when `SelectVictimsOnNode` returns `Success`, on a node whose pods carry
distinct UIDs, the pods on the simulated node together with the returned
victims are the pods of entry, as a multiset: the pods left are the pods of
entry minus the victims, every candidate that is not a victim is back on the
node, and no other pod was added or removed. -/
theorem C38_final_node_is_entry_minus_victims (g : Plugin σ) (pod : Pod) (s : Sim σ)
    (pdbs : List PodDisruptionBudget)
    (huid : (s.nodeInfo.Pods.map (fun p => p.Pod.UID)).Nodup) (hsort : SortPermutes g)
    (hok : (SelectVictimsOnNode g pod s pdbs).1.status.IsSuccess = true) :
    ((SelectVictimsOnNode g pod s pdbs).2.nodeInfo.Pods.map (fun p => p.Pod) ++
        (SelectVictimsOnNode g pod s pdbs).1.victims).Perm
        (s.nodeInfo.Pods.map (fun p => p.Pod)) ∧
      (((SelectVictimsOnNode g pod s pdbs).2.nodeInfo.Pods.map (fun p => p.Pod) : List Pod)
          : Multiset Pod) =
        ((s.nodeInfo.Pods.map (fun p => p.Pod) : List Pod) : Multiset Pod) -
          (((SelectVictimsOnNode g pod s pdbs).1.victims : List Pod) : Multiset Pod) ∧
      ∀ p ∈ potentialVictimsOf g pod s,
        p.Pod ∉ (SelectVictimsOnNode g pod s pdbs).1.victims →
        p ∈ (SelectVictimsOnNode g pod s pdbs).2.nodeInfo.Pods := by
  obtain ⟨E, _, hV, hP, _, _⟩ := selectVictims_final g pod s pdbs huid hsort hok
  have hperm : ((SelectVictimsOnNode g pod s pdbs).2.nodeInfo.Pods.map (fun p => p.Pod) ++
      (SelectVictimsOnNode g pod s pdbs).1.victims).Perm
      (s.nodeInfo.Pods.map (fun p => p.Pod)) := by
    rw [hV, ← List.map_append]
    exact hP.map _
  refine ⟨hperm, ?_, ?_⟩
  · have h : ((((SelectVictimsOnNode g pod s pdbs).2.nodeInfo.Pods.map (fun p => p.Pod)
          : List Pod) : Multiset Pod) +
        (((SelectVictimsOnNode g pod s pdbs).1.victims : List Pod) : Multiset Pod)) =
        ((s.nodeInfo.Pods.map (fun p => p.Pod) : List Pod) : Multiset Pod) := by
      rw [Multiset.coe_add]
      exact Multiset.coe_eq_coe.2 hperm
    rw [← h, add_tsub_cancel_right]
  · intro p hp hnot
    have hmem : p ∈ s.nodeInfo.Pods := by
      have h := selectVictims_success g pod s pdbs hok
      obtain ⟨pv, s1, _, _, _, _, _, hL, _⟩ := h
      have hpvs : potentialVictimsOf g pod s = pv := by
        unfold potentialVictimsOf; rw [hL]
      rw [hpvs] at hp
      rw [(removeLoop_entry g pod s s1 pv huid hL).1] at hp
      exact (List.mem_filter.1 hp).1
    rcases List.mem_append.1 ((hP.mem_iff).2 hmem) with h | h
    · exact h
    · exfalso
      apply hnot
      rw [hV]
      exact List.mem_map_of_mem _ h

/-- C38 on the example node: `e`, `b` and the reprieved `d` are left, `a` and `c`
are the victims. -/
theorem C38_final_node_is_entry_minus_victims_witness :
    (SelectVictimsOnNode webPlugin pendingPod webSim [webBudget 0]).2.nodeInfo.Pods.map
        (fun p => p.Pod.Name) = ["e", "b", "d"] ∧
      (((SelectVictimsOnNode webPlugin pendingPod webSim [webBudget 0]).2.nodeInfo.Pods.map
          (fun p => p.Pod) ++
        (SelectVictimsOnNode webPlugin pendingPod webSim [webBudget 0]).1.victims).Perm
        (webSim.nodeInfo.Pods.map (fun p => p.Pod)) ∧
      (((SelectVictimsOnNode webPlugin pendingPod webSim [webBudget 0]).2.nodeInfo.Pods.map
          (fun p => p.Pod) : List Pod) : Multiset Pod) =
        ((webSim.nodeInfo.Pods.map (fun p => p.Pod) : List Pod) : Multiset Pod) -
          (((SelectVictimsOnNode webPlugin pendingPod webSim [webBudget 0]).1.victims
            : List Pod) : Multiset Pod) ∧
      ∀ p ∈ potentialVictimsOf webPlugin pendingPod webSim,
        p.Pod ∉ (SelectVictimsOnNode webPlugin pendingPod webSim [webBudget 0]).1.victims →
        p ∈ (SelectVictimsOnNode webPlugin pendingPod webSim [webBudget 0]).2.nodeInfo.Pods) :=
  ⟨by decide,
    C38_final_node_is_entry_minus_victims webPlugin pendingPod webSim [webBudget 0]
      (by decide) (exampleSort_permutes _ _) (by decide)⟩

end ClaimsVictimList

section ClaimBookkeeping
variable {σ : Type}

/-- The closure `removePod` returns an error exactly when `RemovePod` fails on the
node or the hook returns a status that is not a success, for hooks that fail
with an error; and it logs the error it returns. -/
theorem removePod_error_iff (g : Plugin σ) (hhooks : HooksFailWithError g) (pod : Pod)
    (rpi : PodInfo) (s : Sim σ) :
    ((removePod g pod rpi s).1 ≠ none ↔
      ((∃ e, s.nodeInfo.RemovePod rpi.Pod = Except.error e) ∨
        ∃ n, s.nodeInfo.RemovePod rpi.Pod = Except.ok n ∧
          (g.handle.RunPreFilterExtensionRemovePod s.state pod rpi n).2.IsSuccess = false)) ∧
      (removePod g pod rpi s).2.trace = s.trace ++ [⟨false, rpi, (removePod g pod rpi s).1⟩] := by
  unfold removePod
  cases hr : s.nodeInfo.RemovePod rpi.Pod with
  | error e =>
    dsimp only
    exact ⟨⟨fun _ => Or.inl ⟨e, rfl⟩, fun _ => by simp⟩, rfl⟩
  | ok n =>
    dsimp only
    cases hs : (g.handle.RunPreFilterExtensionRemovePod s.state pod rpi n).2.IsSuccess with
    | true =>
      simp only [if_true]
      refine ⟨⟨fun h => absurd rfl h, fun h => ?_⟩, trivial⟩
      rcases h with ⟨e, he⟩ | ⟨m, hm, hf⟩
      · cases he
      · cases hm
        rw [hs] at hf
        cases hf
    | false =>
      simp only [Bool.false_eq_true, if_false]
      refine ⟨⟨fun _ => Or.inr ⟨n, rfl, hs⟩, fun _ => ?_⟩, trivial⟩
      exact asError_ne_none _ hs (hhooks.1 _ _ _ _).1 (hhooks.1 _ _ _ _).2

/-- The closure `addPod` returns an error exactly when the hook returns a status
that is not a success, for hooks that fail with an error; and it logs the
error it returns. -/
theorem addPod_error_iff (g : Plugin σ) (hhooks : HooksFailWithError g) (pod : Pod)
    (api : PodInfo) (s : Sim σ) :
    ((addPod g pod api s).1 ≠ none ↔
      (g.handle.RunPreFilterExtensionAddPod s.state pod api
        (s.nodeInfo.AddPodInfo api)).2.IsSuccess = false) ∧
      (addPod g pod api s).2.trace = s.trace ++ [⟨true, api, (addPod g pod api s).1⟩] := by
  unfold addPod
  dsimp only
  cases hs : (g.handle.RunPreFilterExtensionAddPod s.state pod api
      (s.nodeInfo.AddPodInfo api)).2.IsSuccess with
  | true =>
    simp only [if_true]
    exact ⟨⟨fun h => absurd rfl h, fun h => by cases h⟩, trivial⟩
  | false =>
    simp only [Bool.false_eq_true, if_false]
    exact ⟨⟨fun _ => trivial, fun _ =>
      asError_ne_none _ hs (hhooks.2 _ _ _ _).1 (hhooks.2 _ _ _ _).2⟩, trivial⟩

/-- A hook status of code `Wait` is no error for the closure `removePod`: it
returns nil, as after a success. -/
theorem removePod_wait (g : Plugin σ) (pod : Pod) (rpi : PodInfo) (s : Sim σ) (n : NodeInfo)
    (hn : s.nodeInfo.RemovePod rpi.Pod = Except.ok n)
    (hw : (g.handle.RunPreFilterExtensionRemovePod s.state pod rpi n).2.code = Code.Wait) :
    (removePod g pod rpi s).1 = none := by
  unfold removePod
  rw [hn]
  simp [Status.IsSuccess, Status.AsError, Status.IsWait, hw]

theorem exampleHooks_fail_with_error (conflicts : List (List String)) (stuck : List String) :
    HooksFailWithError (examplePlugin conflicts stuck) := by
  constructor
  · intro st pod pi n
    simp only [examplePlugin, exampleHandle]
    split <;> simp [NewStatus]
  · intro st pod pi n
    simp [examplePlugin, exampleHandle, NewStatus]

/-- C5: with hooks that fail with an error (the status of a hook is never of code
`Wait` or `Skip`, for which `AsError` is nil), a bookkeeping call `removePod`
returns an error exactly when `RemovePod` fails on the node or its hook
returns a status that is not a success, a bookkeeping call `addPod` exactly
when its hook does, and each call logs the error it returns. When a
bookkeeping call of `SelectVictimsOnNode`, in the first loop or in the
reprieve pass, returns an error, the call returns no victims, a violating
count of 0 and a status of code `Error`, which is not a success; the failed
call is the last bookkeeping call made and the only failed one. -/
theorem C5_bookkeeping_failure_is_fatal (g : Plugin σ) (pod : Pod) (s : Sim σ)
    (pdbs : List PodDisruptionBudget) (hhooks : HooksFailWithError g) :
    (∀ (rpi : PodInfo) (s0 : Sim σ),
      ((removePod g pod rpi s0).1 ≠ none ↔
        ((∃ e, s0.nodeInfo.RemovePod rpi.Pod = Except.error e) ∨
          ∃ n, s0.nodeInfo.RemovePod rpi.Pod = Except.ok n ∧
            (g.handle.RunPreFilterExtensionRemovePod s0.state pod rpi n).2.IsSuccess
              = false)) ∧
        (removePod g pod rpi s0).2.trace
          = s0.trace ++ [⟨false, rpi, (removePod g pod rpi s0).1⟩]) ∧
      (∀ (api : PodInfo) (s0 : Sim σ),
        ((addPod g pod api s0).1 ≠ none ↔
          (g.handle.RunPreFilterExtensionAddPod s0.state pod api
            (s0.nodeInfo.AddPodInfo api)).2.IsSuccess = false) ∧
          (addPod g pod api s0).2.trace
            = s0.trace ++ [⟨true, api, (addPod g pod api s0).1⟩]) ∧
      ((∃ c ∈ (SelectVictimsOnNode g pod s pdbs).2.trace.drop s.trace.length, c.err ≠ none) →
        (SelectVictimsOnNode g pod s pdbs).1.victims = [] ∧
          (SelectVictimsOnNode g pod s pdbs).1.numViolatingVictim = 0 ∧
          (SelectVictimsOnNode g pod s pdbs).1.status.code = Code.Error ∧
          (SelectVictimsOnNode g pod s pdbs).1.status.IsSuccess = false ∧
          ∃ pre c, (SelectVictimsOnNode g pod s pdbs).2.trace = s.trace ++ pre ++ [c] ∧
            (∀ x ∈ pre, x.err = none) ∧ c.err ≠ none) := by
  refine ⟨fun rpi s0 => removePod_error_iff g hhooks pod rpi s0,
    fun api s0 => addPod_error_iff g hhooks pod api s0, fun hfail => ?_⟩
  rcases selectVictims_trace g pod s pdbs with hclean | ⟨hf, e, he⟩
  · exfalso
    obtain ⟨ext, hext, hall⟩ := hclean
    obtain ⟨c, hc, hne⟩ := hfail
    rw [hext, List.drop_left] at hc
    exact hne (hall c hc)
  · obtain ⟨pre, c, htr, hpre, hc⟩ := hf
    rw [he]
    exact ⟨rfl, rfl, rfl, rfl, pre, c, htr, hpre, hc⟩

/-- C5 on the five pods when the remove hook returns an `Error` status for `c`:
the removal of `a` succeeds, the removal of `c` returns the error and is the
last call, and the call returns the error triple. -/
theorem C5_bookkeeping_failure_is_fatal_witness :
    ((examplePlugin [] ["c"]).handle.RunPreFilterExtensionRemovePod
        (exampleSim 5 10 fivePods).state pendingPod ⟨examplePod "c" 2 []⟩
        ⟨"n1", [], []⟩).2.IsSuccess = false ∧
      (SelectVictimsOnNode (examplePlugin [] ["c"]) pendingPod
        (exampleSim 5 10 fivePods) []).2.trace =
          [⟨false, ⟨examplePod "a" 1 []⟩, none⟩,
            ⟨false, ⟨examplePod "c" 2 []⟩, some "remove hook failed"⟩] ∧
      (SelectVictimsOnNode (examplePlugin [] ["c"]) pendingPod
        (exampleSim 5 10 fivePods) []).1.victims = [] ∧
      (SelectVictimsOnNode (examplePlugin [] ["c"]) pendingPod
        (exampleSim 5 10 fivePods) []).1.numViolatingVictim = 0 ∧
      (SelectVictimsOnNode (examplePlugin [] ["c"]) pendingPod
        (exampleSim 5 10 fivePods) []).1.status.code = Code.Error ∧
      (SelectVictimsOnNode (examplePlugin [] ["c"]) pendingPod
        (exampleSim 5 10 fivePods) []).1.status.IsSuccess = false ∧
      ∃ pre c, (SelectVictimsOnNode (examplePlugin [] ["c"]) pendingPod
          (exampleSim 5 10 fivePods) []).2.trace
            = (exampleSim 5 10 fivePods).trace ++ pre ++ [c] ∧
        (∀ x ∈ pre, x.err = none) ∧ c.err ≠ none :=
  ⟨by decide, by decide,
    (C5_bookkeeping_failure_is_fatal (examplePlugin [] ["c"]) pendingPod
      (exampleSim 5 10 fivePods) [] (exampleHooks_fail_with_error _ _)).2.2 (by decide)⟩

/-- A remove hook that returns a status of code `Wait` for every pod: the closures
carry on and the call returns `Success`; the statement on bookkeeping failures
is therefore made for hooks that fail with an error. -/
theorem wait_status_is_no_failure :
    (SelectVictimsOnNode waitingPlugin pendingPod
      (exampleSim 1 10 [⟨examplePod "a" 1 []⟩]) []).1
        = ⟨[], 0, NewStatus Code.Success []⟩ := by
  decide

end ClaimBookkeeping

end ElasticQuota

namespace Coscheduling

section GoMaps
variable {α : Type}

/-! ## Go maps: lookup after assignment and deletion -/

theorem lookup_filter_ne (m : GoMap α) {k k1 : String} (h : k1 ≠ k) :
    List.lookup k1 (m.filter (fun e => e.1 != k)) = List.lookup k1 m := by
  induction m with
  | nil => rfl
  | cons e m ih =>
    obtain ⟨a, b⟩ := e
    by_cases ha : a = k
    · subst ha
      have hk : (k1 == a) = false := by simpa using h
      simp [List.filter_cons, List.lookup_cons, hk, ih]
    · have hf : (a != k) = true := by simpa using ha
      simp only [List.filter_cons, hf, if_true, List.lookup_cons, ih]

theorem lookup_filter_self (m : GoMap α) (k : String) :
    List.lookup k (m.filter (fun e => e.1 != k)) = none := by
  induction m with
  | nil => rfl
  | cons e m ih =>
    obtain ⟨a, b⟩ := e
    by_cases ha : a = k
    · subst ha
      simp [List.filter_cons, ih]
    · have hf : (a != k) = true := by simpa using ha
      have hk : (k == a) = false := by simpa using fun h : k = a => ha h.symm
      simp only [List.filter_cons, hf, if_true, List.lookup_cons, hk, ih]

theorem lookup_set_self (m : GoMap α) (k : String) (v : α) :
    List.lookup k (m.set k v) = some v := by
  simp [GoMap.set, List.lookup_cons]

theorem lookup_set_ne (m : GoMap α) {k k1 : String} (v : α) (h : k1 ≠ k) :
    List.lookup k1 (m.set k v) = List.lookup k1 m := by
  have hk : (k1 == k) = false := by simpa using h
  simp only [GoMap.set, List.lookup_cons, hk]
  exact lookup_filter_ne m h

theorem lookup_del_self (m : GoMap α) (k : String) : List.lookup k (m.del k) = none :=
  lookup_filter_self m k

theorem lookup_del_ne (m : GoMap α) {k k1 : String} (h : k1 ≠ k) :
    List.lookup k1 (m.del k) = List.lookup k1 m :=
  lookup_filter_ne m h

theorem mem_set {m : GoMap α} {k : String} {v : α} {e : String × α} (h : e ∈ m.set k v) :
    e = (k, v) ∨ (e ∈ m ∧ e.1 ≠ k) := by
  unfold GoMap.set at h
  rcases List.mem_cons.1 h with h | h
  · exact Or.inl h
  · rw [List.mem_filter] at h
    exact Or.inr ⟨h.1, by simpa using h.2⟩

theorem mem_set_self (m : GoMap α) (k : String) (v : α) : (k, v) ∈ m.set k v :=
  List.mem_cons_self _ _

theorem mem_set_of_ne {m : GoMap α} {k : String} (v : α) {e : String × α} (h : e ∈ m)
    (hk : e.1 ≠ k) : e ∈ m.set k v :=
  List.mem_cons_of_mem _ (List.mem_filter.2 ⟨h, by simpa using hk⟩)

theorem mem_del {m : GoMap α} {k : String} {e : String × α} :
    e ∈ m.del k ↔ e ∈ m ∧ e.1 ≠ k := by
  unfold GoMap.del
  rw [List.mem_filter]
  simp

theorem mem_keys {m : GoMap α} {k : String} : k ∈ m.keys ↔ ∃ v, (k, v) ∈ m := by
  unfold GoMap.keys
  rw [List.mem_map]
  constructor
  · rintro ⟨⟨a, b⟩, he, rfl⟩
    exact ⟨b, he⟩
  · rintro ⟨v, hv⟩
    exact ⟨(k, v), hv, rfl⟩

theorem mem_keys_set {m : GoMap α} {k k1 : String} {v : α} :
    k1 ∈ (m.set k v).keys ↔ k1 = k ∨ k1 ∈ m.keys := by
  rw [mem_keys, mem_keys]
  constructor
  · rintro ⟨w, hw⟩
    rcases mem_set hw with h | ⟨h, _⟩
    · exact Or.inl (Prod.mk.inj h).1
    · exact Or.inr ⟨w, h⟩
  · rintro (h | ⟨w, hw⟩)
    · subst h
      exact ⟨v, mem_set_self m k1 v⟩
    · by_cases hk : k1 = k
      · subst hk
        exact ⟨v, mem_set_self m k1 v⟩
      · exact ⟨w, mem_set_of_ne v hw hk⟩

theorem mem_keys_del {m : GoMap α} {k k1 : String} :
    k1 ∈ (m.del k).keys ↔ k1 ≠ k ∧ k1 ∈ m.keys := by
  rw [mem_keys, mem_keys]
  constructor
  · rintro ⟨w, hw⟩
    obtain ⟨h1, h2⟩ := mem_del.1 hw
    exact ⟨h2, w, h1⟩
  · rintro ⟨hk, w, hw⟩
    exact ⟨w, mem_del.2 ⟨hw, hk⟩⟩

theorem mem_of_lookup {m : GoMap α} {k : String} {v : α} (h : List.lookup k m = some v) :
    (k, v) ∈ m := by
  induction m with
  | nil => cases h
  | cons e m ih =>
    obtain ⟨a, b⟩ := e
    rw [List.lookup_cons] at h
    by_cases hk : k = a
    · subst hk
      simp only [beq_self_eq_true] at h
      cases h
      exact List.mem_cons_self _ _
    · have hb : (k == a) = false := by simpa using hk
      rw [hb] at h
      exact List.mem_cons_of_mem _ (ih h)

theorem lookup_eq_none_iff {m : GoMap α} {k : String} :
    List.lookup k m = none ↔ k ∉ m.keys := by
  induction m with
  | nil => simp [GoMap.keys]
  | cons e m ih =>
    obtain ⟨a, b⟩ := e
    rw [List.lookup_cons]
    by_cases hk : k = a
    · subst hk
      simp [GoMap.keys]
    · have hb : (k == a) = false := by simpa using hk
      rw [hb]
      simp only [GoMap.keys, List.map_cons, List.mem_cons, not_or] at ih ⊢
      rw [ih]
      exact ⟨fun h => ⟨hk, h⟩, fun h => h.2⟩

theorem lookup_of_mem {m : GoMap α} (hnd : m.keys.Nodup) {k : String} {v : α}
    (h : (k, v) ∈ m) : List.lookup k m = some v := by
  induction m with
  | nil => cases h
  | cons e m ih =>
    obtain ⟨a, b⟩ := e
    simp only [GoMap.keys, List.map_cons, List.nodup_cons] at hnd
    rw [List.lookup_cons]
    rcases List.mem_cons.1 h with h1 | h1
    · cases h1
      simp
    · have hk : k ≠ a := by
        intro hka
        subst hka
        exact hnd.1 (List.mem_map.2 ⟨(k, v), h1, rfl⟩)
      have hb : (k == a) = false := by simpa using hk
      rw [hb]
      exact ih hnd.2 h1

theorem nodup_keys_del {m : GoMap α} (hnd : m.keys.Nodup) (k : String) :
    (m.del k).keys.Nodup := by
  unfold GoMap.keys GoMap.del
  exact List.Nodup.sublist (List.Sublist.map _ (List.filter_sublist _)) hnd

theorem nodup_keys_set {m : GoMap α} (hnd : m.keys.Nodup) (k : String) (v : α) :
    (m.set k v).keys.Nodup := by
  have h1 : (m.del k).keys.Nodup := nodup_keys_del hnd k
  have h2 : k ∉ (m.del k).keys := fun h => (mem_keys_del.1 h).1 rfl
  unfold GoMap.set
  unfold GoMap.del at h1 h2
  simp only [GoMap.keys, List.map_cons, List.nodup_cons] at h1 h2 ⊢
  exact ⟨h2, h1⟩

theorem del_eq_self_of_lookup_none {m : GoMap α} {k : String} (h : List.lookup k m = none) :
    m.del k = m := by
  unfold GoMap.del
  rw [List.filter_eq_self]
  intro e he
  have hk : k ∉ m.keys := lookup_eq_none_iff.1 h
  have : e.1 ≠ k := by
    intro hek
    exact hk (List.mem_map.2 ⟨e, he, hek⟩)
  simpa using this

theorem length_set_of_lookup_none {m : GoMap α} {k : String} (v : α)
    (h : List.lookup k m = none) : (m.set k v).length = m.length + 1 := by
  have := del_eq_self_of_lookup_none h
  unfold GoMap.del at this
  unfold GoMap.set
  rw [List.length_cons, this]

end GoMaps

section CacheSteps

/-! ## What the helpers of the cache do to the registry of gangs -/

theorem withGroupRef_self (gang : Gang) : gang.withGroupRef gang.GangGroupInfo = gang := by
  cases gang
  rfl

theorem withGroupRef_withGroupRef (gang : Gang) (r r1 : GroupRef) :
    (gang.withGroupRef r).withGroupRef r1 = gang.withGroupRef r1 := by
  cases gang
  rfl

theorem releaseGangGroupInfo_gangItems (c : GangCache) (ref : GroupRef) :
    (c.releaseGangGroupInfo ref).gangItems = c.gangItems ∧
      (c.releaseGangGroupInfo ref).podGroups = c.podGroups := by
  unfold GangCache.releaseGangGroupInfo
  cases ref with
  | own info => exact ⟨rfl, rfl⟩
  | shared gangGroupId =>
    dsimp only
    split
    · exact ⟨rfl, rfl⟩
    · exact ⟨rfl, rfl⟩

theorem getGangGroupInfo_gangItems (c : GangCache) (gangGroupId : String)
    (gangGroup : List String) (create : Bool) :
    (c.getGangGroupInfo gangGroupId gangGroup create).2.gangItems = c.gangItems ∧
      (c.getGangGroupInfo gangGroupId gangGroup create).2.podGroups = c.podGroups := by
  unfold GangCache.getGangGroupInfo
  cases c.gangGroupInfoMap.lookup gangGroupId with
  | some info => exact ⟨rfl, rfl⟩
  | none =>
    dsimp only
    split
    · exact ⟨rfl, rfl⟩
    · exact ⟨rfl, rfl⟩

theorem attachGangGroupInfo_gangItems (c : GangCache) (gangId : String) (gang : Gang) :
    (c.attachGangGroupInfo gangId gang).gangItems
        = c.gangItems.set gangId (gang.withGroupRef (GroupRef.shared gang.GangGroupId)) ∧
      (c.attachGangGroupInfo gangId gang).podGroups = c.podGroups := by
  unfold GangCache.attachGangGroupInfo
  dsimp only
  constructor
  · rw [(getGangGroupInfo_gangItems _ _ _ _).1]
    split
    · rfl
    · rw [(releaseGangGroupInfo_gangItems _ _).1]
      rfl
  · rw [(getGangGroupInfo_gangItems _ _ _ _).2]
    split
    · rfl
    · rw [(releaseGangGroupInfo_gangItems _ _).2]

theorem setResourceSatisfied_lookup (c : GangCache) (gangId : String) :
    (∀ k, k ≠ gangId →
        List.lookup k (c.setResourceSatisfied gangId).gangItems = List.lookup k c.gangItems) ∧
      (List.lookup gangId c.gangItems = none →
        List.lookup gangId (c.setResourceSatisfied gangId).gangItems = none) ∧
      (∀ gang, List.lookup gangId c.gangItems = some gang →
        ∃ r, List.lookup gangId (c.setResourceSatisfied gangId).gangItems
          = some (gang.withGroupRef r)) ∧
      (c.setResourceSatisfied gangId).podGroups = c.podGroups := by
  unfold GangCache.setResourceSatisfied
  cases hl : List.lookup gangId c.gangItems with
  | none =>
    dsimp only
    refine ⟨fun _ _ => rfl, fun _ => hl, ?_, rfl⟩
    intro gang h
    cases h
  | some gang =>
    dsimp only
    cases hr : gang.GangGroupInfo with
    | own info =>
      dsimp only
      refine ⟨fun k hk => lookup_set_ne _ _ hk, ?_, ?_, rfl⟩
      · intro h
        cases h
      · intro g hg
        cases hg
        exact ⟨_, lookup_set_self _ _ _⟩
    | shared gangGroupId =>
      dsimp only
      have hself : ∀ g, some gang = some g →
          ∃ r, List.lookup gangId c.gangItems = some (g.withGroupRef r) := by
        intro g hg
        cases hg
        exact ⟨gang.GangGroupInfo, by rw [withGroupRef_self]; exact hl⟩
      have hnone : some gang = none → List.lookup gangId c.gangItems = none := by
        intro h
        cases h
      cases c.gangGroupInfoMap.lookup gangGroupId with
      | none => exact ⟨fun _ _ => rfl, hnone, hself, rfl⟩
      | some info => exact ⟨fun _ _ => rfl, hnone, hself, rfl⟩

theorem getGangFromCacheByGangId_create (env : Env) (c : GangCache) (gangId : String) :
    (c.getGangFromCacheByGangId env gangId true).1 = some (c.gangOrNew env gangId) ∧
      List.lookup gangId (c.getGangFromCacheByGangId env gangId true).2.gangItems
        = some (c.gangOrNew env gangId) ∧
      (∀ k, k ≠ gangId →
        List.lookup k (c.getGangFromCacheByGangId env gangId true).2.gangItems
          = List.lookup k c.gangItems) ∧
      (c.getGangFromCacheByGangId env gangId true).2.podGroups = c.podGroups ∧
      (c.getGangFromCacheByGangId env gangId true).2.gangGroupInfoMap = c.gangGroupInfoMap := by
  unfold GangCache.getGangFromCacheByGangId GangCache.gangOrNew
  cases hl : List.lookup gangId c.gangItems with
  | some gang => exact ⟨rfl, hl, fun _ _ => rfl, rfl, rfl⟩
  | none =>
    simp only [if_true, Option.getD_none]
    refine ⟨?_, lookup_set_self _ _ _, fun k hk => lookup_set_ne _ _ hk, ?_, ?_⟩ <;>
      first | rfl | trivial

/-- The gang a member event leaves under the gang id the member names, up to the
pointer to the group state, and the other gangs, which it leaves alone. -/
theorem onPodAdd_lookup (env : Env) (c : GangCache) (pod : Pod)
    (hname : GetGangNameByPod pod ≠ "") :
    (∃ r, List.lookup (gangIdOf pod) (c.onPodAdd env pod).gangItems
        = some (((if mapGet pod.Labels PodGroupLabel == "" then
            (c.gangOrNew env (gangIdOf pod)).tryInitByPodConfig env pod
            else (c.gangOrNew env (gangIdOf pod), false)).1.setChild pod).withGroupRef r)) ∧
      ∀ k, k ≠ gangIdOf pod →
        List.lookup k (c.onPodAdd env pod).gangItems = List.lookup k c.gangItems := by
  obtain ⟨h1, h2, h3, _, _⟩ := getGangFromCacheByGangId_create env c (gangIdOf pod)
  unfold GangCache.onPodAdd
  have hn : (GetGangNameByPod pod == "") = false := by simpa using hname
  simp only [hn, Bool.false_eq_true, if_false]
  unfold gangIdOf at h1 h2 h3 ⊢
  rcases hG : c.getGangFromCacheByGangId env (GetId pod.Namespace (GetGangNameByPod pod)) true
    with ⟨og, c1⟩
  rw [hG] at h1 h2 h3
  dsimp only at h1 h2 h3
  subst h1
  dsimp only
  generalize hgang1 : ((if mapGet pod.Labels PodGroupLabel == "" then
      (c.gangOrNew env (GetId pod.Namespace (GetGangNameByPod pod))).tryInitByPodConfig env pod
      else (c.gangOrNew env (GetId pod.Namespace (GetGangNameByPod pod)), false)).1.setChild pod)
    = gang1
  generalize hflag : (if mapGet pod.Labels PodGroupLabel == "" then
      (c.gangOrNew env (GetId pod.Namespace (GetGangNameByPod pod))).tryInitByPodConfig env pod
      else (c.gangOrNew env (GetId pod.Namespace (GetGangNameByPod pod)), false)).2 = flag
  -- the registry after the gang is stored
  have hstore : ∀ c2 : GangCache,
      c2 = (if gang1.HasGangInit = true then
        c1.attachGangGroupInfo (GetId pod.Namespace (GetGangNameByPod pod)) gang1
        else { c1 with gangItems :=
          c1.gangItems.set (GetId pod.Namespace (GetGangNameByPod pod)) gang1 }) →
      (∃ r, List.lookup (GetId pod.Namespace (GetGangNameByPod pod)) c2.gangItems
          = some (gang1.withGroupRef r)) ∧
        ∀ k, k ≠ GetId pod.Namespace (GetGangNameByPod pod) →
          List.lookup k c2.gangItems = List.lookup k c.gangItems := by
    intro c2 hc2
    split at hc2
    · rw [hc2, (attachGangGroupInfo_gangItems _ _ _).1]
      exact ⟨⟨_, lookup_set_self _ _ _⟩,
        fun k hk => (lookup_set_ne _ _ hk).trans (h3 k hk)⟩
    · rw [hc2]
      exact ⟨⟨gang1.GangGroupInfo, by rw [withGroupRef_self]; exact lookup_set_self _ _ _⟩,
        fun k hk => (lookup_set_ne _ _ hk).trans (h3 k hk)⟩
  generalize hc2 : (if gang1.HasGangInit = true then
        c1.attachGangGroupInfo (GetId pod.Namespace (GetGangNameByPod pod)) gang1
        else { c1 with gangItems :=
          c1.gangItems.set (GetId pod.Namespace (GetGangNameByPod pod)) gang1 }) = c2
  obtain ⟨⟨r2, hr2⟩, hother2⟩ := hstore c2 hc2.symm
  -- the latch
  have hlatch : ∀ c3 : GangCache,
      c3 = (if (pod.NodeName != "") = true then
        c2.setResourceSatisfied (GetId pod.Namespace (GetGangNameByPod pod)) else c2) →
      (∃ r, List.lookup (GetId pod.Namespace (GetGangNameByPod pod)) c3.gangItems
          = some (gang1.withGroupRef r)) ∧
        ∀ k, k ≠ GetId pod.Namespace (GetGangNameByPod pod) →
          List.lookup k c3.gangItems = List.lookup k c.gangItems := by
    intro c3 hc3
    split at hc3
    · obtain ⟨s1, _, s3, _⟩ :=
        setResourceSatisfied_lookup c2 (GetId pod.Namespace (GetGangNameByPod pod))
      obtain ⟨r, hr⟩ := s3 _ hr2
      rw [withGroupRef_withGroupRef] at hr
      rw [hc3]
      exact ⟨⟨r, hr⟩, fun k hk => (s1 k hk).trans (hother2 k hk)⟩
    · rw [hc3]
      exact ⟨⟨r2, hr2⟩, hother2⟩
  generalize hc3 : (if (pod.NodeName != "") = true then
        c2.setResourceSatisfied (GetId pod.Namespace (GetGangNameByPod pod)) else c2) = c3
  obtain ⟨hr3, hother3⟩ := hlatch c3 hc3.symm
  split
  · exact ⟨hr3, hother3⟩
  · exact ⟨hr3, hother3⟩

end CacheSteps
section HandlerSteps

/-! ## What each handler does to the registry of gangs -/

theorem onPodAdd_noname (env : Env) (c : GangCache) (pod : Pod)
    (hname : GetGangNameByPod pod = "") : c.onPodAdd env pod = c := by
  unfold GangCache.onPodAdd
  simp [hname]

theorem onPodUpdate_cases (env : Env) (c : GangCache) (oldPod newPod : Pod) :
    c.onPodUpdate env oldPod newPod = c ∨
      c.onPodUpdate env oldPod newPod = c.onPodAdd env newPod := by
  unfold GangCache.onPodUpdate
  dsimp only
  cases List.lookup (GetId newPod.Namespace (GetGangNameByPod newPod)) c.gangItems with
  | none => exact Or.inr rfl
  | some gang =>
    dsimp only
    split_ifs <;> first | exact Or.inl rfl | exact Or.inr rfl

theorem onPodDelete_noname (c : GangCache) (pod : Pod)
    (hname : GetGangNameByPod pod = "") : c.onPodDelete pod = c := by
  unfold GangCache.onPodDelete
  simp [hname]

theorem onPodDelete_absent (c : GangCache) (pod : Pod)
    (h : List.lookup (gangIdOf pod) c.gangItems = none) : c.onPodDelete pod = c := by
  unfold GangCache.onPodDelete
  unfold gangIdOf at h
  dsimp only
  split
  · rfl
  · rw [h]

/-- The member leaves its gang; the gang is deleted when it was the last child of
a gang whose provenance is the member annotation, and the group resource of
its name with it. -/
theorem onPodDelete_present (c : GangCache) (pod : Pod) (gang : Gang)
    (hname : GetGangNameByPod pod ≠ "")
    (h : List.lookup (gangIdOf pod) c.gangItems = some gang) :
    (∀ k, k ≠ gangIdOf pod →
        List.lookup k (c.onPodDelete pod).gangItems = List.lookup k c.gangItems) ∧
      (((gang.deletePod pod).Children.isEmpty = true ∧
          gang.GangFrom = GangFrom.GangFromPodAnnotation) →
        List.lookup (gangIdOf pod) (c.onPodDelete pod).gangItems = none ∧
          List.lookup (gangIdOf pod) (c.onPodDelete pod).podGroups = none) ∧
      (¬ ((gang.deletePod pod).Children.isEmpty = true ∧
          gang.GangFrom = GangFrom.GangFromPodAnnotation) →
        List.lookup (gangIdOf pod) (c.onPodDelete pod).gangItems = some (gang.deletePod pod) ∧
          (c.onPodDelete pod).podGroups = c.podGroups ∧
          (c.onPodDelete pod).gangGroupInfoMap = c.gangGroupInfoMap) := by
  unfold GangCache.onPodDelete
  unfold gangIdOf at h ⊢
  have hn : (GetGangNameByPod pod == "") = false := by simpa using hname
  simp only [hn, Bool.false_eq_true, if_false, h]
  have hfrom : (gang.deletePod pod).GangFrom = gang.GangFrom := rfl
  by_cases hcond : (gang.deletePod pod).Children.isEmpty = true ∧
      gang.GangFrom = GangFrom.GangFromPodAnnotation
  · have hif : ((gang.deletePod pod).Children.isEmpty &&
        (gang.deletePod pod).GangFrom == GangFrom.GangFromPodAnnotation) = true := by
      rw [hfrom]
      simp [hcond.1, hcond.2]
    rw [if_pos hif]
    refine ⟨?_, fun _ => ⟨?_, ?_⟩, fun hno => absurd hcond hno⟩
    · intro k hk
      dsimp only
      rw [(releaseGangGroupInfo_gangItems _ _).1]
      exact lookup_del_ne _ hk
    · dsimp only
      rw [(releaseGangGroupInfo_gangItems _ _).1]
      exact lookup_del_self _ _
    · exact lookup_del_self _ _
  · have hif : ¬ ((gang.deletePod pod).Children.isEmpty &&
        (gang.deletePod pod).GangFrom == GangFrom.GangFromPodAnnotation) = true := by
      rw [hfrom]
      intro hc
      apply hcond
      simpa using hc
    rw [if_neg hif]
    refine ⟨fun k hk => lookup_set_ne _ _ hk, fun hyes => absurd hyes hcond,
      fun _ => ⟨lookup_set_self _ _ _, rfl, rfl⟩⟩

theorem onPodGroupAdd_lookup (env : Env) (c : GangCache) (pg : PodGroup) :
    List.lookup (GetId pg.Namespace pg.Name) (c.onPodGroupAdd env pg).gangItems
        = some (((c.gangOrNew env (GetId pg.Namespace pg.Name)).tryInitByPodGroup env pg).withGroupRef
            (GroupRef.shared
              ((c.gangOrNew env (GetId pg.Namespace pg.Name)).tryInitByPodGroup env pg).GangGroupId)) ∧
      (∀ k, k ≠ GetId pg.Namespace pg.Name →
        List.lookup k (c.onPodGroupAdd env pg).gangItems = List.lookup k c.gangItems) ∧
      (c.onPodGroupAdd env pg).podGroups = c.podGroups := by
  obtain ⟨h1, _, h3, h4, _⟩ := getGangFromCacheByGangId_create env c (GetId pg.Namespace pg.Name)
  unfold GangCache.onPodGroupAdd
  rcases hG : c.getGangFromCacheByGangId env (GetId pg.Namespace pg.Name) true with ⟨og, c1⟩
  rw [hG] at h1 h3 h4
  dsimp only at h1 h3 h4
  subst h1
  dsimp only
  rw [hG]
  dsimp only
  rw [(attachGangGroupInfo_gangItems _ _ _).1, (attachGangGroupInfo_gangItems _ _ _).2]
  exact ⟨lookup_set_self _ _ _, fun k hk => (lookup_set_ne _ _ hk).trans (h3 k hk), h4⟩

theorem onPodGroupUpdate_absent (env : Env) (c : GangCache) (oldPg newPg : PodGroup)
    (h : List.lookup (GetId newPg.Namespace newPg.Name) c.gangItems = none) :
    c.onPodGroupUpdate env oldPg newPg = c := by
  unfold GangCache.onPodGroupUpdate
  simp only [h]

theorem onPodGroupUpdate_present (env : Env) (c : GangCache) (oldPg newPg : PodGroup)
    (gang : Gang) (h : List.lookup (GetId newPg.Namespace newPg.Name) c.gangItems = some gang) :
    List.lookup (GetId newPg.Namespace newPg.Name) (c.onPodGroupUpdate env oldPg newPg).gangItems
        = some ((gang.tryInitByPodGroup env newPg).withGroupRef
            (GroupRef.shared (gang.tryInitByPodGroup env newPg).GangGroupId)) ∧
      (∀ k, k ≠ GetId newPg.Namespace newPg.Name →
        List.lookup k (c.onPodGroupUpdate env oldPg newPg).gangItems
          = List.lookup k c.gangItems) ∧
      (c.onPodGroupUpdate env oldPg newPg).podGroups = c.podGroups := by
  unfold GangCache.onPodGroupUpdate
  simp only [h]
  rw [(attachGangGroupInfo_gangItems _ _ _).1, (attachGangGroupInfo_gangItems _ _ _).2]
  exact ⟨lookup_set_self _ _ _, fun k hk => lookup_set_ne _ _ hk, rfl⟩

theorem onPodGroupDelete_absent (c : GangCache) (pg : PodGroup)
    (h : List.lookup (GetId pg.Namespace pg.Name) c.gangItems = none) :
    c.onPodGroupDelete pg = c := by
  unfold GangCache.onPodGroupDelete
  simp only [h]

theorem onPodGroupDelete_present (c : GangCache) (pg : PodGroup) (gang : Gang)
    (h : List.lookup (GetId pg.Namespace pg.Name) c.gangItems = some gang) :
    (∀ k, k ≠ GetId pg.Namespace pg.Name →
        List.lookup k (c.onPodGroupDelete pg).gangItems = List.lookup k c.gangItems) ∧
      (c.onPodGroupDelete pg).podGroups = c.podGroups ∧
      ((gang.GangFrom = GangFrom.GangFromPodGroupCrd ∨ gang.HasGangInit = false) →
        List.lookup (GetId pg.Namespace pg.Name) (c.onPodGroupDelete pg).gangItems = none) ∧
      ((gang.GangFrom = GangFrom.GangFromPodAnnotation ∧ gang.HasGangInit = true) →
        c.onPodGroupDelete pg = c) := by
  unfold GangCache.onPodGroupDelete
  simp only [h]
  by_cases hcond : gang.GangFrom = GangFrom.GangFromPodGroupCrd ∨ gang.HasGangInit = false
  · have hif : (gang.GangFrom == GangFrom.GangFromPodGroupCrd || !gang.HasGangInit) = true := by
      rcases hcond with h1 | h1
      · simp [h1]
      · simp [h1]
    rw [if_pos hif]
    rw [(releaseGangGroupInfo_gangItems _ _).1, (releaseGangGroupInfo_gangItems _ _).2]
    refine ⟨fun k hk => lookup_del_ne _ hk, rfl, fun _ => lookup_del_self _ _, ?_⟩
    rintro ⟨hfrom, hinit⟩
    rcases hcond with h1 | h1
    · rw [hfrom] at h1; cases h1
    · rw [hinit] at h1; cases h1
  · have hif : ¬ (gang.GangFrom == GangFrom.GangFromPodGroupCrd || !gang.HasGangInit) = true := by
      intro hc
      apply hcond
      simpa using hc
    rw [if_neg hif]
    exact ⟨fun _ _ => rfl, rfl, fun hyes => absurd hyes hcond, fun _ => rfl⟩

end HandlerSteps

section Partition

/-! ## The partition of the children -/

theorem newGang_partitioned (env : Env) (gangName : String) :
    (NewGang env gangName).Partitioned := by
  unfold Gang.Partitioned NewGang
  simp [GoMap.keys]

theorem partitioned_congr {g g1 : Gang} (hc : g1.Children = g.Children)
    (hp : g1.PendingChildren = g.PendingChildren)
    (hw : g1.WaitingForBindChildren = g.WaitingForBindChildren)
    (hb : g1.BoundChildren = g.BoundChildren) (h : g.Partitioned) : g1.Partitioned := by
  unfold Gang.Partitioned at h ⊢
  rw [hc, hp, hw, hb]
  exact h

theorem withGroupRef_partitioned {g : Gang} (r : GroupRef) (h : g.Partitioned) :
    (g.withGroupRef r).Partitioned :=
  partitioned_congr rfl rfl rfl rfl h

theorem tryInitByPodConfig_children (env : Env) (g : Gang) (pod : Pod) :
    (g.tryInitByPodConfig env pod).1.Children = g.Children ∧
      (g.tryInitByPodConfig env pod).1.PendingChildren = g.PendingChildren ∧
      (g.tryInitByPodConfig env pod).1.WaitingForBindChildren = g.WaitingForBindChildren ∧
      (g.tryInitByPodConfig env pod).1.BoundChildren = g.BoundChildren := by
  unfold Gang.tryInitByPodConfig
  split
  · exact ⟨rfl, rfl, rfl, rfl⟩
  · split
    · exact ⟨rfl, rfl, rfl, rfl⟩
    · exact ⟨rfl, rfl, rfl, rfl⟩

theorem tryInitByPodConfig_partitioned (env : Env) {g : Gang} (pod : Pod)
    (h : g.Partitioned) : (g.tryInitByPodConfig env pod).1.Partitioned := by
  obtain ⟨h1, h2, h3, h4⟩ := tryInitByPodConfig_children env g pod
  exact partitioned_congr h1 h2 h3 h4 h

theorem tryInitByPodGroup_partitioned (env : Env) {g : Gang} (pg : PodGroup)
    (h : g.Partitioned) : (g.tryInitByPodGroup env pg).Partitioned :=
  partitioned_congr rfl rfl rfl rfl h

theorem setChild_partitioned {g : Gang} (pod : Pod) (h : g.Partitioned) :
    (g.setChild pod).Partitioned := by
  obtain ⟨h1, h2, h3, h4⟩ := h
  unfold Gang.setChild
  dsimp only
  split
  · unfold Gang.Partitioned
    dsimp only
    refine ⟨fun k => ?_, fun k => ?_, fun k => ?_, fun k => ?_⟩
    · have := h1 k
      simp only [mem_keys_set, mem_keys_del]
      by_cases hk : k = GetId pod.Namespace pod.Name <;> simp [hk, this]
    · have := h2 k
      simp only [mem_keys_del]
      tauto
    · have := h3 k
      simp only [mem_keys_set, mem_keys_del]
      tauto
    · have := h4 k
      simp only [mem_keys_set, mem_keys_del]
      tauto
  · unfold Gang.Partitioned
    dsimp only
    refine ⟨fun k => ?_, fun k => ?_, fun k => ?_, fun k => ?_⟩
    · have := h1 k
      simp only [mem_keys_set, mem_keys_del]
      by_cases hk : k = GetId pod.Namespace pod.Name <;> simp [hk, this]
    · have := h2 k
      simp only [mem_keys_set, mem_keys_del]
      tauto
    · have := h3 k
      simp only [mem_keys_set, mem_keys_del]
      tauto
    · have := h4 k
      simp only [mem_keys_del]
      tauto

theorem deletePod_partitioned {g : Gang} (pod : Pod) (h : g.Partitioned) :
    (g.deletePod pod).Partitioned := by
  obtain ⟨h1, h2, h3, h4⟩ := h
  unfold Gang.deletePod Gang.Partitioned
  dsimp only
  refine ⟨fun k => ?_, fun k => ?_, fun k => ?_, fun k => ?_⟩
  · have := h1 k
    simp only [mem_keys_del]
    tauto
  · have := h2 k
    simp only [mem_keys_del]
    tauto
  · have := h3 k
    simp only [mem_keys_del]
    tauto
  · have := h4 k
    simp only [mem_keys_del]
    tauto

theorem gangOrNew_partitioned (env : Env) (c : GangCache) (gangId : String)
    (h : ∀ id g, List.lookup id c.gangItems = some g → g.Partitioned) :
    (c.gangOrNew env gangId).Partitioned := by
  unfold GangCache.gangOrNew
  cases hl : List.lookup gangId c.gangItems with
  | none => exact newGang_partitioned env gangId
  | some g => exact h gangId g hl

theorem onPodAdd_partitioned (env : Env) (c : GangCache) (pod : Pod)
    (h : ∀ id g, List.lookup id c.gangItems = some g → g.Partitioned) :
    ∀ id g, List.lookup id (c.onPodAdd env pod).gangItems = some g → g.Partitioned := by
  by_cases hname : GetGangNameByPod pod = ""
  · rw [onPodAdd_noname env c pod hname]
    exact h
  · obtain ⟨⟨r, hr⟩, hother⟩ := onPodAdd_lookup env c pod hname
    intro id g hg
    by_cases hid : id = gangIdOf pod
    · subst hid
      rw [hr] at hg
      cases hg
      apply withGroupRef_partitioned
      apply setChild_partitioned
      have h0 := gangOrNew_partitioned env c (gangIdOf pod) h
      split
      · exact tryInitByPodConfig_partitioned env pod h0
      · exact h0
    · rw [hother id hid] at hg
      exact h id g hg

theorem handle_partitioned (env : Env) (c : GangCache) (ev : Event)
    (h : ∀ id g, List.lookup id c.gangItems = some g → g.Partitioned) :
    ∀ id g, List.lookup id (c.handle env ev).gangItems = some g → g.Partitioned := by
  cases ev with
  | podAdd pod => exact onPodAdd_partitioned env c pod h
  | podUpdate oldPod newPod =>
    simp only [GangCache.handle]
    rcases onPodUpdate_cases env c oldPod newPod with h1 | h1
    · rw [h1]; exact h
    · rw [h1]; exact onPodAdd_partitioned env c newPod h
  | podDelete pod =>
    simp only [GangCache.handle]
    by_cases hname : GetGangNameByPod pod = ""
    · rw [onPodDelete_noname c pod hname]; exact h
    · cases hl : List.lookup (gangIdOf pod) c.gangItems with
      | none => rw [onPodDelete_absent c pod hl]; exact h
      | some gang =>
        obtain ⟨hother, hdel, hkeep⟩ := onPodDelete_present c pod gang hname hl
        intro id g hg
        by_cases hid : id = gangIdOf pod
        · subst hid
          by_cases hcond : (gang.deletePod pod).Children.isEmpty = true ∧
              gang.GangFrom = GangFrom.GangFromPodAnnotation
          · rw [(hdel hcond).1] at hg
            cases hg
          · rw [(hkeep hcond).1] at hg
            cases hg
            exact deletePod_partitioned pod (h _ _ hl)
        · rw [hother id hid] at hg
          exact h id g hg
  | podGroupAdd pg =>
    simp only [GangCache.handle]
    obtain ⟨hnew, hother, _⟩ := onPodGroupAdd_lookup env c pg
    intro id g hg
    by_cases hid : id = GetId pg.Namespace pg.Name
    · subst hid
      rw [hnew] at hg
      cases hg
      exact withGroupRef_partitioned _
        (tryInitByPodGroup_partitioned env pg (gangOrNew_partitioned env c _ h))
    · rw [hother id hid] at hg
      exact h id g hg
  | podGroupUpdate oldPg newPg =>
    simp only [GangCache.handle]
    cases hl : List.lookup (GetId newPg.Namespace newPg.Name) c.gangItems with
    | none => rw [onPodGroupUpdate_absent env c oldPg newPg hl]; exact h
    | some gang =>
      obtain ⟨hnew, hother, _⟩ := onPodGroupUpdate_present env c oldPg newPg gang hl
      intro id g hg
      by_cases hid : id = GetId newPg.Namespace newPg.Name
      · subst hid
        rw [hnew] at hg
        cases hg
        exact withGroupRef_partitioned _ (tryInitByPodGroup_partitioned env newPg (h _ _ hl))
      · rw [hother id hid] at hg
        exact h id g hg
  | podGroupDelete pg =>
    simp only [GangCache.handle]
    cases hl : List.lookup (GetId pg.Namespace pg.Name) c.gangItems with
    | none => rw [onPodGroupDelete_absent c pg hl]; exact h
    | some gang =>
      obtain ⟨hother, _, hdel, hkeep⟩ := onPodGroupDelete_present c pg gang hl
      intro id g hg
      by_cases hid : id = GetId pg.Namespace pg.Name
      · subst hid
        by_cases hcond : gang.GangFrom = GangFrom.GangFromPodGroupCrd ∨ gang.HasGangInit = false
        · rw [hdel hcond] at hg
          cases hg
        · have hc2 : gang.GangFrom = GangFrom.GangFromPodAnnotation ∧ gang.HasGangInit = true := by
            cases hf : gang.GangFrom with
            | GangFromPodGroupCrd => exact absurd (Or.inl hf) hcond
            | GangFromPodAnnotation =>
              cases hi : gang.HasGangInit with
              | false => exact absurd (Or.inr hi) hcond
              | true => exact ⟨rfl, rfl⟩
          rw [hkeep hc2] at hg
          exact h _ g hg
      · rw [hother id hid] at hg
        exact h id g hg

theorem run_partitioned (env : Env) (events : List Event) :
    ∀ c : GangCache, (∀ id g, List.lookup id c.gangItems = some g → g.Partitioned) →
      ∀ id g, List.lookup id (c.run env events).gangItems = some g → g.Partitioned := by
  induction events with
  | nil => intro c h; exact h
  | cons ev events ih =>
    intro c h
    exact ih (c.handle env ev) (handle_partitioned env c ev h)

end Partition

section ClaimPartition

/-- C23: when every gang of the cache has its children partitioned, which is so
in the empty cache, then after every sequence of member events and group
events every gang of the cache has its children partitioned: the keys of
`Children` are the keys of `PendingChildren`, `WaitingForBindChildren` and
`BoundChildren` together, and no key is in two of these three. -/
theorem C23_children_stay_partitioned (env : Env) (events : List Event) :
    (∀ podGroups id g,
        List.lookup id ((NewGangCache podGroups).run env events).gangItems = some g →
        g.Partitioned) ∧
      ∀ c : GangCache, (∀ id g, List.lookup id c.gangItems = some g → g.Partitioned) →
        ∀ id g, List.lookup id (c.run env events).gangItems = some g → g.Partitioned := by
  refine ⟨fun podGroups => ?_, run_partitioned env events⟩
  apply run_partitioned env events
  intro id g hg
  cases hg

theorem waitingCache_partitioned :
    ∀ id g, List.lookup id waitingCache.gangItems = some g → g.Partitioned := by
  intro id g hg
  have hmem := mem_of_lookup hg
  simp only [waitingCache, List.mem_singleton, Prod.mk.injEq] at hmem
  rw [hmem.2]
  unfold Gang.Partitioned waitingGang NewGang
  simp [GoMap.keys]

/-- C23 on a cache whose gang has a member waiting to be bound, under events of
both streams: the gang that results has its children partitioned. -/
theorem C23_children_stay_partitioned_witness :
    (∀ id g, List.lookup id waitingCache.gangItems = some g → g.Partitioned) ∧
      ∃ g, List.lookup "default/ganga" (waitingCache.run exampleEnv mixedEvents).gangItems
          = some g ∧ g.Children.keys = ["default/pod2"] ∧ g.Partitioned :=
  ⟨waitingCache_partitioned,
    ((waitingCache.run exampleEnv mixedEvents).gangItems.lookup "default/ganga").get (by decide),
    by decide, by decide,
    (C23_children_stay_partitioned exampleEnv mixedEvents).2 waitingCache
      waitingCache_partitioned "default/ganga" _ (by decide)⟩

end ClaimPartition

section FirstWriter

/-! ## The first declaration wins -/

theorem tryInitByPodConfig_of_init (env : Env) (g : Gang) (pod : Pod)
    (h : g.HasGangInit = true) : g.tryInitByPodConfig env pod = (g, false) := by
  unfold Gang.tryInitByPodConfig
  rw [if_pos h]

theorem tryInitByPodConfig_of_no_min (env : Env) (g : Gang) (pod : Pod)
    (h : GetGangMinNumFromPod env pod = none) : g.tryInitByPodConfig env pod = (g, false) := by
  unfold Gang.tryInitByPodConfig
  split
  · rfl
  · rw [h]

/-- The configuration a declaration gives to a gang that is not initialised
depends on the gang by its name only. -/
theorem tryInitByPodConfig_fresh (env : Env) (g : Gang) (pod : Pod) (gangId : String)
    (hinit : g.HasGangInit = false) (hname : g.Name = gangId)
    (hmin : (GetGangMinNumFromPod env pod).isSome = true) :
    (g.tryInitByPodConfig env pod).1.HasGangInit = true ∧
      (g.tryInitByPodConfig env pod).1.config = (declaredGang env gangId pod).config ∧
      (g.tryInitByPodConfig env pod).2 = true := by
  unfold declaredGang Gang.tryInitByPodConfig Gang.config
  have h0 : (NewGang env gangId).HasGangInit = false := rfl
  have hn : (NewGang env gangId).Name = gangId := rfl
  rw [hinit, h0]
  simp only [Bool.false_eq_true, if_false]
  cases hm : GetGangMinNumFromPod env pod with
  | none => rw [hm] at hmin; cases hmin
  | some m =>
    dsimp only
    rw [hname, hn]
    exact ⟨rfl, rfl, rfl⟩

theorem setChild_config (g : Gang) (pod : Pod) :
    (g.setChild pod).config = g.config ∧ (g.setChild pod).HasGangInit = g.HasGangInit ∧
      (g.setChild pod).Name = g.Name ∧ (g.setChild pod).GangFrom = g.GangFrom ∧
      (g.setChild pod).Children = g.Children.set (podKey pod) pod := by
  unfold Gang.setChild Gang.config podKey
  dsimp only
  split
  · exact ⟨rfl, rfl, rfl, rfl, rfl⟩
  · exact ⟨rfl, rfl, rfl, rfl, rfl⟩

theorem withGroupRef_children (g : Gang) (r : GroupRef) :
    (g.withGroupRef r).Children = g.Children := rfl

/-- One member event on the gang the member names: the gang that results, in
terms of the gang before the event or of the placeholder. -/
theorem onPodAdd_gang (env : Env) (c : GangCache) (pod : Pod)
    (hname : GetGangNameByPod pod ≠ "") :
    ∃ g1, List.lookup (gangIdOf pod) (c.onPodAdd env pod).gangItems = some g1 ∧
      (c.onPodAdd env pod).gangOrNew env (gangIdOf pod) = g1 ∧
      g1.Children = (c.gangOrNew env (gangIdOf pod)).Children.set (podKey pod) pod ∧
      ((c.gangOrNew env (gangIdOf pod)).HasGangInit = true ∨ declares env pod = false →
        g1.config = (c.gangOrNew env (gangIdOf pod)).config ∧
          g1.HasGangInit = (c.gangOrNew env (gangIdOf pod)).HasGangInit ∧
          g1.Name = (c.gangOrNew env (gangIdOf pod)).Name) ∧
      ((c.gangOrNew env (gangIdOf pod)).HasGangInit = false → declares env pod = true →
        (c.gangOrNew env (gangIdOf pod)).Name = gangIdOf pod →
        g1.config = (declaredGang env (gangIdOf pod) pod).config ∧ g1.HasGangInit = true) := by
  obtain ⟨⟨r, hr⟩, _⟩ := onPodAdd_lookup env c pod hname
  refine ⟨_, hr, ?_, ?_, ?_, ?_⟩
  · unfold GangCache.gangOrNew
    rw [hr]
    rfl
  · rw [withGroupRef_children, (setChild_config _ pod).2.2.2.2]
    split
    · rw [(tryInitByPodConfig_children env _ pod).1]
    · rfl
  · intro hcase
    have hinit : (if mapGet pod.Labels PodGroupLabel == "" then
        (c.gangOrNew env (gangIdOf pod)).tryInitByPodConfig env pod
        else (c.gangOrNew env (gangIdOf pod), false)).1 = c.gangOrNew env (gangIdOf pod) := by
      split
      · rename_i hlabel
        rcases hcase with h | h
        · rw [tryInitByPodConfig_of_init env _ pod h]
        · unfold declares at h
          rw [hlabel, Bool.true_and] at h
          have hnone : GetGangMinNumFromPod env pod = none := by
            cases hm : GetGangMinNumFromPod env pod with
            | none => rfl
            | some m => rw [hm] at h; cases h
          rw [tryInitByPodConfig_of_no_min env _ pod hnone]
      · rfl
    rw [hinit]
    exact ⟨(setChild_config _ pod).1, (setChild_config _ pod).2.1, (setChild_config _ pod).2.2.1⟩
  · intro hno hdecl hnm
    unfold declares at hdecl
    rw [Bool.and_eq_true] at hdecl
    obtain ⟨h1, h2, _⟩ := tryInitByPodConfig_fresh env _ pod (gangIdOf pod) hno hnm hdecl.2
    rw [if_pos hdecl.1]
    exact ⟨(setChild_config _ pod).1.trans h2, (setChild_config _ pod).2.1.trans h1⟩

/-- Member events on one gang add the members to its children and keep the
children it has. -/
theorem run_podAdd_children (env : Env) (gangId : String) (pods : List Pod) :
    ∀ c : GangCache, (∀ p ∈ pods, GetGangNameByPod p ≠ "" ∧ gangIdOf p = gangId) →
      (∀ k ∈ (c.gangOrNew env gangId).Children.keys,
          k ∈ ((c.run env (pods.map Event.podAdd)).gangOrNew env gangId).Children.keys) ∧
        ∀ p ∈ pods,
          podKey p ∈ ((c.run env (pods.map Event.podAdd)).gangOrNew env gangId).Children.keys := by
  induction pods with
  | nil =>
    intro c _
    exact ⟨fun _ h => h, fun _ h => by cases h⟩
  | cons p ps ih =>
    intro c hpods
    obtain ⟨hpn, hpid⟩ := hpods p (List.mem_cons_self _ _)
    obtain ⟨g1, _, hg1, hch, _, _⟩ := onPodAdd_gang env c p hpn
    rw [hpid] at hg1 hch
    obtain ⟨r3, r4⟩ := ih (c.onPodAdd env p) (fun q hq => hpods q (List.mem_cons_of_mem _ hq))
    rw [hg1] at r3
    have hkeys : ∀ k, k ∈ g1.Children.keys ↔
        k = podKey p ∨ k ∈ (c.gangOrNew env gangId).Children.keys := by
      intro k
      rw [hch]
      exact mem_keys_set
    refine ⟨fun k hk => r3 k ((hkeys k).2 (Or.inr hk)), ?_⟩
    intro q hq
    rcases List.mem_cons.1 hq with h | h
    · rw [h]
      exact r3 _ ((hkeys _).2 (Or.inl rfl))
    · exact r4 q h

/-- Member events on an initialised gang keep its configuration. -/
theorem run_podAdd_initialised (env : Env) (gangId : String) (pods : List Pod) :
    ∀ c : GangCache, (c.gangOrNew env gangId).HasGangInit = true →
      (∀ p ∈ pods, GetGangNameByPod p ≠ "" ∧ gangIdOf p = gangId) →
      ((c.run env (pods.map Event.podAdd)).gangOrNew env gangId).HasGangInit = true ∧
        ((c.run env (pods.map Event.podAdd)).gangOrNew env gangId).config
          = (c.gangOrNew env gangId).config := by
  induction pods with
  | nil =>
    intro c hinit _
    exact ⟨hinit, rfl⟩
  | cons p ps ih =>
    intro c hinit hpods
    obtain ⟨hpn, hpid⟩ := hpods p (List.mem_cons_self _ _)
    obtain ⟨g1, _, hg1, _, hcfg, _⟩ := onPodAdd_gang env c p hpn
    rw [hpid] at hg1 hcfg
    obtain ⟨hc1, hi1, _⟩ := hcfg (Or.inl hinit)
    have hinit1 : ((c.onPodAdd env p).gangOrNew env gangId).HasGangInit = true := by
      rw [hg1, hi1, hinit]
    obtain ⟨r1, r2⟩ := ih (c.onPodAdd env p) hinit1
      (fun q hq => hpods q (List.mem_cons_of_mem _ hq))
    rw [hg1] at r2
    exact ⟨r1, r2.trans hc1⟩

/-- Member events on an unseen gang or on a placeholder: the first declaration
that parses configures the gang. -/
theorem run_podAdd_first_writer (env : Env) (gangId : String) (pods : List Pod) :
    ∀ (c : GangCache) (first : Pod), (c.gangOrNew env gangId).HasGangInit = false →
      (c.gangOrNew env gangId).Name = gangId →
      (∀ p ∈ pods, GetGangNameByPod p ≠ "" ∧ gangIdOf p = gangId) →
      pods.find? (declares env) = some first →
      ((c.run env (pods.map Event.podAdd)).gangOrNew env gangId).HasGangInit = true ∧
        ((c.run env (pods.map Event.podAdd)).gangOrNew env gangId).config
          = (declaredGang env gangId first).config := by
  induction pods with
  | nil =>
    intro c first _ _ _ hfind
    cases hfind
  | cons p ps ih =>
    intro c first hinit hnm hpods hfind
    obtain ⟨hpn, hpid⟩ := hpods p (List.mem_cons_self _ _)
    obtain ⟨g1, _, hg1, _, hsame, hfresh⟩ := onPodAdd_gang env c p hpn
    rw [hpid] at hg1 hsame hfresh
    rw [List.find?_cons] at hfind
    cases hd : declares env p with
    | true =>
      rw [hd] at hfind
      cases hfind
      obtain ⟨hc1, hi1⟩ := hfresh hinit hd hnm
      have hinit1 : ((c.onPodAdd env p).gangOrNew env gangId).HasGangInit = true := by
        rw [hg1, hi1]
      obtain ⟨r1, r2⟩ := run_podAdd_initialised env gangId ps (c.onPodAdd env p) hinit1
        (fun q hq => hpods q (List.mem_cons_of_mem _ hq))
      rw [hg1] at r2
      exact ⟨r1, r2.trans hc1⟩
    | false =>
      rw [hd] at hfind
      obtain ⟨_, hi1, hn1⟩ := hsame (Or.inr hd)
      have hinit1 : ((c.onPodAdd env p).gangOrNew env gangId).HasGangInit = false := by
        rw [hg1, hi1, hinit]
      have hnm1 : ((c.onPodAdd env p).gangOrNew env gangId).Name = gangId := by
        rw [hg1, hn1, hnm]
      exact ih (c.onPodAdd env p) first hinit1 hnm1
        (fun q hq => hpods q (List.mem_cons_of_mem _ hq)) hfind

/-- After a member event on the gang it names the gang is in the registry. -/
theorem run_podAdd_present (env : Env) (gangId : String) (pods : List Pod) (hne : pods ≠ []) :
    ∀ c : GangCache, (∀ p ∈ pods, GetGangNameByPod p ≠ "" ∧ gangIdOf p = gangId) →
      List.lookup gangId (c.run env (pods.map Event.podAdd)).gangItems
        = some ((c.run env (pods.map Event.podAdd)).gangOrNew env gangId) := by
  induction pods with
  | nil => exact absurd rfl hne
  | cons p ps ih =>
    intro c hpods
    obtain ⟨hpn, hpid⟩ := hpods p (List.mem_cons_self _ _)
    obtain ⟨g1, hl1, hg1, _, _, _⟩ := onPodAdd_gang env c p hpn
    rw [hpid] at hl1 hg1
    cases ps with
    | nil =>
      show List.lookup gangId (c.onPodAdd env p).gangItems
        = some ((c.onPodAdd env p).gangOrNew env gangId)
      rw [hl1, hg1]
    | cons q qs =>
      exact ih (by simp) (c.onPodAdd env p) (fun x hx => hpods x (List.mem_cons_of_mem _ hx))

end FirstWriter
section ClaimFirstWriter

/-- C22: after a sequence of `onPodAdd` events whose members all name one gang
that the cache has not seen before, the wait time, the mode, the minimum
number, the total number and the gang group of the gang are those derived from
the first member of the sequence whose declaration parses, whatever the later
members declare, and every member of the sequence is among the children of the
gang. -/
theorem C22_first_declaration_wins (env : Env) (c : GangCache) (gangId : String)
    (pods : List Pod) (first : Pod)
    (hunseen : List.lookup gangId c.gangItems = none)
    (hpods : ∀ p ∈ pods, GetGangNameByPod p ≠ "" ∧ gangIdOf p = gangId)
    (hfirst : pods.find? (declares env) = some first) :
    ∃ g, List.lookup gangId (c.run env (pods.map Event.podAdd)).gangItems = some g ∧
      g.HasGangInit = true ∧
      g.WaitTime = (declaredGang env gangId first).WaitTime ∧
      g.Mode = (declaredGang env gangId first).Mode ∧
      g.MinRequiredNumber = (declaredGang env gangId first).MinRequiredNumber ∧
      g.TotalChildrenNum = (declaredGang env gangId first).TotalChildrenNum ∧
      g.GangGroup = (declaredGang env gangId first).GangGroup ∧
      ∀ p ∈ pods, podKey p ∈ g.Children.keys := by
  have hnew : c.gangOrNew env gangId = NewGang env gangId := by
    unfold GangCache.gangOrNew
    rw [hunseen]
    rfl
  have hne : pods ≠ [] := by
    intro h
    rw [h] at hfirst
    cases hfirst
  obtain ⟨h1, h2⟩ := run_podAdd_first_writer env gangId pods c first
    (by rw [hnew]; rfl) (by rw [hnew]; rfl) hpods hfirst
  obtain ⟨_, h4⟩ := run_podAdd_children env gangId pods c hpods
  unfold Gang.config at h2
  simp only [Prod.mk.injEq] at h2
  exact ⟨_, run_podAdd_present env gangId pods hne c hpods, h1, h2.1, h2.2.1, h2.2.2.1,
    h2.2.2.2.1, h2.2.2.2.2, h4⟩

/-- C22 on the members `pod3` and `pod4` of the tests: the minimum of `pod3` does
not parse, so the gang `gangb` takes the declaration of `pod4`, with a minimum
of two and the defaults for its illegal fields, and both are children. -/
theorem C22_first_declaration_wins_witness :
    List.lookup "default/gangb" (NewGangCache []).gangItems = none ∧
      (∀ p ∈ [pod3, pod4], GetGangNameByPod p ≠ "" ∧ gangIdOf p = "default/gangb") ∧
      [pod3, pod4].find? (declares exampleEnv) = some pod4 ∧
      (declaredGang exampleEnv "default/gangb" pod4).config
        = (600 * Second, GangModeStrict, 2, 2, ["default/gangb"]) ∧
      ∃ g, List.lookup "default/gangb"
          ((NewGangCache []).run exampleEnv ([pod3, pod4].map Event.podAdd)).gangItems = some g ∧
        g.HasGangInit = true ∧
        g.WaitTime = (declaredGang exampleEnv "default/gangb" pod4).WaitTime ∧
        g.Mode = (declaredGang exampleEnv "default/gangb" pod4).Mode ∧
        g.MinRequiredNumber = (declaredGang exampleEnv "default/gangb" pod4).MinRequiredNumber ∧
        g.TotalChildrenNum = (declaredGang exampleEnv "default/gangb" pod4).TotalChildrenNum ∧
        g.GangGroup = (declaredGang exampleEnv "default/gangb" pod4).GangGroup ∧
        ∀ p ∈ [pod3, pod4], podKey p ∈ g.Children.keys :=
  ⟨by decide, by decide, by decide, by decide,
    C22_first_declaration_wins exampleEnv (NewGangCache []) "default/gangb" [pod3, pod4] pod4
      (by decide) (by decide) (by decide)⟩

end ClaimFirstWriter

section Deletes

/-! ## Deleting the members of a gang -/

theorem run_cons (env : Env) (c : GangCache) (ev : Event) (events : List Event) :
    c.run env (ev :: events) = (c.handle env ev).run env events := rfl

theorem run_podDelete_absent (env : Env) (gangId : String) (pods : List Pod) :
    ∀ c : GangCache, List.lookup gangId c.gangItems = none →
      (∀ p ∈ pods, GetGangNameByPod p ≠ "" ∧ gangIdOf p = gangId) →
      c.run env (pods.map Event.podDelete) = c := by
  induction pods with
  | nil => intro c _ _; rfl
  | cons p ps ih =>
    intro c habs hpods
    obtain ⟨_, hpid⟩ := hpods p (List.mem_cons_self _ _)
    have h1 : c.onPodDelete p = c := onPodDelete_absent c p (by rw [hpid]; exact habs)
    rw [List.map_cons, run_cons]
    simp only [GangCache.handle]
    rw [h1]
    exact ih c habs (fun q hq => hpods q (List.mem_cons_of_mem _ hq))

theorem deletePod_fields (g : Gang) (pod : Pod) :
    (g.deletePod pod).GangFrom = g.GangFrom ∧
      (g.deletePod pod).Children = g.Children.del (podKey pod) ∧
      (g.deletePod pod).PendingChildren = g.PendingChildren.del (podKey pod) ∧
      (g.deletePod pod).WaitingForBindChildren = g.WaitingForBindChildren.del (podKey pod) ∧
      (g.deletePod pod).BoundChildren = g.BoundChildren.del (podKey pod) ∧
      (g.deletePod pod).config = g.config ∧
      (g.deletePod pod).HasGangInit = g.HasGangInit :=
  ⟨rfl, rfl, rfl, rfl, rfl, rfl, rfl⟩

theorem eq_nil_of_no_key {α : Type} {m : GoMap α} (h : ∀ k, k ∉ m.keys) : m = [] := by
  cases m with
  | nil => rfl
  | cons e m => exact absurd (List.mem_cons_self _ _) (h e.1)

theorem exists_key_of_not_isEmpty {α : Type} {m : GoMap α} (h : ¬ m.isEmpty = true) :
    ∃ k, k ∈ m.keys := by
  cases m with
  | nil => exact absurd rfl h
  | cons e m => exact ⟨e.1, List.mem_cons_self _ _⟩

/-- Deleting members that cover the children of a gang whose provenance is the
member annotation removes the gang and the group resource of its name. -/
theorem run_podDelete_annotation (env : Env) (gangId : String) (pods : List Pod) :
    ∀ (c : GangCache) (gang : Gang), pods ≠ [] →
      List.lookup gangId c.gangItems = some gang →
      gang.GangFrom = GangFrom.GangFromPodAnnotation →
      (∀ p ∈ pods, GetGangNameByPod p ≠ "" ∧ gangIdOf p = gangId) →
      (∀ k ∈ gang.Children.keys, ∃ p ∈ pods, podKey p = k) →
      List.lookup gangId (c.run env (pods.map Event.podDelete)).gangItems = none ∧
        List.lookup gangId (c.run env (pods.map Event.podDelete)).podGroups = none := by
  induction pods with
  | nil => intro c gang hne; exact absurd rfl hne
  | cons p ps ih =>
    intro c gang _ hgang hfrom hpods hall
    obtain ⟨hpn, hpid⟩ := hpods p (List.mem_cons_self _ _)
    have hrest : ∀ q ∈ ps, GetGangNameByPod q ≠ "" ∧ gangIdOf q = gangId :=
      fun q hq => hpods q (List.mem_cons_of_mem _ hq)
    obtain ⟨_, hdel, hkeep⟩ := onPodDelete_present c p gang hpn (by rw [hpid]; exact hgang)
    rw [hpid] at hdel hkeep
    rw [List.map_cons, run_cons]
    simp only [GangCache.handle]
    by_cases hcond : (gang.deletePod p).Children.isEmpty = true ∧
        gang.GangFrom = GangFrom.GangFromPodAnnotation
    · obtain ⟨h1, h2⟩ := hdel hcond
      rw [run_podDelete_absent env gangId ps _ h1 hrest]
      exact ⟨h1, h2⟩
    · obtain ⟨h1, _, _⟩ := hkeep hcond
      have hnonempty : ¬ (gang.deletePod p).Children.isEmpty = true :=
        fun h => hcond ⟨h, hfrom⟩
      have hall1 : ∀ k ∈ (gang.deletePod p).Children.keys, ∃ q ∈ ps, podKey q = k := by
        intro k hk
        rw [(deletePod_fields gang p).2.1] at hk
        obtain ⟨hkp, hkc⟩ := mem_keys_del.1 hk
        obtain ⟨q, hq, hqk⟩ := hall k hkc
        rcases List.mem_cons.1 hq with h | h
        · rw [h] at hqk
          exact absurd hqk.symm hkp
        · exact ⟨q, h, hqk⟩
      have hps : ps ≠ [] := by
        obtain ⟨k, hk⟩ := exists_key_of_not_isEmpty hnonempty
        obtain ⟨q, hq, _⟩ := hall1 k hk
        exact List.ne_nil_of_mem hq
      exact ih (c.onPodDelete p) (gang.deletePod p) hps h1 hfrom hrest hall1

/-- Deleting members of a gang whose provenance is the group resource keeps the
gang, with the members taken out of its children maps, and touches neither the
group resources nor the group states. -/
theorem run_podDelete_crd (env : Env) (gangId : String) (pods : List Pod) :
    ∀ (c : GangCache) (gang : Gang),
      List.lookup gangId c.gangItems = some gang →
      gang.GangFrom = GangFrom.GangFromPodGroupCrd →
      (∀ p ∈ pods, GetGangNameByPod p ≠ "" ∧ gangIdOf p = gangId) →
      List.lookup gangId (c.run env (pods.map Event.podDelete)).gangItems
          = some (pods.foldl Gang.deletePod gang) ∧
        (c.run env (pods.map Event.podDelete)).podGroups = c.podGroups ∧
        (c.run env (pods.map Event.podDelete)).gangGroupInfoMap = c.gangGroupInfoMap := by
  induction pods with
  | nil => intro c gang hgang _ _; exact ⟨hgang, rfl, rfl⟩
  | cons p ps ih =>
    intro c gang hgang hfrom hpods
    obtain ⟨hpn, hpid⟩ := hpods p (List.mem_cons_self _ _)
    obtain ⟨_, _, hkeep⟩ := onPodDelete_present c p gang hpn (by rw [hpid]; exact hgang)
    rw [hpid] at hkeep
    have hcond : ¬ ((gang.deletePod p).Children.isEmpty = true ∧
        gang.GangFrom = GangFrom.GangFromPodAnnotation) := by
      rintro ⟨_, h⟩
      rw [hfrom] at h
      cases h
    obtain ⟨h1, h2, h3⟩ := hkeep hcond
    rw [List.map_cons, run_cons, List.foldl_cons]
    simp only [GangCache.handle]
    obtain ⟨r1, r2, r3⟩ := ih (c.onPodDelete p) (gang.deletePod p) h1 hfrom
      (fun q hq => hpods q (List.mem_cons_of_mem _ hq))
    exact ⟨r1, r2.trans h2, r3.trans h3⟩

theorem foldl_deletePod_fields (pods : List Pod) :
    ∀ g : Gang, (pods.foldl Gang.deletePod g).config = g.config ∧
      (pods.foldl Gang.deletePod g).HasGangInit = g.HasGangInit ∧
      (pods.foldl Gang.deletePod g).GangFrom = g.GangFrom ∧
      (∀ k, k ∈ (pods.foldl Gang.deletePod g).Children.keys →
        k ∈ g.Children.keys ∧ ∀ p ∈ pods, podKey p ≠ k) ∧
      (∀ k, k ∈ (pods.foldl Gang.deletePod g).PendingChildren.keys →
        k ∈ g.PendingChildren.keys ∧ ∀ p ∈ pods, podKey p ≠ k) ∧
      (∀ k, k ∈ (pods.foldl Gang.deletePod g).WaitingForBindChildren.keys →
        k ∈ g.WaitingForBindChildren.keys ∧ ∀ p ∈ pods, podKey p ≠ k) ∧
      (∀ k, k ∈ (pods.foldl Gang.deletePod g).BoundChildren.keys →
        k ∈ g.BoundChildren.keys ∧ ∀ p ∈ pods, podKey p ≠ k) := by
  induction pods with
  | nil =>
    intro g
    refine ⟨rfl, rfl, rfl, ?_, ?_, ?_, ?_⟩ <;>
      exact fun k hk => ⟨hk, fun p hp => by cases hp⟩
  | cons p ps ih =>
    intro g
    obtain ⟨h1, h2, h3, h4, h5, h6, h7⟩ := ih (g.deletePod p)
    obtain ⟨_, d2, d3, d4, d5, _, _⟩ := deletePod_fields g p
    rw [List.foldl_cons]
    have hstep : ∀ (m : GoMap Pod) (k : String), k ∈ (m.del (podKey p)).keys →
        (∀ q ∈ ps, podKey q ≠ k) → k ∈ m.keys ∧ ∀ q ∈ p :: ps, podKey q ≠ k := by
      intro m k hk hps
      obtain ⟨hkp, hkm⟩ := mem_keys_del.1 hk
      refine ⟨hkm, ?_⟩
      intro q hq
      rcases List.mem_cons.1 hq with h | h
      · rw [h]
        exact fun e => hkp e.symm
      · exact hps q h
    refine ⟨h1, h2, h3, ?_, ?_, ?_, ?_⟩
    · intro k hk
      obtain ⟨a, b⟩ := h4 k hk
      rw [d2] at a
      exact hstep _ k a b
    · intro k hk
      obtain ⟨a, b⟩ := h5 k hk
      rw [d3] at a
      exact hstep _ k a b
    · intro k hk
      obtain ⟨a, b⟩ := h6 k hk
      rw [d4] at a
      exact hstep _ k a b
    · intro k hk
      obtain ⟨a, b⟩ := h7 k hk
      rw [d5] at a
      exact hstep _ k a b

end Deletes

section ClaimsDelete

/-- C24: for a gang of the cache whose provenance is the member annotation, once
`onPodDelete` has been applied to members that name the gang and cover its
children, at least one of them, the gang is no longer in `gangItems` and no
group resource of its name exists any more. -/
theorem C24_annotation_gang_goes_with_its_members (env : Env) (c : GangCache) (gang : Gang)
    (gangId : String) (pods : List Pod) (hne : pods ≠ [])
    (hgang : List.lookup gangId c.gangItems = some gang)
    (hfrom : gang.GangFrom = GangFrom.GangFromPodAnnotation)
    (hpods : ∀ p ∈ pods, GetGangNameByPod p ≠ "" ∧ gangIdOf p = gangId)
    (hall : ∀ k ∈ gang.Children.keys, ∃ p ∈ pods, podKey p = k) :
    List.lookup gangId (c.run env (pods.map Event.podDelete)).gangItems = none ∧
      List.lookup gangId (c.run env (pods.map Event.podDelete)).podGroups = none :=
  run_podDelete_annotation env gangId pods c gang hne hgang hfrom hpods hall

/-- C25: for a gang of the cache whose provenance is the group resource and whose
children are partitioned, once `onPodDelete` has been applied to members that
name the gang and cover its children, the gang is still in `gangItems` with
the same minimum number, total number, wait time, mode, gang group,
initialisation flag and provenance, its four children maps are empty, and the
group resources are as they were. -/
theorem C25_group_resource_gang_survives_its_members (env : Env) (c : GangCache) (gang : Gang)
    (gangId : String) (pods : List Pod)
    (hgang : List.lookup gangId c.gangItems = some gang)
    (hfrom : gang.GangFrom = GangFrom.GangFromPodGroupCrd)
    (hpart : gang.Partitioned)
    (hpods : ∀ p ∈ pods, GetGangNameByPod p ≠ "" ∧ gangIdOf p = gangId)
    (hall : ∀ k ∈ gang.Children.keys, ∃ p ∈ pods, podKey p = k) :
    (∃ g, List.lookup gangId (c.run env (pods.map Event.podDelete)).gangItems = some g ∧
      g.MinRequiredNumber = gang.MinRequiredNumber ∧
      g.TotalChildrenNum = gang.TotalChildrenNum ∧ g.WaitTime = gang.WaitTime ∧
      g.Mode = gang.Mode ∧ g.GangGroup = gang.GangGroup ∧
      g.HasGangInit = gang.HasGangInit ∧ g.GangFrom = gang.GangFrom ∧
      g.Children = [] ∧ g.PendingChildren = [] ∧ g.WaitingForBindChildren = [] ∧
      g.BoundChildren = []) ∧
      (c.run env (pods.map Event.podDelete)).podGroups = c.podGroups := by
  obtain ⟨h1, h2, _⟩ := run_podDelete_crd env gangId pods c gang hgang hfrom hpods
  obtain ⟨f1, f2, f3, f4, f5, f6, f7⟩ := foldl_deletePod_fields pods gang
  unfold Gang.config at f1
  simp only [Prod.mk.injEq] at f1
  have hchild : ∀ k, k ∈ gang.Children.keys → ¬ ∀ p ∈ pods, podKey p ≠ k := by
    intro k hk hno
    obtain ⟨p, hp, hpk⟩ := hall k hk
    exact hno p hp hpk
  obtain ⟨hcover, _, _, _⟩ := hpart
  refine ⟨⟨_, h1, f1.2.2.1, f1.2.2.2.1, f1.1, f1.2.1, f1.2.2.2.2, f2, f3, ?_, ?_, ?_, ?_⟩, h2⟩
  · apply eq_nil_of_no_key
    intro k hk
    obtain ⟨a, b⟩ := f4 k hk
    exact hchild k a b
  · apply eq_nil_of_no_key
    intro k hk
    obtain ⟨a, b⟩ := f5 k hk
    exact hchild k ((hcover k).2 (Or.inl a)) b
  · apply eq_nil_of_no_key
    intro k hk
    obtain ⟨a, b⟩ := f6 k hk
    exact hchild k ((hcover k).2 (Or.inr (Or.inl a))) b
  · apply eq_nil_of_no_key
    intro k hk
    obtain ⟨a, b⟩ := f7 k hk
    exact hchild k ((hcover k).2 (Or.inr (Or.inr a))) b

end ClaimsDelete

section WitnessesDelete

/-- C24 on the gang `ganga` of the tests, which the member `pod1` initialised and
for which a group resource was created: after both members are deleted the
gang and the group resource are gone. -/
theorem C24_annotation_gang_goes_with_its_members_witness :
    List.lookup "default/ganga" gangaCache.gangItems = some gangaGang ∧
      gangaGang.GangFrom = GangFrom.GangFromPodAnnotation ∧
      (List.lookup "default/ganga" gangaCache.podGroups).isSome = true ∧
      List.lookup "default/ganga"
        (gangaCache.run exampleEnv ([pod1, pod2].map Event.podDelete)).gangItems = none ∧
      List.lookup "default/ganga"
        (gangaCache.run exampleEnv ([pod1, pod2].map Event.podDelete)).podGroups = none :=
  ⟨by decide, by decide, by decide,
    C24_annotation_gang_goes_with_its_members exampleEnv gangaCache gangaGang "default/ganga"
      [pod1, pod2] (by decide) (by decide) (by decide) (by decide) (by decide)⟩

theorem gangBGang_partitioned : gangBGang.Partitioned := by
  have h : List.lookup "default/gangB" gangBCache.gangItems = some gangBGang := by decide
  exact run_partitioned exampleEnv
    [Event.podGroupAdd podGroupB, Event.podAdd (labelPod "pod5"), Event.podAdd (labelPod "pod6")]
    (NewGangCache [("default/gangB", podGroupB)]) (fun _ _ h0 => by cases h0)
    "default/gangB" gangBGang h

/-- C25 on the gang `gangB` of the tests, made by its group resource: after both
members are deleted the gang is there with four members required, ten
seconds of wait time and no children, and the group resource is there. -/
theorem C25_group_resource_gang_survives_its_members_witness :
    List.lookup "default/gangB" gangBCache.gangItems = some gangBGang ∧
      gangBGang.GangFrom = GangFrom.GangFromPodGroupCrd ∧
      gangBGang.Children.keys = ["default/pod6", "default/pod5"] ∧
      (gangBGang.MinRequiredNumber, gangBGang.TotalChildrenNum, gangBGang.WaitTime)
        = (4, 4, 10 * Second) ∧
      gangBCache.podGroups = [("default/gangB", podGroupB)] ∧
      (∃ g, List.lookup "default/gangB"
          (gangBCache.run exampleEnv
            ([labelPod "pod5", labelPod "pod6"].map Event.podDelete)).gangItems = some g ∧
        g.MinRequiredNumber = gangBGang.MinRequiredNumber ∧
        g.TotalChildrenNum = gangBGang.TotalChildrenNum ∧ g.WaitTime = gangBGang.WaitTime ∧
        g.Mode = gangBGang.Mode ∧ g.GangGroup = gangBGang.GangGroup ∧
        g.HasGangInit = gangBGang.HasGangInit ∧ g.GangFrom = gangBGang.GangFrom ∧
        g.Children = [] ∧ g.PendingChildren = [] ∧ g.WaitingForBindChildren = [] ∧
        g.BoundChildren = []) ∧
      (gangBCache.run exampleEnv
        ([labelPod "pod5", labelPod "pod6"].map Event.podDelete)).podGroups
        = gangBCache.podGroups :=
  ⟨by decide, by decide, by decide, by decide, by decide,
    C25_group_resource_gang_survives_its_members exampleEnv gangBCache gangBGang
      "default/gangB" [labelPod "pod5", labelPod "pod6"] (by decide) (by decide)
      gangBGang_partitioned (by decide) (by decide)⟩

end WitnessesDelete

section ClaimGroupInfo

/-- C28: `getGangGroupInfo` returns the object registered under the id and leaves
the registry as it is; for an id that is not registered it returns nothing
and leaves the registry as it is when it is not asked to create, and when it
is asked to create it registers and returns a new object with that id and
those members, growing the registry by exactly that entry; and after
`deleteGangGroupInfo` a lookup of the id that does not create returns nothing. -/
theorem C28_getGangGroupInfo_and_deleteGangGroupInfo (c : GangCache) (gangGroupId : String)
    (gangGroup : List String) :
    (∀ info create, List.lookup gangGroupId c.gangGroupInfoMap = some info →
        c.getGangGroupInfo gangGroupId gangGroup create = (some info, c)) ∧
      (List.lookup gangGroupId c.gangGroupInfoMap = none →
        c.getGangGroupInfo gangGroupId gangGroup false = (none, c)) ∧
      (List.lookup gangGroupId c.gangGroupInfoMap = none →
        ∃ info, (c.getGangGroupInfo gangGroupId gangGroup true).1 = some info ∧
          info.GangGroupId = gangGroupId ∧ info.GangGroup = gangGroup ∧
          List.lookup gangGroupId (c.getGangGroupInfo gangGroupId gangGroup true).2.gangGroupInfoMap
            = some info ∧
          (∀ k, k ≠ gangGroupId →
            List.lookup k (c.getGangGroupInfo gangGroupId gangGroup true).2.gangGroupInfoMap
              = List.lookup k c.gangGroupInfoMap) ∧
          (c.getGangGroupInfo gangGroupId gangGroup true).2.gangGroupInfoMap.length
            = c.gangGroupInfoMap.length + 1 ∧
          (c.getGangGroupInfo gangGroupId gangGroup true).2.gangItems = c.gangItems) ∧
      ((c.deleteGangGroupInfo gangGroupId).getGangGroupInfo gangGroupId gangGroup false).1
        = none := by
  refine ⟨?_, ?_, ?_, ?_⟩
  · intro info create h
    unfold GangCache.getGangGroupInfo
    rw [h]
  · intro h
    unfold GangCache.getGangGroupInfo
    rw [h]
    rfl
  · intro h
    unfold GangCache.getGangGroupInfo
    rw [h]
    rw [if_pos rfl]
    exact ⟨_, rfl, rfl, rfl, lookup_set_self _ _ _, fun k hk => lookup_set_ne _ _ hk,
      length_set_of_lookup_none _ h, rfl⟩
  · unfold GangCache.getGangGroupInfo GangCache.deleteGangGroupInfo
    dsimp only
    rw [lookup_del_self]
    rfl

/-- C28 on the steps of the test of the two functions: a lookup of `aa` in the
empty registry, its creation, a second lookup, and a lookup after its
deletion. -/
theorem C28_getGangGroupInfo_and_deleteGangGroupInfo_witness :
    (NewGangCache []).getGangGroupInfo "aa" ["aa"] false = (none, NewGangCache []) ∧
      ((NewGangCache []).getGangGroupInfo "aa" ["aa"] true).1
        = some (NewGangGroupInfo "aa" ["aa"]) ∧
      ((NewGangCache []).getGangGroupInfo "aa" ["aa"] true).2.gangGroupInfoMap.length = 1 ∧
      (∃ info, ((NewGangCache []).getGangGroupInfo "aa" ["aa"] true).1 = some info ∧
        info.GangGroupId = "aa" ∧ info.GangGroup = ["aa"] ∧
        List.lookup "aa" ((NewGangCache []).getGangGroupInfo "aa" ["aa"] true).2.gangGroupInfoMap
          = some info ∧
        (∀ k, k ≠ "aa" →
          List.lookup k ((NewGangCache []).getGangGroupInfo "aa" ["aa"] true).2.gangGroupInfoMap
            = List.lookup k (NewGangCache []).gangGroupInfoMap) ∧
        ((NewGangCache []).getGangGroupInfo "aa" ["aa"] true).2.gangGroupInfoMap.length
          = (NewGangCache []).gangGroupInfoMap.length + 1 ∧
        ((NewGangCache []).getGangGroupInfo "aa" ["aa"] true).2.gangItems
          = (NewGangCache []).gangItems) ∧
      ((((NewGangCache []).getGangGroupInfo "aa" ["aa"] true).2.deleteGangGroupInfo
        "aa").getGangGroupInfo "aa" ["aa"] false).1 = none :=
  ⟨by decide, by decide, by decide,
    (C28_getGangGroupInfo_and_deleteGangGroupInfo (NewGangCache []) "aa" ["aa"]).2.2.1
      (by decide),
    by decide⟩

end ClaimGroupInfo

section ClaimGroupAdd

/-- C30: after `onPodGroupAdd` the gang named by the group resource is in the
cache with the minimum number `Spec.MinMember`, a wait time of
`ScheduleTimeoutSeconds` seconds, or the default timeout when that is unset,
initialised and of provenance `GangFromPodGroupCrd`; its children maps are
those of the gang that was there before the event, placeholder or not, and
empty when there was none. -/
theorem C30_group_resource_is_authoritative (env : Env) (c : GangCache) (pg : PodGroup) :
    ∃ g, List.lookup (GetId pg.Namespace pg.Name) (c.onPodGroupAdd env pg).gangItems = some g ∧
      g.MinRequiredNumber = pg.MinMember ∧
      (∀ seconds, pg.ScheduleTimeoutSeconds = some seconds → g.WaitTime = seconds * Second) ∧
      (pg.ScheduleTimeoutSeconds = none → g.WaitTime = env.DefaultTimeout) ∧
      g.HasGangInit = true ∧ g.GangFrom = GangFrom.GangFromPodGroupCrd ∧
      g.Children = (c.gangOrNew env (GetId pg.Namespace pg.Name)).Children ∧
      g.PendingChildren = (c.gangOrNew env (GetId pg.Namespace pg.Name)).PendingChildren ∧
      g.WaitingForBindChildren
        = (c.gangOrNew env (GetId pg.Namespace pg.Name)).WaitingForBindChildren ∧
      g.BoundChildren = (c.gangOrNew env (GetId pg.Namespace pg.Name)).BoundChildren ∧
      (List.lookup (GetId pg.Namespace pg.Name) c.gangItems = none → g.Children = []) := by
  obtain ⟨h, _, _⟩ := onPodGroupAdd_lookup env c pg
  refine ⟨_, h, rfl, ?_, ?_, rfl, rfl, rfl, rfl, rfl, rfl, ?_⟩
  · intro seconds hs
    show ((c.gangOrNew env (GetId pg.Namespace pg.Name)).tryInitByPodGroup env pg).WaitTime = _
    unfold Gang.tryInitByPodGroup
    dsimp only
    rw [hs]
  · intro hs
    show ((c.gangOrNew env (GetId pg.Namespace pg.Name)).tryInitByPodGroup env pg).WaitTime = _
    unfold Gang.tryInitByPodGroup
    dsimp only
    rw [hs]
  · intro hnone
    show (c.gangOrNew env (GetId pg.Namespace pg.Name)).Children = []
    unfold GangCache.gangOrNew
    rw [hnone]
    rfl

end ClaimGroupAdd

section ClaimGroupDelete

/-- C26 as stated fails: the placeholder of the tests, made by a lookup that
creates the gang, has the provenance `GangFromPodAnnotation`, and
`onPodGroupDelete` removes it from the cache, as the test expects. -/
theorem C26_counterexample :
    (∃ gang, List.lookup "default/ganga" placeholderCache.gangItems = some gang ∧
        gang.GangFrom = GangFrom.GangFromPodAnnotation) ∧
      (placeholderCache.onPodGroupDelete podGroupBare).gangItems = [] := by
  exact ⟨⟨NewGang exampleEnv "default/ganga", by decide, by decide⟩, by decide⟩

/-- C26 (amended): `onPodGroupDelete` removes the gang named by the group resource
when its provenance is the group resource or when it is not initialised, and
leaves the other gangs alone; it leaves the whole cache unchanged when the
gang is initialised with the provenance of the member annotation, and when
there is no such gang. -/
theorem C26_group_delete_by_provenance (c : GangCache) (pg : PodGroup) :
    (∀ gang, List.lookup (GetId pg.Namespace pg.Name) c.gangItems = some gang →
      ((gang.GangFrom = GangFrom.GangFromPodGroupCrd ∨ gang.HasGangInit = false) →
        List.lookup (GetId pg.Namespace pg.Name) (c.onPodGroupDelete pg).gangItems = none ∧
          ∀ k, k ≠ GetId pg.Namespace pg.Name →
            List.lookup k (c.onPodGroupDelete pg).gangItems = List.lookup k c.gangItems) ∧
      ((gang.GangFrom = GangFrom.GangFromPodAnnotation ∧ gang.HasGangInit = true) →
        c.onPodGroupDelete pg = c)) ∧
      (List.lookup (GetId pg.Namespace pg.Name) c.gangItems = none →
        c.onPodGroupDelete pg = c) := by
  refine ⟨?_, onPodGroupDelete_absent c pg⟩
  intro gang hgang
  obtain ⟨h1, _, h3, h4⟩ := onPodGroupDelete_present c pg gang hgang
  exact ⟨fun hc => ⟨h3 hc, h1⟩, h4⟩

/-- C26 (amended) on the gangs of the tests: the gang `gangB`, made by its group
resource, is removed by the deletion of the group resource, and the gang
`ganga`, initialised by a member, is left as it is. -/
theorem C26_group_delete_by_provenance_witness :
    (List.lookup "default/gangB" (gangBCache.onPodGroupDelete podGroupB).gangItems = none ∧
        ∀ k, k ≠ "default/gangB" →
          List.lookup k (gangBCache.onPodGroupDelete podGroupB).gangItems
            = List.lookup k gangBCache.gangItems) ∧
      gangaCache.onPodGroupDelete podGroupBare = gangaCache :=
  ⟨((C26_group_delete_by_provenance gangBCache podGroupB).1 gangBGang (by decide)).1
      (Or.inl (by decide)),
    ((C26_group_delete_by_provenance gangaCache podGroupBare).1 gangaGang (by decide)).2
      ⟨by decide, by decide⟩⟩

end ClaimGroupDelete

section ClaimParsing

theorem parse_fallsBackByField (env : Env) (annotations : List (String × String))
    (gangName : String) (minRequiredNumber : Int) (g : Gang)
    (hmode : g.Mode = parseMode (mapGet annotations AnnotationGangMode))
    (htotal : g.TotalChildrenNum
      = parseTotalNum env (mapGet annotations AnnotationGangTotalNum) minRequiredNumber)
    (hgroup : g.GangGroup
      = parseGangGroup env (mapGet annotations AnnotationGangGroups) gangName) :
    FallsBackByField env annotations gangName minRequiredNumber g := by
  unfold FallsBackByField
  rw [hmode, htotal, hgroup]
  unfold parseMode parseTotalNum parseGangGroup
  refine ⟨?_, ?_, ?_, ?_, ?_, ?_⟩
  · rintro (h | h) <;> (rw [h]; decide)
  · rintro ⟨h1, h2⟩
    simp [h1, h2]
  · intro t ht hle
    rw [ht]
    simp only
    rw [if_neg (by omega)]
  · rintro (h | ⟨t, ht, hlt⟩)
    · rw [h]
    · rw [ht]
      simp only
      rw [if_pos hlt]
  · intro l hl hne
    rw [hl]
    cases l with
    | nil => exact absurd rfl hne
    | cons a l => rfl
  · rintro (h | h)
    · rw [h]
    · rw [h]
      rfl

theorem parse_waitTimeFallsBack (env : Env) (annotations : List (String × String)) (g : Gang)
    (hwait : g.WaitTime = parseWaitTime env (mapGet annotations AnnotationGangWaitTime)) :
    WaitTimeFallsBack env annotations g := by
  unfold WaitTimeFallsBack
  rw [hwait]
  unfold parseWaitTime
  refine ⟨?_, ?_⟩
  · intro w hw hpos
    rw [hw]
    simp only
    rw [if_neg (by omega)]
  · rintro (h | ⟨w, hw, hle⟩)
    · rw [h]
    · rw [hw]
      simp only
      rw [if_pos hle]

/-- C29 as stated fails for the minimum number of a member-level declaration:
the member `pod3` with an illegal minimum next to a legal mode and a legal
wait time leaves the gang uninitialised, in strict mode and without wait time,
so the legal fields are not applied; and after the members `pod3` and `pod4` of
the tests the gang has the minimum of `pod4`, as the test expects. -/
theorem C29_counterexample :
    mapGet pod3Legal.Annotations AnnotationGangMode = GangModeNonStrict ∧
      exampleEnv.ParseDuration (mapGet pod3Legal.Annotations AnnotationGangWaitTime)
        = some (30 * Second) ∧
      (∃ g, List.lookup "default/gangb"
          ((NewGangCache []).onPodAdd exampleEnv pod3Legal).gangItems = some g ∧
        g.HasGangInit = false ∧ g.Mode = GangModeStrict ∧ g.WaitTime = 0) ∧
      ∃ g, List.lookup "default/gangb"
          ((NewGangCache []).run exampleEnv [Event.podAdd pod3, Event.podAdd pod4]).gangItems
          = some g ∧
        g.HasGangInit = true ∧ g.MinRequiredNumber = 2 := by
  refine ⟨by decide, by decide, ⟨_, rfl, by decide, by decide, by decide⟩, _, rfl, ?_, ?_⟩ <;>
    decide

/-- C29 (amended): a member-level declaration is rejected as a whole exactly when
its minimum number does not parse: the gang is then left as it was. When the
minimum parses, a gang that is not initialised is initialised with it and
every other field falls back on its own: an unknown mode becomes `Strict`, a
wait time that does not parse or is not positive becomes the default timeout,
a total number that does not parse or lies below the minimum becomes the
minimum, a group list that does not parse or is empty becomes the gang alone,
and the fields that are valid are applied. The declaration of a group
resource is never rejected: the gang is initialised with `Spec.MinMember` and
the same fallbacks for mode, total number and group list, while its wait time
is `Spec.ScheduleTimeoutSeconds` seconds when that is set, whatever its value,
and the default timeout when it is not set. -/
theorem C29_fields_fall_back_on_their_own (env : Env) (gang : Gang) (pod : Pod)
    (pg : PodGroup) :
    (GetGangMinNumFromPod env pod = none → gang.tryInitByPodConfig env pod = (gang, false)) ∧
      (gang.HasGangInit = false → ∀ m, GetGangMinNumFromPod env pod = some m →
        (gang.tryInitByPodConfig env pod).1.HasGangInit = true ∧
          (gang.tryInitByPodConfig env pod).1.MinRequiredNumber = m ∧
          FallsBackByField env pod.Annotations gang.Name m (gang.tryInitByPodConfig env pod).1 ∧
          WaitTimeFallsBack env pod.Annotations (gang.tryInitByPodConfig env pod).1) ∧
      ((gang.tryInitByPodGroup env pg).HasGangInit = true ∧
        (gang.tryInitByPodGroup env pg).MinRequiredNumber = pg.MinMember ∧
        FallsBackByField env pg.Annotations gang.Name pg.MinMember
          (gang.tryInitByPodGroup env pg) ∧
        (∀ seconds, pg.ScheduleTimeoutSeconds = some seconds →
          (gang.tryInitByPodGroup env pg).WaitTime = seconds * Second) ∧
        (pg.ScheduleTimeoutSeconds = none →
          (gang.tryInitByPodGroup env pg).WaitTime = env.DefaultTimeout)) := by
  refine ⟨tryInitByPodConfig_of_no_min env gang pod, ?_, rfl, rfl, ?_, ?_, ?_⟩
  · intro hinit m hm
    have hres : (gang.tryInitByPodConfig env pod).1 =
        { gang with
          MinRequiredNumber := m
          TotalChildrenNum := parseTotalNum env (mapGet pod.Annotations AnnotationGangTotalNum) m
          Mode := parseMode (mapGet pod.Annotations AnnotationGangMode)
          WaitTime := parseWaitTime env (mapGet pod.Annotations AnnotationGangWaitTime)
          GangGroup := parseGangGroup env (mapGet pod.Annotations AnnotationGangGroups) gang.Name
          GangGroupId := env.GetGangGroupId
            (parseGangGroup env (mapGet pod.Annotations AnnotationGangGroups) gang.Name)
          HasGangInit := true } := by
      unfold Gang.tryInitByPodConfig
      rw [hinit, hm]
      rfl
    rw [hres]
    exact ⟨rfl, rfl, parse_fallsBackByField env _ _ _ _ rfl rfl rfl,
      parse_waitTimeFallsBack env _ _ rfl⟩
  · exact parse_fallsBackByField env _ _ _ _ rfl rfl rfl
  · intro seconds hsec
    unfold Gang.tryInitByPodGroup
    simp only [hsec]
  · intro hnone
    unfold Gang.tryInitByPodGroup
    simp only [hnone]

/-- C29 (amended) on the member `pod4` and on the group resource with illegal
annotations of the tests: the minimum is applied and the illegal fields take
their defaults; the group resource keeps its timeout of 300 seconds, and a
group resource with a timeout of zero seconds keeps that. -/
theorem C29_fields_fall_back_on_their_own_witness :
    (NewGang exampleEnv "default/gangb").HasGangInit = false ∧
      GetGangMinNumFromPod exampleEnv pod4 = some 2 ∧
      (((NewGang exampleEnv "default/gangb").tryInitByPodConfig exampleEnv pod4).1.config
        = (600 * Second, GangModeStrict, 2, 2, ["default/gangb"])) ∧
      (((NewGang exampleEnv "default/gangb").tryInitByPodConfig exampleEnv pod4).1.HasGangInit
          = true ∧
        ((NewGang exampleEnv "default/gangb").tryInitByPodConfig exampleEnv pod4).1.MinRequiredNumber
          = 2 ∧
        FallsBackByField exampleEnv pod4.Annotations (NewGang exampleEnv "default/gangb").Name 2
          ((NewGang exampleEnv "default/gangb").tryInitByPodConfig exampleEnv pod4).1 ∧
        WaitTimeFallsBack exampleEnv pod4.Annotations
          ((NewGang exampleEnv "default/gangb").tryInitByPodConfig exampleEnv pod4).1) ∧
      (((NewGang exampleEnv "default/gangA").tryInitByPodGroup exampleEnv podGroupIllegal).config
        = (300 * Second, GangModeStrict, 4, 4, ["default/gangA"])) ∧
      (((NewGang exampleEnv "default/gangA").tryInitByPodGroup exampleEnv
            podGroupIllegal).HasGangInit = true ∧
        ((NewGang exampleEnv "default/gangA").tryInitByPodGroup exampleEnv
            podGroupIllegal).MinRequiredNumber = 4 ∧
        FallsBackByField exampleEnv podGroupIllegal.Annotations
          (NewGang exampleEnv "default/gangA").Name 4
          ((NewGang exampleEnv "default/gangA").tryInitByPodGroup exampleEnv podGroupIllegal) ∧
        ((NewGang exampleEnv "default/gangA").tryInitByPodGroup exampleEnv
            podGroupIllegal).WaitTime = 300 * Second) ∧
      ((NewGang exampleEnv "default/gangA").tryInitByPodGroup exampleEnv
          podGroupZeroTimeout).WaitTime = 0 := by
  have hpod := (C29_fields_fall_back_on_their_own exampleEnv (NewGang exampleEnv "default/gangb")
    pod4 podGroupIllegal).2.1 (by decide) 2 (by decide)
  have hpg := (C29_fields_fall_back_on_their_own exampleEnv (NewGang exampleEnv "default/gangA")
    pod4 podGroupIllegal).2.2
  have hzero := (C29_fields_fall_back_on_their_own exampleEnv (NewGang exampleEnv "default/gangA")
    pod4 podGroupZeroTimeout).2.2.2.2.2.1 0 rfl
  exact ⟨by decide, by decide, by decide, hpod, by decide,
    ⟨hpg.1, hpg.2.1, hpg.2.2.1, hpg.2.2.2.1 300 rfl⟩, by simpa using hzero⟩

end ClaimParsing

section Consistency

/-! ## The registry of group states follows the gangs -/

theorem groupsConsistent_empty (env : Env) (podGroups : GoMap PodGroup) :
    GroupsConsistent env (NewGangCache podGroups) where
  gangKeys := List.nodup_nil
  groupKeys := List.nodup_nil
  initialised := fun _ _ h => by cases h
  placeholder := fun _ _ h => by cases h
  registered := fun id => by
    constructor
    · rintro ⟨info, h⟩
      cases h
    · rintro ⟨gid, g, h, _⟩
      cases h
  groupId := fun _ _ h => by cases h

theorem groupsConsistent_congr (env : Env) {c c1 : GangCache} (h : GroupsConsistent env c)
    (hg : c1.gangItems = c.gangItems) (hm : c1.gangGroupInfoMap = c.gangGroupInfoMap) :
    GroupsConsistent env c1 where
  gangKeys := by rw [hg]; exact h.gangKeys
  groupKeys := by rw [hm]; exact h.groupKeys
  initialised := by rw [hg]; exact h.initialised
  placeholder := by rw [hg]; exact h.placeholder
  registered := by rw [hg, hm]; exact h.registered
  groupId := by rw [hm]; exact h.groupId

/-- Storing, under the id of a gang of the cache, a gang with the same pointer,
the same initialisation and, when initialised, the same gang group. -/
theorem groupsConsistent_store (env : Env) {c : GangCache} (gangId : String) {g0 g1 : Gang}
    (h : GroupsConsistent env c) (h0 : List.lookup gangId c.gangItems = some g0)
    (href : g1.GangGroupInfo = g0.GangGroupInfo) (hinit : g1.HasGangInit = g0.HasGangInit)
    (hgroup : g1.GangGroup = g0.GangGroup) (hgid : g1.GangGroupId = g0.GangGroupId) :
    GroupsConsistent env { c with gangItems := c.gangItems.set gangId g1 } where
  gangKeys := nodup_keys_set h.gangKeys _ _
  groupKeys := h.groupKeys
  initialised := by
    intro gid g hg hi
    by_cases hk : gid = gangId
    · subst hk
      rw [show List.lookup gid (c.gangItems.set gid g1) = some g1 from lookup_set_self _ _ _] at hg
      cases hg
      rw [href, hgroup, hgid]
      exact h.initialised gid g0 h0 (hinit ▸ hi)
    · rw [show List.lookup gid (c.gangItems.set gangId g1) = List.lookup gid c.gangItems from
        lookup_set_ne _ _ hk] at hg
      exact h.initialised gid g hg hi
  placeholder := by
    intro gid g hg hi
    by_cases hk : gid = gangId
    · subst hk
      rw [show List.lookup gid (c.gangItems.set gid g1) = some g1 from lookup_set_self _ _ _] at hg
      cases hg
      rw [href]
      exact h.placeholder gid g0 h0 (hinit ▸ hi)
    · rw [show List.lookup gid (c.gangItems.set gangId g1) = List.lookup gid c.gangItems from
        lookup_set_ne _ _ hk] at hg
      exact h.placeholder gid g hg hi
  registered := by
    intro id
    rw [h.registered id]
    constructor
    · rintro ⟨gid, g, hg, hr⟩
      by_cases hk : gid = gangId
      · subst hk
        rw [h0] at hg
        cases hg
        exact ⟨gid, g1, lookup_set_self _ _ _, href.trans hr⟩
      · exact ⟨gid, g, (lookup_set_ne _ _ hk).trans hg, hr⟩
    · rintro ⟨gid, g, hg, hr⟩
      by_cases hk : gid = gangId
      · subst hk
        rw [show List.lookup gid (c.gangItems.set gid g1) = some g1 from lookup_set_self _ _ _] at hg
        cases hg
        exact ⟨gid, g0, h0, href.symm.trans hr⟩
      · rw [show List.lookup gid (c.gangItems.set gangId g1) = List.lookup gid c.gangItems from
          lookup_set_ne _ _ hk] at hg
        exact ⟨gid, g, hg, hr⟩
  groupId := h.groupId

theorem groupsConsistent_create (env : Env) {c : GangCache} (gangId : String)
    (h : GroupsConsistent env c) :
    GroupsConsistent env (c.getGangFromCacheByGangId env gangId true).2 := by
  unfold GangCache.getGangFromCacheByGangId
  cases hl : List.lookup gangId c.gangItems with
  | some gang => exact h
  | none =>
    rw [if_pos rfl]
    exact
      { gangKeys := nodup_keys_set h.gangKeys _ _
        groupKeys := h.groupKeys
        initialised := by
          intro gid g hg hi
          by_cases hk : gid = gangId
          · subst hk
            rw [show List.lookup gid (c.gangItems.set gid (NewGang env gid)) = some (NewGang env gid)
              from lookup_set_self _ _ _] at hg
            cases hg
            cases hi
          · rw [show List.lookup gid (c.gangItems.set gangId (NewGang env gangId))
              = List.lookup gid c.gangItems from lookup_set_ne _ _ hk] at hg
            exact h.initialised gid g hg hi
        placeholder := by
          intro gid g hg hi
          by_cases hk : gid = gangId
          · subst hk
            rw [show List.lookup gid (c.gangItems.set gid (NewGang env gid)) = some (NewGang env gid)
              from lookup_set_self _ _ _] at hg
            cases hg
            exact ⟨_, rfl⟩
          · rw [show List.lookup gid (c.gangItems.set gangId (NewGang env gangId))
              = List.lookup gid c.gangItems from lookup_set_ne _ _ hk] at hg
            exact h.placeholder gid g hg hi
        registered := by
          intro id
          rw [h.registered id]
          constructor
          · rintro ⟨gid, g, hg, hr⟩
            have hk : gid ≠ gangId := by
              intro hk
              rw [hk, hl] at hg
              cases hg
            exact ⟨gid, g, (lookup_set_ne _ _ hk).trans hg, hr⟩
          · rintro ⟨gid, g, hg, hr⟩
            by_cases hk : gid = gangId
            · subst hk
              rw [show List.lookup gid (c.gangItems.set gid (NewGang env gid))
                = some (NewGang env gid) from lookup_set_self _ _ _] at hg
              cases hg
              cases hr
            · rw [show List.lookup gid (c.gangItems.set gangId (NewGang env gangId))
                = List.lookup gid c.gangItems from lookup_set_ne _ _ hk] at hg
              exact ⟨gid, g, hg, hr⟩
        groupId := h.groupId }

theorem groupsConsistent_latch (env : Env) {c : GangCache} (gangId : String)
    (h : GroupsConsistent env c) : GroupsConsistent env (c.setResourceSatisfied gangId) := by
  unfold GangCache.setResourceSatisfied
  cases hl : List.lookup gangId c.gangItems with
  | none => exact h
  | some gang =>
    dsimp only
    cases hr : gang.GangGroupInfo with
    | own info =>
      dsimp only
      have hinit : gang.HasGangInit = false := by
        cases hi : gang.HasGangInit with
        | false => rfl
        | true =>
          have := (h.initialised gangId gang hl hi).1
          rw [hr] at this
          cases this
      exact
        { gangKeys := nodup_keys_set h.gangKeys _ _
          groupKeys := h.groupKeys
          initialised := by
            intro gid g hg hi
            by_cases hk : gid = gangId
            · subst hk
              rw [lookup_set_self] at hg
              cases hg
              rw [hinit] at hi
              cases hi
            · rw [lookup_set_ne _ _ hk] at hg
              exact h.initialised gid g hg hi
          placeholder := by
            intro gid g hg hi
            by_cases hk : gid = gangId
            · subst hk
              rw [lookup_set_self] at hg
              cases hg
              exact ⟨_, rfl⟩
            · rw [lookup_set_ne _ _ hk] at hg
              exact h.placeholder gid g hg hi
          registered := by
            intro id
            rw [h.registered id]
            constructor
            · rintro ⟨gid, g, hg, hr1⟩
              have hk : gid ≠ gangId := by
                intro hk
                rw [hk, hl] at hg
                cases hg
                rw [hr] at hr1
                cases hr1
              exact ⟨gid, g, (lookup_set_ne _ _ hk).trans hg, hr1⟩
            · rintro ⟨gid, g, hg, hr1⟩
              by_cases hk : gid = gangId
              · subst hk
                rw [lookup_set_self] at hg
                cases hg
                cases hr1
              · rw [lookup_set_ne _ _ hk] at hg
                exact ⟨gid, g, hg, hr1⟩
          groupId := h.groupId }
    | shared gangGroupId =>
      dsimp only
      cases hm : List.lookup gangGroupId c.gangGroupInfoMap with
      | none => exact h
      | some info =>
        exact
          { gangKeys := h.gangKeys
            groupKeys := nodup_keys_set h.groupKeys _ _
            initialised := h.initialised
            placeholder := h.placeholder
            registered := by
              intro id
              rw [← h.registered id]
              by_cases hk : id = gangGroupId
              · subst hk
                dsimp only
                rw [lookup_set_self, hm]
                exact ⟨fun _ => ⟨_, rfl⟩, fun _ => ⟨_, rfl⟩⟩
              · dsimp only
                rw [lookup_set_ne _ _ hk]
            groupId := by
              intro id info1 hi
              by_cases hk : id = gangGroupId
              · subst hk
                dsimp only at hi
                rw [lookup_set_self] at hi
                cases hi
                exact h.groupId id info hm
              · dsimp only at hi
                rw [lookup_set_ne _ _ hk] at hi
                exact h.groupId id info1 hi }

end Consistency
section Rebinding
variable {α : Type}

/-! ## Releasing and attaching a group state -/

theorem lookup_del_eq_some {m : GoMap α} {k k1 : String} {v : α} :
    List.lookup k1 (m.del k) = some v ↔ k1 ≠ k ∧ List.lookup k1 m = some v := by
  by_cases hk : k1 = k
  · subst hk
    rw [lookup_del_self]
    simp
  · rw [lookup_del_ne _ hk]
    simp [hk]

theorem lookup_set_eq_some {m : GoMap α} {k k1 : String} {v w : α} :
    List.lookup k1 (m.set k w) = some v ↔
      (k1 = k ∧ v = w) ∨ (k1 ≠ k ∧ List.lookup k1 m = some v) := by
  by_cases hk : k1 = k
  · subst hk
    rw [lookup_set_self]
    constructor
    · intro h
      cases h
      exact Or.inl ⟨rfl, rfl⟩
    · rintro (⟨_, h⟩ | ⟨h, _⟩)
      · rw [h]
      · exact absurd rfl h
  · rw [lookup_set_ne _ _ hk]
    simp [hk]

theorem any_ref_iff {items : GoMap Gang} (hnd : items.keys.Nodup) (id : String) :
    items.any (fun e => e.2.GangGroupInfo == GroupRef.shared id) = true ↔
      ∃ gid g, List.lookup gid items = some g ∧ g.GangGroupInfo = GroupRef.shared id := by
  rw [List.any_eq_true]
  constructor
  · rintro ⟨⟨gid, g⟩, he, hr⟩
    exact ⟨gid, g, lookup_of_mem hnd he, by simpa using hr⟩
  · rintro ⟨gid, g, hl, hr⟩
    exact ⟨(gid, g), mem_of_lookup hl, by simpa using hr⟩

/-- A registered id to which the gang under `gangId` does not point is pointed to
by another gang. -/
theorem registered_by_other (env : Env) {c : GangCache} (h : GroupsConsistent env c)
    {gangId : String} {g0 : Gang} (h0 : List.lookup gangId c.gangItems = some g0)
    {id : String} (hne : g0.GangGroupInfo ≠ GroupRef.shared id) :
    (∃ info, List.lookup id c.gangGroupInfoMap = some info) ↔
      ∃ gid g, List.lookup gid (c.gangItems.del gangId) = some g ∧
        g.GangGroupInfo = GroupRef.shared id := by
  rw [h.registered id]
  constructor
  · rintro ⟨gid, g, hg, hr⟩
    have hk : gid ≠ gangId := by
      intro hk
      rw [hk, h0] at hg
      cases hg
      exact hne hr
    exact ⟨gid, g, lookup_del_eq_some.2 ⟨hk, hg⟩, hr⟩
  · rintro ⟨gid, g, hg, hr⟩
    exact ⟨gid, g, (lookup_del_eq_some.1 hg).2, hr⟩

/-- The registry of group states after the gang under `gangId` has let go of its
group state: an id is registered exactly when another gang points to it. -/
theorem release_registered (env : Env) {c : GangCache} (h : GroupsConsistent env c)
    {gangId : String} {g0 : Gang} (h0 : List.lookup gangId c.gangItems = some g0)
    (c1 : GangCache) (hmap : c1.gangGroupInfoMap = c.gangGroupInfoMap)
    (hitems : c1.gangItems.keys.Nodup)
    (hothers : ∀ id, (∃ gid g, List.lookup gid c1.gangItems = some g ∧
        g.GangGroupInfo = GroupRef.shared id ∧ gid ≠ gangId) ↔
      ∃ gid g, List.lookup gid (c.gangItems.del gangId) = some g ∧
        g.GangGroupInfo = GroupRef.shared id)
    (hself : ∀ g id, List.lookup gangId c1.gangItems = some g →
      g.GangGroupInfo = GroupRef.shared id → g0.GangGroupInfo ≠ GroupRef.shared id) :
    (c1.releaseGangGroupInfo g0.GangGroupInfo).gangGroupInfoMap.keys.Nodup ∧
      (∀ id info, List.lookup id (c1.releaseGangGroupInfo g0.GangGroupInfo).gangGroupInfoMap
          = some info → info.GangGroupId = id) ∧
      ∀ id, (∃ info, List.lookup id (c1.releaseGangGroupInfo g0.GangGroupInfo).gangGroupInfoMap
          = some info) ↔
        ∃ gid g, List.lookup gid (c.gangItems.del gangId) = some g ∧
          g.GangGroupInfo = GroupRef.shared id := by
  unfold GangCache.releaseGangGroupInfo
  cases hr : g0.GangGroupInfo with
  | own info =>
    dsimp only
    rw [hmap]
    refine ⟨h.groupKeys, h.groupId, fun id => ?_⟩
    exact registered_by_other env h h0 (by rw [hr]; intro hc; cases hc)
  | shared oldId =>
    dsimp only
    have hany : c1.gangItems.any (fun e => e.2.GangGroupInfo == GroupRef.shared oldId) = true ↔
        ∃ gid g, List.lookup gid (c.gangItems.del gangId) = some g ∧
          g.GangGroupInfo = GroupRef.shared oldId := by
      rw [any_ref_iff hitems, ← hothers oldId]
      constructor
      · rintro ⟨gid, g, hg, hgr⟩
        refine ⟨gid, g, hg, hgr, ?_⟩
        intro hk
        rw [hk] at hg
        exact hself g oldId hg hgr hr
      · rintro ⟨gid, g, hg, hgr, _⟩
        exact ⟨gid, g, hg, hgr⟩
    by_cases hc : c1.gangItems.any (fun e => e.2.GangGroupInfo == GroupRef.shared oldId) = true
    · rw [if_pos hc, hmap]
      refine ⟨h.groupKeys, h.groupId, fun id => ?_⟩
      by_cases hid : id = oldId
      · subst hid
        constructor
        · intro _
          exact hany.1 hc
        · intro _
          exact (h.registered id).2 ⟨gangId, g0, h0, hr⟩
      · exact registered_by_other env h h0
          (by rw [hr]; intro hx; cases hx; exact hid rfl)
    · rw [if_neg hc]
      unfold GangCache.deleteGangGroupInfo
      dsimp only
      rw [hmap]
      refine ⟨nodup_keys_del h.groupKeys _, ?_, fun id => ?_⟩
      · intro id info hi
        exact h.groupId id info (lookup_del_eq_some.1 hi).2
      · by_cases hid : id = oldId
        · subst hid
          constructor
          · rintro ⟨info, hi⟩
            rw [lookup_del_self] at hi
            cases hi
          · intro hex
            exact absurd (hany.2 hex) hc
        · rw [lookup_del_ne _ hid]
          exact registered_by_other env h h0
            (by rw [hr]; intro hx; cases hx; exact hid rfl)

/-- Deleting a gang and releasing its group state. -/
theorem groupsConsistent_delete (env : Env) {c : GangCache} (h : GroupsConsistent env c)
    {gangId : String} {g0 : Gang} (h0 : List.lookup gangId c.gangItems = some g0) :
    GroupsConsistent env
      (({ c with gangItems := c.gangItems.del gangId } : GangCache).releaseGangGroupInfo
        g0.GangGroupInfo) := by
  obtain ⟨r1, r2, r3⟩ := release_registered env h h0
    ({ c with gangItems := c.gangItems.del gangId } : GangCache) rfl
    (nodup_keys_del h.gangKeys _)
    (by
      intro id
      constructor
      · rintro ⟨gid, g, hg, hr, _⟩
        exact ⟨gid, g, hg, hr⟩
      · rintro ⟨gid, g, hg, hr⟩
        exact ⟨gid, g, hg, hr, (lookup_del_eq_some.1 hg).1⟩)
    (by
      intro g id hg _
      rw [lookup_del_self] at hg
      cases hg)
  have hitems := (releaseGangGroupInfo_gangItems
    ({ c with gangItems := c.gangItems.del gangId } : GangCache) g0.GangGroupInfo).1
  exact
    { gangKeys := by rw [hitems]; exact nodup_keys_del h.gangKeys _
      groupKeys := r1
      initialised := by
        rw [hitems]
        intro gid g hg hi
        exact h.initialised gid g (lookup_del_eq_some.1 hg).2 hi
      placeholder := by
        rw [hitems]
        intro gid g hg hi
        exact h.placeholder gid g (lookup_del_eq_some.1 hg).2 hi
      registered := by
        rw [hitems]
        exact r3
      groupId := r2 }

end Rebinding
section Attaching

/-- Storing an initialised gang under the id of a gang of the cache and attaching
it to the group state of its group id. -/
theorem groupsConsistent_attach (env : Env) {c : GangCache} (h : GroupsConsistent env c)
    {gangId : String} {g0 g1 : Gang} (h0 : List.lookup gangId c.gangItems = some g0)
    (href : g1.GangGroupInfo = g0.GangGroupInfo) (hinit : g1.HasGangInit = true)
    (hgid : g1.GangGroupId = env.GetGangGroupId g1.GangGroup) :
    GroupsConsistent env (c.attachGangGroupInfo gangId g1) := by
  have hitems := (attachGangGroupInfo_gangItems c gangId g1).1
  unfold GangCache.attachGangGroupInfo at hitems ⊢
  have hc1i : (GangCache.mk (c.gangItems.set gangId
      (g1.withGroupRef (GroupRef.shared g1.GangGroupId))) c.gangGroupInfoMap c.podGroups).gangItems
      = c.gangItems.set gangId (g1.withGroupRef (GroupRef.shared g1.GangGroupId)) := rfl
  have hc1m : (GangCache.mk (c.gangItems.set gangId
      (g1.withGroupRef (GroupRef.shared g1.GangGroupId))) c.gangGroupInfoMap c.podGroups).gangGroupInfoMap
      = c.gangGroupInfoMap := rfl
  change ((((if (g1.GangGroupInfo == GroupRef.shared g1.GangGroupId) = true then
      GangCache.mk (c.gangItems.set gangId
        (g1.withGroupRef (GroupRef.shared g1.GangGroupId))) c.gangGroupInfoMap c.podGroups
      else (GangCache.mk (c.gangItems.set gangId
        (g1.withGroupRef (GroupRef.shared g1.GangGroupId)))
          c.gangGroupInfoMap c.podGroups).releaseGangGroupInfo g1.GangGroupInfo).getGangGroupInfo
        g1.GangGroupId g1.GangGroup true).2).gangItems = _) at hitems
  change GroupsConsistent env (((if (g1.GangGroupInfo == GroupRef.shared g1.GangGroupId) = true then
      GangCache.mk (c.gangItems.set gangId
        (g1.withGroupRef (GroupRef.shared g1.GangGroupId))) c.gangGroupInfoMap c.podGroups
      else (GangCache.mk (c.gangItems.set gangId
        (g1.withGroupRef (GroupRef.shared g1.GangGroupId)))
          c.gangGroupInfoMap c.podGroups).releaseGangGroupInfo g1.GangGroupInfo).getGangGroupInfo
        g1.GangGroupId g1.GangGroup true).2)
  generalize (GangCache.mk (c.gangItems.set gangId
      (g1.withGroupRef (GroupRef.shared g1.GangGroupId))) c.gangGroupInfoMap c.podGroups) = c1
    at hitems hc1i hc1m ⊢
  -- the registry after the old group state is let go
  have hmid : ∀ c2 : GangCache,
      c2 = (if (g1.GangGroupInfo == GroupRef.shared g1.GangGroupId) = true then c1
        else c1.releaseGangGroupInfo g1.GangGroupInfo) →
      c2.gangGroupInfoMap.keys.Nodup ∧
        (∀ id info, List.lookup id c2.gangGroupInfoMap = some info → info.GangGroupId = id) ∧
        ∀ id, id ≠ g1.GangGroupId →
          ((∃ info, List.lookup id c2.gangGroupInfoMap = some info) ↔
            ∃ gid g, List.lookup gid (c.gangItems.del gangId) = some g ∧
              g.GangGroupInfo = GroupRef.shared id) := by
    intro c2 hc2
    by_cases hsame : g1.GangGroupInfo = GroupRef.shared g1.GangGroupId
    · have hb : (g1.GangGroupInfo == GroupRef.shared g1.GangGroupId) = true := by
        simpa using hsame
      rw [if_pos hb] at hc2
      rw [hc2, hc1m]
      refine ⟨h.groupKeys, h.groupId, fun id hid => ?_⟩
      exact registered_by_other env h h0
        (by rw [← href, hsame]; intro hx; cases hx; exact hid rfl)
    · have hb : ¬ (g1.GangGroupInfo == GroupRef.shared g1.GangGroupId) = true := by
        simpa using hsame
      rw [if_neg hb, href] at hc2
      obtain ⟨r1, r2, r3⟩ := release_registered env h h0 c1 hc1m
        (by rw [hc1i]; exact nodup_keys_set h.gangKeys _ _)
        (by
          rw [hc1i]
          intro id
          constructor
          · rintro ⟨gid, g, hg, hr, hk⟩
            rcases lookup_set_eq_some.1 hg with ⟨hk1, _⟩ | ⟨_, hg1⟩
            · exact absurd hk1 hk
            · exact ⟨gid, g, lookup_del_eq_some.2 ⟨hk, hg1⟩, hr⟩
          · rintro ⟨gid, g, hg, hr⟩
            obtain ⟨hk, hg1⟩ := lookup_del_eq_some.1 hg
            exact ⟨gid, g, lookup_set_eq_some.2 (Or.inr ⟨hk, hg1⟩), hr, hk⟩)
        (by
          rw [hc1i]
          intro g id hg hr
          rw [lookup_set_self] at hg
          cases hg
          intro hc
          apply hsame
          rw [href, hc]
          exact hr.symm)
      rw [hc2]
      exact ⟨r1, r2, fun id _ => r3 id⟩
  have hmid2 : ∀ c2 : GangCache,
      c2 = (if (g1.GangGroupInfo == GroupRef.shared g1.GangGroupId) = true then c1
        else c1.releaseGangGroupInfo g1.GangGroupInfo) → c2.gangItems = c1.gangItems := by
    intro c2 hc2
    rw [hc2]
    split
    · rfl
    · exact (releaseGangGroupInfo_gangItems _ _).1
  generalize hc2 : (if (g1.GangGroupInfo == GroupRef.shared g1.GangGroupId) = true then c1
      else c1.releaseGangGroupInfo g1.GangGroupInfo) = c2 at hitems ⊢
  obtain ⟨m1, m2, m3⟩ := hmid c2 hc2.symm
  have hitems2 : c2.gangItems = c.gangItems.set gangId
      (g1.withGroupRef (GroupRef.shared g1.GangGroupId)) := by
    rw [hmid2 c2 hc2.symm, hc1i]
  have hother : ∀ id, id ≠ g1.GangGroupId →
      ((∃ gid g, List.lookup gid (c.gangItems.del gangId) = some g ∧
          g.GangGroupInfo = GroupRef.shared id) ↔
        ∃ gid g, List.lookup gid (c.gangItems.set gangId
            (g1.withGroupRef (GroupRef.shared g1.GangGroupId))) = some g ∧
          g.GangGroupInfo = GroupRef.shared id) := by
    intro id hid
    constructor
    · rintro ⟨gid, g, hg, hr⟩
      obtain ⟨hk, hg1⟩ := lookup_del_eq_some.1 hg
      exact ⟨gid, g, lookup_set_eq_some.2 (Or.inr ⟨hk, hg1⟩), hr⟩
    · rintro ⟨gid, g, hg, hr⟩
      rcases lookup_set_eq_some.1 hg with ⟨_, hv⟩ | ⟨hk, hg1⟩
      · rw [hv] at hr
        cases hr
        exact absurd rfl hid
      · exact ⟨gid, g, lookup_del_eq_some.2 ⟨hk, hg1⟩, hr⟩
  have hselfref : ∃ gid g, List.lookup gid (c.gangItems.set gangId
      (g1.withGroupRef (GroupRef.shared g1.GangGroupId))) = some g ∧
      g.GangGroupInfo = GroupRef.shared g1.GangGroupId :=
    ⟨gangId, _, lookup_set_self _ _ _, rfl⟩
  have hgangs : (∀ gid g, List.lookup gid (c.gangItems.set gangId
        (g1.withGroupRef (GroupRef.shared g1.GangGroupId))) = some g → g.HasGangInit = true →
        g.GangGroupInfo = GroupRef.shared (env.GetGangGroupId g.GangGroup) ∧
          g.GangGroupId = env.GetGangGroupId g.GangGroup) ∧
      ∀ gid g, List.lookup gid (c.gangItems.set gangId
        (g1.withGroupRef (GroupRef.shared g1.GangGroupId))) = some g → g.HasGangInit = false →
        ∃ info, g.GangGroupInfo = GroupRef.own info := by
    constructor
    · intro gid g hg hi
      rcases lookup_set_eq_some.1 hg with ⟨_, hv⟩ | ⟨_, hg1⟩
      · rw [hv]
        exact ⟨congrArg GroupRef.shared hgid, hgid⟩
      · exact h.initialised gid g hg1 hi
    · intro gid g hg hi
      rcases lookup_set_eq_some.1 hg with ⟨_, hv⟩ | ⟨_, hg1⟩
      · rw [hv] at hi
        rw [show (g1.withGroupRef (GroupRef.shared g1.GangGroupId)).HasGangInit
          = g1.HasGangInit from rfl, hinit] at hi
        cases hi
      · exact h.placeholder gid g hg1 hi
  unfold GangCache.getGangGroupInfo
  cases hl : List.lookup g1.GangGroupId c2.gangGroupInfoMap with
  | some info =>
    dsimp only
    exact
      { gangKeys := by rw [hitems2]; exact nodup_keys_set h.gangKeys _ _
        groupKeys := m1
        initialised := by rw [hitems2]; exact hgangs.1
        placeholder := by rw [hitems2]; exact hgangs.2
        registered := by
          rw [hitems2]
          intro id
          by_cases hid : id = g1.GangGroupId
          · rw [hid]
            exact ⟨fun _ => hselfref, fun _ => ⟨info, hl⟩⟩
          · rw [m3 id hid]
            exact hother id hid
        groupId := m2 }
  | none =>
    rw [if_pos rfl]
    dsimp only
    exact
      { gangKeys := by rw [hitems2]; exact nodup_keys_set h.gangKeys _ _
        groupKeys := nodup_keys_set m1 _ _
        initialised := by rw [hitems2]; exact hgangs.1
        placeholder := by rw [hitems2]; exact hgangs.2
        registered := by
          rw [hitems2]
          intro id
          by_cases hid : id = g1.GangGroupId
          · rw [hid]
            exact ⟨fun _ => hselfref, fun _ => ⟨_, lookup_set_self _ _ _⟩⟩
          · rw [lookup_set_ne _ _ hid, m3 id hid]
            exact hother id hid
        groupId := by
          intro id info hi
          rcases lookup_set_eq_some.1 hi with ⟨hk, hv⟩ | ⟨_, hi1⟩
          · rw [hv, hk]
            rfl
          · exact m2 id info hi1 }

end Attaching
section ConsistentHandlers

theorem tryInitByPodConfig_cases (env : Env) (g : Gang) (pod : Pod) :
    (g.tryInitByPodConfig env pod).1.GangGroupInfo = g.GangGroupInfo ∧
      ((g.tryInitByPodConfig env pod).1 = g ∨
        ((g.tryInitByPodConfig env pod).1.HasGangInit = true ∧
          (g.tryInitByPodConfig env pod).1.GangGroupId
            = env.GetGangGroupId (g.tryInitByPodConfig env pod).1.GangGroup)) := by
  unfold Gang.tryInitByPodConfig
  split
  · exact ⟨rfl, Or.inl rfl⟩
  · split
    · exact ⟨rfl, Or.inl rfl⟩
    · exact ⟨rfl, Or.inr ⟨rfl, rfl⟩⟩

theorem setChild_group (g : Gang) (pod : Pod) :
    (g.setChild pod).GangGroupInfo = g.GangGroupInfo ∧
      (g.setChild pod).HasGangInit = g.HasGangInit ∧
      (g.setChild pod).GangGroup = g.GangGroup ∧
      (g.setChild pod).GangGroupId = g.GangGroupId := by
  unfold Gang.setChild
  dsimp only
  split
  · exact ⟨rfl, rfl, rfl, rfl⟩
  · exact ⟨rfl, rfl, rfl, rfl⟩

theorem onPodAdd_consistent (env : Env) {c : GangCache} (pod : Pod)
    (h : GroupsConsistent env c) : GroupsConsistent env (c.onPodAdd env pod) := by
  by_cases hname : GetGangNameByPod pod = ""
  · rw [onPodAdd_noname env c pod hname]
    exact h
  · obtain ⟨h1, h2, _, _, _⟩ :=
      getGangFromCacheByGangId_create env c (GetId pod.Namespace (GetGangNameByPod pod))
    have hc1 := groupsConsistent_create env (GetId pod.Namespace (GetGangNameByPod pod)) h
    unfold GangCache.onPodAdd
    have hn : (GetGangNameByPod pod == "") = false := by simpa using hname
    simp only [hn, Bool.false_eq_true, if_false]
    rcases hG : c.getGangFromCacheByGangId env (GetId pod.Namespace (GetGangNameByPod pod)) true
      with ⟨og, c1⟩
    rw [hG] at h1 h2 hc1
    dsimp only at h1 h2 hc1
    subst h1
    dsimp only
    generalize hg0 : c.gangOrNew env (GetId pod.Namespace (GetGangNameByPod pod)) = g0 at h2 ⊢
    -- the gang after the declaration was read
    have hinit : ∀ r : Gang × Bool,
        r = (if (mapGet pod.Labels PodGroupLabel == "") = true then g0.tryInitByPodConfig env pod
          else (g0, false)) →
        r.1.GangGroupInfo = g0.GangGroupInfo ∧
          (r.1 = g0 ∨ (r.1.HasGangInit = true ∧
            r.1.GangGroupId = env.GetGangGroupId r.1.GangGroup)) := by
      intro r hr
      rw [hr]
      split
      · exact tryInitByPodConfig_cases env g0 pod
      · exact ⟨rfl, Or.inl rfl⟩
    generalize hr : (if (mapGet pod.Labels PodGroupLabel == "") = true then
        g0.tryInitByPodConfig env pod else (g0, false)) = r
    obtain ⟨i1, i2⟩ := hinit r hr.symm
    obtain ⟨s1, s2, s3, s4⟩ := setChild_group r.1 pod
    -- the cache after the gang is stored
    have hstore : GroupsConsistent env
        (if (r.1.setChild pod).HasGangInit = true then
          c1.attachGangGroupInfo (GetId pod.Namespace (GetGangNameByPod pod)) (r.1.setChild pod)
        else { c1 with gangItems :=
          c1.gangItems.set (GetId pod.Namespace (GetGangNameByPod pod)) (r.1.setChild pod) }) := by
      split
      · rename_i hi
        apply groupsConsistent_attach env hc1 h2 (s1.trans i1) hi
        rw [s3, s4]
        rcases i2 with i2 | i2
        · rw [i2]
          rw [s2, i2] at hi
          exact (hc1.initialised _ g0 h2 hi).2
        · exact i2.2
      · rename_i hi
        have hr0 : r.1 = g0 := by
          rcases i2 with i2 | i2
          · exact i2
          · rw [s2, i2.1] at hi
            exact absurd rfl hi
        apply groupsConsistent_store env _ hc1 h2 (s1.trans i1)
        · rw [s2, hr0]
        · rw [s3, hr0]
        · rw [s4, hr0]
    generalize (if (r.1.setChild pod).HasGangInit = true then
          c1.attachGangGroupInfo (GetId pod.Namespace (GetGangNameByPod pod)) (r.1.setChild pod)
        else { c1 with gangItems :=
          c1.gangItems.set (GetId pod.Namespace (GetGangNameByPod pod)) (r.1.setChild pod) })
      = c2 at hstore ⊢
    have hlatch : GroupsConsistent env
        (if (pod.NodeName != "") = true then
          c2.setResourceSatisfied (GetId pod.Namespace (GetGangNameByPod pod)) else c2) := by
      split
      · exact groupsConsistent_latch env _ hstore
      · exact hstore
    generalize (if (pod.NodeName != "") = true then
          c2.setResourceSatisfied (GetId pod.Namespace (GetGangNameByPod pod)) else c2)
      = c3 at hlatch ⊢
    split
    · exact groupsConsistent_congr env hlatch rfl rfl
    · exact hlatch

theorem onPodDelete_consistent (env : Env) {c : GangCache} (pod : Pod)
    (h : GroupsConsistent env c) : GroupsConsistent env (c.onPodDelete pod) := by
  unfold GangCache.onPodDelete
  dsimp only
  split
  · exact h
  · cases hl : List.lookup (GetId pod.Namespace (GetGangNameByPod pod)) c.gangItems with
    | none => exact h
    | some gang =>
      dsimp only
      split
      · exact groupsConsistent_congr env (groupsConsistent_delete env h hl) rfl rfl
      · exact groupsConsistent_store env _ h hl rfl rfl rfl rfl

theorem onPodGroupAdd_consistent (env : Env) {c : GangCache} (pg : PodGroup)
    (h : GroupsConsistent env c) : GroupsConsistent env (c.onPodGroupAdd env pg) := by
  obtain ⟨h1, h2, _, _, _⟩ := getGangFromCacheByGangId_create env c (GetId pg.Namespace pg.Name)
  have hc1 := groupsConsistent_create env (GetId pg.Namespace pg.Name) h
  unfold GangCache.onPodGroupAdd
  dsimp only
  rcases hG : c.getGangFromCacheByGangId env (GetId pg.Namespace pg.Name) true with ⟨og, c1⟩
  rw [hG] at h1 h2 hc1
  dsimp only at h1 h2 hc1
  subst h1
  dsimp only
  exact groupsConsistent_attach env hc1 h2 rfl rfl rfl

theorem onPodGroupUpdate_consistent (env : Env) {c : GangCache} (oldPg newPg : PodGroup)
    (h : GroupsConsistent env c) :
    GroupsConsistent env (c.onPodGroupUpdate env oldPg newPg) := by
  unfold GangCache.onPodGroupUpdate
  dsimp only
  cases hl : List.lookup (GetId newPg.Namespace newPg.Name) c.gangItems with
  | none => exact h
  | some gang => exact groupsConsistent_attach env h hl rfl rfl rfl

theorem onPodGroupDelete_consistent (env : Env) {c : GangCache} (pg : PodGroup)
    (h : GroupsConsistent env c) : GroupsConsistent env (c.onPodGroupDelete pg) := by
  unfold GangCache.onPodGroupDelete
  dsimp only
  cases hl : List.lookup (GetId pg.Namespace pg.Name) c.gangItems with
  | none => exact h
  | some gang =>
    dsimp only
    split
    · exact groupsConsistent_delete env h hl
    · exact h

theorem handle_consistent (env : Env) {c : GangCache} (ev : Event)
    (h : GroupsConsistent env c) : GroupsConsistent env (c.handle env ev) := by
  cases ev with
  | podAdd pod => exact onPodAdd_consistent env pod h
  | podUpdate oldPod newPod =>
    simp only [GangCache.handle]
    rcases onPodUpdate_cases env c oldPod newPod with h1 | h1
    · rw [h1]; exact h
    · rw [h1]; exact onPodAdd_consistent env newPod h
  | podDelete pod => exact onPodDelete_consistent env pod h
  | podGroupAdd pg => exact onPodGroupAdd_consistent env pg h
  | podGroupUpdate oldPg newPg => exact onPodGroupUpdate_consistent env oldPg newPg h
  | podGroupDelete pg => exact onPodGroupDelete_consistent env pg h

theorem run_consistent (env : Env) (events : List Event) :
    ∀ c : GangCache, GroupsConsistent env c → GroupsConsistent env (c.run env events) := by
  induction events with
  | nil => intro c h; exact h
  | cons ev events ih =>
    intro c h
    exact ih (c.handle env ev) (handle_consistent env ev h)

end ConsistentHandlers
section ClaimGroupStates

/-- C27 as stated fails for a gang that is not initialised: after the member of
the tests that refers to the group resource `ganga` by label, before that
resource arrives, the gang is in the cache with itself as its gang group, the
registry of group states is empty, as the test expects, and the group state of
the gang does not carry the id of its gang group. -/
theorem C27_counterexample :
    ∃ g, List.lookup "default/ganga"
        ((NewGangCache []).onPodAdd exampleEnv gangaBoundPod).gangItems = some g ∧
      g.GangGroup = ["default/ganga"] ∧
      ((NewGangCache []).onPodAdd exampleEnv gangaBoundPod).gangGroupInfoMap = [] ∧
      (((NewGangCache []).onPodAdd exampleEnv gangaBoundPod).groupInfoOf g).map
          (fun info => info.GangGroupId) = some "" ∧
      exampleEnv.GetGangGroupId g.GangGroup = "default/ganga" := by
  refine ⟨_, rfl, ?_, ?_, ?_, ?_⟩ <;> decide

/-- C27 (amended): after every sequence of member events and group events on
the empty cache, the registry of group states holds every id once, and it
holds an id exactly when that is the group id of an initialised gang of the
cache; every initialised gang points to the group state registered under the
id of its gang group, and that group state carries this id. So the entry is
there from the first initialised gang that refers to the id until the last
such gang is removed or leaves the group, while a gang that is not initialised
has no entry of its own. -/
theorem C27_group_states_follow_initialised_gangs (env : Env) (podGroups : GoMap PodGroup)
    (events : List Event) :
    ((NewGangCache podGroups).run env events).gangGroupInfoMap.keys.Nodup ∧
      (∀ id, id ∈ ((NewGangCache podGroups).run env events).gangGroupInfoMap.keys ↔
        ∃ gid g, List.lookup gid ((NewGangCache podGroups).run env events).gangItems = some g ∧
          g.HasGangInit = true ∧ env.GetGangGroupId g.GangGroup = id) ∧
      ∀ gid g, List.lookup gid ((NewGangCache podGroups).run env events).gangItems = some g →
        g.HasGangInit = true →
        ∃ info, ((NewGangCache podGroups).run env events).groupInfoOf g = some info ∧
          List.lookup (env.GetGangGroupId g.GangGroup)
            ((NewGangCache podGroups).run env events).gangGroupInfoMap = some info ∧
          info.GangGroupId = env.GetGangGroupId g.GangGroup := by
  have h := run_consistent env events _ (groupsConsistent_empty env podGroups)
  generalize (NewGangCache podGroups).run env events = c at h ⊢
  refine ⟨h.groupKeys, fun id => ?_, ?_⟩
  · have hkeys : id ∈ c.gangGroupInfoMap.keys ↔
        ∃ info, List.lookup id c.gangGroupInfoMap = some info := by
      constructor
      · intro hk
        cases hl : List.lookup id c.gangGroupInfoMap with
        | none => exact absurd hk (lookup_eq_none_iff.1 hl)
        | some info => exact ⟨info, rfl⟩
      · rintro ⟨info, hl⟩
        by_contra hk
        rw [lookup_eq_none_iff.2 hk] at hl
        cases hl
    rw [hkeys, h.registered id]
    constructor
    · rintro ⟨gid, g, hg, hr⟩
      have hi : g.HasGangInit = true := by
        cases hi : g.HasGangInit with
        | true => rfl
        | false =>
          obtain ⟨info, hown⟩ := h.placeholder gid g hg hi
          rw [hown] at hr
          cases hr
      have := (h.initialised gid g hg hi).1
      rw [hr] at this
      cases this
      exact ⟨gid, g, hg, hi, rfl⟩
    · rintro ⟨gid, g, hg, hi, hid⟩
      exact ⟨gid, g, hg, by rw [← hid]; exact (h.initialised gid g hg hi).1⟩
  · intro gid g hg hi
    have hr := (h.initialised gid g hg hi).1
    obtain ⟨info, hinfo⟩ := (h.registered _).2 ⟨gid, g, hg, hr⟩
    refine ⟨info, ?_, hinfo, h.groupId _ info hinfo⟩
    unfold GangCache.groupInfoOf
    rw [hr]
    exact hinfo

/-- The registry of group states along the events of the tests: empty after a
member that arrives before its group resource, one entry from the arrival
of the group resource on, through the arrival and the deletion of the
members, and empty again after the deletion of the group resource. -/
theorem groupStates_along_the_test :
    ((NewGangCache []).run exampleEnv [Event.podAdd gangaBoundPod]).gangGroupInfoMap.keys = [] ∧
      ((NewGangCache []).run exampleEnv
        [Event.podAdd gangaBoundPod, Event.podGroupAdd podGroupGanga]).gangGroupInfoMap.keys
        = ["default/ganga"] ∧
      ((NewGangCache []).run exampleEnv
        [Event.podAdd gangaBoundPod, Event.podGroupAdd podGroupGanga,
          Event.podAdd gangaPendingPod, Event.podDelete gangaBoundPod,
          Event.podDelete gangaPendingPod]).gangGroupInfoMap.keys = ["default/ganga"] ∧
      ((NewGangCache []).run exampleEnv
        [Event.podAdd gangaBoundPod, Event.podGroupAdd podGroupGanga,
          Event.podAdd gangaPendingPod, Event.podDelete gangaBoundPod,
          Event.podDelete gangaPendingPod,
          Event.podGroupDelete podGroupGanga]).gangGroupInfoMap.keys = [] := by
  decide

end ClaimGroupStates

section WitnessGroupAdd

/-- C30 on the placeholder of the tests: the member placed on `nba` arrives
before its group resource `ganga`, which has no timeout; after the group
resource arrives the gang requires two members, waits for the default
timeout, is initialised by the group resource, and keeps its member. -/
theorem C30_group_resource_is_authoritative_witness :
    (((NewGangCache []).onPodAdd exampleEnv gangaBoundPod).gangOrNew exampleEnv
        "default/ganga").HasGangInit = false ∧
      (((NewGangCache []).onPodAdd exampleEnv gangaBoundPod).gangOrNew exampleEnv
        "default/ganga").BoundChildren.keys = ["default/pod1"] ∧
      ∃ g, List.lookup (GetId podGroupGanga.Namespace podGroupGanga.Name)
          (((NewGangCache []).onPodAdd exampleEnv gangaBoundPod).onPodGroupAdd exampleEnv
            podGroupGanga).gangItems = some g ∧
        g.MinRequiredNumber = podGroupGanga.MinMember ∧
        (∀ seconds, podGroupGanga.ScheduleTimeoutSeconds = some seconds →
          g.WaitTime = seconds * Second) ∧
        (podGroupGanga.ScheduleTimeoutSeconds = none → g.WaitTime = exampleEnv.DefaultTimeout) ∧
        g.HasGangInit = true ∧ g.GangFrom = GangFrom.GangFromPodGroupCrd ∧
        g.Children = (((NewGangCache []).onPodAdd exampleEnv gangaBoundPod).gangOrNew exampleEnv
          (GetId podGroupGanga.Namespace podGroupGanga.Name)).Children ∧
        g.PendingChildren = (((NewGangCache []).onPodAdd exampleEnv gangaBoundPod).gangOrNew
          exampleEnv (GetId podGroupGanga.Namespace podGroupGanga.Name)).PendingChildren ∧
        g.WaitingForBindChildren
          = (((NewGangCache []).onPodAdd exampleEnv gangaBoundPod).gangOrNew exampleEnv
            (GetId podGroupGanga.Namespace podGroupGanga.Name)).WaitingForBindChildren ∧
        g.BoundChildren = (((NewGangCache []).onPodAdd exampleEnv gangaBoundPod).gangOrNew
          exampleEnv (GetId podGroupGanga.Namespace podGroupGanga.Name)).BoundChildren ∧
        (List.lookup (GetId podGroupGanga.Namespace podGroupGanga.Name)
          ((NewGangCache []).onPodAdd exampleEnv gangaBoundPod).gangItems = none →
          g.Children = []) :=
  ⟨by decide, by decide,
    C30_group_resource_is_authoritative exampleEnv
      ((NewGangCache []).onPodAdd exampleEnv gangaBoundPod) podGroupGanga⟩

end WitnessGroupAdd

section TestExpectations

/-! ## The model on the inputs of the tests

The gang that the model makes of the events of a test, next to the values the
test expects. -/

/-- `TestGangCache_OnPodAdd`, a member announcing its gang by label before the
group resource is created: the gang is created but not initialised. -/
theorem test_onPodAdd_before_group_resource :
    ((NewGangCache []).run exampleEnv [Event.podAdd crdPod]).gangItems
      = [("default/test",
          { NewGang exampleEnv "default/test" with
            Children := [("default/crdPod", crdPod)]
            PendingChildren := [("default/crdPod", crdPod)] })] := by
  decide

/-- `TestGangCache_OnPodAdd`, members announcing the gang by annotation: the gang
takes the declaration of `pod1`, which is bound, and `pod2` is pending. -/
theorem test_onPodAdd_annotation_way :
    gangaGang.config
        = (30 * Second, GangModeNonStrict, 2, 2, ["default/ganga", "default/gangb"]) ∧
      gangaGang.HasGangInit = true ∧ gangaGang.GangFrom = GangFrom.GangFromPodAnnotation ∧
      gangaGang.Children = [("default/pod2", pod2), ("default/pod1", pod1)] ∧
      gangaGang.PendingChildren = [("default/pod2", pod2)] ∧
      gangaGang.WaitingForBindChildren = [] ∧
      gangaGang.BoundChildren = [("default/pod1", pod1)] ∧
      gangaCache.groupInfoOf gangaGang
        = some ⟨"default/ganga,default/gangb", ["default/ganga", "default/gangb"], true, false⟩ := by
  decide

/-- `TestGangCache_OnPodAdd`, members with illegal arguments: zero and negative
wait times and malformed group lists take their defaults. -/
theorem test_onPodAdd_illegal_arguments :
    (((NewGangCache []).run exampleEnv [Event.podAdd pod5, Event.podAdd pod6]).gangOrNew
        exampleEnv "default/gangc").config
        = (600 * Second, GangModeStrict, 0, 0, ["default/gangc"]) ∧
      (((NewGangCache []).run exampleEnv [Event.podAdd pod5, Event.podAdd pod6]).gangOrNew
        exampleEnv "default/gangd").config
        = (600 * Second, GangModeStrict, 0, 0, ["default/gangd"]) ∧
      (((NewGangCache []).run exampleEnv [Event.podAdd pod5, Event.podAdd pod6]).gangItems.map
        (fun e => e.2.HasGangInit)) = [true, true] := by
  decide

/-- `TestGangCache_OnPodUpdate`: updates of members that the cache has not seen
leave the cache that their additions leave. -/
theorem test_onPodUpdate_as_onPodAdd :
    (NewGangCache []).run exampleEnv [Event.podUpdate pod1 pod1, Event.podUpdate pod2 pod2]
      = gangaCache := by
  decide

/-- `TestGangCache_OnPodDelete`: the gang `gangA` named by annotation goes with
its members, and the gang `gangB` of the group resource stays without them. -/
theorem test_onPodDelete :
    ((NewGangCache []).run exampleEnv
        [Event.podAdd (namePod "pod3"), Event.podAdd (namePod "pod4"),
          Event.podDelete (namePod "pod3"), Event.podDelete (namePod "pod4")]).gangItems = [] ∧
      (gangBCache.run exampleEnv
        [Event.podDelete (labelPod "pod5"), Event.podDelete (labelPod "pod6")]).gangItems
        = [("default/gangB",
            { NewGang exampleEnv "default/gangB" with
              WaitTime := 10 * Second
              MinRequiredNumber := 4
              TotalChildrenNum := 4
              GangGroupInfo := GroupRef.shared "default/gangB"
              HasGangInit := true
              GangFrom := GangFrom.GangFromPodGroupCrd })] := by
  decide

/-- `TestGangCache_OnPodGroupAdd`: group resources with legal and with illegal
annotations. -/
theorem test_onPodGroupAdd :
    (((NewGangCache []).onPodGroupAdd exampleEnv podGroupA).gangOrNew exampleEnv
        "default/gangA").config
        = (300 * Second, GangModeNonStrict, 2, 2, ["default/gangA", "default/gangB"]) ∧
      (((NewGangCache []).onPodGroupAdd exampleEnv podGroupIllegal).gangOrNew exampleEnv
        "default/gangA").config
        = (300 * Second, GangModeStrict, 4, 4, ["default/gangA"]) ∧
      (((NewGangCache []).onPodGroupAdd exampleEnv podGroupIllegal).gangOrNew exampleEnv
        "default/gangA").HasGangInit = true ∧
      (((NewGangCache []).onPodGroupAdd exampleEnv podGroupIllegal).gangOrNew exampleEnv
        "default/gangA").GangFrom = GangFrom.GangFromPodGroupCrd := by
  decide

/-- `TestGangCache_onPodGroupUpdate`: the minimum number follows the update of
the group resource. -/
theorem test_onPodGroupUpdate :
    ((((NewGangCache []).onPodGroupAdd exampleEnv ⟨"default", "ganga", [], 2, none⟩).gangOrNew
        exampleEnv "default/ganga").MinRequiredNumber = 2) ∧
      (((((NewGangCache []).onPodGroupAdd exampleEnv
          ⟨"default", "ganga", [], 2, none⟩).onPodGroupUpdate exampleEnv
          ⟨"default", "ganga", [], 2, none⟩ ⟨"default", "ganga", [], 3, none⟩).gangOrNew
        exampleEnv "default/ganga").MinRequiredNumber = 3) := by
  decide

/-- `TestOnPodAdd_OnPodDeleteWithGangGroupInfo`: one group state while the gang
has members, none after the last member is deleted. -/
theorem test_onPodAdd_onPodDelete_group_state :
    gangaCache.gangGroupInfoMap.length = 1 ∧
      (gangaCache.onPodDelete pod1).gangGroupInfoMap.length = 1 ∧
      ((gangaCache.onPodDelete pod1).onPodDelete pod2).gangGroupInfoMap.length = 0 := by
  decide

end TestExpectations

section Placement

/-- Where `setChild` puts a member: in `Children` and in the partition of its
state, and in no other partition. -/
theorem setChild_placed (g : Gang) (pod : Pod) :
    List.lookup (podKey pod) (g.setChild pod).Children = some pod ∧
      (pod.NodeName ≠ "" →
        List.lookup (podKey pod) (g.setChild pod).BoundChildren = some pod ∧
          podKey pod ∉ (g.setChild pod).PendingChildren.keys ∧
          podKey pod ∉ (g.setChild pod).WaitingForBindChildren.keys) ∧
      (pod.NodeName = "" →
        List.lookup (podKey pod) (g.setChild pod).PendingChildren = some pod ∧
          podKey pod ∉ (g.setChild pod).BoundChildren.keys ∧
          podKey pod ∉ (g.setChild pod).WaitingForBindChildren.keys) := by
  unfold Gang.setChild podKey
  dsimp only
  by_cases hn : pod.NodeName = ""
  · have hb : (pod.NodeName != "") = false := by simpa using hn
    simp only [hb, Bool.false_eq_true, if_false]
    refine ⟨lookup_set_self _ _ _, fun h => absurd hn h, fun _ => ⟨lookup_set_self _ _ _, ?_, ?_⟩⟩
    · exact fun h => (mem_keys_del.1 h).1 rfl
    · exact fun h => (mem_keys_del.1 h).1 rfl
  · have hb : (pod.NodeName != "") = true := by simpa using hn
    simp only [hb, if_true]
    refine ⟨lookup_set_self _ _ _, fun _ => ⟨lookup_set_self _ _ _, ?_, ?_⟩, fun h => absurd h hn⟩
    · exact fun h => (mem_keys_del.1 h).1 rfl
    · exact fun h => (mem_keys_del.1 h).1 rfl

/-- After a member event the member is in `Children` of the gang it names and in
the partition of its state, and in no other partition. -/
theorem onPodAdd_placed (env : Env) (c : GangCache) (pod : Pod)
    (hname : GetGangNameByPod pod ≠ "") :
    ∃ g1, List.lookup (gangIdOf pod) (c.onPodAdd env pod).gangItems = some g1 ∧
      List.lookup (podKey pod) g1.Children = some pod ∧
      (pod.NodeName ≠ "" →
        List.lookup (podKey pod) g1.BoundChildren = some pod ∧
          podKey pod ∉ g1.PendingChildren.keys ∧
          podKey pod ∉ g1.WaitingForBindChildren.keys) ∧
      (pod.NodeName = "" →
        List.lookup (podKey pod) g1.PendingChildren = some pod ∧
          podKey pod ∉ g1.BoundChildren.keys ∧
          podKey pod ∉ g1.WaitingForBindChildren.keys) := by
  obtain ⟨⟨r, hr⟩, _⟩ := onPodAdd_lookup env c pod hname
  exact ⟨_, hr, setChild_placed _ pod⟩

end Placement

section ClaimPlacement

/-- C31: `onPodAdd` on a member that names a gang leaves the member in `Children`
of that gang and in exactly one partition: in `BoundChildren` when the member
carries a node name, in `PendingChildren` otherwise, and in neither of the two
other partitions. A pod that names no gang leaves the cache unchanged. -/
theorem C31_member_placed_by_node_name (env : Env) (c : GangCache) (pod : Pod) :
    (GetGangNameByPod pod = "" → c.onPodAdd env pod = c) ∧
      (GetGangNameByPod pod ≠ "" →
        ∃ g1, List.lookup (gangIdOf pod) (c.onPodAdd env pod).gangItems = some g1 ∧
          List.lookup (podKey pod) g1.Children = some pod ∧
          (pod.NodeName ≠ "" →
            List.lookup (podKey pod) g1.BoundChildren = some pod ∧
              podKey pod ∉ g1.PendingChildren.keys ∧
              podKey pod ∉ g1.WaitingForBindChildren.keys) ∧
          (pod.NodeName = "" →
            List.lookup (podKey pod) g1.PendingChildren = some pod ∧
              podKey pod ∉ g1.BoundChildren.keys ∧
              podKey pod ∉ g1.WaitingForBindChildren.keys)) :=
  ⟨onPodAdd_noname env c pod, onPodAdd_placed env c pod⟩

/-- C31 on the members of the tests: `pod1` carries the node name `nba` and is
bound in the gang `ganga`; `pod2`, added next, carries none and is pending. -/
theorem C31_member_placed_by_node_name_witness :
    (∃ g1, List.lookup "default/ganga" ((NewGangCache []).onPodAdd exampleEnv pod1).gangItems
          = some g1 ∧
        List.lookup "default/pod1" g1.Children = some pod1 ∧
        List.lookup "default/pod1" g1.BoundChildren = some pod1 ∧
        "default/pod1" ∉ g1.PendingChildren.keys ∧
        "default/pod1" ∉ g1.WaitingForBindChildren.keys) ∧
      (∃ g1, List.lookup "default/ganga"
          (((NewGangCache []).onPodAdd exampleEnv pod1).onPodAdd exampleEnv pod2).gangItems
          = some g1 ∧
        List.lookup "default/pod2" g1.Children = some pod2 ∧
        List.lookup "default/pod2" g1.PendingChildren = some pod2 ∧
        "default/pod2" ∉ g1.BoundChildren.keys ∧
        "default/pod2" ∉ g1.WaitingForBindChildren.keys) := by
  obtain ⟨g1, h1, h2, h3, _⟩ :=
    (C31_member_placed_by_node_name exampleEnv (NewGangCache []) pod1).2 (by decide)
  obtain ⟨g2, k1, k2, _, k4⟩ :=
    (C31_member_placed_by_node_name exampleEnv ((NewGangCache []).onPodAdd exampleEnv pod1)
      pod2).2 (by decide)
  exact ⟨⟨g1, h1, h2, h3 (by decide)⟩, ⟨g2, k1, k2, k4 (by decide)⟩⟩

end ClaimPlacement

section ClaimUpdate

theorem onPodUpdate_unknown (env : Env) (c : GangCache) (oldPod pod : Pod)
    (hnew : ∀ g, List.lookup (gangIdOf pod) c.gangItems = some g →
      List.lookup (podKey pod) g.Children = none) :
    c.onPodUpdate env oldPod pod = c.onPodAdd env pod := by
  unfold GangCache.onPodUpdate
  unfold gangIdOf podKey at hnew
  dsimp only
  cases hl : List.lookup (GetId pod.Namespace (GetGangNameByPod pod)) c.gangItems with
  | none => rfl
  | some gang =>
    dsimp only
    rw [hnew gang hl]
    simp

/-- C40: for a pod that names a gang and is not known to the cache (the gang is
unseen, or the pod is not among its children), `onPodUpdate` leaves the cache
in the state `onPodAdd` leaves it in, whatever the old state of the pod that
is delivered, in particular for `onPodUpdate(pod, pod)`. So the gang is there
afterwards, the pod is among its children, in `BoundChildren` when it carries
a node name and in `PendingChildren` otherwise, and the configuration follows
the rule of the first writer: a gang that was initialised, or a pod whose
declaration does not parse, leaves the configuration as it was, and the
declaration of the pod configures a gang that was not initialised. -/
theorem C40_update_of_unknown_member_is_add (env : Env) (c : GangCache) (oldPod pod : Pod)
    (hname : GetGangNameByPod pod ≠ "")
    (hnew : ∀ g, List.lookup (gangIdOf pod) c.gangItems = some g →
      List.lookup (podKey pod) g.Children = none) :
    c.onPodUpdate env oldPod pod = c.onPodAdd env pod ∧
      c.onPodUpdate env pod pod = c.onPodAdd env pod ∧
      ∃ g1, List.lookup (gangIdOf pod) (c.onPodUpdate env pod pod).gangItems = some g1 ∧
        List.lookup (podKey pod) g1.Children = some pod ∧
        (pod.NodeName ≠ "" → List.lookup (podKey pod) g1.BoundChildren = some pod ∧
          podKey pod ∉ g1.PendingChildren.keys) ∧
        (pod.NodeName = "" → List.lookup (podKey pod) g1.PendingChildren = some pod ∧
          podKey pod ∉ g1.BoundChildren.keys) ∧
        ((c.gangOrNew env (gangIdOf pod)).HasGangInit = true ∨ declares env pod = false →
          g1.config = (c.gangOrNew env (gangIdOf pod)).config ∧
            g1.HasGangInit = (c.gangOrNew env (gangIdOf pod)).HasGangInit) ∧
        ((c.gangOrNew env (gangIdOf pod)).HasGangInit = false → declares env pod = true →
          (c.gangOrNew env (gangIdOf pod)).Name = gangIdOf pod →
          g1.config = (declaredGang env (gangIdOf pod) pod).config ∧ g1.HasGangInit = true) := by
  refine ⟨onPodUpdate_unknown env c oldPod pod hnew, onPodUpdate_unknown env c pod pod hnew, ?_⟩
  rw [onPodUpdate_unknown env c pod pod hnew]
  obtain ⟨g1, h1, h2, h3, h4⟩ := onPodAdd_placed env c pod hname
  obtain ⟨g2, k1, _, _, k4, k5⟩ := onPodAdd_gang env c pod hname
  have hg : g2 = g1 := Option.some.inj (k1.symm.trans h1)
  subst hg
  exact ⟨g2, h1, h2, fun h => ⟨(h3 h).1, (h3 h).2.1⟩, fun h => ⟨(h4 h).1, (h4 h).2.1⟩,
    fun h => ⟨(k4 h).1, (k4 h).2.1⟩, k5⟩

/-- C40 on the first member of the tests: on the empty cache `onPodUpdate` of
`pod1` makes the gang `ganga` as `onPodAdd` does, configured by the declaration
of `pod1`, with `pod1` bound. -/
theorem C40_update_of_unknown_member_is_add_witness :
    (NewGangCache []).onPodUpdate exampleEnv pod1 pod1
        = (NewGangCache []).onPodAdd exampleEnv pod1 ∧
      ((NewGangCache []).onPodUpdate exampleEnv pod1 pod1).gangItems.keys = ["default/ganga"] ∧
      (((NewGangCache []).onPodUpdate exampleEnv pod1 pod1).gangOrNew exampleEnv
          "default/ganga").config
        = (30 * Second, GangModeNonStrict, 2, 2, ["default/ganga", "default/gangb"]) ∧
      (((NewGangCache []).onPodUpdate exampleEnv pod1 pod1).gangOrNew exampleEnv
          "default/ganga").BoundChildren.keys = ["default/pod1"] :=
  ⟨(C40_update_of_unknown_member_is_add exampleEnv (NewGangCache []) pod1 pod1 (by decide)
      (fun g h => by cases h)).1, by decide, by decide, by decide⟩

end ClaimUpdate

end Coscheduling
